import Mathlib

/-!
Z80 CPU emulator: 8-bit arithmetic and logic group.

A shallow embedding of the instruction handlers of `src/opcodes.c`.

* Machine integers are natural numbers; every store into a `uint8_t` or
  `uint16_t` object is written as an explicit reduction modulo `2^8` or `2^16`.
* Expressions that C evaluates in `int` after integer promotion (`~x`, `a - b`,
  `0xFF - op2 - c`) are evaluated in `Int` and converted back with `u8`.
* A handler that can reach `exit(1)` returns `Option CPU`, with `none` for the
  abort.
* Logging (`LOG_DEBUG`) does not touch the CPU state and is left out, except
  where evaluating its arguments can abort (`opc_regName8`).
-/

namespace Z80

/-! ## Data model -/

/-- The register file of `cpu_t` together with the memory that `cpu_read` sees and the
`TStates` column of the global dispatch table `opc_tbl`, which the handlers overwrite.
The 8-bit registers are stored as halves and the pairs `BC`, `DE`, `HL`, `AF` are
composed from them. -/
structure CPU where
  A : Nat
  F : Nat
  B : Nat
  C : Nat
  D : Nat
  E : Nat
  H : Nat
  L : Nat
  ArFr : Nat
  BrCr : Nat
  DrEr : Nat
  HrLr : Nat
  IX : Nat
  IY : Nat
  SP : Nat
  PC : Nat
  I : Nat
  R : Nat
  IFF1 : Nat
  IFF2 : Nat
  IM : Nat
  halt : Nat
  mem : Nat → Nat
  TStates : Nat → Nat

/-- Every register holds a value of its machine width. -/
def CPU.WF (cpu : CPU) : Prop :=
  cpu.A < 256 ∧ cpu.F < 256 ∧ cpu.B < 256 ∧ cpu.C < 256 ∧ cpu.D < 256 ∧
  cpu.E < 256 ∧ cpu.H < 256 ∧ cpu.L < 256 ∧ cpu.PC < 65536

instance (cpu : CPU) : Decidable cpu.WF := by
  unfold CPU.WF
  infer_instance

/-- The register pair `HL` seen as one 16-bit value. -/
def CPU.HL (cpu : CPU) : Nat := (cpu.H % 256) * 256 + cpu.L % 256

/-- Modelled from the spec: the register pair `BC` of the missing `cpu_t` declaration,
`(B<<8)|C`. -/
def CPU.BC (cpu : CPU) : Nat := (cpu.B % 256) * 256 + cpu.C % 256

/-- Modelled from the spec: the register pair `DE` of the missing `cpu_t` declaration,
`(D<<8)|E`. -/
def CPU.DE (cpu : CPU) : Nat := (cpu.D % 256) * 256 + cpu.E % 256

/-- Modelled from the spec: the register pair `AF` of the missing `cpu_t` declaration, with
the flag byte as low half. -/
def CPU.AF (cpu : CPU) : Nat := (cpu.A % 256) * 256 + cpu.F % 256

/-- A store into `cpu->BC`: both halves are written. -/
def CPU.setBC (cpu : CPU) (v : Nat) : CPU := { cpu with B := v / 256 % 256, C := v % 256 }

/-- A store into `cpu->DE`: both halves are written. -/
def CPU.setDE (cpu : CPU) (v : Nat) : CPU := { cpu with D := v / 256 % 256, E := v % 256 }

/-- A store into `cpu->HL`: both halves are written. -/
def CPU.setHL (cpu : CPU) (v : Nat) : CPU := { cpu with H := v / 256 % 256, L := v % 256 }

/-- A store into `cpu->AF`: both halves are written. -/
def CPU.setAF (cpu : CPU) (v : Nat) : CPU := { cpu with A := v / 256 % 256, F := v % 256 }

/-- Every 16-bit register other than PC, and I and R, hold a value of their machine width. -/
def CPU.WF16 (cpu : CPU) : Prop :=
  cpu.ArFr < 65536 ∧ cpu.BrCr < 65536 ∧ cpu.DrEr < 65536 ∧ cpu.HrLr < 65536 ∧
  cpu.IX < 65536 ∧ cpu.IY < 65536 ∧ cpu.SP < 65536 ∧ cpu.I < 256 ∧ cpu.R < 256

instance (cpu : CPU) : Decidable cpu.WF16 := by
  unfold CPU.WF16
  infer_instance

/-- The `TStates` column of the initialiser of `opc_tbl`, entries 0x00 to 0xFF. -/
def opc_tbl_TStates : List Nat :=
  [4, 10, 7, 6, 4, 4, 7, 4, 4, 11, 7, 6, 4, 4, 7, 4,
   13, 10, 7, 6, 4, 4, 7, 4, 12, 11, 7, 6, 4, 4, 7, 4,
   12, 10, 16, 6, 4, 4, 7, 4, 12, 11, 16, 6, 4, 4, 7, 4,
   12, 10, 13, 6, 11, 11, 10, 4, 12, 11, 13, 6, 4, 4, 7, 4,
   4, 4, 4, 4, 4, 4, 7, 4, 4, 4, 4, 4, 4, 4, 7, 4,
   4, 4, 4, 4, 4, 4, 7, 4, 4, 4, 4, 4, 4, 4, 7, 4,
   4, 4, 4, 4, 4, 4, 7, 4, 4, 4, 4, 4, 4, 4, 7, 4,
   7, 7, 7, 7, 7, 7, 4, 7, 4, 4, 4, 4, 4, 4, 7, 4,
   4, 4, 4, 4, 4, 4, 7, 4, 4, 4, 4, 4, 4, 4, 7, 4,
   4, 4, 4, 4, 4, 4, 7, 4, 4, 4, 4, 4, 4, 4, 7, 4,
   4, 4, 4, 4, 4, 4, 7, 4, 4, 4, 4, 4, 4, 4, 7, 4,
   4, 4, 4, 4, 4, 4, 7, 4, 4, 4, 4, 4, 4, 4, 7, 4,
   5, 10, 10, 10, 10, 11, 7, 11, 5, 10, 10, 8, 10, 17, 7, 11,
   5, 10, 10, 11, 10, 11, 7, 11, 5, 4, 10, 11, 10, 19, 7, 11,
   5, 10, 10, 19, 10, 11, 7, 11, 5, 4, 10, 4, 10, 9, 7, 11,
   5, 10, 10, 4, 10, 11, 7, 11, 5, 6, 10, 4, 10, 19, 7, 11]

/-- A state with every register zero, memory filled with zero bytes and the dispatch table
as initialised. -/
def cpu_zero : CPU :=
  { A := 0, F := 0, B := 0, C := 0, D := 0, E := 0, H := 0, L := 0,
    ArFr := 0, BrCr := 0, DrEr := 0, HrLr := 0, IX := 0, IY := 0, SP := 0, PC := 0,
    I := 0, R := 0, IFF1 := 0, IFF2 := 0, IM := 0, halt := 0, mem := fun _ => 0,
    TStates := fun i => opc_tbl_TStates.getD i 0 }

/-- Memory holding the bytes of `bytes` from address 0 upwards and zero elsewhere. -/
def memOfList (bytes : List Nat) : Nat → Nat := fun a => bytes.getD a 0

/-- Conversion of a C `int` to `uint8_t`. -/
def u8 (i : Int) : Nat := (i % 256).toNat

/-- Conversion of a C `int` to `uint16_t`. -/
def u16 (i : Int) : Nat := (i % 65536).toNat

/-- The C operator `~` on a promoted `int`. -/
def cNot (i : Int) : Int := -i - 1

/-! ## Flag byte -/

/-- Modelled from the spec: the mask `FLAG_SIGN` of the missing header, bit 7 of F. -/
def FLAG_SIGN : Nat := 0x80
/-- Modelled from the spec: the mask `FLAG_ZERO` of the missing header, bit 6 of F. -/
def FLAG_ZERO : Nat := 0x40
/-- Modelled from the spec: the mask `FLAG_HCARRY` of the missing header, bit 4 of F. -/
def FLAG_HCARRY : Nat := 0x10
/-- Modelled from the spec: the mask `FLAG_PARITY` of the missing header, bit 2 of F. -/
def FLAG_PARITY : Nat := 0x04
/-- Modelled from the spec: the mask `FLAG_ADDSUB` of the missing header, bit 1 of F. -/
def FLAG_ADDSUB : Nat := 0x02
/-- Modelled from the spec: the mask `FLAG_CARRY` of the missing header, bit 0 of F. -/
def FLAG_CARRY : Nat := 0x01

/-- Modelled from the spec: the body shared by the missing `SET_FLAG_*` macros,
`F |= mask`. -/
def SET_FLAG (cpu : CPU) (mask : Nat) : CPU :=
  { cpu with F := (cpu.F ||| mask) % 256 }

/-- Modelled from the spec: the body shared by the missing `RESET_FLAG_*` macros,
`F &= ~mask`. -/
def RESET_FLAG (cpu : CPU) (mask : Nat) : CPU :=
  { cpu with F := (cpu.F &&& (0xFF ^^^ mask)) % 256 }

def SET_FLAG_SIGN (cpu : CPU) : CPU := SET_FLAG cpu FLAG_SIGN
def RESET_FLAG_SIGN (cpu : CPU) : CPU := RESET_FLAG cpu FLAG_SIGN
def SET_FLAG_ZERO (cpu : CPU) : CPU := SET_FLAG cpu FLAG_ZERO
def RESET_FLAG_ZERO (cpu : CPU) : CPU := RESET_FLAG cpu FLAG_ZERO
def SET_FLAG_HCARRY (cpu : CPU) : CPU := SET_FLAG cpu FLAG_HCARRY
def RESET_FLAG_HCARRY (cpu : CPU) : CPU := RESET_FLAG cpu FLAG_HCARRY
def SET_FLAG_PARITY (cpu : CPU) : CPU := SET_FLAG cpu FLAG_PARITY
def RESET_FLAG_PARITY (cpu : CPU) : CPU := RESET_FLAG cpu FLAG_PARITY
def SET_FLAG_ADDSUB (cpu : CPU) : CPU := SET_FLAG cpu FLAG_ADDSUB
def RESET_FLAG_ADDSUB (cpu : CPU) : CPU := RESET_FLAG cpu FLAG_ADDSUB
def SET_FLAG_CARRY (cpu : CPU) : CPU := SET_FLAG cpu FLAG_CARRY
def RESET_FLAG_CARRY (cpu : CPU) : CPU := RESET_FLAG cpu FLAG_CARRY

/-- Modelled from the spec: the missing macro `GET_FLAG_CARRY`, the C bit of F as
0 or 1. -/
def GET_FLAG_CARRY (cpu : CPU) : Nat := cpu.F &&& FLAG_CARRY

/-- Observation of a flag: is any bit of `mask` set in F. -/
def CPU.flag (cpu : CPU) (mask : Nat) : Bool := (cpu.F &&& mask) != 0

/-! ## Memory and fetch -/

/-- Modelled from the spec: the host callback `cpu_read`, `read_mem(addr: u16) -> u8`. -/
def cpu_read (cpu : CPU) (addr : Nat) : Nat := cpu.mem (addr % 65536) % 256

/-- `opc_fetch8`: the byte at PC, and the state with PC post-incremented. -/
def opc_fetch8 (cpu : CPU) : Nat × CPU :=
  (cpu_read cpu cpu.PC, { cpu with PC := (cpu.PC + 1) % 65536 })

/-! ## Support functions -/

def opc_isNegative8 (val : Nat) : Bool := (val >>> 7) == 1

def opc_testSFlag8 (cpu : CPU) (val : Nat) : CPU :=
  if opc_isNegative8 val then SET_FLAG_SIGN cpu else RESET_FLAG_SIGN cpu

def opc_testZFlag8 (cpu : CPU) (val : Nat) : CPU :=
  if val = 0 then SET_FLAG_ZERO cpu else RESET_FLAG_ZERO cpu

def opc_testHFlag8 (cpu : CPU) (op1 op2 res : Nat) (isSub : Bool) : CPU :=
  let carryIns := (res ^^^ op1 ^^^ op2) % 256
  let carryHalf := (carryIns >>> 4) &&& 0x1
  if !isSub then
    if carryHalf ≠ 0 then SET_FLAG_HCARRY cpu else RESET_FLAG_HCARRY cpu
  else
    if carryHalf ≠ 0 then RESET_FLAG_HCARRY cpu else SET_FLAG_HCARRY cpu

/-- The comparison `op1 > 0xFF - op2 - c`, evaluated in `int`, as 0 or 1. -/
def carryOut8 (op1 op2 c : Nat) : Nat :=
  if (op1 : Int) > 0xFF - (op2 : Int) - (c : Int) then 1 else 0

def opc_testVFlag8 (cpu : CPU) (op1 op2 c res : Nat) : CPU :=
  let carryOut := carryOut8 op1 op2 c
  let carryIns := (res ^^^ op1 ^^^ op2) % 256
  let overflow := ((carryIns >>> 7) ^^^ carryOut) % 256
  if overflow ≠ 0 then SET_FLAG_PARITY cpu else RESET_FLAG_PARITY cpu

/-- The `while (val > 0)` loop of `opc_testPFlag8`: returns `set_bits` on exit. -/
def opc_testPFlag8_loop (val set_bits : Nat) : Nat :=
  if h : val > 0 then
    opc_testPFlag8_loop (val >>> 1) (if (val &&& 1) = 1 then set_bits + 1 else set_bits)
  else set_bits
termination_by val
decreasing_by
  rw [Nat.shiftRight_eq_div_pow]
  exact Nat.div_lt_self h (by decide)

def opc_testPFlag8 (cpu : CPU) (val : Nat) : CPU :=
  let set_bits := opc_testPFlag8_loop val 0
  if (set_bits &&& 0x1) ≠ 0 then RESET_FLAG_PARITY cpu else SET_FLAG_PARITY cpu

def opc_testCFlag8 (cpu : CPU) (op1 op2 c : Nat) (isSub : Bool) : CPU :=
  let carryOut := carryOut8 op1 op2 c
  if !isSub then
    if carryOut ≠ 0 then SET_FLAG_CARRY cpu else RESET_FLAG_CARRY cpu
  else
    if carryOut ≠ 0 then RESET_FLAG_CARRY cpu else SET_FLAG_CARRY cpu

/-! ## Register access -/

def opc_writeReg (cpu : CPU) (reg value : Nat) : Option CPU :=
  match reg with
  | 0 => some { cpu with B := value % 256 }
  | 1 => some { cpu with C := value % 256 }
  | 2 => some { cpu with D := value % 256 }
  | 3 => some { cpu with E := value % 256 }
  | 4 => some { cpu with H := value % 256 }
  | 5 => some { cpu with L := value % 256 }
  | 7 => some { cpu with A := value % 256 }
  | _ => none

def opc_readReg (cpu : CPU) (reg : Nat) : Option Nat :=
  match reg with
  | 0 => some cpu.B
  | 1 => some cpu.C
  | 2 => some cpu.D
  | 3 => some cpu.E
  | 4 => some cpu.H
  | 5 => some cpu.L
  | 7 => some cpu.A
  | _ => none

def opc_regName8 (reg : Nat) : Option String :=
  match reg with
  | 0 => some "B"
  | 1 => some "C"
  | 2 => some "D"
  | 3 => some "E"
  | 4 => some "H"
  | 5 => some "L"
  | 7 => some "A"
  | _ => none

/-! ## Instruction handlers -/

/-- `LD r,r'`. -/
def opc_LDrr (cpu : CPU) (opcode : Nat) : Option CPU := do
  let dst := (opcode >>> 3) &&& 0x07
  let src := opcode &&& 0x07
  let data ← opc_readReg cpu src
  opc_writeReg cpu dst data

/-- `LD r,n`. -/
def opc_LDrn (cpu : CPU) (opcode : Nat) : Option CPU :=
  let dst := (opcode >>> 3) &&& 0x07
  let (n, cpu) := opc_fetch8 cpu
  opc_writeReg cpu dst n

/-- `SUB A,r`. -/
def opc_SUBAr (cpu : CPU) (opcode : Nat) : Option CPU := do
  let src := opcode &&& 0x07
  let data ← opc_readReg cpu src
  let res := u8 ((cpu.A : Int) - data)
  let cpu := opc_testSFlag8 cpu res
  let cpu := opc_testZFlag8 cpu res
  let cpu := opc_testHFlag8 cpu cpu.A (u8 (cNot data + 1)) res true
  let cpu := opc_testVFlag8 cpu cpu.A (u8 (cNot data + 1)) 0 res
  let cpu := SET_FLAG_ADDSUB cpu
  let cpu := opc_testCFlag8 cpu cpu.A (u8 (cNot data + 1)) 0 true
  some { cpu with A := res }

/-- `ADD A,n`. -/
def opc_ADDAn (cpu : CPU) (_opcode : Nat) : CPU :=
  let (n, cpu) := opc_fetch8 cpu
  let res := (cpu.A + n) % 256
  let cpu := opc_testSFlag8 cpu res
  let cpu := opc_testZFlag8 cpu res
  let cpu := opc_testHFlag8 cpu cpu.A n res false
  let cpu := opc_testVFlag8 cpu cpu.A n 0 res
  let cpu := RESET_FLAG_ADDSUB cpu
  let cpu := opc_testCFlag8 cpu cpu.A n 0 false
  { cpu with A := res }

/-- `SUB A,n`. -/
def opc_SUBAn (cpu : CPU) (_opcode : Nat) : CPU :=
  let (n, cpu) := opc_fetch8 cpu
  let res := u8 ((cpu.A : Int) - n)
  let cpu := opc_testSFlag8 cpu res
  let cpu := opc_testZFlag8 cpu res
  let cpu := opc_testHFlag8 cpu cpu.A (u8 (cNot n + 1)) res true
  let cpu := opc_testVFlag8 cpu cpu.A (u8 (cNot n + 1)) 0 res
  let cpu := SET_FLAG_ADDSUB cpu
  let cpu := opc_testCFlag8 cpu cpu.A (u8 (cNot n + 1)) 0 true
  { cpu with A := res }

/-- `ADC A,n`. -/
def opc_ADCAn (cpu : CPU) (_opcode : Nat) : CPU :=
  let (n, cpu) := opc_fetch8 cpu
  let c := GET_FLAG_CARRY cpu
  let res := (cpu.A + n + c) % 256
  let cpu := opc_testSFlag8 cpu res
  let cpu := opc_testZFlag8 cpu res
  let cpu := opc_testHFlag8 cpu cpu.A n res false
  let cpu := opc_testVFlag8 cpu cpu.A n c res
  let cpu := RESET_FLAG_ADDSUB cpu
  let cpu := opc_testCFlag8 cpu cpu.A n c false
  { cpu with A := res }

/-- `SBC A,n`. The helpers receive `~n` and `~c`, both converted to `uint8_t`. -/
def opc_SBCAn (cpu : CPU) (_opcode : Nat) : CPU :=
  let (n, cpu) := opc_fetch8 cpu
  let c := GET_FLAG_CARRY cpu
  let res := u8 ((cpu.A : Int) - n - c)
  let cpu := opc_testSFlag8 cpu res
  let cpu := opc_testZFlag8 cpu res
  let cpu := opc_testHFlag8 cpu cpu.A (u8 (cNot n)) res true
  let cpu := opc_testVFlag8 cpu cpu.A (u8 (cNot n)) (u8 (cNot c)) res
  let cpu := SET_FLAG_ADDSUB cpu
  let cpu := opc_testCFlag8 cpu cpu.A (u8 (cNot n)) (u8 (cNot c)) true
  { cpu with A := res }

/-- `AND r`. -/
def opc_ANDr (cpu : CPU) (opcode : Nat) : Option CPU := do
  let src := opcode &&& 0x07
  let data ← opc_readReg cpu src
  let res := (cpu.A &&& data) % 256
  let cpu := opc_testSFlag8 cpu res
  let cpu := opc_testZFlag8 cpu res
  let cpu := SET_FLAG_HCARRY cpu
  let cpu := opc_testPFlag8 cpu res
  let cpu := RESET_FLAG_ADDSUB cpu
  let cpu := RESET_FLAG_CARRY cpu
  some { cpu with A := res }

/-- `AND n`. -/
def opc_ANDn (cpu : CPU) (_opcode : Nat) : CPU :=
  let (n, cpu) := opc_fetch8 cpu
  let res := (cpu.A &&& n) % 256
  let cpu := opc_testSFlag8 cpu res
  let cpu := opc_testZFlag8 cpu res
  let cpu := SET_FLAG_HCARRY cpu
  let cpu := opc_testPFlag8 cpu res
  let cpu := RESET_FLAG_ADDSUB cpu
  let cpu := RESET_FLAG_CARRY cpu
  { cpu with A := res }

/-- `AND (HL)`. -/
def opc_ANDHL (cpu : CPU) (_opcode : Nat) : CPU :=
  let data := cpu_read cpu cpu.HL
  let res := (cpu.A &&& data) % 256
  let cpu := opc_testSFlag8 cpu res
  let cpu := opc_testZFlag8 cpu res
  let cpu := SET_FLAG_HCARRY cpu
  let cpu := opc_testPFlag8 cpu res
  let cpu := RESET_FLAG_ADDSUB cpu
  let cpu := RESET_FLAG_CARRY cpu
  { cpu with A := res }

/-- `OR r`. -/
def opc_ORr (cpu : CPU) (opcode : Nat) : Option CPU := do
  let src := opcode &&& 0x07
  let data ← opc_readReg cpu src
  let res := (cpu.A ||| data) % 256
  let cpu := opc_testSFlag8 cpu res
  let cpu := opc_testZFlag8 cpu res
  let cpu := RESET_FLAG_HCARRY cpu
  let cpu := opc_testPFlag8 cpu res
  let cpu := RESET_FLAG_ADDSUB cpu
  let cpu := RESET_FLAG_CARRY cpu
  some { cpu with A := res }

/-- `OR n`. -/
def opc_ORn (cpu : CPU) (_opcode : Nat) : CPU :=
  let (n, cpu) := opc_fetch8 cpu
  let res := (cpu.A ||| n) % 256
  let cpu := opc_testSFlag8 cpu res
  let cpu := opc_testZFlag8 cpu res
  let cpu := RESET_FLAG_HCARRY cpu
  let cpu := opc_testPFlag8 cpu res
  let cpu := RESET_FLAG_ADDSUB cpu
  let cpu := RESET_FLAG_CARRY cpu
  { cpu with A := res }

/-- `OR (HL)`. -/
def opc_ORHL (cpu : CPU) (_opcode : Nat) : CPU :=
  let data := cpu_read cpu cpu.HL
  let res := (cpu.A ||| data) % 256
  let cpu := opc_testSFlag8 cpu res
  let cpu := opc_testZFlag8 cpu res
  let cpu := RESET_FLAG_HCARRY cpu
  let cpu := opc_testPFlag8 cpu res
  let cpu := RESET_FLAG_ADDSUB cpu
  let cpu := RESET_FLAG_CARRY cpu
  { cpu with A := res }

/-- `XOR r`. -/
def opc_XORr (cpu : CPU) (opcode : Nat) : Option CPU := do
  let src := opcode &&& 0x07
  let data ← opc_readReg cpu src
  let res := (cpu.A ^^^ data) % 256
  let cpu := opc_testSFlag8 cpu res
  let cpu := opc_testZFlag8 cpu res
  let cpu := RESET_FLAG_HCARRY cpu
  let cpu := opc_testPFlag8 cpu res
  let cpu := RESET_FLAG_ADDSUB cpu
  let cpu := RESET_FLAG_CARRY cpu
  some { cpu with A := res }

/-- `XOR n`. -/
def opc_XORn (cpu : CPU) (_opcode : Nat) : CPU :=
  let (n, cpu) := opc_fetch8 cpu
  let res := (cpu.A ^^^ n) % 256
  let cpu := opc_testSFlag8 cpu res
  let cpu := opc_testZFlag8 cpu res
  let cpu := RESET_FLAG_HCARRY cpu
  let cpu := opc_testPFlag8 cpu res
  let cpu := RESET_FLAG_ADDSUB cpu
  let cpu := RESET_FLAG_CARRY cpu
  { cpu with A := res }

/-- `XOR (HL)`. -/
def opc_XORHL (cpu : CPU) (_opcode : Nat) : CPU :=
  let data := cpu_read cpu cpu.HL
  let res := (cpu.A ^^^ data) % 256
  let cpu := opc_testSFlag8 cpu res
  let cpu := opc_testZFlag8 cpu res
  let cpu := RESET_FLAG_HCARRY cpu
  let cpu := opc_testPFlag8 cpu res
  let cpu := RESET_FLAG_ADDSUB cpu
  let cpu := RESET_FLAG_CARRY cpu
  { cpu with A := res }

/-- `CP r`. The operand is obtained with `cpu_read(cpu, src)`, a memory read at
address `src`; the register name is looked up for the log line. -/
def opc_CPr (cpu : CPU) (opcode : Nat) : Option CPU := do
  let src := opcode &&& 0x07
  let data := cpu_read cpu src
  let res := u8 ((cpu.A : Int) - data)
  let cpu := opc_testSFlag8 cpu res
  let cpu := opc_testZFlag8 cpu res
  let cpu := opc_testHFlag8 cpu cpu.A (u8 (cNot data + 1)) res true
  let cpu := opc_testVFlag8 cpu cpu.A (u8 (cNot data + 1)) 0 res
  let cpu := SET_FLAG_ADDSUB cpu
  let cpu := opc_testCFlag8 cpu cpu.A (u8 (cNot data + 1)) 0 true
  let _ ← opc_regName8 src
  some cpu

/-- `CP n`. -/
def opc_CPn (cpu : CPU) (_opcode : Nat) : CPU :=
  let (n, cpu) := opc_fetch8 cpu
  let res := u8 ((cpu.A : Int) - n)
  let cpu := opc_testSFlag8 cpu res
  let cpu := opc_testZFlag8 cpu res
  let cpu := opc_testHFlag8 cpu cpu.A (u8 (cNot n + 1)) res true
  let cpu := opc_testVFlag8 cpu cpu.A (u8 (cNot n + 1)) 0 res
  let cpu := SET_FLAG_ADDSUB cpu
  let cpu := opc_testCFlag8 cpu cpu.A (u8 (cNot n + 1)) 0 true
  cpu

/-- `INC r`. -/
def opc_INCr (cpu : CPU) (opcode : Nat) : Option CPU := do
  let src := (opcode >>> 3) &&& 0x07
  let data ← opc_readReg cpu src
  let res := (data + 1) % 256
  let cpu := opc_testSFlag8 cpu res
  let cpu := opc_testZFlag8 cpu res
  let cpu := opc_testHFlag8 cpu data 1 res false
  let cpu := RESET_FLAG_ADDSUB cpu
  let cpu := if data = 0x7F then SET_FLAG_PARITY cpu else RESET_FLAG_PARITY cpu
  opc_writeReg cpu src res

/-- `DEC r`. The second operand of the half-carry test is `~1 + 1` as `uint8_t`. -/
def opc_DECr (cpu : CPU) (opcode : Nat) : Option CPU := do
  let src := (opcode >>> 3) &&& 0x07
  let data ← opc_readReg cpu src
  let res := u8 ((data : Int) - 1)
  let cpu := opc_testSFlag8 cpu res
  let cpu := opc_testZFlag8 cpu res
  let cpu := opc_testHFlag8 cpu data (u8 (cNot 1 + 1)) res true
  let cpu := SET_FLAG_ADDSUB cpu
  let cpu := if data = 0x80 then SET_FLAG_PARITY cpu else RESET_FLAG_PARITY cpu
  opc_writeReg cpu src res

/-! ## Memory writes, 16-bit fetch and 16-bit register access -/

/-- Modelled from the spec: the host callback `cpu_write`, `write_mem(addr: u16, value: u8)`,
which the handlers call as `cpu_write(cpu, value, addr)`, on a flat read-write memory. -/
def cpu_write (cpu : CPU) (value addr : Nat) : CPU :=
  { cpu with mem := fun a => if a = addr % 65536 then value % 256 else cpu.mem a }

/-- An assignment `opc_tbl[idx].TStates = t`. -/
def setTStates (cpu : CPU) (idx t : Nat) : CPU :=
  { cpu with TStates := fun i => if i = idx then t else cpu.TStates i }

/-- `opc_fetch16`: `opc_fetch8(cpu) | (opc_fetch8(cpu) << 8)`, the operands of `|` taken
from left to right. -/
def opc_fetch16 (cpu : CPU) : Nat × CPU :=
  let (lo, cpu) := opc_fetch8 cpu
  let (hi, cpu) := opc_fetch8 cpu
  ((lo ||| (hi <<< 8)) % 65536, cpu)

inductive reg16_t where
  | REG16_QQ
  | REG16_DD
  deriving DecidableEq

def opc_writeReg16 (cpu : CPU) (reg value : Nat) (type : reg16_t) : Option CPU :=
  match reg with
  | 0 => some (cpu.setBC value)
  | 1 => some (cpu.setDE value)
  | 2 => some (cpu.setHL value)
  | 3 =>
    match type with
    | .REG16_DD => some { cpu with SP := value % 65536 }
    | .REG16_QQ => some (cpu.setAF value)
  | _ => none

def opc_readReg16 (cpu : CPU) (reg : Nat) (type : reg16_t) : Option Nat :=
  match reg with
  | 0 => some cpu.BC
  | 1 => some cpu.DE
  | 2 => some cpu.HL
  | 3 =>
    match type with
    | .REG16_DD => some cpu.SP
    | .REG16_QQ => some cpu.AF
  | _ => none

/-- Modelled from the spec: the missing `cpu_stackPush`, `push_u16(v)`: decrement SP, write
the high half; decrement SP again, write the low half. -/
def cpu_stackPush (cpu : CPU) (v : Nat) : CPU :=
  let cpu := { cpu with SP := u16 ((cpu.SP : Int) - 1) }
  let cpu := cpu_write cpu ((v >>> 8) &&& 0xFF) cpu.SP
  let cpu := { cpu with SP := u16 ((cpu.SP : Int) - 1) }
  cpu_write cpu (v &&& 0xFF) cpu.SP

/-- Modelled from the spec: the missing `cpu_stackPop`, `pop_u16()`: read the low half at
SP, increment SP; read the high half, increment SP; return the combined value. -/
def cpu_stackPop (cpu : CPU) : Nat × CPU :=
  let lo := cpu_read cpu cpu.SP
  let cpu := { cpu with SP := (cpu.SP + 1) % 65536 }
  let hi := cpu_read cpu cpu.SP
  let cpu := { cpu with SP := (cpu.SP + 1) % 65536 }
  (((hi <<< 8) ||| lo) % 65536, cpu)

/-! ## 16-bit loads, stack and exchange handlers -/

/-- `LD HL,(nn)`. -/
def opc_LDHLnn (cpu : CPU) (_opcode : Nat) : CPU :=
  let (addr, cpu) := opc_fetch16 cpu
  let cpu := { cpu with L := cpu_read cpu addr }
  { cpu with H := cpu_read cpu (addr + 1) }

/-- `LD (nn),HL`. -/
def opc_LDnnHL (cpu : CPU) (_opcode : Nat) : CPU :=
  let (addr, cpu) := opc_fetch16 cpu
  let cpu := cpu_write cpu cpu.L addr
  cpu_write cpu cpu.H (addr + 1)

/-- `PUSH qq`. -/
def opc_PUSHqq (cpu : CPU) (opcode : Nat) : Option CPU := do
  let src := (opcode >>> 4) &&& 0x03
  let v ← opc_readReg16 cpu src .REG16_QQ
  some (cpu_stackPush cpu v)

/-- `POP qq`. -/
def opc_POPqq (cpu : CPU) (opcode : Nat) : Option CPU :=
  let dst := (opcode >>> 4) &&& 0x03
  let (v, cpu) := cpu_stackPop cpu
  opc_writeReg16 cpu dst v .REG16_QQ

/-- The macro `FASTSWAP(X1,X2)`, `X1 ^= X2; X2 ^= X1; X1 ^= X2`, on two `uint16_t` objects:
the new values of `X1` and `X2`. -/
def FASTSWAP (x1 x2 : Nat) : Nat × Nat :=
  let x1 := (x1 ^^^ x2) % 65536
  let x2 := (x2 ^^^ x1) % 65536
  let x1 := (x1 ^^^ x2) % 65536
  (x1, x2)

/-- `EX AF,AF'`. -/
def opc_EXAFAFr (cpu : CPU) (_opcode : Nat) : CPU :=
  let (af, afr) := FASTSWAP cpu.AF cpu.ArFr
  { cpu.setAF af with ArFr := afr }

/-- `EXX`. -/
def opc_EXX (cpu : CPU) (_opcode : Nat) : CPU :=
  let (bc, bcr) := FASTSWAP cpu.BC cpu.BrCr
  let cpu := { cpu.setBC bc with BrCr := bcr }
  let (de, der) := FASTSWAP cpu.DE cpu.DrEr
  let cpu := { cpu.setDE de with DrEr := der }
  let (hl, hlr) := FASTSWAP cpu.HL cpu.HrLr
  { cpu.setHL hl with HrLr := hlr }

/-! ## Accumulator rotates -/

/-- `RLCA`. -/
def opc_RLCA (cpu : CPU) (_opcode : Nat) : CPU :=
  let msb := (cpu.A >>> 7) &&& 0x1
  let cpu := { cpu with A := ((cpu.A <<< 1) ||| msb) % 256 }
  let cpu := if msb ≠ 0 then SET_FLAG_CARRY cpu else RESET_FLAG_CARRY cpu
  let cpu := RESET_FLAG_HCARRY cpu
  RESET_FLAG_ADDSUB cpu

/-- `RLA`. -/
def opc_RLA (cpu : CPU) (_opcode : Nat) : CPU :=
  let c := GET_FLAG_CARRY cpu
  let cpu := if (cpu.A &&& 0x80) ≠ 0 then SET_FLAG_CARRY cpu else RESET_FLAG_CARRY cpu
  let cpu := { cpu with A := ((cpu.A <<< 1) ||| c) % 256 }
  let cpu := RESET_FLAG_HCARRY cpu
  RESET_FLAG_ADDSUB cpu

/-- `RRCA`. -/
def opc_RRCA (cpu : CPU) (_opcode : Nat) : CPU :=
  let lsb := cpu.A &&& 0x1
  let cpu := { cpu with A := ((cpu.A >>> 1) ||| (lsb <<< 7)) % 256 }
  let cpu := if lsb ≠ 0 then SET_FLAG_CARRY cpu else RESET_FLAG_CARRY cpu
  let cpu := RESET_FLAG_HCARRY cpu
  RESET_FLAG_ADDSUB cpu

/-- `RRA`. -/
def opc_RRA (cpu : CPU) (_opcode : Nat) : CPU :=
  let c := GET_FLAG_CARRY cpu
  let cpu := if (cpu.A &&& 0x1) ≠ 0 then SET_FLAG_CARRY cpu else RESET_FLAG_CARRY cpu
  let cpu := { cpu with A := ((cpu.A >>> 1) ||| (c <<< 7)) % 256 }
  let cpu := RESET_FLAG_HCARRY cpu
  RESET_FLAG_ADDSUB cpu

/-! ## The `ED` group: `opc_LDRIddnn` -/

/-- The `LD A,I` branch of `opc_LDRIddnn`. -/
def opc_LDRIddnn_LDAI (cpu : CPU) : CPU :=
  let cpu := { cpu with A := cpu.I }
  let cpu := if opc_isNegative8 cpu.I then SET_FLAG_SIGN cpu else RESET_FLAG_SIGN cpu
  let cpu := if cpu.I = 0 then SET_FLAG_ZERO cpu else RESET_FLAG_ZERO cpu
  let cpu := RESET_FLAG_HCARRY cpu
  let cpu := RESET_FLAG_ADDSUB cpu
  if cpu.IFF2 ≠ 0 then SET_FLAG_PARITY cpu else RESET_FLAG_PARITY cpu

/-- The `LD A,R` branch of `opc_LDRIddnn`. -/
def opc_LDRIddnn_LDAR (cpu : CPU) : CPU :=
  let cpu := { cpu with A := cpu.R }
  let cpu := if opc_isNegative8 cpu.R then SET_FLAG_SIGN cpu else RESET_FLAG_SIGN cpu
  let cpu := if cpu.R = 0 then SET_FLAG_ZERO cpu else RESET_FLAG_ZERO cpu
  let cpu := RESET_FLAG_HCARRY cpu
  let cpu := RESET_FLAG_ADDSUB cpu
  if cpu.IFF2 ≠ 0 then SET_FLAG_PARITY cpu else RESET_FLAG_PARITY cpu

/-- The `LD dd,(nn)` branch of `opc_LDRIddnn`. -/
def opc_LDRIddnn_LDddnn (cpu : CPU) (next_opc : Nat) : Option CPU :=
  let cpu := setTStates cpu 0xED 20
  let dst := (next_opc >>> 4) &&& 0x03
  let (addr, cpu) := opc_fetch16 cpu
  let data := (cpu_read cpu addr ||| (cpu_read cpu (addr + 1) <<< 8)) % 65536
  opc_writeReg16 cpu dst data .REG16_DD

/-- The `LD (nn),dd` branch of `opc_LDRIddnn`. -/
def opc_LDRIddnn_LDnndd (cpu : CPU) (next_opc : Nat) : Option CPU := do
  let cpu := setTStates cpu 0xED 20
  let src := (next_opc >>> 4) &&& 0x03
  let (addr, cpu) := opc_fetch16 cpu
  let data ← opc_readReg16 cpu src .REG16_DD
  let cpu := cpu_write cpu (data &&& 0xFF) addr
  some (cpu_write cpu ((data >>> 8) &&& 0xFF) (addr + 1))

/-- The `LDI` branch of `opc_LDRIddnn`. -/
def opc_LDRIddnn_LDI (cpu : CPU) : CPU :=
  let cpu := setTStates cpu 0xED 16
  let data := cpu_read cpu cpu.HL
  let cpu := cpu_write cpu data cpu.DE
  let cpu := cpu.setDE ((cpu.DE + 1) % 65536)
  let cpu := cpu.setHL ((cpu.HL + 1) % 65536)
  let cpu := cpu.setBC (u16 ((cpu.BC : Int) - 1))
  let cpu := RESET_FLAG_HCARRY cpu
  let cpu := RESET_FLAG_ADDSUB cpu
  if cpu.BC ≠ 0 then SET_FLAG_PARITY cpu else RESET_FLAG_PARITY cpu

/-- The `LDIR` branch of `opc_LDRIddnn`. -/
def opc_LDRIddnn_LDIR (cpu : CPU) : CPU :=
  let data := cpu_read cpu cpu.HL
  let cpu := cpu_write cpu data cpu.DE
  let cpu := cpu.setDE ((cpu.DE + 1) % 65536)
  let cpu := cpu.setHL ((cpu.HL + 1) % 65536)
  let cpu := cpu.setBC (u16 ((cpu.BC : Int) - 1))
  let cpu := RESET_FLAG_HCARRY cpu
  let cpu := RESET_FLAG_ADDSUB cpu
  let cpu := RESET_FLAG_PARITY cpu
  if cpu.BC ≠ 0 then
    let cpu := { cpu with PC := u16 ((cpu.PC : Int) - 2) }
    setTStates cpu 0xED 21
  else
    setTStates cpu 0xED 16

/-- The `LDD` branch of `opc_LDRIddnn`. -/
def opc_LDRIddnn_LDD (cpu : CPU) : CPU :=
  let cpu := setTStates cpu 0xED 16
  let data := cpu_read cpu cpu.HL
  let cpu := cpu_write cpu data cpu.DE
  let cpu := cpu.setDE (u16 ((cpu.DE : Int) - 1))
  let cpu := cpu.setHL (u16 ((cpu.HL : Int) - 1))
  let cpu := cpu.setBC (u16 ((cpu.BC : Int) - 1))
  let cpu := RESET_FLAG_HCARRY cpu
  let cpu := RESET_FLAG_ADDSUB cpu
  if cpu.BC ≠ 0 then SET_FLAG_PARITY cpu else RESET_FLAG_PARITY cpu

/-- The `LDDR` branch of `opc_LDRIddnn`. -/
def opc_LDRIddnn_LDDR (cpu : CPU) : CPU :=
  let data := cpu_read cpu cpu.HL
  let cpu := cpu_write cpu data cpu.DE
  let cpu := cpu.setDE (u16 ((cpu.DE : Int) - 1))
  let cpu := cpu.setHL (u16 ((cpu.HL : Int) - 1))
  let cpu := cpu.setBC (u16 ((cpu.BC : Int) - 1))
  let cpu := RESET_FLAG_HCARRY cpu
  let cpu := RESET_FLAG_ADDSUB cpu
  let cpu := RESET_FLAG_PARITY cpu
  if cpu.BC ≠ 0 then
    let cpu := { cpu with PC := u16 ((cpu.PC : Int) - 2) }
    setTStates cpu 0xED 21
  else
    setTStates cpu 0xED 16

/-- The `CPI` branch of `opc_LDRIddnn`. -/
def opc_LDRIddnn_CPI (cpu : CPU) : CPU :=
  let cpu := setTStates cpu 0xED 16
  let data_HL := cpu_read cpu cpu.HL
  let res := u8 ((cpu.A : Int) - data_HL)
  let cpu := cpu.setHL ((cpu.HL + 1) % 65536)
  let cpu := cpu.setBC (u16 ((cpu.BC : Int) - 1))
  let cpu := opc_testSFlag8 cpu res
  let cpu := opc_testZFlag8 cpu res
  let cpu := opc_testHFlag8 cpu cpu.A (u8 (cNot data_HL + 1)) res true
  let cpu := SET_FLAG_ADDSUB cpu
  if cpu.BC ≠ 0 then SET_FLAG_PARITY cpu else RESET_FLAG_PARITY cpu

/-- The `CPIR` branch of `opc_LDRIddnn`. -/
def opc_LDRIddnn_CPIR (cpu : CPU) : CPU :=
  let data_HL := cpu_read cpu cpu.HL
  let res := u8 ((cpu.A : Int) - data_HL)
  let cpu := cpu.setHL ((cpu.HL + 1) % 65536)
  let cpu := cpu.setBC (u16 ((cpu.BC : Int) - 1))
  let cpu := opc_testSFlag8 cpu res
  let cpu := opc_testZFlag8 cpu res
  let cpu := opc_testHFlag8 cpu cpu.A (u8 (cNot data_HL + 1)) res true
  let cpu := SET_FLAG_ADDSUB cpu
  let cpu := if cpu.BC ≠ 0 then SET_FLAG_PARITY cpu else RESET_FLAG_PARITY cpu
  if cpu.BC ≠ 0 ∧ res ≠ 0 then
    let cpu := setTStates cpu 0xED 21
    { cpu with PC := u16 ((cpu.PC : Int) - 2) }
  else
    setTStates cpu 0xED 16

/-- The `CPD` branch of `opc_LDRIddnn`. -/
def opc_LDRIddnn_CPD (cpu : CPU) : CPU :=
  let cpu := setTStates cpu 0xED 16
  let data_HL := cpu_read cpu cpu.HL
  let res := u8 ((cpu.A : Int) - data_HL)
  let cpu := cpu.setHL (u16 ((cpu.HL : Int) - 1))
  let cpu := cpu.setBC (u16 ((cpu.BC : Int) - 1))
  let cpu := opc_testSFlag8 cpu res
  let cpu := opc_testZFlag8 cpu res
  let cpu := opc_testHFlag8 cpu cpu.A (u8 (cNot data_HL + 1)) res true
  let cpu := SET_FLAG_ADDSUB cpu
  if cpu.BC ≠ 0 then SET_FLAG_PARITY cpu else RESET_FLAG_PARITY cpu

/-- The `CPDR` branch of `opc_LDRIddnn`. -/
def opc_LDRIddnn_CPDR (cpu : CPU) : CPU :=
  let data_HL := cpu_read cpu cpu.HL
  let res := u8 ((cpu.A : Int) - data_HL)
  let cpu := cpu.setHL (u16 ((cpu.HL : Int) - 1))
  let cpu := cpu.setBC (u16 ((cpu.BC : Int) - 1))
  let cpu := opc_testSFlag8 cpu res
  let cpu := opc_testZFlag8 cpu res
  let cpu := opc_testHFlag8 cpu cpu.A (u8 (cNot data_HL + 1)) res true
  let cpu := SET_FLAG_ADDSUB cpu
  let cpu := if cpu.BC ≠ 0 then SET_FLAG_PARITY cpu else RESET_FLAG_PARITY cpu
  if cpu.BC ≠ 0 ∧ res ≠ 0 then
    let cpu := setTStates cpu 0xED 21
    { cpu with PC := u16 ((cpu.PC : Int) - 2) }
  else
    setTStates cpu 0xED 16

/-- The `NEG` branch of `opc_LDRIddnn`. The overflow test reads `data`, which the branch
does not declare; it is taken as a parameter. -/
def opc_LDRIddnn_NEG (cpu : CPU) (data : Nat) : CPU :=
  let cpu := setTStates cpu 0xED 8
  let res := u8 (0 - (cpu.A : Int))
  let cpu := opc_testSFlag8 cpu res
  let cpu := opc_testZFlag8 cpu res
  let cpu := opc_testHFlag8 cpu 0 (u8 (cNot cpu.A + 1)) res true
  let cpu := SET_FLAG_ADDSUB cpu
  let cpu := if data = 0x80 then SET_FLAG_PARITY cpu else RESET_FLAG_PARITY cpu
  let cpu := if cpu.A ≠ 0 then SET_FLAG_CARRY cpu else RESET_FLAG_CARRY cpu
  { cpu with A := res }

/-- The `IM 0`, `IM 1` and `IM 2` branches of `opc_LDRIddnn`. -/
def opc_LDRIddnn_IM (cpu : CPU) (mode : Nat) : CPU :=
  let cpu := setTStates cpu 0xED 8
  { cpu with IM := mode }

/-- The branches of `opc_LDRIddnn` kept from the former interface (`ADC HL,ss`, `SBC HL,ss`,
`RETI`, `RETN`, `IN r,(C)`, `OUT (C),r`). They name only the global `z80`, the table `opTbl`
and helpers of that interface, none of which this file declares, and never `cpu` or
`opc_tbl`: the state passed to the handler is left as it is. -/
def opc_LDRIddnn_former (cpu : CPU) : Option CPU := some cpu

/-- The `RLD` branch of `opc_LDRIddnn`. -/
def opc_LDRIddnn_RLD (cpu : CPU) : CPU :=
  let cpu := setTStates cpu 0xED 18
  let data_HL := cpu_read cpu cpu.HL
  let data_HLH := (data_HL >>> 4) &&& 0xF
  let data_HLL := data_HL &&& 0xF
  let data_AL := cpu.A &&& 0xF
  let cpu := { cpu with A := ((cpu.A &&& 0xF0) ||| data_HLH) % 256 }
  let res := ((data_HLL <<< 4) ||| data_AL) % 256
  let cpu := opc_testSFlag8 cpu cpu.A
  let cpu := opc_testZFlag8 cpu cpu.A
  let cpu := RESET_FLAG_HCARRY cpu
  let cpu := opc_testPFlag8 cpu cpu.A
  let cpu := RESET_FLAG_ADDSUB cpu
  cpu_write cpu res cpu.HL

/-- The `RRD` branch of `opc_LDRIddnn`. -/
def opc_LDRIddnn_RRD (cpu : CPU) : CPU :=
  let cpu := setTStates cpu 0xED 18
  let data_HL := cpu_read cpu cpu.HL
  let data_HLH := (data_HL >>> 4) &&& 0xF
  let data_HLL := data_HL &&& 0xF
  let data_AL := cpu.A &&& 0xF
  let cpu := { cpu with A := ((cpu.A &&& 0xF0) ||| data_HLL) % 256 }
  let res := ((data_AL <<< 4) ||| data_HLH) % 256
  let cpu := opc_testSFlag8 cpu cpu.A
  let cpu := opc_testZFlag8 cpu cpu.A
  let cpu := RESET_FLAG_HCARRY cpu
  let cpu := opc_testPFlag8 cpu cpu.A
  let cpu := RESET_FLAG_ADDSUB cpu
  cpu_write cpu res cpu.HL

/-- The handler of the `ED` prefix, `opc_LDRIddnn`: it sets the T-states of entry 0xED to 9,
fetches the byte after the prefix into `next_opc` and runs the first branch of its
`if`/`else if` chain whose test holds; with no such branch it aborts. Some tests read
`follByte` where the others read `next_opc`; the function does not declare `follByte`, nor the
`data` that the `NEG` branch reads, so both are parameters. -/
def opc_LDRIddnn (cpu : CPU) (_opcode follByte data : Nat) : Option CPU :=
  let cpu := setTStates cpu 0xED 9
  let (next_opc, cpu) := opc_fetch8 cpu
  if next_opc = 0x57 then some (opc_LDRIddnn_LDAI cpu)
  else if next_opc = 0x5F then some (opc_LDRIddnn_LDAR cpu)
  else if next_opc = 0x47 then some { cpu with I := cpu.A }
  else if next_opc = 0x4F then some { cpu with R := cpu.A }
  else if next_opc &&& 0xCF = 0x4B then opc_LDRIddnn_LDddnn cpu next_opc
  else if next_opc &&& 0xCF = 0x43 then opc_LDRIddnn_LDnndd cpu next_opc
  else if next_opc = 0xA0 then some (opc_LDRIddnn_LDI cpu)
  else if next_opc = 0xB0 then some (opc_LDRIddnn_LDIR cpu)
  else if follByte = 0xA8 then some (opc_LDRIddnn_LDD cpu)
  else if next_opc = 0xB8 then some (opc_LDRIddnn_LDDR cpu)
  else if next_opc = 0xA1 then some (opc_LDRIddnn_CPI cpu)
  else if next_opc = 0xB1 then some (opc_LDRIddnn_CPIR cpu)
  else if next_opc = 0xA9 then some (opc_LDRIddnn_CPD cpu)
  else if next_opc = 0xB9 then some (opc_LDRIddnn_CPDR cpu)
  else if next_opc = 0x44 then some (opc_LDRIddnn_NEG cpu data)
  else if next_opc = 0x46 then some (opc_LDRIddnn_IM cpu 0)
  else if next_opc = 0x56 then some (opc_LDRIddnn_IM cpu 1)
  else if next_opc = 0x5E then some (opc_LDRIddnn_IM cpu 2)
  else if follByte &&& 0xCF = 0x4A then opc_LDRIddnn_former cpu
  else if follByte &&& 0xCF = 0x42 then opc_LDRIddnn_former cpu
  else if follByte = 0x4D then opc_LDRIddnn_former cpu
  else if follByte = 0x45 then opc_LDRIddnn_former cpu
  else if next_opc = 0x6F then some (opc_LDRIddnn_RLD cpu)
  else if next_opc = 0x67 then some (opc_LDRIddnn_RRD cpu)
  else if follByte &&& 0xC7 = 0x40 then opc_LDRIddnn_former cpu
  else if follByte &&& 0xC7 = 0x41 then opc_LDRIddnn_former cpu
  else none

/-! ## Specification-side definitions -/

/-- Replacement of the flag byte. -/
def CPU.withF (cpu : CPU) (f : Nat) : CPU := { cpu with F := f }

/-- The flag byte `f` with bit `i` set (`b = true`) or cleared (`b = false`), written the way
the `SET_FLAG_*` and `RESET_FLAG_*` macros compute it. -/
def putFlag (f i : Nat) (b : Bool) : Nat :=
  if b then (f ||| 2 ^ i) % 256 else (f &&& (0xFF ^^^ 2 ^ i)) % 256

/-- Signed reading of a byte, in -128..127. -/
def toSigned8 (x : Nat) : Int := if x < 128 then (x : Int) else (x : Int) - 256

/-- Number of 1 bits among the eight bits of `v`. -/
def popcount8 (v : Nat) : Nat := ((List.range 8).map (fun i => (v.testBit i).toNat)).sum

/-- Sum of the `k` lowest binary digits of `v`. -/
def bitSum : Nat → Nat → Nat
  | 0, _ => 0
  | k + 1, v => v % 2 + bitSum k (v / 2)

/-- The effect the spec gives for `ADD A,n` (carry-in `c = 0`) and `ADC A,n` on a state `r`
reached from accumulator `a`, operand `n` and carry-in `c`. -/
def AddSpec (a n c : Nat) (r : CPU) : Prop :=
  r.A = (a + n + c) % 256 ∧
  (r.flag FLAG_CARRY = true ↔ a + n + c > 0xFF) ∧
  (r.flag FLAG_HCARRY = true ↔ (a &&& 0x0F) + (n &&& 0x0F) + c > 0x0F) ∧
  (r.flag FLAG_PARITY = true ↔
    (toSigned8 a + toSigned8 n + (c : Int) < -128 ∨ 127 < toSigned8 a + toSigned8 n + (c : Int))) ∧
  (r.flag FLAG_ZERO = true ↔ r.A = 0) ∧
  r.flag FLAG_SIGN = r.A.testBit 7 ∧
  r.flag FLAG_ADDSUB = false

/-- The effect the spec gives for the logical group (`AND`, `OR`, `XOR`) on a state `r`
whose accumulator should hold `res`; `isAnd` is the value H takes. -/
def LogicSpec (res : Nat) (isAnd : Bool) (r : CPU) : Prop :=
  r.A = res ∧
  r.flag FLAG_CARRY = false ∧
  r.flag FLAG_ADDSUB = false ∧
  r.flag FLAG_HCARRY = isAnd ∧
  (r.flag FLAG_PARITY = true ↔ Even (popcount8 res)) ∧
  (r.flag FLAG_ZERO = true ↔ res = 0) ∧
  r.flag FLAG_SIGN = res.testBit 7

/-- The effect the spec gives for `INC r` on a state `r` reached from `cpu`, where `reg` is
the register code and `v` the operand. -/
def IncSpec (cpu r : CPU) (reg v : Nat) : Prop :=
  opc_readReg r reg = some ((v + 1) % 256) ∧
  (r.flag FLAG_PARITY = true ↔ v = 0x7F) ∧
  (r.flag FLAG_HCARRY = true ↔ v &&& 0x0F = 0x0F) ∧
  r.flag FLAG_ADDSUB = false ∧
  (r.flag FLAG_ZERO = true ↔ (v + 1) % 256 = 0) ∧
  r.flag FLAG_SIGN = ((v + 1) % 256).testBit 7 ∧
  r.flag FLAG_CARRY = cpu.flag FLAG_CARRY

/-- The effect the spec gives for `DEC r` on a state `r` reached from `cpu`, where `reg` is
the register code and `v` the operand. -/
def DecSpec (cpu r : CPU) (reg v : Nat) : Prop :=
  opc_readReg r reg = some (((v : Int) - 1) % 256).toNat ∧
  (r.flag FLAG_PARITY = true ↔ v = 0x80) ∧
  (r.flag FLAG_HCARRY = true ↔ v &&& 0x0F = 0x00) ∧
  r.flag FLAG_ADDSUB = true ∧
  (r.flag FLAG_ZERO = true ↔ (((v : Int) - 1) % 256).toNat = 0) ∧
  r.flag FLAG_SIGN = ((((v : Int) - 1) % 256).toNat).testBit 7 ∧
  r.flag FLAG_CARRY = cpu.flag FLAG_CARRY

/-! ## Concrete states -/

/-- A state with accumulator `a`, flag byte `f`, program counter `pc`, the bytes `bytes` in
memory from address 0 and every other register zero. -/
def stateWith (a f : Nat) (bytes : List Nat) (pc : Nat) : CPU :=
  { cpu_zero with A := a, F := f, mem := memOfList bytes, PC := pc }

/-- The load chain `LD A,0x42; LD B,A; CP B` at address 0, before the first fetch. -/
def st_loadChain : CPU := stateWith 0 0 [0x3E, 0x42, 0x47, 0xB8] 0

/-- The three instructions of the load chain run in order: each opcode byte is fetched and
handed to the handler that `opc_tbl` holds for it (0x3E `opc_LDrn`, 0x47 `opc_LDrr`,
0xB8 `opc_CPr`). The result lists the three opcode bytes and the final state. -/
def run_loadChain : Option (Nat × Nat × Nat × CPU) := do
  let (op1, cpu) := opc_fetch8 st_loadChain
  let cpu ← opc_LDrn cpu op1
  let (op2, cpu) := opc_fetch8 cpu
  let cpu ← opc_LDrr cpu op2
  let (op3, cpu) := opc_fetch8 cpu
  let cpu ← opc_CPr cpu op3
  some (op1, op2, op3, cpu)

/-- `SUB 0x00` with A = 0x05: the operand byte is at PC = 1. -/
def st_sub00 : CPU := stateWith 0x05 0 [0xD6, 0x00] 1

/-- `SUB 0x10` with A = 0x05. -/
def st_sub10 : CPU := stateWith 0x05 0 [0xD6, 0x10] 1

/-- `SUB 0x80` with A = 0x00. -/
def st_sub80 : CPU := stateWith 0x00 0 [0xD6, 0x80] 1

/-- `SBC A,0x01` with A = 0x00 and the C flag clear. -/
def st_sbc01 : CPU := stateWith 0x00 0 [0xDE, 0x01] 1

/-- `ADD A,0xFF` with A = 0x01. -/
def st_addFF : CPU := stateWith 0x01 0 [0xC6, 0xFF] 1

/-- A state with A = 0x0F and all flags clear, for `INC A` followed by `DEC A`. -/
def st_inc0F : CPU := stateWith 0x0F 0 [0x3C, 0x3D] 1

/-- A state with A = 0xF0, B = 0x3C, HL = 0x0002 and the bytes `E6 5A 0F` in memory. -/
def st_logic : CPU := { stateWith 0xF0 0xFF [0xE6, 0x5A, 0x0F] 1 with B := 0x3C, L := 0x02 }

/-! ## Definitions for the block-transfer claims -/

/-- The state the branches of `opc_LDRIddnn` start from: entry 0xED of the table holds 9
T-states and the byte after the prefix has been fetched. -/
def afterFetchED (cpu : CPU) : CPU :=
  { setTStates cpu 0xED 9 with PC := (cpu.PC + 1) % 65536 }

/-- Memory holding the listed (address, byte) pairs and zero elsewhere. -/
def memOfPairs (l : List (Nat × Nat)) : Nat → Nat := fun a => (l.lookup a).getD 0

/-- Modelled from the spec: the step driver for an instruction of the `ED` group. It fetches
the opcode byte and hands it to `opc_LDRIddnn`, the handler `opc_tbl` holds for 0xED; any
other opcode byte is outside this model. -/
def step_ED (cpu : CPU) (follByte data : Nat) : Option CPU :=
  let (opcode, cpu) := opc_fetch8 cpu
  if opcode = 0xED then opc_LDRIddnn cpu opcode follByte data else none

/-- The block copy of the spec: HL = 0x1000, DE = 0x2000, BC = 0x0003, `ED B0` at address 0,
`11 22 33` at 0x1000, all flags set. -/
def st_ldir : CPU :=
  { cpu_zero with
    F := 0xFF, H := 0x10, D := 0x20, C := 0x03,
    mem := memOfPairs [(0, 0xED), (1, 0xB0), (0x1000, 0x11), (0x1001, 0x22), (0x1002, 0x33)] }

/-- The instruction bytes `ED B0` are read at `pc` and `pc + 1` in the state `s`. -/
def ldirAt (pc : Nat) (s : CPU) : Prop :=
  cpu_read s pc = 0xED ∧ cpu_read s (pc + 1) = 0xB0

instance (pc : Nat) (s : CPU) : Decidable (ldirAt pc s) := by
  unfold ldirAt
  infer_instance

/-- Modelled from the spec: `k` steps of the driver in a row on instructions of the `ED`
group. Each one is a whole `step_ED`: the opcode byte is fetched at PC, and `opc_LDRIddnn`
fetches the byte after it and selects its branch by that byte. `follByte` is the byte after
the prefix; `none` when a step aborts or meets another opcode. -/
def ed_steps (data : Nat) : Nat → CPU → Option CPU
  | 0, cpu => some cpu
  | k + 1, cpu => (step_ED cpu (cpu_read cpu (cpu.PC + 1)) data).bind (ed_steps data k)

/-- Modelled from the spec: the re-execution of a repeating block instruction by the step
driver. Every execution is a whole `step_ED`, opcode fetch and handler. After a step that
leaves PC where the step began the driver steps again at the same address; the result is the
number of steps made and the state after the last one, or `none` when a step aborts or `fuel`
steps do not reach a step that moves PC on. -/
def ldir_run (data : Nat) : Nat → CPU → Option (Nat × CPU)
  | 0, _ => none
  | fuel + 1, cpu =>
    (step_ED cpu (cpu_read cpu (cpu.PC + 1)) data).bind fun r =>
      if r.PC = cpu.PC then (ldir_run data fuel r).map (fun p => (p.1 + 1, p.2))
      else some (1, r)

/-- A block copy that lands on its own instruction: `ED B0` at address 0, HL = 0x1000 with
the byte 0x47 there, DE = 0x0001 (the address of the `B0` byte), BC = 0x0003. -/
def st_ldir_over : CPU :=
  { cpu_zero with
    H := 0x10, E := 0x01, C := 0x03,
    mem := memOfPairs [(0, 0xED), (1, 0xB0), (0x1000, 0x47)] }

/-- A block copy of the whole memory onto itself: `ED B0` at address 0, HL = DE = 0x1000,
BC = 0. -/
def st_ldir_self : CPU :=
  { cpu_zero with
    H := 0x10, D := 0x10,
    mem := memOfPairs [(0, 0xED), (1, 0xB0)] }

/-- The number of executions the spec gives for LDIR entered with the given BC: BC itself,
or 65536 when BC is 0. -/
def ldirCount (cpu : CPU) : Nat := if cpu.BC = 0 then 65536 else cpu.BC

/-- The block copy of the spec after the `ED` prefix has been fetched: PC addresses the
`B0` byte, which is where `opc_LDRIddnn` is entered. -/
def st_ldir1 : CPU := { st_ldir with PC := 1 }

/-- A search with CPIR: A = 0x22, HL = 0x1000, BC = 0x0003, `ED B1` at address 0, `11 22` at
0x1000, PC on the `B1` byte. -/
def st_cpir : CPU :=
  { cpu_zero with
    A := 0x22, H := 0x10, C := 0x03, PC := 1,
    mem := memOfPairs [(0, 0xED), (1, 0xB1), (0x1000, 0x11), (0x1001, 0x22)] }

/-- A state whose main and shadow registers all differ. -/
def st_exch : CPU :=
  { cpu_zero with
    A := 0x12, F := 0x34, B := 0x01, C := 0x02, D := 0x03, E := 0x04, H := 0x05, L := 0x06,
    ArFr := 0xABCD, BrCr := 0x1111, DrEr := 0x2222, HrLr := 0xFFFF }

/-- A program `LD (0xFFFF),HL; LD HL,(0xFFFF)` at 0x0100 with HL = 0x1234, PC on the first
operand byte. -/
def st_ldnn : CPU :=
  { cpu_zero with
    H := 0x12, L := 0x34, PC := 0x0101,
    mem := memOfPairs [(0x100, 0x22), (0x101, 0xFF), (0x102, 0xFF),
      (0x103, 0x2A), (0x104, 0xFF), (0x105, 0xFF)] }

/-- The state in which `LD HL,(0xFFFF)` is entered after `LD (0xFFFF),HL` ran on `st_ldnn`,
with HL cleared in between: the opcode byte 0x2A has been fetched. -/
def st_ldnn2 : CPU :=
  { opc_LDnnHL st_ldnn 0x22 with H := 0, L := 0, PC := 0x0104 }

/-- A state with BC = 0x1234, AF = 0xABCD and SP = 0x0001, so that a push wraps SP to
0xFFFF. -/
def st_push : CPU :=
  { cpu_zero with A := 0xAB, F := 0xCD, B := 0x12, C := 0x34, SP := 0x0001 }

/-- The byte `a` rotated left by `k` bits, for 0 ≤ k ≤ 8. -/
def rotl8 (a k : Nat) : Nat := ((a <<< k) ||| (a >>> (8 - k))) % 256

/-- The new accumulator of `opc_RLCA` as a function of the old one. -/
def rlca_A (a : Nat) : Nat := ((a <<< 1) ||| ((a >>> 7) &&& 0x1)) % 256

/-- A state with A = 0xB4 and the flag byte 0xD7, for the rotates. -/
def st_rot : CPU := { cpu_zero with A := 0xB4, F := 0xD7 }

/-- What the spec says of an accumulator rotate that takes `cpu` to `r` and rotates the bit
`out` out of A: only A and F differ, within F only the H, N and C bits, H and N are clear and
C holds `out`. -/
def RotateSpec (cpu : CPU) (out : Bool) (r : CPU) : Prop :=
  r = { cpu with A := r.A, F := r.F } ∧
  r.flag FLAG_HCARRY = false ∧ r.flag FLAG_ADDSUB = false ∧ r.flag FLAG_CARRY = out ∧
  r.flag FLAG_SIGN = cpu.flag FLAG_SIGN ∧ r.flag FLAG_ZERO = cpu.flag FLAG_ZERO ∧
  r.flag FLAG_PARITY = cpu.flag FLAG_PARITY ∧
  ∀ j, j ≠ 0 → j ≠ 1 → j ≠ 4 → r.F.testBit j = cpu.F.testBit j

/-- A state with DE = 0x1234, for the pair and half views. -/
def st_pair : CPU := { cpu_zero with D := 0x12, E := 0x34 }

/-! ## Definitions for the fetch, `LD A,I`, `LD A,R` and `DAA` claims -/

/-- `opc_DAA`: the body is `LOG_FATAL(...)` followed by `exit(1)`; the adjustment itself is
inside a comment. -/
def opc_DAA (_cpu : CPU) (_opcode : Nat) : Option CPU := none

/-- The expression of `opc_fetch16` with the right operand of `|` evaluated before the left
one, an order of evaluation that C leaves open as well. -/
def opc_fetch16_rightFirst (cpu : CPU) : Nat × CPU :=
  let (hi, cpu) := opc_fetch8 cpu
  let (lo, cpu) := opc_fetch8 cpu
  ((lo ||| (hi <<< 8)) % 65536, cpu)

/-- A state with PC = 0xFFFF, the byte 0x34 at 0xFFFF and the byte 0x12 at 0x0000. -/
def st_fetch : CPU :=
  { cpu_zero with PC := 0xFFFF, mem := memOfPairs [(0xFFFF, 0x34), (0x0000, 0x12)] }

/-- `LD A,R` (`ED 5F`) at address 0 with R = 0x7F, I = 0x80, IFF2 = 1, A = 0x55 and the
flag byte 0x13 (H, N and C set), before the first fetch. -/
def st_ldar : CPU :=
  { cpu_zero with
    A := 0x55, F := 0x13, R := 0x7F, I := 0x80, IFF2 := 1,
    mem := memOfPairs [(0, 0xED), (1, 0x5F)] }

/-- The state `st_ldar` after the `ED` prefix has been fetched, with `57` (`LD A,I`) as the
second byte. -/
def st_ldai1 : CPU :=
  { st_ldar with PC := 1, mem := memOfPairs [(0, 0xED), (1, 0x57)] }

/-! ## Jumps written against the former interface

`JPccnn`, `JRe`, `JRCe`, `JRNCe`, `JRZe` and `JRNZe` do not use their parameter `cpu`: the
machine state they work on is the global `z80`, the table is `opTbl`, and bytes are fetched
with `fetch8()` and `fetch16()`. The state `z80` is carried as a `CPU`, `opTbl` in its
`TStates` field. -/

/-- Modelled from the spec: `fetch8()` of the former interface, which is not in the
sources: `fetch_u8` on the state `z80`. -/
def fetch8 (z80 : CPU) : Nat × CPU := opc_fetch8 z80

/-- Modelled from the spec: `fetch16()` of the former interface, which is not in the
sources: `fetch_u16` on the state `z80`, low half first. -/
def fetch16 (z80 : CPU) : Nat × CPU := opc_fetch16 z80

/-- Modelled from the spec: `isNegative` of the former interface, which is not in the
sources: bit 7 of a byte. -/
def isNegative (val : Nat) : Bool := opc_isNegative8 val

/-- `JP cc,nn`. The `default` of the `switch` ends the program. -/
def JPccnn (z80 : CPU) (opcode : Nat) : Option CPU :=
  let (offset, z80) := fetch16 z80
  let cc := (opcode >>> 3) &&& 0x07
  match cc with
  | 0 => some (if (z80.F &&& FLAG_ZERO) = 0 then { z80 with PC := offset } else z80)
  | 1 => some (if (z80.F &&& FLAG_ZERO) ≠ 0 then { z80 with PC := offset } else z80)
  | 2 => some (if (z80.F &&& FLAG_CARRY) = 0 then { z80 with PC := offset } else z80)
  | 3 => some (if (z80.F &&& FLAG_CARRY) ≠ 0 then { z80 with PC := offset } else z80)
  | 4 => some (if (z80.F &&& FLAG_PARITY) = 0 then { z80 with PC := offset } else z80)
  | 5 => some (if (z80.F &&& FLAG_PARITY) ≠ 0 then { z80 with PC := offset } else z80)
  | 6 => some (if (z80.F &&& FLAG_SIGN) = 0 then { z80 with PC := offset } else z80)
  | 7 => some (if (z80.F &&& FLAG_SIGN) ≠ 0 then { z80 with PC := offset } else z80)
  | _ => none

/-- The sign extension the `JR` functions share: `extended_o = offset`, then
`extended_o |= 0xFF00` when `isNegative(offset)`. -/
def extended_o (offset : Nat) : Nat :=
  if isNegative offset then (offset ||| 0xFF00) % 65536 else offset

/-- `JR e`. -/
def JRe (z80 : CPU) (_opcode : Nat) : CPU :=
  let (offset, z80) := fetch8 z80
  { z80 with PC := (z80.PC + extended_o offset) % 65536 }

/-- `JR C,e`. -/
def JRCe (z80 : CPU) (_opcode : Nat) : CPU :=
  let z80 := setTStates z80 0x38 12
  let (offset, z80) := fetch8 z80
  if (z80.F &&& FLAG_CARRY) ≠ 0 then { z80 with PC := (z80.PC + extended_o offset) % 65536 }
  else setTStates z80 0x38 7

/-- `JR NC,e`. -/
def JRNCe (z80 : CPU) (_opcode : Nat) : CPU :=
  let z80 := setTStates z80 0x30 12
  let (offset, z80) := fetch8 z80
  if (z80.F &&& FLAG_CARRY) = 0 then { z80 with PC := (z80.PC + extended_o offset) % 65536 }
  else setTStates z80 0x30 7

/-- `JR Z,e`. -/
def JRZe (z80 : CPU) (_opcode : Nat) : CPU :=
  let z80 := setTStates z80 0x28 12
  let (offset, z80) := fetch8 z80
  if (z80.F &&& FLAG_ZERO) ≠ 0 then { z80 with PC := (z80.PC + extended_o offset) % 65536 }
  else setTStates z80 0x28 7

/-- `JR NZ,e`. -/
def JRNZe (z80 : CPU) (_opcode : Nat) : CPU :=
  let z80 := setTStates z80 0x20 12
  let (offset, z80) := fetch8 z80
  if (z80.F &&& FLAG_ZERO) = 0 then { z80 with PC := (z80.PC + extended_o offset) % 65536 }
  else setTStates z80 0x20 7

/-- The condition of `JP cc,nn` as the spec lists it: 0 NZ, 1 Z, 2 NC, 3 C, 4 PO, 5 PE,
6 P, 7 M. -/
def ccHolds (cc : Nat) (cpu : CPU) : Bool :=
  match cc with
  | 0 => !cpu.flag FLAG_ZERO
  | 1 => cpu.flag FLAG_ZERO
  | 2 => !cpu.flag FLAG_CARRY
  | 3 => cpu.flag FLAG_CARRY
  | 4 => !cpu.flag FLAG_PARITY
  | 5 => cpu.flag FLAG_PARITY
  | 6 => !cpu.flag FLAG_SIGN
  | _ => cpu.flag FLAG_SIGN

/-- The target of a relative jump as the spec gives it: the address `p` behind the
displacement byte plus the displacement `e` read as a signed byte, modulo 2^16. -/
def jrTarget (p e : Nat) : Nat := u16 ((p : Int) + toSigned8 e)

/-- `JR e` with displacement 0xFE at address 0x0000, PC on the displacement byte: the jump
goes back to the opcode; the flag byte has Z and C set. -/
def st_jr : CPU :=
  { cpu_zero with F := 0x41, PC := 1, mem := memOfPairs [(0, 0x18), (1, 0xFE)] }

/-- `JP Z,0x1234` at address 0x0100 with Z set, PC on the first operand byte. -/
def st_jp : CPU :=
  { cpu_zero with
    F := 0x40, PC := 0x0101, mem := memOfPairs [(0x100, 0xCA), (0x101, 0x34), (0x102, 0x12)] }

/-! ## Rotates, shifts and bit operations: the statements the branches share

Each operation is written out once for a register, once for `(HL)`, once for `(IX+d)` and
once for `(IY+d)`; the statements between the read of `data` and the write of `res` are the
same text in the four places and are given here once. -/

/-- The five flag updates every rotate and shift runs on its result: `opc_testSFlag8`,
`opc_testZFlag8`, `RESET_FLAG_HCARRY`, `opc_testPFlag8`, `RESET_FLAG_ADDSUB`. -/
def rot_flags (cpu : CPU) (res : Nat) : CPU :=
  let cpu := opc_testSFlag8 cpu res
  let cpu := opc_testZFlag8 cpu res
  let cpu := RESET_FLAG_HCARRY cpu
  let cpu := opc_testPFlag8 cpu res
  RESET_FLAG_ADDSUB cpu

/-- `RLC`: the result and the state with the flags updated. -/
def RLC_body (cpu : CPU) (data : Nat) : Nat × CPU :=
  let msb := (data &&& 0x80) >>> 7
  let res := ((data <<< 1) ||| msb) % 256
  let cpu := if msb ≠ 0 then SET_FLAG_CARRY cpu else RESET_FLAG_CARRY cpu
  (res, rot_flags cpu res)

/-- `RL`. -/
def RL_body (cpu : CPU) (data : Nat) : Nat × CPU :=
  let c := GET_FLAG_CARRY cpu
  let cpu := if (data &&& 0x80) ≠ 0 then SET_FLAG_CARRY cpu else RESET_FLAG_CARRY cpu
  let res := ((data <<< 1) ||| c) % 256
  (res, rot_flags cpu res)

/-- `RRC`. -/
def RRC_body (cpu : CPU) (data : Nat) : Nat × CPU :=
  let lsb := data &&& 0x1
  let cpu := if lsb ≠ 0 then SET_FLAG_CARRY cpu else RESET_FLAG_CARRY cpu
  let res := ((data >>> 1) ||| (lsb <<< 7)) % 256
  (res, rot_flags cpu res)

/-- `RR`. -/
def RR_body (cpu : CPU) (data : Nat) : Nat × CPU :=
  let c := GET_FLAG_CARRY cpu
  let cpu := if (data &&& 0x1) ≠ 0 then SET_FLAG_CARRY cpu else RESET_FLAG_CARRY cpu
  let res := ((data >>> 1) ||| (c <<< 7)) % 256
  (res, rot_flags cpu res)

/-- `SLA`. -/
def SLA_body (cpu : CPU) (data : Nat) : Nat × CPU :=
  let cpu := if (data &&& 0x80) ≠ 0 then SET_FLAG_CARRY cpu else RESET_FLAG_CARRY cpu
  let res := (data <<< 1) % 256
  (res, rot_flags cpu res)

/-- `SRA`. -/
def SRA_body (cpu : CPU) (data : Nat) : Nat × CPU :=
  let msb := data &&& 0x80
  let lsb := data &&& 0x1
  let cpu := if lsb ≠ 0 then SET_FLAG_CARRY cpu else RESET_FLAG_CARRY cpu
  let res := ((data >>> 1) ||| msb) % 256
  (res, rot_flags cpu res)

/-- `SRL`. -/
def SRL_body (cpu : CPU) (data : Nat) : Nat × CPU :=
  let cpu := if (data &&& 0x1) ≠ 0 then SET_FLAG_CARRY cpu else RESET_FLAG_CARRY cpu
  let res := (data >>> 1) % 256
  (res, rot_flags cpu res)

/-- `BIT b`: `res = (data >> bit) & 0x1`, then `opc_testZFlag8`, `SET_FLAG_HCARRY`,
`RESET_FLAG_ADDSUB`. -/
def BIT_body (cpu : CPU) (data bit : Nat) : CPU :=
  let res := (data >>> bit) &&& 0x1
  let cpu := opc_testZFlag8 cpu res
  let cpu := SET_FLAG_HCARRY cpu
  RESET_FLAG_ADDSUB cpu

/-- `SET b`: `res = data | (1 << bit)` as `uint8_t`. -/
def SET_res (data bit : Nat) : Nat := (data ||| (1 <<< bit)) % 256

/-- `RES b`: `res = data & ~(1 << bit)` as `uint8_t`; for a byte `data` and `bit` below 8
the `int` value `~(1 << bit)` keeps every bit of `data` but bit `bit`. -/
def RES_res (data bit : Nat) : Nat := (data &&& (0xFF ^^^ (1 <<< bit))) % 256

/-! ## The `CB` group: `opc_RLC` -/

/-- A register form of `opc_RLC`: `src = next_opc & 0x07`, `data = opc_readReg(cpu, src)`, the
operation, `opc_writeReg(cpu, src, res)`. -/
def opc_RLC_r (cpu : CPU) (next_opc : Nat) (body : CPU → Nat → Nat × CPU) : Option CPU := do
  let src := next_opc &&& 0x07
  let data ← opc_readReg cpu src
  let (res, cpu) := body cpu data
  opc_writeReg cpu src res

/-- An `(HL)` form of `opc_RLC`: 15 T-states, `data = cpu_read(cpu, cpu->HL)`, the operation,
`cpu_write(cpu, res, cpu->HL)`. -/
def opc_RLC_HL (cpu : CPU) (body : CPU → Nat → Nat × CPU) : CPU :=
  let cpu := setTStates cpu 0xCB 15
  let data := cpu_read cpu cpu.HL
  let (res, cpu) := body cpu data
  cpu_write cpu res cpu.HL

/-- The `BIT b,r` branch. -/
def opc_RLC_BITr (cpu : CPU) (next_opc : Nat) : Option CPU := do
  let bit := (next_opc >>> 3) &&& 0x07
  let src := next_opc &&& 0x07
  let data ← opc_readReg cpu src
  some (BIT_body cpu data bit)

/-- The `BIT b,(HL)` branch. -/
def opc_RLC_BITHL (cpu : CPU) (next_opc : Nat) : CPU :=
  let cpu := setTStates cpu 0xCB 12
  let bit := (next_opc >>> 3) &&& 0x07
  let data := cpu_read cpu cpu.HL
  BIT_body cpu data bit

/-- The `SET b,r` branch. -/
def opc_RLC_SETr (cpu : CPU) (next_opc : Nat) : Option CPU := do
  let bit := (next_opc >>> 3) &&& 0x07
  let src := next_opc &&& 0x07
  let data ← opc_readReg cpu src
  opc_writeReg cpu src (SET_res data bit)

/-- The `SET b,(HL)` branch. -/
def opc_RLC_SETHL (cpu : CPU) (next_opc : Nat) : CPU :=
  let cpu := setTStates cpu 0xCB 15
  let bit := (next_opc >>> 3) &&& 0x07
  let data := cpu_read cpu cpu.HL
  cpu_write cpu (SET_res data bit) cpu.HL

/-- The `RES b,r` branch. -/
def opc_RLC_RESr (cpu : CPU) (next_opc : Nat) : Option CPU := do
  let bit := (next_opc >>> 3) &&& 0x07
  let src := next_opc &&& 0x07
  let data ← opc_readReg cpu src
  opc_writeReg cpu src (RES_res data bit)

/-- The `RES b,(HL)` branch. -/
def opc_RLC_RESHL (cpu : CPU) (next_opc : Nat) : CPU :=
  let cpu := setTStates cpu 0xCB 15
  let bit := (next_opc >>> 3) &&& 0x07
  let data := cpu_read cpu cpu.HL
  cpu_write cpu (RES_res data bit) cpu.HL

/-- The `if`/`else if` chain of `opc_RLC` on the byte `next_opc` fetched after the prefix, in
the order of the source; the final `else` ends the program. -/
def opc_RLC_branches (cpu : CPU) (next_opc : Nat) : Option CPU :=
  if (0 ≤ next_opc ∧ next_opc ≤ 7) ∧ next_opc ≠ 6 then opc_RLC_r cpu next_opc RLC_body
  else if next_opc = 0x06 then some (opc_RLC_HL cpu RLC_body)
  else if next_opc &&& 0xC0 = 0x40 then opc_RLC_BITr cpu next_opc
  else if next_opc &&& 0xC7 = 0x46 then some (opc_RLC_BITHL cpu next_opc)
  else if next_opc &&& 0xC0 = 0xC0 then opc_RLC_SETr cpu next_opc
  else if next_opc &&& 0xC7 = 0xC6 then some (opc_RLC_SETHL cpu next_opc)
  else if next_opc &&& 0xC0 = 0x80 then opc_RLC_RESr cpu next_opc
  else if next_opc &&& 0xC7 = 0x86 then some (opc_RLC_RESHL cpu next_opc)
  else if next_opc &&& 0xF8 = 0x10 then opc_RLC_r cpu next_opc RL_body
  else if next_opc = 0x16 then some (opc_RLC_HL cpu RL_body)
  else if next_opc &&& 0xF8 = 0x08 then opc_RLC_r cpu next_opc RRC_body
  else if next_opc = 0x0E then some (opc_RLC_HL cpu RRC_body)
  else if next_opc &&& 0xF8 = 0x18 then opc_RLC_r cpu next_opc RR_body
  else if next_opc = 0x1E then some (opc_RLC_HL cpu RR_body)
  else if next_opc &&& 0xF8 = 0x20 then opc_RLC_r cpu next_opc SLA_body
  else if next_opc = 0x26 then some (opc_RLC_HL cpu SLA_body)
  else if next_opc &&& 0xF8 = 0x28 then opc_RLC_r cpu next_opc SRA_body
  else if next_opc = 0x2E then some (opc_RLC_HL cpu SRA_body)
  else if next_opc &&& 0xF8 = 0x38 then opc_RLC_r cpu next_opc SRL_body
  else if next_opc = 0x3E then some (opc_RLC_HL cpu SRL_body)
  else none

/-- The handler of the `CB` prefix. -/
def opc_RLC (cpu : CPU) (_opcode : Nat) : Option CPU :=
  let cpu := setTStates cpu 0xCB 8
  let (next_opc, cpu) := opc_fetch8 cpu
  opc_RLC_branches cpu next_opc

/-- The state the branches of `opc_RLC` start from: entry 0xCB of the table holds 8 T-states
and the byte after the prefix has been fetched. -/
def afterFetchCB (cpu : CPU) : CPU :=
  { setTStates cpu 0xCB 8 with PC := (cpu.PC + 1) % 65536 }

/-- `BIT 0,(HL)` (`CB 46`) at address 0 with HL = 0x1000 and the byte 0xFE there, B = 0x81
and the flag byte 0x83 (S, N and C set), PC on the second byte. -/
def st_cb (second : Nat) : CPU :=
  { cpu_zero with
    F := 0x83, B := 0x81, H := 0x10, PC := 1,
    mem := memOfPairs [(0, 0xCB), (1, second), (0x1000, 0xFE)] }

/-- The second bytes of the documented `CB` operations on `(HL)`: the rotates and shifts
06, 0E, 16, 1E, 26, 2E, 3E and `BIT`, `RES`, `SET` at 46..7E, 86..BE, C6..FE in steps
of 8. -/
def cbHLbytes : List Nat :=
  [0x06, 0x0E, 0x16, 0x1E, 0x26, 0x2E, 0x3E] ++
  (List.range 8).map (fun b => 0x46 + 8 * b) ++
  (List.range 8).map (fun b => 0x86 + 8 * b) ++
  (List.range 8).map (fun b => 0xC6 + 8 * b)

/-! ## Arithmetic on `(IX+d)` and `(IY+d)`: the statements the two handlers share

`opc_LDIX` and `opc_LDIY` hold the same statements for each arithmetic and logical
operation on the byte `data` read at the indexed address; they are given here once. -/

/-- `ADD A,(..+d)` from `res = cpu->A + data` to `cpu->A = res`. -/
def ADDA_body (cpu : CPU) (data : Nat) : CPU :=
  let res := (cpu.A + data) % 256
  let cpu := opc_testSFlag8 cpu res
  let cpu := opc_testZFlag8 cpu res
  let cpu := opc_testHFlag8 cpu cpu.A data res false
  let cpu := opc_testVFlag8 cpu cpu.A data 0 res
  let cpu := RESET_FLAG_ADDSUB cpu
  let cpu := opc_testCFlag8 cpu cpu.A data 0 false
  { cpu with A := res }

/-- `ADC A,(..+d)`. -/
def ADCA_body (cpu : CPU) (data : Nat) : CPU :=
  let c := GET_FLAG_CARRY cpu
  let res := (cpu.A + data + c) % 256
  let cpu := opc_testSFlag8 cpu res
  let cpu := opc_testZFlag8 cpu res
  let cpu := opc_testHFlag8 cpu cpu.A data res false
  let cpu := opc_testVFlag8 cpu cpu.A data c res
  let cpu := RESET_FLAG_ADDSUB cpu
  let cpu := opc_testCFlag8 cpu cpu.A data c false
  { cpu with A := res }

/-- `SUB A,(..+d)`: the helpers receive `~data + 1` converted to `uint8_t`. -/
def SUBA_body (cpu : CPU) (data : Nat) : CPU :=
  let res := u8 ((cpu.A : Int) - data)
  let cpu := opc_testSFlag8 cpu res
  let cpu := opc_testZFlag8 cpu res
  let cpu := opc_testHFlag8 cpu cpu.A (u8 (cNot data + 1)) res true
  let cpu := opc_testVFlag8 cpu cpu.A (u8 (cNot data + 1)) 0 res
  let cpu := SET_FLAG_ADDSUB cpu
  let cpu := opc_testCFlag8 cpu cpu.A (u8 (cNot data + 1)) 0 true
  { cpu with A := res }

/-- `SBC A,(..+d)`: the helpers receive `~data` and `~c`, both converted to `uint8_t`. -/
def SBCA_body (cpu : CPU) (data : Nat) : CPU :=
  let c := GET_FLAG_CARRY cpu
  let res := u8 ((cpu.A : Int) - data - c)
  let cpu := opc_testSFlag8 cpu res
  let cpu := opc_testZFlag8 cpu res
  let cpu := opc_testHFlag8 cpu cpu.A (u8 (cNot data)) res true
  let cpu := opc_testVFlag8 cpu cpu.A (u8 (cNot data)) (u8 (cNot c)) res
  let cpu := SET_FLAG_ADDSUB cpu
  let cpu := opc_testCFlag8 cpu cpu.A (u8 (cNot data)) (u8 (cNot c)) true
  { cpu with A := res }

/-- `AND (..+d)`. -/
def AND_body (cpu : CPU) (data : Nat) : CPU :=
  let res := (cpu.A &&& data) % 256
  let cpu := opc_testSFlag8 cpu res
  let cpu := opc_testZFlag8 cpu res
  let cpu := SET_FLAG_HCARRY cpu
  let cpu := opc_testPFlag8 cpu res
  let cpu := RESET_FLAG_ADDSUB cpu
  let cpu := RESET_FLAG_CARRY cpu
  { cpu with A := res }

/-- `OR (..+d)`. -/
def OR_body (cpu : CPU) (data : Nat) : CPU :=
  let res := (cpu.A ||| data) % 256
  let cpu := opc_testSFlag8 cpu res
  let cpu := opc_testZFlag8 cpu res
  let cpu := RESET_FLAG_HCARRY cpu
  let cpu := opc_testPFlag8 cpu res
  let cpu := RESET_FLAG_ADDSUB cpu
  let cpu := RESET_FLAG_CARRY cpu
  { cpu with A := res }

/-- `XOR (..+d)`. -/
def XOR_body (cpu : CPU) (data : Nat) : CPU :=
  let res := (cpu.A ^^^ data) % 256
  let cpu := opc_testSFlag8 cpu res
  let cpu := opc_testZFlag8 cpu res
  let cpu := RESET_FLAG_HCARRY cpu
  let cpu := opc_testPFlag8 cpu res
  let cpu := RESET_FLAG_ADDSUB cpu
  let cpu := RESET_FLAG_CARRY cpu
  { cpu with A := res }

/-- `CP (..+d)`: the flag updates of `SUB` without the store into A. -/
def CP_body (cpu : CPU) (data : Nat) : CPU :=
  let res := u8 ((cpu.A : Int) - data)
  let cpu := opc_testSFlag8 cpu res
  let cpu := opc_testZFlag8 cpu res
  let cpu := opc_testHFlag8 cpu cpu.A (u8 (cNot data + 1)) res true
  let cpu := opc_testVFlag8 cpu cpu.A (u8 (cNot data + 1)) 0 res
  let cpu := SET_FLAG_ADDSUB cpu
  opc_testCFlag8 cpu cpu.A (u8 (cNot data + 1)) 0 true

/-- `INC (..+d)` between the read of `data` and the write of `res`. -/
def INC_body (cpu : CPU) (data : Nat) : Nat × CPU :=
  let res := (data + 1) % 256
  let cpu := opc_testSFlag8 cpu res
  let cpu := opc_testZFlag8 cpu res
  let cpu := opc_testHFlag8 cpu data 1 res false
  let cpu := RESET_FLAG_ADDSUB cpu
  let cpu := if data = 0x7F then SET_FLAG_PARITY cpu else RESET_FLAG_PARITY cpu
  (res, cpu)

/-- `DEC (..+d)` between the read of `data` and the write of `res`; the second operand of
the half-carry test is `~1 + 1` as `uint8_t`. -/
def DEC_body (cpu : CPU) (data : Nat) : Nat × CPU :=
  let res := u8 ((data : Int) - 1)
  let cpu := opc_testSFlag8 cpu res
  let cpu := opc_testZFlag8 cpu res
  let cpu := opc_testHFlag8 cpu data (u8 (cNot 1 + 1)) res true
  let cpu := SET_FLAG_ADDSUB cpu
  let cpu := if data = 0x80 then SET_FLAG_PARITY cpu else RESET_FLAG_PARITY cpu
  (res, cpu)

/-- The address `base + d` of an indexed operand: `d` is the fetched byte converted to
`int8_t`, the sum is converted to `uint16_t`. -/
def idx_addr (base d : Nat) : Nat := u16 ((base : Int) + toSigned8 d)

/-! ## The `0xDD` group: `opc_LDIX` -/

/-- An arithmetic or logical branch of `opc_LDIX` on `(IX+d)`: the displacement is fetched,
the byte at `IX + d` read and the operation run on it. -/
def opc_LDIX_alu (cpu : CPU) (body : CPU → Nat → CPU) : CPU :=
  let (d, cpu) := opc_fetch8 cpu
  let addr := idx_addr cpu.IX d
  let data := cpu_read cpu addr
  body cpu data

/-- The `INC (IX+d)` and `DEC (IX+d)` branches of `opc_LDIX`. -/
def opc_LDIX_incdec (cpu : CPU) (body : CPU → Nat → Nat × CPU) : CPU :=
  let cpu := setTStates cpu 0xDD 23
  let (d, cpu) := opc_fetch8 cpu
  let addr := idx_addr cpu.IX d
  let data := cpu_read cpu addr
  let (res, cpu) := body cpu data
  cpu_write cpu res addr

/-- The `EX (SP),IX` branch of `opc_LDIX`. -/
def opc_LDIX_EXSP (cpu : CPU) : CPU :=
  let cpu := setTStates cpu 0xDD 23
  let valSPL := cpu_read cpu cpu.SP
  let valSPH := cpu_read cpu (cpu.SP + 1)
  let cpu := cpu_write cpu (cpu.IX &&& 0xFF) cpu.SP
  let cpu := cpu_write cpu ((cpu.IX >>> 8) &&& 0xFF) (cpu.SP + 1)
  { cpu with IX := (valSPL ||| (valSPH <<< 8)) % 65536 }

/-- A rotate or shift of the `DD CB d op` group on the byte at `addr`. -/
def opc_LDIX_rot (cpu : CPU) (addr : Nat) (body : CPU → Nat → Nat × CPU) : CPU :=
  let cpu := setTStates cpu 0xDD 23
  let data := cpu_read cpu addr
  let (res, cpu) := body cpu data
  cpu_write cpu res addr

/-- The `if`/`else if` chain of the `DD CB d op` branch of `opc_LDIX` on `controlByte`,
`addr` being the operand address; the final `else` ends the program. -/
def opc_LDIX_CB_branches (cpu : CPU) (addr controlByte : Nat) : Option CPU :=
  if controlByte = 0x06 then some (opc_LDIX_rot cpu addr RLC_body)
  else if controlByte &&& 0xC7 = 0x46 then
    let cpu := setTStates cpu 0xDD 20
    let bit := (controlByte >>> 3) &&& 0x07
    let data := cpu_read cpu addr
    some (BIT_body cpu data bit)
  else if controlByte &&& 0xC7 = 0xC6 then
    let cpu := setTStates cpu 0xDD 23
    let bit := (controlByte >>> 3) &&& 0x07
    let data := cpu_read cpu addr
    some (cpu_write cpu (SET_res data bit) addr)
  else if controlByte &&& 0xC7 = 0x86 then
    let cpu := setTStates cpu 0xDD 23
    let bit := (controlByte >>> 3) &&& 0x07
    let data := cpu_read cpu addr
    some (cpu_write cpu (RES_res data bit) addr)
  else if controlByte = 0x16 then some (opc_LDIX_rot cpu addr RL_body)
  else if controlByte = 0x0E then some (opc_LDIX_rot cpu addr RRC_body)
  else if controlByte = 0x1E then some (opc_LDIX_rot cpu addr RR_body)
  else if controlByte = 0x26 then some (opc_LDIX_rot cpu addr SLA_body)
  else if controlByte = 0x2E then some (opc_LDIX_rot cpu addr SRA_body)
  else if controlByte = 0x3E then some (opc_LDIX_rot cpu addr SRL_body)
  else none

/-- The `DD CB d op` branch of `opc_LDIX`: the displacement is the third byte of the
instruction, `controlByte` the fourth. -/
def opc_LDIX_CB (cpu : CPU) : Option CPU :=
  let (d, cpu) := opc_fetch8 cpu
  let addr := idx_addr cpu.IX d
  let (controlByte, cpu) := opc_fetch8 cpu
  opc_LDIX_CB_branches cpu addr controlByte

/-- The branches of `opc_LDIX` still written against the former interface (`ADD IX,pp`,
`INC IX`, `DEC IX`, `JP (IX)`): they are selected by the undeclared `follByte` and work on the
global `z80` and the table `opTbl`, not on `*cpu` and `opc_tbl`, which they leave as they
are. -/
def opc_LDIX_former (cpu : CPU) : Option CPU := some cpu

/-- The `if`/`else if` chain of `opc_LDIX` on the byte `next_opc` fetched after the prefix,
in the order of the source; `follByte` is not declared in the source and is carried as a
parameter. The final `else` ends the program. -/
def opc_LDIX_branches (cpu : CPU) (next_opc follByte : Nat) : Option CPU :=
  if next_opc &&& 0xC7 = 0x46 then
    let dst := (next_opc >>> 3) &&& 0x07
    let (d, cpu) := opc_fetch8 cpu
    let addr := idx_addr cpu.IX d
    let data := cpu_read cpu addr
    opc_writeReg cpu dst data
  else if next_opc &&& 0xF8 = 0x70 then
    let src := next_opc &&& 0x07
    let (d, cpu) := opc_fetch8 cpu
    let addr := idx_addr cpu.IX d
    (opc_readReg cpu src).map (fun data => cpu_write cpu data addr)
  else if next_opc = 0x36 then
    let (d, cpu) := opc_fetch8 cpu
    let (n, cpu) := opc_fetch8 cpu
    let addr := idx_addr cpu.IX d
    some (cpu_write cpu n addr)
  else if next_opc = 0x21 then
    let cpu := setTStates cpu 0xDD 14
    let (nn, cpu) := opc_fetch16 cpu
    some { cpu with IX := nn }
  else if next_opc = 0x2A then
    let cpu := setTStates cpu 0xDD 20
    let (addr, cpu) := opc_fetch16 cpu
    some { cpu with IX := (cpu_read cpu addr ||| (cpu_read cpu (addr + 1) <<< 8)) % 65536 }
  else if next_opc = 0x22 then
    let cpu := setTStates cpu 0xDD 20
    let (addr, cpu) := opc_fetch16 cpu
    let cpu := cpu_write cpu (cpu.IX &&& 0xFF) addr
    some (cpu_write cpu ((cpu.IX >>> 8) &&& 0xFF) (addr + 1))
  else if next_opc = 0xF9 then
    let cpu := setTStates cpu 0xDD 10
    some { cpu with SP := cpu.IX }
  else if next_opc = 0xE5 then
    let cpu := setTStates cpu 0xDD 15
    some (cpu_stackPush cpu cpu.IX)
  else if next_opc = 0xE1 then
    let cpu := setTStates cpu 0xDD 14
    let (v, cpu) := cpu_stackPop cpu
    some { cpu with IX := v }
  else if next_opc = 0xE3 then some (opc_LDIX_EXSP cpu)
  else if next_opc = 0x86 then some (opc_LDIX_alu cpu ADDA_body)
  else if next_opc = 0x8E then some (opc_LDIX_alu cpu ADCA_body)
  else if next_opc = 0x96 then some (opc_LDIX_alu cpu SUBA_body)
  else if next_opc = 0x9E then some (opc_LDIX_alu cpu SBCA_body)
  else if next_opc = 0xA6 then some (opc_LDIX_alu cpu AND_body)
  else if next_opc = 0xB6 then some (opc_LDIX_alu cpu OR_body)
  else if next_opc = 0xAE then some (opc_LDIX_alu cpu XOR_body)
  else if next_opc = 0xBE then some (opc_LDIX_alu cpu CP_body)
  else if next_opc = 0x34 then some (opc_LDIX_incdec cpu INC_body)
  else if next_opc = 0x35 then some (opc_LDIX_incdec cpu DEC_body)
  else if follByte &&& 0xCF = 0x09 then opc_LDIX_former cpu
  else if follByte = 0x23 then opc_LDIX_former cpu
  else if follByte = 0x2B then opc_LDIX_former cpu
  else if follByte = 0xE9 then opc_LDIX_former cpu
  else if next_opc = 0xCB then opc_LDIX_CB cpu
  else none

/-- The handler of the `DD` prefix. -/
def opc_LDIX (cpu : CPU) (_opcode follByte : Nat) : Option CPU :=
  let cpu := setTStates cpu 0xDD 19
  let (next_opc, cpu) := opc_fetch8 cpu
  opc_LDIX_branches cpu next_opc follByte

/-! ## The `0xFD` group: `opc_LDIY` -/

/-- An arithmetic or logical branch of `opc_LDIY` on `(IY+d)`: the displacement is fetched,
the byte at `IY + d` read and the operation run on it. -/
def opc_LDIY_alu (cpu : CPU) (body : CPU → Nat → CPU) : CPU :=
  let (d, cpu) := opc_fetch8 cpu
  let addr := idx_addr cpu.IY d
  let data := cpu_read cpu addr
  body cpu data

/-- The `INC (IY+d)` and `DEC (IY+d)` branches of `opc_LDIY`. -/
def opc_LDIY_incdec (cpu : CPU) (body : CPU → Nat → Nat × CPU) : CPU :=
  let cpu := setTStates cpu 0xFD 23
  let (d, cpu) := opc_fetch8 cpu
  let addr := idx_addr cpu.IY d
  let data := cpu_read cpu addr
  let (res, cpu) := body cpu data
  cpu_write cpu res addr

/-- The `EX (SP),IY` branch of `opc_LDIY`. -/
def opc_LDIY_EXSP (cpu : CPU) : CPU :=
  let cpu := setTStates cpu 0xFD 23
  let valSPL := cpu_read cpu cpu.SP
  let valSPH := cpu_read cpu (cpu.SP + 1)
  let cpu := cpu_write cpu (cpu.IY &&& 0xFF) cpu.SP
  let cpu := cpu_write cpu ((cpu.IY >>> 8) &&& 0xFF) (cpu.SP + 1)
  { cpu with IY := (valSPL ||| (valSPH <<< 8)) % 65536 }

/-- A rotate or shift of the `FD CB d op` group on the byte at `addr`. -/
def opc_LDIY_rot (cpu : CPU) (addr : Nat) (body : CPU → Nat → Nat × CPU) : CPU :=
  let cpu := setTStates cpu 0xFD 23
  let data := cpu_read cpu addr
  let (res, cpu) := body cpu data
  cpu_write cpu res addr

/-- The `if`/`else if` chain of the `FD CB d op` branch of `opc_LDIY` on `controlByte`,
`addr` being the operand address; the final `else` ends the program. -/
def opc_LDIY_CB_branches (cpu : CPU) (addr controlByte : Nat) : Option CPU :=
  if controlByte = 0x06 then some (opc_LDIY_rot cpu addr RLC_body)
  else if controlByte &&& 0xC7 = 0x46 then
    let cpu := setTStates cpu 0xFD 20
    let bit := (controlByte >>> 3) &&& 0x07
    let data := cpu_read cpu addr
    some (BIT_body cpu data bit)
  else if controlByte &&& 0xC7 = 0xC6 then
    let cpu := setTStates cpu 0xFD 23
    let bit := (controlByte >>> 3) &&& 0x07
    let data := cpu_read cpu addr
    some (cpu_write cpu (SET_res data bit) addr)
  else if controlByte &&& 0xC7 = 0x86 then
    let cpu := setTStates cpu 0xFD 23
    let bit := (controlByte >>> 3) &&& 0x07
    let data := cpu_read cpu addr
    some (cpu_write cpu (RES_res data bit) addr)
  else if controlByte = 0x16 then some (opc_LDIY_rot cpu addr RL_body)
  else if controlByte = 0x0E then some (opc_LDIY_rot cpu addr RRC_body)
  else if controlByte = 0x1E then some (opc_LDIY_rot cpu addr RR_body)
  else if controlByte = 0x26 then some (opc_LDIY_rot cpu addr SLA_body)
  else if controlByte = 0x2E then some (opc_LDIY_rot cpu addr SRA_body)
  else if controlByte = 0x3E then some (opc_LDIY_rot cpu addr SRL_body)
  else none

/-- The `FD CB d op` branch of `opc_LDIY`: the displacement is the third byte of the
instruction, `controlByte` the fourth. -/
def opc_LDIY_CB (cpu : CPU) : Option CPU :=
  let (d, cpu) := opc_fetch8 cpu
  let addr := idx_addr cpu.IY d
  let (controlByte, cpu) := opc_fetch8 cpu
  opc_LDIY_CB_branches cpu addr controlByte

/-- The branches of `opc_LDIY` still written against the former interface (`ADD IY,rr`,
`INC IY`, `DEC IY`, `JP (IY)`): they are selected by the undeclared `follByte` and work on the
global `z80` and the table `opTbl`, not on `*cpu` and `opc_tbl`, which they leave as they
are. -/
def opc_LDIY_former (cpu : CPU) : Option CPU := some cpu

/-- The `if`/`else if` chain of `opc_LDIY` on the byte `next_opc` fetched after the prefix,
in the order of the source; `follByte` is not declared in the source and is carried as a
parameter. The final `else` ends the program. -/
def opc_LDIY_branches (cpu : CPU) (next_opc follByte : Nat) : Option CPU :=
  if next_opc &&& 0xC7 = 0x46 then
    let dst := (next_opc >>> 3) &&& 0x07
    let (d, cpu) := opc_fetch8 cpu
    let addr := idx_addr cpu.IY d
    let data := cpu_read cpu addr
    opc_writeReg cpu dst data
  else if next_opc &&& 0xF8 = 0x70 then
    let src := next_opc &&& 0x07
    let (d, cpu) := opc_fetch8 cpu
    let addr := idx_addr cpu.IY d
    (opc_readReg cpu src).map (fun data => cpu_write cpu data addr)
  else if next_opc = 0x36 then
    let (d, cpu) := opc_fetch8 cpu
    let (n, cpu) := opc_fetch8 cpu
    let addr := idx_addr cpu.IY d
    some (cpu_write cpu n addr)
  else if next_opc = 0x21 then
    let cpu := setTStates cpu 0xFD 14
    let (nn, cpu) := opc_fetch16 cpu
    some { cpu with IY := nn }
  else if next_opc = 0x2A then
    let cpu := setTStates cpu 0xFD 20
    let (addr, cpu) := opc_fetch16 cpu
    some { cpu with IY := (cpu_read cpu addr ||| (cpu_read cpu (addr + 1) <<< 8)) % 65536 }
  else if next_opc = 0x22 then
    let cpu := setTStates cpu 0xFD 20
    let (addr, cpu) := opc_fetch16 cpu
    let cpu := cpu_write cpu (cpu.IY &&& 0xFF) addr
    some (cpu_write cpu ((cpu.IY >>> 8) &&& 0xFF) (addr + 1))
  else if next_opc = 0xF9 then
    let cpu := setTStates cpu 0xFD 10
    some { cpu with SP := cpu.IY }
  else if next_opc = 0xE5 then
    let cpu := setTStates cpu 0xFD 15
    some (cpu_stackPush cpu cpu.IY)
  else if next_opc = 0xE1 then
    let cpu := setTStates cpu 0xFD 14
    let (v, cpu) := cpu_stackPop cpu
    some { cpu with IY := v }
  else if next_opc = 0xE3 then some (opc_LDIY_EXSP cpu)
  else if next_opc = 0x86 then some (opc_LDIY_alu cpu ADDA_body)
  else if next_opc = 0x8E then some (opc_LDIY_alu cpu ADCA_body)
  else if next_opc = 0x96 then some (opc_LDIY_alu cpu SUBA_body)
  else if next_opc = 0x9E then some (opc_LDIY_alu cpu SBCA_body)
  else if next_opc = 0xA6 then some (opc_LDIY_alu cpu AND_body)
  else if next_opc = 0xB6 then some (opc_LDIY_alu cpu OR_body)
  else if next_opc = 0xAE then some (opc_LDIY_alu cpu XOR_body)
  else if next_opc = 0xBE then some (opc_LDIY_alu cpu CP_body)
  else if next_opc = 0x34 then some (opc_LDIY_incdec cpu INC_body)
  else if next_opc = 0x35 then some (opc_LDIY_incdec cpu DEC_body)
  else if follByte &&& 0xCF = 0x09 then opc_LDIY_former cpu
  else if follByte = 0x23 then opc_LDIY_former cpu
  else if follByte = 0x2B then opc_LDIY_former cpu
  else if follByte = 0xE9 then opc_LDIY_former cpu
  else if next_opc = 0xCB then opc_LDIY_CB cpu
  else none

/-- The handler of the `FD` prefix. -/
def opc_LDIY (cpu : CPU) (_opcode follByte : Nat) : Option CPU :=
  let cpu := setTStates cpu 0xFD 19
  let (next_opc, cpu) := opc_fetch8 cpu
  opc_LDIY_branches cpu next_opc follByte

/-! ## Definitions for the `DD` and `FD` claims -/

/-- The state with IX and IY exchanged and the entries 0xDD and 0xFD of the table
exchanged. -/
def swapIdx (cpu : CPU) : CPU :=
  { cpu with
    IX := cpu.IY, IY := cpu.IX,
    TStates := fun i => cpu.TStates (if i = 0xDD then 0xFD else if i = 0xFD then 0xDD else i) }

/-- The `FD` handler as the spec gives it, "identical to DD but with IY": the `DD` handler
run on the state with IX and IY (and the two table entries) exchanged, and the exchange
undone in the result; an abort of the one is an abort of the other. -/
def opc_LDIY_spec (cpu : CPU) (opcode follByte : Nat) : Option CPU :=
  (opc_LDIX (swapIdx cpu) opcode follByte).map swapIdx

/-- The state in which the `DD CB d op` branches and the `LD (IX+d),n` branch of `opc_LDIX`
do their work: entry 0xDD of the table holds 19 T-states and the three bytes after the
prefix have been fetched. -/
def afterFetchDD3 (cpu : CPU) : CPU :=
  { setTStates cpu 0xDD 19 with PC := (cpu.PC + 3) % 65536 }

/-- An instruction `DD b1 d b3` at 0x0100 with IX = 0x2000, the byte 0x5A at 0x1FFE
(IX - 2), the flag byte 0x01 (C set) and PC on the byte after the prefix. -/
def st_dd (b1 d b3 : Nat) : CPU :=
  { cpu_zero with
    F := 0x01, IX := 0x2000, PC := 0x0101,
    mem := memOfPairs [(0x100, 0xDD), (0x101, b1), (0x102, d), (0x103, b3), (0x1FFE, 0x5A)] }

/-! ## Calls, returns and `DJNZ` written against the former interface

`DJNZe`, `CALLnn`, `CALLccnn`, `RET` and `RETcc` work on the global `z80` and the table
`opTbl`, like the jumps above; the stack is reached through `stackPush` and `stackPop`. -/

/-- Modelled from the spec: `stackPush` of the former interface, which is not in the
sources: `push_u16` on the state `z80`. -/
def stackPush (z80 : CPU) (v : Nat) : CPU := cpu_stackPush z80 v

/-- Modelled from the spec: `stackPop` of the former interface, which is not in the
sources: `pop_u16` on the state `z80`. -/
def stackPop (z80 : CPU) : Nat × CPU := cpu_stackPop z80

/-- `DJNZ e`. -/
def DJNZe (z80 : CPU) (_opcode : Nat) : CPU :=
  let (offset, z80) := fetch8 z80
  let z80 := { z80 with B := u8 ((z80.B : Int) - 1) }
  if z80.B ≠ 0 then
    let z80 := setTStates z80 0x10 13
    { z80 with PC := (z80.PC + extended_o offset) % 65536 }
  else setTStates z80 0x10 8

/-- `CALL nn`. -/
def CALLnn (z80 : CPU) (_opcode : Nat) : CPU :=
  let (nn, z80) := fetch16 z80
  let z80 := stackPush z80 z80.PC
  { z80 with PC := nn }

/-- The statements every `case` of `CALLccnn` repeats, with the flag test `cond` and the
table index `idx` of the case: when the test holds, push PC, jump to `nn` and store 17
T-states; otherwise store 10. -/
def CALLccnn_case (z80 : CPU) (nn : Nat) (cond : Bool) (idx : Nat) : CPU :=
  if cond then
    let z80 := stackPush z80 z80.PC
    let z80 := { z80 with PC := nn }
    setTStates z80 idx 17
  else setTStates z80 idx 10

/-- `CALL cc,nn`. The `default` of the `switch` ends the program. -/
def CALLccnn (z80 : CPU) (opcode : Nat) : Option CPU :=
  let (nn, z80) := fetch16 z80
  let cc := (opcode >>> 3) &&& 0x07
  match cc with
  | 0 => some (CALLccnn_case z80 nn (decide ((z80.F &&& FLAG_ZERO) = 0)) 0xC4)
  | 1 => some (CALLccnn_case z80 nn (decide ((z80.F &&& FLAG_ZERO) ≠ 0)) 0xCC)
  | 2 => some (CALLccnn_case z80 nn (decide ((z80.F &&& FLAG_CARRY) = 0)) 0xD4)
  | 3 => some (CALLccnn_case z80 nn (decide ((z80.F &&& FLAG_CARRY) ≠ 0)) 0xDC)
  | 4 => some (CALLccnn_case z80 nn (decide ((z80.F &&& FLAG_PARITY) = 0)) 0xE4)
  | 5 => some (CALLccnn_case z80 nn (decide ((z80.F &&& FLAG_PARITY) ≠ 0)) 0xEC)
  | 6 => some (CALLccnn_case z80 nn (decide ((z80.F &&& FLAG_SIGN) = 0)) 0xF4)
  | 7 => some (CALLccnn_case z80 nn (decide ((z80.F &&& FLAG_SIGN) ≠ 0)) 0xFC)
  | _ => none

/-- `RET`. -/
def RET (z80 : CPU) (_opcode : Nat) : CPU :=
  let (v, z80) := stackPop z80
  { z80 with PC := v }

/-- The statements every `case` of `RETcc` repeats, with the flag test `cond` and the table
index `idx` of the case: when the test holds, pop PC and store 11 T-states; otherwise
store 5. -/
def RETcc_case (z80 : CPU) (cond : Bool) (idx : Nat) : CPU :=
  if cond then
    let (v, z80) := stackPop z80
    let z80 := { z80 with PC := v }
    setTStates z80 idx 11
  else setTStates z80 idx 5

/-- `RET cc`. The `default` of the `switch` ends the program. -/
def RETcc (z80 : CPU) (opcode : Nat) : Option CPU :=
  let cc := (opcode >>> 3) &&& 0x07
  match cc with
  | 0 => some (RETcc_case z80 (decide ((z80.F &&& FLAG_ZERO) = 0)) 0xC0)
  | 1 => some (RETcc_case z80 (decide ((z80.F &&& FLAG_ZERO) ≠ 0)) 0xC8)
  | 2 => some (RETcc_case z80 (decide ((z80.F &&& FLAG_CARRY) = 0)) 0xD0)
  | 3 => some (RETcc_case z80 (decide ((z80.F &&& FLAG_CARRY) ≠ 0)) 0xD8)
  | 4 => some (RETcc_case z80 (decide ((z80.F &&& FLAG_PARITY) = 0)) 0xE0)
  | 5 => some (RETcc_case z80 (decide ((z80.F &&& FLAG_PARITY) ≠ 0)) 0xE8)
  | 6 => some (RETcc_case z80 (decide ((z80.F &&& FLAG_SIGN) = 0)) 0xF0)
  | 7 => some (RETcc_case z80 (decide ((z80.F &&& FLAG_SIGN) ≠ 0)) 0xF8)
  | _ => none

/-- The program of the spec's call and return example, `CD 06 00 76 00 00 C9` at address 0,
with SP = 0xFFFE and PC behind the opcode byte of the `CALL`. -/
def st_call : CPU :=
  { cpu_zero with
    SP := 0xFFFE, PC := 1, mem := memOfList [0xCD, 0x06, 0x00, 0x76, 0x00, 0x00, 0xC9] }

/-! ## `HALT` and `ADD HL,ss` -/

/-- `HALT`. -/
def opc_HALT (cpu : CPU) (_opcode : Nat) : CPU :=
  { cpu with halt := 1 }

/-- `ADD HL,ss`. The source carries the note `TODO: half carry and carry.` where the two
flags would be computed. -/
def opc_ADDHLss (cpu : CPU) (opcode : Nat) : Option CPU := do
  let src := (opcode >>> 4) &&& 0x03
  let v ← opc_readReg16 cpu src .REG16_DD
  let cpu := cpu.setHL ((cpu.HL + v) % 65536)
  some (RESET_FLAG_ADDSUB cpu)

/-- `ADD HL,BC` with HL = 0xFFFF, BC = 0x0001 and every flag clear. -/
def st_addhl : CPU := { cpu_zero with H := 0xFF, L := 0xFF, B := 0x00, C := 0x01 }

/-- `ADD HL,DE` with HL = 0x0FFF, DE = 0x0001 and every flag clear. -/
def st_addhl2 : CPU := { cpu_zero with H := 0x0F, L := 0xFF, D := 0x00, E := 0x01 }

/-- Modelled from the spec: the step driver on a `HALT`. The driver is not in the sources.
It fetches the opcode byte at PC with `opc_fetch8` and calls `opc_HALT`, the handler
`opc_tbl` holds for 0x76. The spec lets a halted processor make no advance (PC remains on
the `HALT` instruction); `opc_HALT` does not move PC, so it is the driver that puts PC back
on the opcode while the processor is halted. Any other opcode byte is outside this model. -/
def driver_step_HALT (cpu : CPU) : Option CPU :=
  let (opcode, c) := opc_fetch8 cpu
  if opcode = 0x76 then
    let c := opc_HALT c opcode
    some (if c.halt = 1 then { c with PC := cpu.PC } else c)
  else none

/-- The program of the spec's call and return example with PC on the `HALT` at 0x0003. -/
def st_halt : CPU :=
  { cpu_zero with
    SP := 0xFFFE, PC := 3, mem := memOfList [0xCD, 0x06, 0x00, 0x76, 0x00, 0x00, 0xC9] }

/-! ## `ADC HL,ss` and `SBC HL,ss` -/

/-- `RLD` at address 0x0100 with A = 0x7A, HL = 0x5000 and the byte 0x31 there, PC on the
byte after the `ED` prefix. -/
def st_rld : CPU :=
  { cpu_zero with
    A := 0x7A, F := 0x01, H := 0x50, L := 0x00, PC := 0x0101,
    mem := memOfPairs [(0x100, 0xED), (0x101, 0x6F), (0x5000, 0x31)] }

/-! ## Second bytes the prefix handlers have a branch for -/

/-- The bytes after `ED` that satisfy a test of the chain of `opc_LDRIddnn`, in the order of
the tests. -/
def edBytes : List Nat :=
  [0x57, 0x5F, 0x47, 0x4F, 0x4B, 0x5B, 0x6B, 0x7B, 0x43, 0x53, 0x63, 0x73,
   0xA0, 0xB0, 0xA8, 0xB8, 0xA1, 0xB1, 0xA9, 0xB9, 0x44, 0x46, 0x56, 0x5E,
   0x4A, 0x5A, 0x6A, 0x7A, 0x42, 0x52, 0x62, 0x72, 0x4D, 0x45, 0x6F, 0x67,
   0x40, 0x48, 0x50, 0x58, 0x60, 0x68, 0x70, 0x78,
   0x41, 0x49, 0x51, 0x59, 0x61, 0x69, 0x71, 0x79]

/-- The bytes after `DD` or `FD` that satisfy a test of the chain of `opc_LDIX` and
`opc_LDIY`, in the order of the tests. -/
def ddBytes : List Nat :=
  [0x46, 0x4E, 0x56, 0x5E, 0x66, 0x6E, 0x76, 0x7E, 0x70, 0x71, 0x72, 0x73, 0x74, 0x75, 0x77,
   0x36, 0x21, 0x2A, 0x22, 0xF9, 0xE5, 0xE1, 0xE3, 0x86, 0x8E, 0x96, 0x9E, 0xA6, 0xB6, 0xAE,
   0xBE, 0x34, 0x35, 0x09, 0x19, 0x29, 0x39, 0x23, 0x2B, 0xE9, 0xCB]

/-- The bytes after `CB` that satisfy a test of the chain of `opc_RLC`: every byte but
0x30..0x37. -/
def cbBytes : List Nat := List.range 0x30 ++ List.range' 0x38 0xC8

/-- The operation bytes of `DD CB d op` and `FD CB d op` that satisfy a test of the chain:
the rotates and shifts and `BIT`, `SET`, `RES` on the indexed byte. -/
def idxcbBytes : List Nat :=
  [0x06, 0x16, 0x0E, 0x1E, 0x26, 0x2E, 0x3E] ++
  (List.range 8).map (fun b => 0x46 + 8 * b) ++
  (List.range 8).map (fun b => 0xC6 + 8 * b) ++
  (List.range 8).map (fun b => 0x86 + 8 * b)

/-- The two bytes `p b` at address 0 with PC on the second, every register zero. -/
def st_bytes (p b : Nat) : CPU := stateWith 0 0 [p, b] 1

/-- `CALL Z,0x1234` at address 0x0100 with Z clear, SP = 0x8000 and PC on the first operand
byte: the condition does not hold. -/
def st_callz : CPU :=
  { cpu_zero with
    F := 0x00, SP := 0x8000, PC := 0x0101,
    mem := memOfPairs [(0x100, 0xCC), (0x101, 0x34), (0x102, 0x12)] }

/-- `RL D` followed by `RR D` (`CB 12 CB 1A`) at address 0 with D = 0xB4 and the flag byte
0x01 (C set), PC on the second byte. -/
def st_rlrr : CPU :=
  { cpu_zero with
    D := 0xB4, F := 0x01, PC := 1, mem := memOfList [0xCB, 0x12, 0xCB, 0x1A] }

/-! ## Definitions for the T-state claims -/

/-- The state `cpu` with every entry of the table other than `idx` taken from `t` and
entry `idx` kept: what a handler that only ever writes entry `idx` leaves when it is run from
a table with other contents. -/
def otherEntries (idx : Nat) (t : Nat → Nat) (cpu : CPU) : CPU :=
  { cpu with TStates := fun j => if j = idx then cpu.TStates j else t j }

/-! ## The handler column of `opc_tbl` and the register codes the handlers pass -/

/-- The handlers named in the initialiser of `opc_tbl`. -/
inductive Handler where
  | opc_NOP | opc_LDddnn | opc_LDBCA | opc_INCss | opc_INCr | opc_DECr | opc_LDrn | opc_RLCA
  | opc_EXAFAFr | opc_ADDHLss | opc_LDABC | opc_DECss | opc_RRCA | opc_DJNZe | opc_LDDEA
  | opc_RLA | opc_JRe | opc_LDADE | opc_RRA | opc_JRNZe | opc_LDnnHL | opc_DAA | opc_JRZe
  | opc_LDHLnn | opc_CPL | opc_JRNCe | opc_LDnnA | opc_INCHL | opc_DECHL | opc_LDHLn | opc_SCF
  | opc_JRCe | opc_LDAnn | opc_CCF | opc_LDrr | opc_LDrHL | opc_LDHLr | opc_HALT | opc_ADDAr
  | opc_ADDAHL | opc_ADCAr | opc_ADCAHL | opc_SUBAr | opc_SUBAHL | opc_SBCAr | opc_SBCAHL
  | opc_ANDr | opc_ANDHL | opc_XORr | opc_XORHL | opc_ORr | opc_ORHL | opc_CPr | opc_CPHL
  | opc_RETcc | opc_POPqq | opc_JPccnn | opc_JPnn | opc_CALLccnn | opc_PUSHqq | opc_ADDAn
  | opc_RSTp | opc_RET | opc_RLC | opc_CALLnn | opc_ADCAn | opc_OUTnA | opc_SUBAn | opc_EXX
  | opc_INAn | opc_LDIX | opc_SBCAn | opc_EXSPHL | opc_ANDn | opc_JPHL | opc_EXDEHL
  | opc_LDRIddnn | opc_XORn | opc_DI | opc_ORn | opc_LDSPHL | opc_EI | opc_LDIY | opc_CPn
  deriving DecidableEq

/-- The `func` column of the initialiser of `opc_tbl`, entries 0x00 to 0xFF, sixteen to a
row. -/
def opc_tbl_func : List Handler :=
  [.opc_NOP, .opc_LDddnn, .opc_LDBCA, .opc_INCss, .opc_INCr, .opc_DECr, .opc_LDrn, .opc_RLCA,
   .opc_EXAFAFr, .opc_ADDHLss, .opc_LDABC, .opc_DECss, .opc_INCr, .opc_DECr, .opc_LDrn,
   .opc_RRCA] ++
  [.opc_DJNZe, .opc_LDddnn, .opc_LDDEA, .opc_INCss, .opc_INCr, .opc_DECr, .opc_LDrn, .opc_RLA,
   .opc_JRe, .opc_ADDHLss, .opc_LDADE, .opc_DECss, .opc_INCr, .opc_DECr, .opc_LDrn, .opc_RRA] ++
  [.opc_JRNZe, .opc_LDddnn, .opc_LDnnHL, .opc_INCss, .opc_INCr, .opc_DECr, .opc_LDrn, .opc_DAA,
   .opc_JRZe, .opc_ADDHLss, .opc_LDHLnn, .opc_DECss, .opc_INCr, .opc_DECr, .opc_LDrn, .opc_CPL] ++
  [.opc_JRNCe, .opc_LDddnn, .opc_LDnnA, .opc_INCss, .opc_INCHL, .opc_DECHL, .opc_LDHLn,
   .opc_SCF, .opc_JRCe, .opc_ADDHLss, .opc_LDAnn, .opc_DECss, .opc_INCr, .opc_DECr, .opc_LDrn,
   .opc_CCF] ++
  [.opc_LDrr, .opc_LDrr, .opc_LDrr, .opc_LDrr, .opc_LDrr, .opc_LDrr, .opc_LDrHL, .opc_LDrr,
   .opc_LDrr, .opc_LDrr, .opc_LDrr, .opc_LDrr, .opc_LDrr, .opc_LDrr, .opc_LDrHL, .opc_LDrr] ++
  [.opc_LDrr, .opc_LDrr, .opc_LDrr, .opc_LDrr, .opc_LDrr, .opc_LDrr, .opc_LDrHL, .opc_LDrr,
   .opc_LDrr, .opc_LDrr, .opc_LDrr, .opc_LDrr, .opc_LDrr, .opc_LDrr, .opc_LDrHL, .opc_LDrr] ++
  [.opc_LDrr, .opc_LDrr, .opc_LDrr, .opc_LDrr, .opc_LDrr, .opc_LDrr, .opc_LDrHL, .opc_LDrr,
   .opc_LDrr, .opc_LDrr, .opc_LDrr, .opc_LDrr, .opc_LDrr, .opc_LDrr, .opc_LDrHL, .opc_LDrr] ++
  [.opc_LDHLr, .opc_LDHLr, .opc_LDHLr, .opc_LDHLr, .opc_LDHLr, .opc_LDHLr, .opc_HALT,
   .opc_LDHLr, .opc_LDrr, .opc_LDrr, .opc_LDrr, .opc_LDrr, .opc_LDrr, .opc_LDrr, .opc_LDrHL,
   .opc_LDrr] ++
  [.opc_ADDAr, .opc_ADDAr, .opc_ADDAr, .opc_ADDAr, .opc_ADDAr, .opc_ADDAr, .opc_ADDAHL,
   .opc_ADDAr, .opc_ADCAr, .opc_ADCAr, .opc_ADCAr, .opc_ADCAr, .opc_ADCAr, .opc_ADCAr,
   .opc_ADCAHL, .opc_ADCAr] ++
  [.opc_SUBAr, .opc_SUBAr, .opc_SUBAr, .opc_SUBAr, .opc_SUBAr, .opc_SUBAr, .opc_SUBAHL,
   .opc_SUBAr, .opc_SBCAr, .opc_SBCAr, .opc_SBCAr, .opc_SBCAr, .opc_SBCAr, .opc_SBCAr,
   .opc_SBCAHL, .opc_SBCAr] ++
  [.opc_ANDr, .opc_ANDr, .opc_ANDr, .opc_ANDr, .opc_ANDr, .opc_ANDr, .opc_ANDHL, .opc_ANDr,
   .opc_XORr, .opc_XORr, .opc_XORr, .opc_XORr, .opc_XORr, .opc_XORr, .opc_XORHL, .opc_XORr] ++
  [.opc_ORr, .opc_ORr, .opc_ORr, .opc_ORr, .opc_ORr, .opc_ORr, .opc_ORHL, .opc_ORr, .opc_CPr,
   .opc_CPr, .opc_CPr, .opc_CPr, .opc_CPr, .opc_CPr, .opc_CPHL, .opc_CPr] ++
  [.opc_RETcc, .opc_POPqq, .opc_JPccnn, .opc_JPnn, .opc_CALLccnn, .opc_PUSHqq, .opc_ADDAn,
   .opc_RSTp, .opc_RETcc, .opc_RET, .opc_JPccnn, .opc_RLC, .opc_CALLccnn, .opc_CALLnn,
   .opc_ADCAn, .opc_RSTp] ++
  [.opc_RETcc, .opc_POPqq, .opc_JPccnn, .opc_OUTnA, .opc_CALLccnn, .opc_PUSHqq, .opc_SUBAn,
   .opc_RSTp, .opc_RETcc, .opc_EXX, .opc_JPccnn, .opc_INAn, .opc_CALLccnn, .opc_LDIX,
   .opc_SBCAn, .opc_RSTp] ++
  [.opc_RETcc, .opc_POPqq, .opc_JPccnn, .opc_EXSPHL, .opc_CALLccnn, .opc_PUSHqq, .opc_ANDn,
   .opc_RSTp, .opc_RETcc, .opc_JPHL, .opc_JPccnn, .opc_EXDEHL, .opc_CALLccnn, .opc_LDRIddnn,
   .opc_XORn, .opc_RSTp] ++
  [.opc_RETcc, .opc_POPqq, .opc_JPccnn, .opc_DI, .opc_CALLccnn, .opc_PUSHqq, .opc_ORn,
   .opc_RSTp, .opc_RETcc, .opc_LDSPHL, .opc_JPccnn, .opc_EI, .opc_CALLccnn, .opc_LDIY,
   .opc_CPn, .opc_RSTp]

/-- The handler `opc_tbl` selects for the first opcode byte `opcode`. -/
def handlerOf (opcode : Nat) : Handler := opc_tbl_func.getD opcode .opc_NOP

/-- The register codes a handler passes to `opc_readReg` and `opc_writeReg` when it is called
with `opcode`, for the handlers that cut the code from `opcode` itself: `opc_LDrr` reads
`opcode & 0x07` and writes `(opcode >> 3) & 0x07`; `opc_LDrn` and `opc_LDrHL` write
`(opcode >> 3) & 0x07`; `opc_INCr` and `opc_DECr` read and write `(opcode >> 3) & 0x07`;
`opc_LDHLr` and the arithmetic and logical handlers on a register read `opcode & 0x07`.
`opc_CPr` passes its code to `cpu_read`, not to `opc_readReg`. The prefix handlers `opc_RLC`,
`opc_LDIX` and `opc_LDIY` cut their codes from the byte after the prefix; no other handler
calls the two functions. -/
def regCodes8 (f : Handler) (opcode : Nat) : List Nat :=
  match f with
  | .opc_LDrr => [opcode &&& 0x07, (opcode >>> 3) &&& 0x07]
  | .opc_LDrn | .opc_LDrHL => [(opcode >>> 3) &&& 0x07]
  | .opc_INCr | .opc_DECr => [(opcode >>> 3) &&& 0x07, (opcode >>> 3) &&& 0x07]
  | .opc_LDHLr | .opc_ADDAr | .opc_ADCAr | .opc_SUBAr | .opc_SBCAr | .opc_ANDr | .opc_XORr
  | .opc_ORr => [opcode &&& 0x07]
  | _ => []

/-- The register codes a handler passes to `opc_readReg16` and `opc_writeReg16` when it is
called with `opcode`: `(opcode >> 4) & 0x03` in `opc_LDddnn`, `opc_ADDHLss`, `opc_PUSHqq` and
`opc_POPqq`. `opc_LDRIddnn` passes `(next_opc >> 4) & 0x03`; no other handler calls the two
functions. -/
def regCodes16 (f : Handler) (opcode : Nat) : List Nat :=
  match f with
  | .opc_LDddnn | .opc_ADDHLss | .opc_PUSHqq | .opc_POPqq => [(opcode >>> 4) &&& 0x03]
  | _ => []

/-- The handlers of the `(HL)` forms, and `opc_HALT`. -/
def hlHandlers : List Handler :=
  [.opc_INCHL, .opc_DECHL, .opc_LDHLn, .opc_LDrHL, .opc_LDHLr, .opc_HALT, .opc_ADDAHL,
   .opc_ADCAHL, .opc_SUBAHL, .opc_SBCAHL, .opc_ANDHL, .opc_XORHL, .opc_ORHL, .opc_CPHL]

/-- The first opcode bytes with a 3-bit register field equal to 6: `INC`, `DEC` and `LD r,n`
with bits 5..3 = 6 (0x34, 0x35, 0x36), `LD r,r'` (0x40..0x7F) with bits 5..3 or bits 2..0
equal to 6, and the arithmetic and logical group (0x80..0xBF) with bits 2..0 = 6. -/
def field6 (opcode : Nat) : Bool :=
  (opcode == 0x34 || opcode == 0x35 || opcode == 0x36) ||
  (decide (0x40 ≤ opcode ∧ opcode ≤ 0x7F) &&
    ((opcode >>> 3) &&& 0x07 == 6 || opcode &&& 0x07 == 6)) ||
  (decide (0x80 ≤ opcode ∧ opcode ≤ 0xBF) && opcode &&& 0x07 == 6)

/-! ## Bit-level lemmas -/

theorem xor3_testBit (x a n k : Nat) :
    (x ^^^ a ^^^ n).testBit k = ((x.testBit k ^^ a.testBit k) ^^ n.testBit k) := by
  rw [Nat.testBit_xor, Nat.testBit_xor]

theorem xor3_mod_testBit (r a n k : Nat) (hk : k < 8) :
    ((r % 256) ^^^ a ^^^ n).testBit k = (r ^^^ a ^^^ n).testBit k := by
  have e : (256 : Nat) = 2 ^ 8 := by norm_num
  rw [xor3_testBit, xor3_testBit, e, Nat.testBit_mod_two_pow]
  simp [hk]

theorem shift_and_one_ne_zero (x k : Nat) : ((x >>> k) &&& 1 ≠ 0) ↔ x.testBit k = true := by
  unfold Nat.testBit
  rw [Nat.and_comm]
  simp

/-- Bit 4 of `(a + n + c) ^ a ^ n` is the carry from bit 3 into bit 4. -/
theorem carry_bit4 (a n c : Nat) (hc : c ≤ 1) :
    ((a + n + c) ^^^ a ^^^ n).testBit 4 = decide (a % 16 + n % 16 + c > 15) := by
  rw [xor3_testBit]
  simp only [Nat.testBit_to_div_mod, Nat.reducePow]
  by_cases h1 : (a + n + c) / 16 % 2 = 1 <;> by_cases h2 : a / 16 % 2 = 1 <;>
    by_cases h3 : n / 16 % 2 = 1 <;> simp [h1, h2, h3] <;> omega

/-- Bit 7 of `(a + n + c) ^ a ^ n` is the carry from bit 6 into bit 7. -/
theorem carry_bit7 (a n c : Nat) (hc : c ≤ 1) :
    ((a + n + c) ^^^ a ^^^ n).testBit 7 = decide (a % 128 + n % 128 + c > 127) := by
  rw [xor3_testBit]
  simp only [Nat.testBit_to_div_mod, Nat.reducePow]
  by_cases h1 : (a + n + c) / 128 % 2 = 1 <;> by_cases h2 : a / 128 % 2 = 1 <;>
    by_cases h3 : n / 128 % 2 = 1 <;> simp [h1, h2, h3] <;> omega

theorem shr4_and_one (x : Nat) : ((x % 256) >>> 4 &&& 1 ≠ 0) ↔ x.testBit 4 = true := by
  rw [shift_and_one_ne_zero]
  have e : (256 : Nat) = 2 ^ 8 := by norm_num
  rw [e, Nat.testBit_mod_two_pow]
  simp

theorem shr7_mod256 (x : Nat) : (x % 256) >>> 7 = (x.testBit 7).toNat := by
  rw [Nat.testBit_to_div_mod, Nat.shiftRight_eq_div_pow]
  by_cases h : x / 2 ^ 7 % 2 = 1
  · simp only [h, decide_True, Bool.toNat_true]; omega
  · simp only [h, decide_False, Bool.toNat_false]; omega

theorem and_15 (x : Nat) : x &&& 0x0F = x % 16 := Nat.and_pow_two_sub_one_eq_mod x 4

theorem and_7_lt (x : Nat) : x &&& 0x07 < 8 := Nat.lt_succ_of_le Nat.and_le_right

theorem and_lt_256 (a x : Nat) (ha : a < 256) : a &&& x < 256 :=
  Nat.lt_of_le_of_lt Nat.and_le_left ha

theorem or_lt_256 (a x : Nat) (ha : a < 256) (hx : x < 256) : a ||| x < 256 :=
  Nat.or_lt_two_pow (n := 8) ha hx

theorem xor_lt_256 (a x : Nat) (ha : a < 256) (hx : x < 256) : a ^^^ x < 256 :=
  Nat.xor_lt_two_pow (n := 8) ha hx

theorem toNat_testBit (v i : Nat) : (v.testBit i).toNat = v / 2 ^ i % 2 := by
  rw [Nat.testBit_to_div_mod]
  rcases Nat.mod_two_eq_zero_or_one (v / 2 ^ i) with h | h <;> simp [h]

theorem u8_sub_one (v : Nat) : u8 ((v : Int) - 1) = (v + 255) % 256 := by
  unfold u8
  omega

theorem u8_not_one_add_one : u8 (cNot 1 + 1) = 255 := by decide

/-! ## The flag byte -/

theorem withF_withF (cpu : CPU) (a b : Nat) : (cpu.withF a).withF b = cpu.withF b := rfl
theorem withF_F (cpu : CPU) (a : Nat) : (cpu.withF a).F = a := rfl
theorem withF_A (cpu : CPU) (a : Nat) : (cpu.withF a).A = cpu.A := rfl

/-- Bit `j` of a flag byte after bit `i` was set or cleared. -/
theorem testBit_putFlag (f i j : Nat) (b : Bool) :
    (putFlag f i b).testBit j = (decide (j < 8) && (if i = j then b else f.testBit j)) := by
  have e : (256 : Nat) = 2 ^ 8 := by norm_num
  have e' : (0xFF : Nat) = 2 ^ 8 - 1 := by norm_num
  unfold putFlag
  cases b
  · simp only [Bool.false_eq_true, if_false]
    rw [e, e', Nat.testBit_mod_two_pow, Nat.testBit_and, Nat.testBit_xor,
      Nat.testBit_two_pow_sub_one, Nat.testBit_two_pow]
    by_cases h : j < 8 <;> by_cases h' : i = j <;> simp [h, h']
  · simp only [if_true]
    rw [e, Nat.testBit_mod_two_pow, Nat.testBit_or, Nat.testBit_two_pow]
    by_cases h : j < 8 <;> by_cases h' : i = j <;> simp [h, h']

theorem flag_two_pow (cpu : CPU) (i : Nat) : cpu.flag (2 ^ i) = cpu.F.testBit i := by
  unfold CPU.flag
  rw [Nat.and_two_pow]
  cases h : cpu.F.testBit i <;> simp [h]

theorem flagS_eq (cpu : CPU) : cpu.flag FLAG_SIGN = cpu.F.testBit 7 := flag_two_pow cpu 7
theorem flagZ_eq (cpu : CPU) : cpu.flag FLAG_ZERO = cpu.F.testBit 6 := flag_two_pow cpu 6
theorem flagH_eq (cpu : CPU) : cpu.flag FLAG_HCARRY = cpu.F.testBit 4 := flag_two_pow cpu 4
theorem flagPV_eq (cpu : CPU) : cpu.flag FLAG_PARITY = cpu.F.testBit 2 := flag_two_pow cpu 2
theorem flagN_eq (cpu : CPU) : cpu.flag FLAG_ADDSUB = cpu.F.testBit 1 := flag_two_pow cpu 1
theorem flagC_eq (cpu : CPU) : cpu.flag FLAG_CARRY = cpu.F.testBit 0 := flag_two_pow cpu 0

theorem SET_FLAG_SIGN_eq (cpu : CPU) :
    SET_FLAG_SIGN cpu = cpu.withF (putFlag cpu.F 7 true) := rfl
theorem RESET_FLAG_SIGN_eq (cpu : CPU) :
    RESET_FLAG_SIGN cpu = cpu.withF (putFlag cpu.F 7 false) := rfl
theorem SET_FLAG_ZERO_eq (cpu : CPU) :
    SET_FLAG_ZERO cpu = cpu.withF (putFlag cpu.F 6 true) := rfl
theorem RESET_FLAG_ZERO_eq (cpu : CPU) :
    RESET_FLAG_ZERO cpu = cpu.withF (putFlag cpu.F 6 false) := rfl
theorem SET_FLAG_HCARRY_eq (cpu : CPU) :
    SET_FLAG_HCARRY cpu = cpu.withF (putFlag cpu.F 4 true) := rfl
theorem RESET_FLAG_HCARRY_eq (cpu : CPU) :
    RESET_FLAG_HCARRY cpu = cpu.withF (putFlag cpu.F 4 false) := rfl
theorem SET_FLAG_PARITY_eq (cpu : CPU) :
    SET_FLAG_PARITY cpu = cpu.withF (putFlag cpu.F 2 true) := rfl
theorem RESET_FLAG_PARITY_eq (cpu : CPU) :
    RESET_FLAG_PARITY cpu = cpu.withF (putFlag cpu.F 2 false) := rfl
theorem SET_FLAG_ADDSUB_eq (cpu : CPU) :
    SET_FLAG_ADDSUB cpu = cpu.withF (putFlag cpu.F 1 true) := rfl
theorem RESET_FLAG_ADDSUB_eq (cpu : CPU) :
    RESET_FLAG_ADDSUB cpu = cpu.withF (putFlag cpu.F 1 false) := rfl
theorem SET_FLAG_CARRY_eq (cpu : CPU) :
    SET_FLAG_CARRY cpu = cpu.withF (putFlag cpu.F 0 true) := rfl
theorem RESET_FLAG_CARRY_eq (cpu : CPU) :
    RESET_FLAG_CARRY cpu = cpu.withF (putFlag cpu.F 0 false) := rfl

theorem ite_PARITY_eq (c : Prop) [Decidable c] (cpu : CPU) :
    (if c then SET_FLAG_PARITY cpu else RESET_FLAG_PARITY cpu)
      = cpu.withF (putFlag cpu.F 2 (decide c)) := by
  by_cases h : c <;> simp [h] <;> rfl

theorem GET_FLAG_CARRY_eq (cpu : CPU) : GET_FLAG_CARRY cpu = (cpu.flag FLAG_CARRY).toNat := by
  unfold GET_FLAG_CARRY CPU.flag FLAG_CARRY
  rw [Nat.and_one_is_mod]
  rcases Nat.mod_two_eq_zero_or_one cpu.F with h | h <;> simp [h]

theorem GET_FLAG_CARRY_le (cpu : CPU) : GET_FLAG_CARRY cpu ≤ 1 := by
  unfold GET_FLAG_CARRY FLAG_CARRY
  rw [Nat.and_one_is_mod]
  omega

theorem cpu_read_lt (cpu : CPU) (addr : Nat) : cpu_read cpu addr < 256 := by
  unfold cpu_read
  omega

/-! ## The flag helpers as updates of one bit of F -/

theorem opc_isNegative8_eq (x : Nat) (hx : x < 256) : opc_isNegative8 x = x.testBit 7 := by
  unfold opc_isNegative8
  rw [Nat.testBit_to_div_mod, Nat.shiftRight_eq_div_pow]
  simp only [Nat.reducePow]
  by_cases h : x / 128 = 1
  · simp [h]
  · have : ¬ (x / 128 % 2 = 1) := by omega
    simp [h, this]

theorem carryOut8_eq (op1 op2 c : Nat) :
    carryOut8 op1 op2 c = (decide (op1 + op2 + c > 255)).toNat := by
  unfold carryOut8
  by_cases h : op1 + op2 + c > 255
  · rw [if_pos (by omega)]; simp [h]
  · rw [if_neg (by omega)]; simp [h]

theorem opc_testSFlag8_eq (cpu : CPU) (val : Nat) :
    opc_testSFlag8 cpu val = cpu.withF (putFlag cpu.F 7 (opc_isNegative8 val)) := by
  unfold opc_testSFlag8
  cases opc_isNegative8 val <;> rfl

theorem opc_testZFlag8_eq (cpu : CPU) (val : Nat) :
    opc_testZFlag8 cpu val = cpu.withF (putFlag cpu.F 6 (decide (val = 0))) := by
  unfold opc_testZFlag8
  by_cases h : val = 0 <;> simp [h] <;> rfl

theorem opc_testHFlag8_eq (cpu : CPU) (op1 op2 res : Nat) (isSub : Bool) :
    opc_testHFlag8 cpu op1 op2 res isSub
      = cpu.withF (putFlag cpu.F 4 ((res ^^^ op1 ^^^ op2).testBit 4 ^^ isSub)) := by
  unfold opc_testHFlag8
  simp only [shr4_and_one]
  cases h : (res ^^^ op1 ^^^ op2).testBit 4 <;> cases isSub <;> simp <;> rfl

theorem opc_testVFlag8_eq (cpu : CPU) (op1 op2 c res : Nat) :
    opc_testVFlag8 cpu op1 op2 c res
      = cpu.withF (putFlag cpu.F 2
          ((res ^^^ op1 ^^^ op2).testBit 7 ^^ decide (op1 + op2 + c > 255))) := by
  unfold opc_testVFlag8
  simp only [shr7_mod256, carryOut8_eq]
  cases h : (res ^^^ op1 ^^^ op2).testBit 7 <;> cases h' : decide (op1 + op2 + c > 255) <;>
    simp <;> rfl

theorem opc_testCFlag8_eq (cpu : CPU) (op1 op2 c : Nat) (isSub : Bool) :
    opc_testCFlag8 cpu op1 op2 c isSub
      = cpu.withF (putFlag cpu.F 0 (decide (op1 + op2 + c > 255) ^^ isSub)) := by
  unfold opc_testCFlag8
  simp only [carryOut8_eq]
  cases h' : decide (op1 + op2 + c > 255) <;> cases isSub <;> simp <;> rfl

theorem opc_testPFlag8_eq (cpu : CPU) (val : Nat) :
    opc_testPFlag8 cpu val
      = cpu.withF (putFlag cpu.F 2 (decide (opc_testPFlag8_loop val 0 % 2 = 0))) := by
  unfold opc_testPFlag8
  simp only [Nat.and_one_is_mod]
  by_cases h : opc_testPFlag8_loop val 0 % 2 = 0
  · simp [h]; rfl
  · simp [h]; rfl

/-! ## The parity loop -/

theorem opc_testPFlag8_loop_step (val s : Nat) :
    opc_testPFlag8_loop val s
      = if val > 0 then opc_testPFlag8_loop (val / 2) (s + val % 2) else s := by
  rewrite [opc_testPFlag8_loop]
  have e : (if val &&& 1 = 1 then s + 1 else s) = s + val % 2 := by
    rw [Nat.and_one_is_mod]
    split_ifs <;> omega
  simp only [e, Nat.shiftRight_eq_div_pow, Nat.pow_one, dite_eq_ite]

theorem bitSum_zero (k : Nat) : bitSum k 0 = 0 := by
  induction k with
  | zero => rfl
  | succ k ih => simp [bitSum, ih]

/-- The loop leaves in `set_bits` the number of 1 bits of a value below `2^k`. -/
theorem opc_testPFlag8_loop_bitSum (k : Nat) :
    ∀ v s, v < 2 ^ k → opc_testPFlag8_loop v s = s + bitSum k v := by
  induction k with
  | zero =>
    intro v s hv
    have h0 : v = 0 := by simpa using hv
    subst h0
    rewrite [opc_testPFlag8_loop_step]
    simp [bitSum]
  | succ k ih =>
    intro v s hv
    rewrite [opc_testPFlag8_loop_step]
    by_cases h : v > 0
    · have hlt : v / 2 < 2 ^ k := by
        rw [Nat.div_lt_iff_lt_mul (by decide)]
        rw [Nat.pow_succ] at hv
        exact hv
      rewrite [if_pos h, ih (v / 2) (s + v % 2) hlt]
      simp only [bitSum]
      omega
    · have h0 : v = 0 := by omega
      subst h0
      rewrite [if_neg h]
      simp [bitSum_zero]

theorem popcount8_eq (v : Nat) : popcount8 v = bitSum 8 v := by
  unfold popcount8
  simp only [List.range, List.range.loop, List.map, List.sum_cons, List.sum_nil, toNat_testBit,
    bitSum, Nat.reducePow]
  omega

theorem opc_testPFlag8_loop_eq (v : Nat) (hv : v < 256) :
    opc_testPFlag8_loop v 0 = popcount8 v := by
  rewrite [popcount8_eq, opc_testPFlag8_loop_bitSum 8 v 0 hv]
  omega

/-! ## Register access -/

theorem opc_readReg_some (cpu : CPU) (hwf : cpu.WF) (reg : Nat) (h8 : reg < 8) (h6 : reg ≠ 6) :
    ∃ x, x < 256 ∧ opc_readReg cpu reg = some x := by
  obtain ⟨hA, _, hB, hC, hD, hE, hH, hL, _⟩ := hwf
  interval_cases reg
  · exact ⟨_, hB, rfl⟩
  · exact ⟨_, hC, rfl⟩
  · exact ⟨_, hD, rfl⟩
  · exact ⟨_, hE, rfl⟩
  · exact ⟨_, hH, rfl⟩
  · exact ⟨_, hL, rfl⟩
  · exact absurd rfl h6
  · exact ⟨_, hA, rfl⟩

theorem opc_writeReg_some (cpu : CPU) (reg v : Nat) (h8 : reg < 8) (h6 : reg ≠ 6) :
    ∃ r, opc_writeReg cpu reg v = some r ∧ r.F = cpu.F ∧ opc_readReg r reg = some (v % 256) := by
  interval_cases reg
  · exact ⟨_, rfl, rfl, rfl⟩
  · exact ⟨_, rfl, rfl, rfl⟩
  · exact ⟨_, rfl, rfl, rfl⟩
  · exact ⟨_, rfl, rfl, rfl⟩
  · exact ⟨_, rfl, rfl, rfl⟩
  · exact ⟨_, rfl, rfl, rfl⟩
  · exact absurd rfl h6
  · exact ⟨_, rfl, rfl, rfl⟩

/-! ## `ADD A,n` and `ADC A,n` -/

theorem addSpec_of_chain (cpu : CPU) (a n c : Nat) (ha : a < 256) (hn : n < 256) (hc : c ≤ 1)
    (r : CPU) (hA : r.A = (a + n + c) % 256)
    (hF : r.F = putFlag (putFlag (putFlag (putFlag (putFlag (putFlag cpu.F 7
      (opc_isNegative8 ((a + n + c) % 256))) 6 (decide ((a + n + c) % 256 = 0))) 4
      ((((a + n + c) % 256) ^^^ a ^^^ n).testBit 4 ^^ false)) 2
      ((((a + n + c) % 256) ^^^ a ^^^ n).testBit 7 ^^ decide (a + n + c > 255))) 1 false) 0
      (decide (a + n + c > 255) ^^ false)) :
    AddSpec a n c r := by
  unfold AddSpec
  simp only [flagS_eq, flagZ_eq, flagH_eq, flagPV_eq, flagN_eq, flagC_eq, hF, hA, testBit_putFlag,
    xor3_mod_testBit _ _ _ 4 (by decide), xor3_mod_testBit _ _ _ 7 (by decide), carry_bit4 a n c hc,
    carry_bit7 a n c hc, and_15, opc_isNegative8_eq _ (Nat.mod_lt _ (by decide : 0 < 256))]
  refine ⟨trivial, ?_, ?_, ?_, ?_, ?_, ?_⟩
  · simp
  · simp
  · simp only [toSigned8]
    simp
    split_ifs <;> omega
  · simp
  · simp
  · simp

theorem opc_ADDAn_spec (cpu : CPU) (opcode : Nat) (hA : cpu.A < 256) :
    AddSpec cpu.A (cpu_read cpu cpu.PC) 0 (opc_ADDAn cpu opcode) := by
  apply addSpec_of_chain cpu _ _ _ hA (cpu_read_lt _ _) (Nat.zero_le 1)
  · simp only [opc_ADDAn, opc_fetch8, Nat.add_zero]
  · simp only [opc_ADDAn, opc_fetch8, opc_testSFlag8_eq, opc_testZFlag8_eq, opc_testHFlag8_eq,
      opc_testVFlag8_eq, opc_testCFlag8_eq, RESET_FLAG_ADDSUB_eq, withF_withF, withF_F, withF_A,
      Nat.add_zero]

theorem opc_ADCAn_spec (cpu : CPU) (opcode : Nat) (hA : cpu.A < 256) :
    AddSpec cpu.A (cpu_read cpu cpu.PC) (GET_FLAG_CARRY cpu) (opc_ADCAn cpu opcode) := by
  apply addSpec_of_chain cpu _ _ _ hA (cpu_read_lt _ _) (GET_FLAG_CARRY_le cpu)
  · simp only [opc_ADCAn, opc_fetch8]
    rfl
  · simp only [opc_ADCAn, opc_fetch8, opc_testSFlag8_eq, opc_testZFlag8_eq, opc_testHFlag8_eq,
      opc_testVFlag8_eq, opc_testCFlag8_eq, RESET_FLAG_ADDSUB_eq, withF_withF, withF_F, withF_A]
    rfl

/-! ## The logical group -/

theorem logicSpec_of_chain (cpu : CPU) (res : Nat) (isAnd : Bool) (hres : res < 256)
    (r : CPU) (hA : r.A = res)
    (hF : r.F = putFlag (putFlag (putFlag (putFlag (putFlag (putFlag cpu.F 7
      (opc_isNegative8 res)) 6 (decide (res = 0))) 4 isAnd) 2
      (decide (opc_testPFlag8_loop res 0 % 2 = 0))) 1 false) 0 false) :
    LogicSpec res isAnd r := by
  unfold LogicSpec
  simp only [flagS_eq, flagZ_eq, flagH_eq, flagPV_eq, flagN_eq, flagC_eq, hF, hA, testBit_putFlag,
    opc_isNegative8_eq _ hres, opc_testPFlag8_loop_eq res hres, Nat.even_iff]
  simp

theorem opc_ANDr_spec (cpu : CPU) (opcode x : Nat) (hA : cpu.A < 256) (_hx : x < 256)
    (hread : opc_readReg cpu (opcode &&& 0x07) = some x) :
    ∃ r, opc_ANDr cpu opcode = some r ∧ LogicSpec (cpu.A &&& x) true r := by
  have hlt : cpu.A &&& x < 256 := and_lt_256 cpu.A x hA
  simp only [opc_ANDr, hread, Option.bind_eq_bind, Option.some_bind, Nat.mod_eq_of_lt hlt,
    opc_testSFlag8_eq, opc_testZFlag8_eq, opc_testPFlag8_eq, SET_FLAG_HCARRY_eq,
    RESET_FLAG_ADDSUB_eq, RESET_FLAG_CARRY_eq, withF_withF, withF_F, withF_A]
  exact ⟨_, rfl, logicSpec_of_chain cpu _ true hlt _ rfl rfl⟩

theorem opc_ANDn_spec (cpu : CPU) (opcode : Nat) (hA : cpu.A < 256) :
    LogicSpec (cpu.A &&& cpu_read cpu cpu.PC) true (opc_ANDn cpu opcode) := by
  have hlt : cpu.A &&& cpu_read cpu cpu.PC < 256 := and_lt_256 cpu.A _ hA
  simp only [opc_ANDn, opc_fetch8, Nat.mod_eq_of_lt hlt,
    opc_testSFlag8_eq, opc_testZFlag8_eq, opc_testPFlag8_eq, SET_FLAG_HCARRY_eq,
    RESET_FLAG_ADDSUB_eq, RESET_FLAG_CARRY_eq, withF_withF, withF_F, withF_A]
  exact logicSpec_of_chain cpu _ true hlt _ rfl rfl

theorem opc_ANDHL_spec (cpu : CPU) (opcode : Nat) (hA : cpu.A < 256) :
    LogicSpec (cpu.A &&& cpu_read cpu cpu.HL) true (opc_ANDHL cpu opcode) := by
  have hlt : cpu.A &&& cpu_read cpu cpu.HL < 256 := and_lt_256 cpu.A _ hA
  simp only [opc_ANDHL, Nat.mod_eq_of_lt hlt,
    opc_testSFlag8_eq, opc_testZFlag8_eq, opc_testPFlag8_eq, SET_FLAG_HCARRY_eq,
    RESET_FLAG_ADDSUB_eq, RESET_FLAG_CARRY_eq, withF_withF, withF_F, withF_A]
  exact logicSpec_of_chain cpu _ true hlt _ rfl rfl

theorem opc_ORr_spec (cpu : CPU) (opcode x : Nat) (hA : cpu.A < 256) (hx : x < 256)
    (hread : opc_readReg cpu (opcode &&& 0x07) = some x) :
    ∃ r, opc_ORr cpu opcode = some r ∧ LogicSpec (cpu.A ||| x) false r := by
  have hlt : cpu.A ||| x < 256 := or_lt_256 cpu.A x hA hx
  simp only [opc_ORr, hread, Option.bind_eq_bind, Option.some_bind, Nat.mod_eq_of_lt hlt,
    opc_testSFlag8_eq, opc_testZFlag8_eq, opc_testPFlag8_eq, RESET_FLAG_HCARRY_eq,
    RESET_FLAG_ADDSUB_eq, RESET_FLAG_CARRY_eq, withF_withF, withF_F, withF_A]
  exact ⟨_, rfl, logicSpec_of_chain cpu _ false hlt _ rfl rfl⟩

theorem opc_ORn_spec (cpu : CPU) (opcode : Nat) (hA : cpu.A < 256) :
    LogicSpec (cpu.A ||| cpu_read cpu cpu.PC) false (opc_ORn cpu opcode) := by
  have hlt : cpu.A ||| cpu_read cpu cpu.PC < 256 := or_lt_256 cpu.A _ hA (cpu_read_lt _ _)
  simp only [opc_ORn, opc_fetch8, Nat.mod_eq_of_lt hlt,
    opc_testSFlag8_eq, opc_testZFlag8_eq, opc_testPFlag8_eq, RESET_FLAG_HCARRY_eq,
    RESET_FLAG_ADDSUB_eq, RESET_FLAG_CARRY_eq, withF_withF, withF_F, withF_A]
  exact logicSpec_of_chain cpu _ false hlt _ rfl rfl

theorem opc_ORHL_spec (cpu : CPU) (opcode : Nat) (hA : cpu.A < 256) :
    LogicSpec (cpu.A ||| cpu_read cpu cpu.HL) false (opc_ORHL cpu opcode) := by
  have hlt : cpu.A ||| cpu_read cpu cpu.HL < 256 := or_lt_256 cpu.A _ hA (cpu_read_lt _ _)
  simp only [opc_ORHL, Nat.mod_eq_of_lt hlt,
    opc_testSFlag8_eq, opc_testZFlag8_eq, opc_testPFlag8_eq, RESET_FLAG_HCARRY_eq,
    RESET_FLAG_ADDSUB_eq, RESET_FLAG_CARRY_eq, withF_withF, withF_F, withF_A]
  exact logicSpec_of_chain cpu _ false hlt _ rfl rfl

theorem opc_XORr_spec (cpu : CPU) (opcode x : Nat) (hA : cpu.A < 256) (hx : x < 256)
    (hread : opc_readReg cpu (opcode &&& 0x07) = some x) :
    ∃ r, opc_XORr cpu opcode = some r ∧ LogicSpec (cpu.A ^^^ x) false r := by
  have hlt : cpu.A ^^^ x < 256 := xor_lt_256 cpu.A x hA hx
  simp only [opc_XORr, hread, Option.bind_eq_bind, Option.some_bind, Nat.mod_eq_of_lt hlt,
    opc_testSFlag8_eq, opc_testZFlag8_eq, opc_testPFlag8_eq, RESET_FLAG_HCARRY_eq,
    RESET_FLAG_ADDSUB_eq, RESET_FLAG_CARRY_eq, withF_withF, withF_F, withF_A]
  exact ⟨_, rfl, logicSpec_of_chain cpu _ false hlt _ rfl rfl⟩

theorem opc_XORn_spec (cpu : CPU) (opcode : Nat) (hA : cpu.A < 256) :
    LogicSpec (cpu.A ^^^ cpu_read cpu cpu.PC) false (opc_XORn cpu opcode) := by
  have hlt : cpu.A ^^^ cpu_read cpu cpu.PC < 256 := xor_lt_256 cpu.A _ hA (cpu_read_lt _ _)
  simp only [opc_XORn, opc_fetch8, Nat.mod_eq_of_lt hlt,
    opc_testSFlag8_eq, opc_testZFlag8_eq, opc_testPFlag8_eq, RESET_FLAG_HCARRY_eq,
    RESET_FLAG_ADDSUB_eq, RESET_FLAG_CARRY_eq, withF_withF, withF_F, withF_A]
  exact logicSpec_of_chain cpu _ false hlt _ rfl rfl

theorem opc_XORHL_spec (cpu : CPU) (opcode : Nat) (hA : cpu.A < 256) :
    LogicSpec (cpu.A ^^^ cpu_read cpu cpu.HL) false (opc_XORHL cpu opcode) := by
  have hlt : cpu.A ^^^ cpu_read cpu cpu.HL < 256 := xor_lt_256 cpu.A _ hA (cpu_read_lt _ _)
  simp only [opc_XORHL, Nat.mod_eq_of_lt hlt,
    opc_testSFlag8_eq, opc_testZFlag8_eq, opc_testPFlag8_eq, RESET_FLAG_HCARRY_eq,
    RESET_FLAG_ADDSUB_eq, RESET_FLAG_CARRY_eq, withF_withF, withF_F, withF_A]
  exact logicSpec_of_chain cpu _ false hlt _ rfl rfl

/-! ## `INC r` and `DEC r` -/

theorem opc_INCr_spec (cpu : CPU) (opcode : Nat) (hwf : cpu.WF)
    (h6 : (opcode >>> 3) &&& 0x07 ≠ 6) :
    ∃ v, v < 256 ∧ opc_readReg cpu ((opcode >>> 3) &&& 0x07) = some v ∧
      ∃ r, opc_INCr cpu opcode = some r ∧ IncSpec cpu r ((opcode >>> 3) &&& 0x07) v := by
  obtain ⟨v, hv, hread⟩ := opc_readReg_some cpu hwf _ (and_7_lt _) h6
  refine ⟨v, hv, hread, ?_⟩
  simp only [opc_INCr, hread, Option.bind_eq_bind, Option.some_bind, opc_testSFlag8_eq,
    opc_testZFlag8_eq, opc_testHFlag8_eq, RESET_FLAG_ADDSUB_eq, ite_PARITY_eq, withF_withF,
    withF_F]
  obtain ⟨r, hr, hF, hreg⟩ := opc_writeReg_some
    (cpu.withF (putFlag (putFlag (putFlag (putFlag (putFlag cpu.F 7
      (opc_isNegative8 ((v + 1) % 256))) 6 (decide ((v + 1) % 256 = 0))) 4
      ((((v + 1) % 256) ^^^ v ^^^ 1).testBit 4 ^^ false)) 1 false) 2 (decide (v = 0x7F))))
    ((opcode >>> 3) &&& 0x07) ((v + 1) % 256) (and_7_lt _) h6
  refine ⟨r, hr, ?_⟩
  unfold IncSpec
  have hc := carry_bit4 v 1 0 (Nat.zero_le 1)
  simp only [Nat.add_zero] at hc
  simp only [flagS_eq, flagZ_eq, flagH_eq, flagPV_eq, flagN_eq, flagC_eq, hF, withF_F,
    testBit_putFlag, xor3_mod_testBit _ _ _ 4 (by decide), hc, and_15,
    opc_isNegative8_eq _ (Nat.mod_lt _ (by decide : 0 < 256)), hreg, Nat.mod_mod]
  refine ⟨trivial, ?_, ?_, ?_, ?_, ?_, ?_⟩
  · simp
  · simp; omega
  · simp
  · simp
  · simp
  · simp

theorem opc_DECr_spec (cpu : CPU) (opcode : Nat) (hwf : cpu.WF)
    (h6 : (opcode >>> 3) &&& 0x07 ≠ 6) :
    ∃ v, v < 256 ∧ opc_readReg cpu ((opcode >>> 3) &&& 0x07) = some v ∧
      ∃ r, opc_DECr cpu opcode = some r ∧ DecSpec cpu r ((opcode >>> 3) &&& 0x07) v := by
  obtain ⟨v, hv, hread⟩ := opc_readReg_some cpu hwf _ (and_7_lt _) h6
  refine ⟨v, hv, hread, ?_⟩
  simp only [opc_DECr, hread, Option.bind_eq_bind, Option.some_bind, opc_testSFlag8_eq,
    opc_testZFlag8_eq, opc_testHFlag8_eq, SET_FLAG_ADDSUB_eq, ite_PARITY_eq, withF_withF,
    withF_F, u8_sub_one v, u8_not_one_add_one]
  obtain ⟨r, hr, hF, hreg⟩ := opc_writeReg_some
    (cpu.withF (putFlag (putFlag (putFlag (putFlag (putFlag cpu.F 7
      (opc_isNegative8 ((v + 255) % 256))) 6 (decide ((v + 255) % 256 = 0))) 4
      ((((v + 255) % 256) ^^^ v ^^^ 255).testBit 4 ^^ true)) 1 true) 2 (decide (v = 0x80))))
    ((opcode >>> 3) &&& 0x07) ((v + 255) % 256) (and_7_lt _) h6
  refine ⟨r, hr, ?_⟩
  unfold DecSpec
  have hc := carry_bit4 v 255 0 (Nat.zero_le 1)
  simp only [Nat.add_zero] at hc
  have hu : (((v : Int) - 1) % 256).toNat = (v + 255) % 256 := u8_sub_one v
  simp only [flagS_eq, flagZ_eq, flagH_eq, flagPV_eq, flagN_eq, flagC_eq, hF, withF_F,
    testBit_putFlag, xor3_mod_testBit _ _ _ 4 (by decide), hc, and_15,
    opc_isNegative8_eq _ (Nat.mod_lt _ (by decide : 0 < 256)), hreg, Nat.mod_mod, hu]
  refine ⟨trivial, ?_, ?_, ?_, ?_, ?_, ?_⟩
  · simp
  · simp
  · simp
  · simp
  · simp
  · simp

/-! ## What the subtractive handlers compute -/

theorem u8_neg (n : Nat) (hn : n < 256) : u8 (cNot n + 1) = (256 - n) % 256 := by
  unfold u8 cNot
  omega

theorem u8_sub (a n : Nat) (hn : n < 256) : u8 ((a : Int) - n) = (a + (256 - n) % 256 + 0) % 256 := by
  unfold u8
  omega

/-- What `SUB n` computes: A and N are as for a subtraction, while C, H and P/V are taken from
the addition `A + (-n mod 256)` with the carries inverted. -/
theorem opc_SUBAn_flags (cpu : CPU) (opcode : Nat) (hA : cpu.A < 256) :
    (opc_SUBAn cpu opcode).A = (cpu.A + 256 - cpu_read cpu cpu.PC) % 256 ∧
    (opc_SUBAn cpu opcode).flag FLAG_ADDSUB = true ∧
    ((opc_SUBAn cpu opcode).flag FLAG_CARRY = true ↔
      cpu_read cpu cpu.PC = 0 ∨ cpu.A < cpu_read cpu cpu.PC) ∧
    ((opc_SUBAn cpu opcode).flag FLAG_HCARRY = true ↔
      cpu_read cpu cpu.PC % 16 = 0 ∨ cpu.A % 16 < cpu_read cpu cpu.PC % 16) ∧
    ((opc_SUBAn cpu opcode).flag FLAG_PARITY = true ↔
      (cpu_read cpu cpu.PC = 0x80 ∧ 128 ≤ cpu.A) ∨
      (cpu_read cpu cpu.PC ≠ 0x80 ∧
        (toSigned8 cpu.A - toSigned8 (cpu_read cpu cpu.PC) < -128 ∨
          127 < toSigned8 cpu.A - toSigned8 (cpu_read cpu cpu.PC)))) := by
  simp only [flagH_eq, flagPV_eq, flagN_eq, flagC_eq, opc_SUBAn, opc_fetch8, opc_testSFlag8_eq,
    opc_testZFlag8_eq, opc_testHFlag8_eq, opc_testVFlag8_eq, opc_testCFlag8_eq,
    SET_FLAG_ADDSUB_eq, withF_withF, withF_F, withF_A, testBit_putFlag]
  have hn := cpu_read_lt cpu cpu.PC
  generalize cpu_read cpu cpu.PC = n at hn ⊢
  generalize cpu.A = a at hA ⊢
  have h4 := carry_bit4 a ((256 - n) % 256) 0 (Nat.zero_le 1)
  have h7 := carry_bit7 a ((256 - n) % 256) 0 (Nat.zero_le 1)
  rw [← xor3_mod_testBit _ _ _ 4 (by decide)] at h4
  rw [← xor3_mod_testBit _ _ _ 7 (by decide)] at h7
  simp only [u8_neg n hn, u8_sub a n hn, h4, h7]
  refine ⟨?_, ?_, ?_, ?_, ?_⟩
  · omega
  · simp
  · simp; omega
  · simp; omega
  · simp only [toSigned8]
    simp
    split_ifs <;> omega

theorem u8_not (n : Nat) (hn : n < 256) : u8 (cNot n) = 255 - n := by
  unfold u8 cNot
  omega

theorem opc_regName8_some (reg : Nat) (h8 : reg < 8) (h6 : reg ≠ 6) :
    ∃ name, opc_regName8 reg = some name := by
  interval_cases reg
  · exact ⟨_, rfl⟩
  · exact ⟨_, rfl⟩
  · exact ⟨_, rfl⟩
  · exact ⟨_, rfl⟩
  · exact ⟨_, rfl⟩
  · exact ⟨_, rfl⟩
  · exact absurd rfl h6
  · exact ⟨_, rfl⟩

/-- What `SBC A,n` computes: A and N are as for a subtraction with borrow, while C is set
only when `A + 255 ≤ n + c`. -/
theorem opc_SBCAn_flags (cpu : CPU) (opcode : Nat) :
    ((opc_SBCAn cpu opcode).A : Int)
      = ((cpu.A : Int) - cpu_read cpu cpu.PC - GET_FLAG_CARRY cpu) % 256 ∧
    (opc_SBCAn cpu opcode).flag FLAG_ADDSUB = true ∧
    ((opc_SBCAn cpu opcode).flag FLAG_CARRY = true ↔
      cpu.A + 255 ≤ cpu_read cpu cpu.PC + GET_FLAG_CARRY cpu) := by
  simp only [flagN_eq, flagC_eq, opc_SBCAn, opc_fetch8, opc_testSFlag8_eq,
    opc_testZFlag8_eq, opc_testHFlag8_eq, opc_testVFlag8_eq, opc_testCFlag8_eq,
    SET_FLAG_ADDSUB_eq, withF_withF, withF_F, withF_A, testBit_putFlag]
  have hn := cpu_read_lt cpu cpu.PC
  have hc : GET_FLAG_CARRY { cpu with PC := (cpu.PC + 1) % 65536 } = GET_FLAG_CARRY cpu := rfl
  have hc1 := GET_FLAG_CARRY_le cpu
  rw [hc]
  generalize cpu_read cpu cpu.PC = n at hn ⊢
  generalize GET_FLAG_CARRY cpu = c at hc1 ⊢
  generalize cpu.A = a
  simp only [u8_not n hn, u8_not c (by omega)]
  refine ⟨?_, ?_, ?_⟩
  · unfold u8
    omega
  · simp
  · simp; omega

/-- What `CP r` computes: the Z flag tells whether A equals the memory byte at the address
given by the register code. -/
theorem opc_CPr_zero (cpu : CPU) (opcode : Nat) (hA : cpu.A < 256)
    (h6 : opcode &&& 0x07 ≠ 6) :
    ∃ r, opc_CPr cpu opcode = some r ∧ r.A = cpu.A ∧ r.flag FLAG_ADDSUB = true ∧
      (r.flag FLAG_ZERO = true ↔ cpu.A = cpu_read cpu (opcode &&& 0x07)) := by
  obtain ⟨name, hname⟩ := opc_regName8_some _ (and_7_lt opcode) h6
  simp only [opc_CPr, hname, Option.bind_eq_bind, Option.some_bind, opc_testSFlag8_eq,
    opc_testZFlag8_eq, opc_testHFlag8_eq, opc_testVFlag8_eq, opc_testCFlag8_eq,
    SET_FLAG_ADDSUB_eq, withF_withF, withF_F, withF_A]
  refine ⟨_, rfl, rfl, ?_, ?_⟩
  · simp [flagN_eq, withF_F, testBit_putFlag]
  · have hn := cpu_read_lt cpu (opcode &&& 0x07)
    generalize cpu_read cpu (opcode &&& 0x07) = n at hn ⊢
    simp only [flagZ_eq, withF_F, testBit_putFlag]
    simp
    unfold u8
    omega

/-! ## Claims C1 to C10 -/

/-- C1, evaluated on the load chain `3E 42 47 B8`: after `LD A,0x42; LD B,A; CP B` the
registers are A = 0x42 and B = 0x42 and N is set, but Z is clear. `opc_CPr` obtains its
operand with `cpu_read(cpu, src)`, so `CP B` compares A with the memory byte at address 0
(0x3E) and not with register B. -/
theorem cp_b_load_chain_leaves_Z_clear :
    run_loadChain.map (fun (o1, o2, o3, r) =>
        (o1, o2, o3, r.A, r.B, r.flag FLAG_ZERO, r.flag FLAG_ADDSUB, cpu_read r 0))
      = some (0x3E, 0x47, 0xB8, 0x42, 0x42, false, true, 0x3E) := by
  rfl

/-- C2, evaluated at A = 0x05, n = 0x00: `SUB 0x00` leaves A = 0x05 and sets N, and both
`SUB 0x00` and `CP 0x00` set the C flag although no borrow occurs (0x05 is not below
0x00). -/
theorem sub_zero_sets_carry :
    st_sub00.A = 0x05 ∧ cpu_read st_sub00 st_sub00.PC = 0x00 ∧
    (opc_SUBAn st_sub00 0xD6).A = 0x05 ∧
    (opc_SUBAn st_sub00 0xD6).flag FLAG_ADDSUB = true ∧
    (opc_SUBAn st_sub00 0xD6).flag FLAG_CARRY = true ∧
    (opc_CPn st_sub00 0xFE).flag FLAG_CARRY = true ∧
    ¬ (0x05 < 0x00) := by
  decide

/-- C3, evaluated at A = 0x05, n = 0x10: `SUB 0x10` and `CP 0x10` set the H flag although
the low nibble of A (5) is not below the low nibble of n (0), so there is no borrow from
bit 4. -/
theorem sub_low_nibble_zero_sets_half_carry :
    st_sub10.A = 0x05 ∧ cpu_read st_sub10 st_sub10.PC = 0x10 ∧
    (opc_SUBAn st_sub10 0xD6).flag FLAG_HCARRY = true ∧
    (opc_CPn st_sub10 0xFE).flag FLAG_HCARRY = true ∧
    ¬ ((0x05 &&& 0x0F) < (0x10 &&& 0x0F)) := by
  decide

/-- C4, evaluated at A = 0x00, n = 0x80: `SUB 0x80`, `CP 0x80` and `SUB B` with B = 0x80
leave P/V clear although the signed subtraction 0 - (-128) = 128 lies outside
-128..127. -/
theorem sub_0x80_misses_overflow :
    st_sub80.A = 0x00 ∧ cpu_read st_sub80 st_sub80.PC = 0x80 ∧
    (opc_SUBAn st_sub80 0xD6).flag FLAG_PARITY = false ∧
    (opc_CPn st_sub80 0xFE).flag FLAG_PARITY = false ∧
    (opc_SUBAr { st_sub80 with B := 0x80 } 0x90).map (fun r => r.flag FLAG_PARITY)
      = some false ∧
    toSigned8 0x00 - toSigned8 0x80 = 128 := by
  decide

/-- C5, evaluated at A = 0x00, n = 0x01 with the C flag clear: `SBC A,0x01` leaves
A = 0xFF and sets N, but leaves the C flag clear although a borrow occurs
(0x00 < 0x01 + 0). -/
theorem sbc_borrow_leaves_carry_clear :
    st_sbc01.A = 0x00 ∧ cpu_read st_sbc01 st_sbc01.PC = 0x01 ∧ GET_FLAG_CARRY st_sbc01 = 0 ∧
    (opc_SBCAn st_sbc01 0xDE).A = 0xFF ∧
    (opc_SBCAn st_sbc01 0xDE).flag FLAG_ADDSUB = true ∧
    (opc_SBCAn st_sbc01 0xDE).flag FLAG_CARRY = false ∧
    0x00 < 0x01 + 0 := by
  decide

/-- C6: for every state with an 8-bit accumulator and every operand byte n at PC, `ADD A,n`
(carry-in 0) and `ADC A,n` (carry-in c, the C flag before) leave A = (A + n + c) mod 256,
set C iff A + n + c > 0xFF, set H iff (A & 0x0F) + (n & 0x0F) + c > 0x0F, set P/V iff the
signed sum leaves -128..127, set Z iff the result is 0, copy result bit 7 into S and clear
N. In particular `ADD A,0xFF` with A = 0x01 gives A = 0x00, Z = 1, C = 1, H = 1, P/V = 0. -/
theorem add_adc_immediate (cpu : CPU) (opcode : Nat) (hA : cpu.A < 256) :
    AddSpec cpu.A (cpu_read cpu cpu.PC) 0 (opc_ADDAn cpu opcode) ∧
    AddSpec cpu.A (cpu_read cpu cpu.PC) (cpu.flag FLAG_CARRY).toNat (opc_ADCAn cpu opcode) ∧
    ((opc_ADDAn st_addFF 0xC6).A = 0x00 ∧
      (opc_ADDAn st_addFF 0xC6).flag FLAG_ZERO = true ∧
      (opc_ADDAn st_addFF 0xC6).flag FLAG_CARRY = true ∧
      (opc_ADDAn st_addFF 0xC6).flag FLAG_HCARRY = true ∧
      (opc_ADDAn st_addFF 0xC6).flag FLAG_PARITY = false) := by
  refine ⟨opc_ADDAn_spec cpu opcode hA, ?_, by decide⟩
  rw [← GET_FLAG_CARRY_eq]
  exact opc_ADCAn_spec cpu opcode hA

/-- C6 at A = 0x01 with the operand byte 0xFF at PC. -/
theorem add_adc_immediate_witness :
    st_addFF.A < 256 ∧
    AddSpec st_addFF.A (cpu_read st_addFF st_addFF.PC) 0 (opc_ADDAn st_addFF 0xC6) :=
  ⟨by decide, (add_adc_immediate st_addFF 0xC6 (by decide)).1⟩

/-- C7: for every 8-bit value v, `opc_testPFlag8` (a total function: its loop ends because
the value halves at each turn) sets P/V iff v has an even number of 1 bits and clears it iff
that number is odd. -/
theorem parity_helper (cpu : CPU) (v : Nat) (hv : v < 256) :
    ((opc_testPFlag8 cpu v).flag FLAG_PARITY = true ↔ Even (popcount8 v)) ∧
    ((opc_testPFlag8 cpu v).flag FLAG_PARITY = false ↔ Odd (popcount8 v)) := by
  rw [flagPV_eq, opc_testPFlag8_eq, withF_F, testBit_putFlag, opc_testPFlag8_loop_eq v hv]
  simp only [Nat.even_iff, Nat.odd_iff]
  by_cases h : popcount8 v % 2 = 0
  · simp [h]
  · have h1 : popcount8 v % 2 = 1 := by omega
    simp [h, h1]

/-- C7 at v = 0x07, which has three 1 bits. -/
theorem parity_helper_witness :
    (0x07 : Nat) < 256 ∧
    ((opc_testPFlag8 cpu_zero 0x07).flag FLAG_PARITY = false ↔ Odd (popcount8 0x07)) :=
  ⟨by decide, (parity_helper cpu_zero 0x07 (by decide)).2⟩

/-- C8: for every well-formed state, `AND`, `OR` and `XOR` in their register form (register
codes B, C, D, E, H, L, A), immediate form and `(HL)` form leave A equal to the bitwise and,
or, xor of A and the operand, clear C and N, set H for `AND` and clear it for `OR` and
`XOR`, set P/V iff the result has an even number of 1 bits, set Z iff the result is 0 and
copy result bit 7 into S. -/
theorem logic_group (cpu : CPU) (opr opn ophl : Nat) (hwf : cpu.WF)
    (h6 : opr &&& 0x07 ≠ 6) :
    (∃ x, x < 256 ∧ opc_readReg cpu (opr &&& 0x07) = some x ∧
      (∃ r, opc_ANDr cpu opr = some r ∧ LogicSpec (cpu.A &&& x) true r) ∧
      (∃ r, opc_ORr cpu opr = some r ∧ LogicSpec (cpu.A ||| x) false r) ∧
      (∃ r, opc_XORr cpu opr = some r ∧ LogicSpec (cpu.A ^^^ x) false r)) ∧
    (LogicSpec (cpu.A &&& cpu_read cpu cpu.PC) true (opc_ANDn cpu opn) ∧
      LogicSpec (cpu.A ||| cpu_read cpu cpu.PC) false (opc_ORn cpu opn) ∧
      LogicSpec (cpu.A ^^^ cpu_read cpu cpu.PC) false (opc_XORn cpu opn)) ∧
    (LogicSpec (cpu.A &&& cpu_read cpu cpu.HL) true (opc_ANDHL cpu ophl) ∧
      LogicSpec (cpu.A ||| cpu_read cpu cpu.HL) false (opc_ORHL cpu ophl) ∧
      LogicSpec (cpu.A ^^^ cpu_read cpu cpu.HL) false (opc_XORHL cpu ophl)) := by
  have hA : cpu.A < 256 := hwf.1
  obtain ⟨x, hx, hread⟩ := opc_readReg_some cpu hwf _ (and_7_lt _) h6
  exact ⟨⟨x, hx, hread, opc_ANDr_spec cpu opr x hA hx hread, opc_ORr_spec cpu opr x hA hx hread,
      opc_XORr_spec cpu opr x hA hx hread⟩,
    ⟨opc_ANDn_spec cpu opn hA, opc_ORn_spec cpu opn hA, opc_XORn_spec cpu opn hA⟩,
    ⟨opc_ANDHL_spec cpu ophl hA, opc_ORHL_spec cpu ophl hA, opc_XORHL_spec cpu ophl hA⟩⟩

/-- C8 at A = 0xF0 with `AND 0x5A` (immediate byte at PC) in a state whose register B is
the operand of `AND B` (opcode 0xA0). -/
theorem logic_group_witness :
    st_logic.WF ∧ (0xA0 &&& 0x07 ≠ 6) ∧
    LogicSpec (st_logic.A &&& cpu_read st_logic st_logic.PC) true (opc_ANDn st_logic 0xE6) :=
  ⟨by decide, by decide, (logic_group st_logic 0xA0 0xE6 0xA6 (by decide) (by decide)).2.1.1⟩

/-- C9: for every well-formed state and every register r among B, C, D, E, H, L, A holding
v, `INC r` leaves r = (v + 1) mod 256 with P/V set iff v = 0x7F, H set iff
(v & 0x0F) = 0x0F and N cleared, and `DEC r` leaves r = (v - 1) mod 256 with P/V set iff
v = 0x80, H set iff (v & 0x0F) = 0x00 and N set; in both cases Z is set iff the result is 0,
S is result bit 7 and C is unchanged. In particular `INC A` at A = 0x0F gives 0x10 with
H = 1, Z = 0, N = 0, P/V = 0, S = 0 and the following `DEC A` gives 0x0F with H = 1, Z = 0,
N = 1. -/
theorem inc_dec_register (cpu : CPU) (opi opd : Nat) (hwf : cpu.WF)
    (hi : (opi >>> 3) &&& 0x07 ≠ 6) (hd : (opd >>> 3) &&& 0x07 ≠ 6) :
    (∃ v, v < 256 ∧ opc_readReg cpu ((opi >>> 3) &&& 0x07) = some v ∧
      ∃ r, opc_INCr cpu opi = some r ∧ IncSpec cpu r ((opi >>> 3) &&& 0x07) v) ∧
    (∃ v, v < 256 ∧ opc_readReg cpu ((opd >>> 3) &&& 0x07) = some v ∧
      ∃ r, opc_DECr cpu opd = some r ∧ DecSpec cpu r ((opd >>> 3) &&& 0x07) v) ∧
    ((opc_INCr st_inc0F 0x3C).map (fun r => (r.A, r.flag FLAG_HCARRY, r.flag FLAG_ZERO,
        r.flag FLAG_ADDSUB, r.flag FLAG_PARITY, r.flag FLAG_SIGN))
        = some (0x10, true, false, false, false, false) ∧
      ((opc_INCr st_inc0F 0x3C).bind (fun r => opc_DECr r 0x3D)).map
        (fun r => (r.A, r.flag FLAG_HCARRY, r.flag FLAG_ZERO, r.flag FLAG_ADDSUB))
        = some (0x0F, true, false, true)) :=
  ⟨opc_INCr_spec cpu opi hwf hi, opc_DECr_spec cpu opd hwf hd, by decide⟩

/-- C9 at A = 0x0F with `INC A` (opcode 0x3C) and `DEC A` (opcode 0x3D). -/
theorem inc_dec_register_witness :
    st_inc0F.WF ∧ ((0x3C >>> 3) &&& 0x07 ≠ 6) ∧ ((0x3D >>> 3) &&& 0x07 ≠ 6) ∧
    (∃ v, v < 256 ∧ opc_readReg st_inc0F ((0x3C >>> 3) &&& 0x07) = some v ∧
      ∃ r, opc_INCr st_inc0F 0x3C = some r ∧ IncSpec st_inc0F r ((0x3C >>> 3) &&& 0x07) v) :=
  ⟨by decide, by decide, by decide,
    (inc_dec_register st_inc0F 0x3C 0x3D (by decide) (by decide) (by decide)).1⟩

/-- C10: for every state and every immediate n, `CP n` leaves A unchanged and leaves the
flag byte F equal to the F that `SUB n` produces from the same state. -/
theorem cp_n_flags_as_sub_n (cpu : CPU) (opcode : Nat) :
    (opc_CPn cpu opcode).A = cpu.A ∧ (opc_CPn cpu opcode).F = (opc_SUBAn cpu opcode).F := by
  constructor
  · simp only [opc_CPn, opc_fetch8, opc_testSFlag8_eq, opc_testZFlag8_eq, opc_testHFlag8_eq,
      opc_testVFlag8_eq, opc_testCFlag8_eq, SET_FLAG_ADDSUB_eq, withF_withF, withF_F, withF_A]
  · rfl

/-! ## 16-bit arithmetic and the register pairs -/

theorem u16_sub_one (x : Nat) : u16 ((x : Int) - 1) = (x + 65535) % 65536 := by
  unfold u16
  omega

theorem u16_sub_two (x : Nat) : u16 ((x : Int) - 2) = (x + 65534) % 65536 := by
  unfold u16
  omega

theorem recombine (x : Nat) :
    x % 65536 / 256 % 256 * 256 + x % 65536 % 256 = x % 65536 := by
  omega

theorem BC_lt (cpu : CPU) : cpu.BC < 65536 := by unfold CPU.BC; omega
theorem DE_lt (cpu : CPU) : cpu.DE < 65536 := by unfold CPU.DE; omega
theorem HL_lt (cpu : CPU) : cpu.HL < 65536 := by unfold CPU.HL; omega
theorem AF_lt (cpu : CPU) : cpu.AF < 65536 := by unfold CPU.AF; omega

theorem BC_setBC (cpu : CPU) (v : Nat) : (cpu.setBC v).BC = v % 65536 := by
  simp only [CPU.setBC, CPU.BC]; omega
theorem DE_setDE (cpu : CPU) (v : Nat) : (cpu.setDE v).DE = v % 65536 := by
  simp only [CPU.setDE, CPU.DE]; omega
theorem HL_setHL (cpu : CPU) (v : Nat) : (cpu.setHL v).HL = v % 65536 := by
  simp only [CPU.setHL, CPU.HL]; omega
theorem AF_setAF (cpu : CPU) (v : Nat) : (cpu.setAF v).AF = v % 65536 := by
  simp only [CPU.setAF, CPU.AF]; omega

/-! ## The block branches of `opc_LDRIddnn`, field by field -/

theorem opc_LDRIddnn_LDI_fields (cpu : CPU) :
    (opc_LDRIddnn_LDI cpu).BC = (cpu.BC + 65535) % 65536 ∧
    (opc_LDRIddnn_LDI cpu).DE = (cpu.DE + 1) % 65536 ∧
    (opc_LDRIddnn_LDI cpu).HL = (cpu.HL + 1) % 65536 ∧
    (opc_LDRIddnn_LDI cpu).F = putFlag (putFlag (putFlag cpu.F 4 false) 1 false) 2
      (decide ((cpu.BC + 65535) % 65536 ≠ 0)) ∧
    (opc_LDRIddnn_LDI cpu).mem
      = (fun a => if a = cpu.DE % 65536 then cpu_read cpu cpu.HL % 256 else cpu.mem a) ∧
    (opc_LDRIddnn_LDI cpu).PC = cpu.PC ∧
    (opc_LDRIddnn_LDI cpu).TStates 0xED = 16 := by
  refine ⟨?_, ?_, ?_, ?_, ?_, ?_, ?_⟩ <;>
    simp only [opc_LDRIddnn_LDI, RESET_FLAG_HCARRY_eq, RESET_FLAG_ADDSUB_eq,
      ite_PARITY_eq, u16_sub_one, u16_sub_two] <;>
    simp only [CPU.BC, CPU.DE, CPU.HL, CPU.setBC, CPU.setDE, CPU.setHL, CPU.withF, cpu_write,
      cpu_read, setTStates, if_true, Nat.mod_mod, recombine] at *

theorem opc_LDRIddnn_LDIR_fields (cpu : CPU) :
    (opc_LDRIddnn_LDIR cpu).BC = (cpu.BC + 65535) % 65536 ∧
    (opc_LDRIddnn_LDIR cpu).DE = (cpu.DE + 1) % 65536 ∧
    (opc_LDRIddnn_LDIR cpu).HL = (cpu.HL + 1) % 65536 ∧
    (opc_LDRIddnn_LDIR cpu).F = putFlag (putFlag (putFlag cpu.F 4 false) 1 false) 2
      (false) ∧
    (opc_LDRIddnn_LDIR cpu).mem
      = (fun a => if a = cpu.DE % 65536 then cpu_read cpu cpu.HL % 256 else cpu.mem a) ∧
    (opc_LDRIddnn_LDIR cpu).PC = (if (cpu.BC + 65535) % 65536 ≠ 0 then (cpu.PC + 65534) % 65536 else cpu.PC) ∧
    (opc_LDRIddnn_LDIR cpu).TStates 0xED = (if (cpu.BC + 65535) % 65536 ≠ 0 then 21 else 16) := by
  refine ⟨?_, ?_, ?_, ?_, ?_, ?_, ?_⟩ <;>
    simp only [opc_LDRIddnn_LDIR, RESET_FLAG_HCARRY_eq, RESET_FLAG_ADDSUB_eq,
      RESET_FLAG_PARITY_eq, u16_sub_one, u16_sub_two] <;>
    split <;>
    simp only [CPU.BC, CPU.DE, CPU.HL, CPU.setBC, CPU.setDE, CPU.setHL, CPU.withF, cpu_write,
      cpu_read, setTStates, if_true, Nat.mod_mod, recombine] at * <;>
    (try split) <;> (try omega)

theorem opc_LDRIddnn_LDD_fields (cpu : CPU) :
    (opc_LDRIddnn_LDD cpu).BC = (cpu.BC + 65535) % 65536 ∧
    (opc_LDRIddnn_LDD cpu).DE = (cpu.DE + 65535) % 65536 ∧
    (opc_LDRIddnn_LDD cpu).HL = (cpu.HL + 65535) % 65536 ∧
    (opc_LDRIddnn_LDD cpu).F = putFlag (putFlag (putFlag cpu.F 4 false) 1 false) 2
      (decide ((cpu.BC + 65535) % 65536 ≠ 0)) ∧
    (opc_LDRIddnn_LDD cpu).mem
      = (fun a => if a = cpu.DE % 65536 then cpu_read cpu cpu.HL % 256 else cpu.mem a) ∧
    (opc_LDRIddnn_LDD cpu).PC = cpu.PC ∧
    (opc_LDRIddnn_LDD cpu).TStates 0xED = 16 := by
  refine ⟨?_, ?_, ?_, ?_, ?_, ?_, ?_⟩ <;>
    simp only [opc_LDRIddnn_LDD, RESET_FLAG_HCARRY_eq, RESET_FLAG_ADDSUB_eq,
      ite_PARITY_eq, u16_sub_one, u16_sub_two] <;>
    simp only [CPU.BC, CPU.DE, CPU.HL, CPU.setBC, CPU.setDE, CPU.setHL, CPU.withF, cpu_write,
      cpu_read, setTStates, if_true, Nat.mod_mod, recombine] at *

theorem opc_LDRIddnn_LDDR_fields (cpu : CPU) :
    (opc_LDRIddnn_LDDR cpu).BC = (cpu.BC + 65535) % 65536 ∧
    (opc_LDRIddnn_LDDR cpu).DE = (cpu.DE + 65535) % 65536 ∧
    (opc_LDRIddnn_LDDR cpu).HL = (cpu.HL + 65535) % 65536 ∧
    (opc_LDRIddnn_LDDR cpu).F = putFlag (putFlag (putFlag cpu.F 4 false) 1 false) 2
      (false) ∧
    (opc_LDRIddnn_LDDR cpu).mem
      = (fun a => if a = cpu.DE % 65536 then cpu_read cpu cpu.HL % 256 else cpu.mem a) ∧
    (opc_LDRIddnn_LDDR cpu).PC = (if (cpu.BC + 65535) % 65536 ≠ 0 then (cpu.PC + 65534) % 65536 else cpu.PC) ∧
    (opc_LDRIddnn_LDDR cpu).TStates 0xED = (if (cpu.BC + 65535) % 65536 ≠ 0 then 21 else 16) := by
  refine ⟨?_, ?_, ?_, ?_, ?_, ?_, ?_⟩ <;>
    simp only [opc_LDRIddnn_LDDR, RESET_FLAG_HCARRY_eq, RESET_FLAG_ADDSUB_eq,
      RESET_FLAG_PARITY_eq, u16_sub_one, u16_sub_two] <;>
    split <;>
    simp only [CPU.BC, CPU.DE, CPU.HL, CPU.setBC, CPU.setDE, CPU.setHL, CPU.withF, cpu_write,
      cpu_read, setTStates, if_true, Nat.mod_mod, recombine] at * <;>
    (try split) <;> (try omega)

theorem opc_LDRIddnn_CPIR_fields (cpu : CPU) :
    (opc_LDRIddnn_CPIR cpu).BC = (cpu.BC + 65535) % 65536 ∧
    (opc_LDRIddnn_CPIR cpu).HL = (cpu.HL + 1) % 65536 ∧
    (opc_LDRIddnn_CPIR cpu).A = cpu.A ∧
    (opc_LDRIddnn_CPIR cpu).F = putFlag (putFlag (putFlag (putFlag (putFlag cpu.F 7
        (opc_isNegative8 (u8 ((cpu.A : Int) - cpu_read cpu cpu.HL)))) 6
        (decide (u8 ((cpu.A : Int) - cpu_read cpu cpu.HL) = 0))) 4
        ((u8 ((cpu.A : Int) - cpu_read cpu cpu.HL) ^^^ cpu.A
          ^^^ u8 (cNot (cpu_read cpu cpu.HL) + 1)).testBit 4 ^^ true)) 1 true) 2
        (decide ((cpu.BC + 65535) % 65536 ≠ 0)) ∧
    (opc_LDRIddnn_CPIR cpu).PC
      = (if (cpu.BC + 65535) % 65536 ≠ 0 ∧ u8 ((cpu.A : Int) - cpu_read cpu cpu.HL) ≠ 0
          then (cpu.PC + 65534) % 65536 else cpu.PC) ∧
    (opc_LDRIddnn_CPIR cpu).TStates 0xED
      = (if (cpu.BC + 65535) % 65536 ≠ 0 ∧ u8 ((cpu.A : Int) - cpu_read cpu cpu.HL) ≠ 0
          then 21 else 16) ∧
    (opc_LDRIddnn_CPIR cpu).mem = cpu.mem := by
  refine ⟨?_, ?_, ?_, ?_, ?_, ?_, ?_⟩ <;>
    simp only [opc_LDRIddnn_CPIR, opc_testSFlag8_eq, opc_testZFlag8_eq, opc_testHFlag8_eq,
      SET_FLAG_ADDSUB_eq, ite_PARITY_eq, u16_sub_one, u16_sub_two] <;>
    split <;>
    simp only [CPU.BC, CPU.DE, CPU.HL, CPU.setBC, CPU.setDE, CPU.setHL, CPU.withF, cpu_write,
      cpu_read, setTStates, if_true, Nat.mod_mod, recombine] at * <;>
    (try split) <;> (try omega)

theorem opc_LDRIddnn_CPDR_fields (cpu : CPU) :
    (opc_LDRIddnn_CPDR cpu).BC = (cpu.BC + 65535) % 65536 ∧
    (opc_LDRIddnn_CPDR cpu).HL = (cpu.HL + 65535) % 65536 ∧
    (opc_LDRIddnn_CPDR cpu).A = cpu.A ∧
    (opc_LDRIddnn_CPDR cpu).F = putFlag (putFlag (putFlag (putFlag (putFlag cpu.F 7
        (opc_isNegative8 (u8 ((cpu.A : Int) - cpu_read cpu cpu.HL)))) 6
        (decide (u8 ((cpu.A : Int) - cpu_read cpu cpu.HL) = 0))) 4
        ((u8 ((cpu.A : Int) - cpu_read cpu cpu.HL) ^^^ cpu.A
          ^^^ u8 (cNot (cpu_read cpu cpu.HL) + 1)).testBit 4 ^^ true)) 1 true) 2
        (decide ((cpu.BC + 65535) % 65536 ≠ 0)) ∧
    (opc_LDRIddnn_CPDR cpu).PC
      = (if (cpu.BC + 65535) % 65536 ≠ 0 ∧ u8 ((cpu.A : Int) - cpu_read cpu cpu.HL) ≠ 0
          then (cpu.PC + 65534) % 65536 else cpu.PC) ∧
    (opc_LDRIddnn_CPDR cpu).TStates 0xED
      = (if (cpu.BC + 65535) % 65536 ≠ 0 ∧ u8 ((cpu.A : Int) - cpu_read cpu cpu.HL) ≠ 0
          then 21 else 16) ∧
    (opc_LDRIddnn_CPDR cpu).mem = cpu.mem := by
  refine ⟨?_, ?_, ?_, ?_, ?_, ?_, ?_⟩ <;>
    simp only [opc_LDRIddnn_CPDR, opc_testSFlag8_eq, opc_testZFlag8_eq, opc_testHFlag8_eq,
      SET_FLAG_ADDSUB_eq, ite_PARITY_eq, u16_sub_one, u16_sub_two] <;>
    split <;>
    simp only [CPU.BC, CPU.DE, CPU.HL, CPU.setBC, CPU.setDE, CPU.setHL, CPU.withF, cpu_write,
      cpu_read, setTStates, if_true, Nat.mod_mod, recombine] at * <;>
    (try split) <;> (try omega)

/-! ## Dispatch inside `opc_LDRIddnn` -/

theorem afterFetchED_fields (cpu : CPU) :
    (afterFetchED cpu).BC = cpu.BC ∧ (afterFetchED cpu).DE = cpu.DE ∧
    (afterFetchED cpu).HL = cpu.HL ∧ (afterFetchED cpu).A = cpu.A ∧
    (afterFetchED cpu).F = cpu.F ∧ (afterFetchED cpu).mem = cpu.mem ∧
    (afterFetchED cpu).PC = (cpu.PC + 1) % 65536 :=
  ⟨rfl, rfl, rfl, rfl, rfl, rfl, rfl⟩

theorem opc_LDRIddnn_LDI_of (cpu : CPU) (opcode follByte data : Nat)
    (h : cpu_read cpu cpu.PC = 0xA0) :
    opc_LDRIddnn cpu opcode follByte data = some (opc_LDRIddnn_LDI (afterFetchED cpu)) := by
  have e : cpu_read (setTStates cpu 0xED 9) (setTStates cpu 0xED 9).PC = 0xA0 := h
  simp only [opc_LDRIddnn, opc_fetch8, e]
  simp
  rfl

theorem opc_LDRIddnn_LDIR_of (cpu : CPU) (opcode follByte data : Nat)
    (h : cpu_read cpu cpu.PC = 0xB0) :
    opc_LDRIddnn cpu opcode follByte data = some (opc_LDRIddnn_LDIR (afterFetchED cpu)) := by
  have e : cpu_read (setTStates cpu 0xED 9) (setTStates cpu 0xED 9).PC = 0xB0 := h
  simp only [opc_LDRIddnn, opc_fetch8, e]
  simp
  rfl

theorem opc_LDRIddnn_LDD_of (cpu : CPU) (opcode follByte data : Nat)
    (h : cpu_read cpu cpu.PC = 0xA8) (hf : follByte = 0xA8) :
    opc_LDRIddnn cpu opcode follByte data = some (opc_LDRIddnn_LDD (afterFetchED cpu)) := by
  have e : cpu_read (setTStates cpu 0xED 9) (setTStates cpu 0xED 9).PC = 0xA8 := h
  simp only [opc_LDRIddnn, opc_fetch8, e]
  simp [hf]
  rfl

theorem opc_LDRIddnn_LDDR_of (cpu : CPU) (opcode follByte data : Nat)
    (h : cpu_read cpu cpu.PC = 0xB8) (hf : follByte ≠ 0xA8) :
    opc_LDRIddnn cpu opcode follByte data = some (opc_LDRIddnn_LDDR (afterFetchED cpu)) := by
  have e : cpu_read (setTStates cpu 0xED 9) (setTStates cpu 0xED 9).PC = 0xB8 := h
  simp only [opc_LDRIddnn, opc_fetch8, e]
  simp [hf]
  rfl

theorem opc_LDRIddnn_CPIR_of (cpu : CPU) (opcode follByte data : Nat)
    (h : cpu_read cpu cpu.PC = 0xB1) (hf : follByte ≠ 0xA8) :
    opc_LDRIddnn cpu opcode follByte data = some (opc_LDRIddnn_CPIR (afterFetchED cpu)) := by
  have e : cpu_read (setTStates cpu 0xED 9) (setTStates cpu 0xED 9).PC = 0xB1 := h
  simp only [opc_LDRIddnn, opc_fetch8, e]
  simp [hf]
  rfl

theorem opc_LDRIddnn_CPDR_of (cpu : CPU) (opcode follByte data : Nat)
    (h : cpu_read cpu cpu.PC = 0xB9) (hf : follByte ≠ 0xA8) :
    opc_LDRIddnn cpu opcode follByte data = some (opc_LDRIddnn_CPDR (afterFetchED cpu)) := by
  have e : cpu_read (setTStates cpu 0xED 9) (setTStates cpu 0xED 9).PC = 0xB9 := h
  simp only [opc_LDRIddnn, opc_fetch8, e]
  simp [hf]
  rfl

/-! ## Claims C11 to C20 -/

/-- C11, refuted for LDIR on the block copy of the spec (BC = 3, all flags set): one
execution leaves BC = 2, which is not zero, and P/V clear. -/
theorem ldir_clears_pv_while_bc_nonzero :
    (step_ED st_ldir 0xB0 0).map
        (fun r => (r.BC, r.flag FLAG_PARITY, decide (r.flag FLAG_PARITY = true ↔ r.BC ≠ 0)))
      = some (2, false, false) := by
  rfl

/-- C11 as amended: one execution of LDI, LDD, LDIR or LDDR (second opcode byte A0, A8, B0,
B8) decrements BC and clears H and N; LDI and LDD leave P/V set iff BC is non-zero after the
decrement, while LDIR and LDDR clear P/V on every execution. -/
theorem block_load_flags (cpu : CPU) (opcode follByte data : Nat)
    (hf : follByte = cpu_read cpu cpu.PC)
    (hop : cpu_read cpu cpu.PC = 0xA0 ∨ cpu_read cpu cpu.PC = 0xA8 ∨
      cpu_read cpu cpu.PC = 0xB0 ∨ cpu_read cpu cpu.PC = 0xB8) :
    ∃ r, opc_LDRIddnn cpu opcode follByte data = some r ∧
      r.BC = (cpu.BC + 65535) % 65536 ∧
      r.flag FLAG_HCARRY = false ∧ r.flag FLAG_ADDSUB = false ∧
      (cpu_read cpu cpu.PC = 0xA0 ∨ cpu_read cpu cpu.PC = 0xA8 →
        (r.flag FLAG_PARITY = true ↔ r.BC ≠ 0)) ∧
      (cpu_read cpu cpu.PC = 0xB0 ∨ cpu_read cpu cpu.PC = 0xB8 →
        r.flag FLAG_PARITY = false) := by
  obtain ⟨b1, -, -, -, f1, -, -⟩ := afterFetchED_fields cpu
  rcases hop with h | h | h | h
  · obtain ⟨hBC, -, -, hF, -, -, -⟩ := opc_LDRIddnn_LDI_fields (afterFetchED cpu)
    refine ⟨_, opc_LDRIddnn_LDI_of cpu opcode follByte data h, ?_⟩
    simp only [flagH_eq, flagN_eq, flagPV_eq, hBC, hF, b1, f1, testBit_putFlag, h]
    simp
  · obtain ⟨hBC, -, -, hF, -, -, -⟩ := opc_LDRIddnn_LDD_fields (afterFetchED cpu)
    refine ⟨_, opc_LDRIddnn_LDD_of cpu opcode follByte data h (hf.trans h), ?_⟩
    simp only [flagH_eq, flagN_eq, flagPV_eq, hBC, hF, b1, f1, testBit_putFlag, h]
    simp
  · obtain ⟨hBC, -, -, hF, -, -, -⟩ := opc_LDRIddnn_LDIR_fields (afterFetchED cpu)
    refine ⟨_, opc_LDRIddnn_LDIR_of cpu opcode follByte data h, ?_⟩
    simp only [flagH_eq, flagN_eq, flagPV_eq, hBC, hF, b1, f1, testBit_putFlag, h]
    simp
  · obtain ⟨hBC, -, -, hF, -, -, -⟩ := opc_LDRIddnn_LDDR_fields (afterFetchED cpu)
    have hne : follByte ≠ 0xA8 := by rw [hf, h]; decide
    refine ⟨_, opc_LDRIddnn_LDDR_of cpu opcode follByte data h hne, ?_⟩
    simp only [flagH_eq, flagN_eq, flagPV_eq, hBC, hF, b1, f1, testBit_putFlag, h]
    simp

/-- C12: one execution of LDIR (the handler of `ED`, entered with PC on the `B0` byte) copies
the byte at HL to DE, increments HL and DE and decrements BC, each modulo 2^16; when BC is
non-zero afterwards PC is moved back onto the `ED` byte and entry 0xED records 21 T-states,
otherwise PC stays behind the instruction and 16 T-states are recorded. On the block copy of
the spec one step gives mem[0x2000] = mem[0x1000] = 0x11, HL = 0x1001, DE = 0x2001,
BC = 0x0002, PC = 0x0000. -/
theorem ldir_one_execution (cpu : CPU) (opcode follByte data : Nat)
    (hop : cpu_read cpu cpu.PC = 0xB0) :
    (∃ r, opc_LDRIddnn cpu opcode follByte data = some r ∧
      cpu_read r cpu.DE = cpu_read cpu cpu.HL ∧
      (∀ a, a % 65536 ≠ cpu.DE → cpu_read r a = cpu_read cpu a) ∧
      r.HL = (cpu.HL + 1) % 65536 ∧ r.DE = (cpu.DE + 1) % 65536 ∧
      r.BC = (cpu.BC + 65535) % 65536 ∧
      (r.BC ≠ 0 → r.PC = (cpu.PC + 65535) % 65536 ∧ r.TStates 0xED = 21) ∧
      (r.BC = 0 → r.PC = (cpu.PC + 1) % 65536 ∧ r.TStates 0xED = 16)) ∧
    (step_ED st_ldir 0xB0 0).map
        (fun r => (cpu_read r 0x2000, cpu_read r 0x1000, r.HL, r.DE, r.BC, r.PC))
      = some (0x11, 0x11, 0x1001, 0x2001, 0x0002, 0x0000) := by
  refine ⟨?_, rfl⟩
  obtain ⟨b1, d1, h1, -, -, m1, p1⟩ := afterFetchED_fields cpu
  obtain ⟨hBC, hDE, hHL, -, hmem, hPC, hT⟩ := opc_LDRIddnn_LDIR_fields (afterFetchED cpu)
  have hr : cpu_read (afterFetchED cpu) (afterFetchED cpu).HL = cpu_read cpu cpu.HL := rfl
  have hde := DE_lt cpu
  refine ⟨_, opc_LDRIddnn_LDIR_of cpu opcode follByte data hop, ?_, ?_, ?_, ?_, ?_, ?_, ?_⟩
  · simp only [cpu_read, hmem, d1, h1, m1, Nat.mod_mod, if_true]
  · intro a ha
    simp only [cpu_read, hmem, d1, h1, m1, Nat.mod_eq_of_lt hde, if_neg ha]
  · rw [hHL, h1]
  · rw [hDE, d1]
  · rw [hBC, b1]
  · intro hne
    rw [hBC, b1] at hne
    rw [hPC, hT, b1, p1, if_pos hne, if_pos hne]
    exact ⟨by omega, rfl⟩
  · intro he
    rw [hBC, b1] at he
    have hn : ¬ ((cpu.BC + 65535) % 65536 ≠ 0) := by omega
    rw [hPC, hT, b1, p1, if_neg hn, if_neg hn]
    exact ⟨rfl, rfl⟩

/-- A step of the driver on `ED B0`: the opcode fetch, the fetch of the second byte in
`opc_LDRIddnn` and the LDIR branch. -/
theorem step_ED_ldir (cpu : CPU) (follByte data : Nat) (hpc : cpu.PC < 65536)
    (h : ldirAt cpu.PC cpu) :
    ∃ r, step_ED cpu follByte data = some r ∧
      r.BC = (cpu.BC + 65535) % 65536 ∧
      r.PC = (if (cpu.BC + 65535) % 65536 ≠ 0 then cpu.PC else (cpu.PC + 2) % 65536) ∧
      r.TStates 0xED = (if (cpu.BC + 65535) % 65536 ≠ 0 then 21 else 16) ∧
      r.HL = (cpu.HL + 1) % 65536 ∧ r.DE = (cpu.DE + 1) % 65536 ∧
      r.mem = (fun a => if a = cpu.DE % 65536 then cpu_read cpu cpu.HL % 256 else cpu.mem a) := by
  obtain ⟨h0, h1⟩ := h
  have e : cpu_read { cpu with PC := (cpu.PC + 1) % 65536 }
      ({ cpu with PC := (cpu.PC + 1) % 65536 } : CPU).PC = 0xB0 := by
    simp only [cpu_read, Nat.mod_mod] at h1 ⊢
    exact h1
  obtain ⟨hBC, hDE, hHL, -, hmem, hPC, hT⟩ :=
    opc_LDRIddnn_LDIR_fields (afterFetchED { cpu with PC := (cpu.PC + 1) % 65536 })
  have b1 : (afterFetchED { cpu with PC := (cpu.PC + 1) % 65536 }).BC = cpu.BC := rfl
  have d1 : (afterFetchED { cpu with PC := (cpu.PC + 1) % 65536 }).DE = cpu.DE := rfl
  have l1 : (afterFetchED { cpu with PC := (cpu.PC + 1) % 65536 }).HL = cpu.HL := rfl
  have m1 : (afterFetchED { cpu with PC := (cpu.PC + 1) % 65536 }).mem = cpu.mem := rfl
  have r1 : cpu_read (afterFetchED { cpu with PC := (cpu.PC + 1) % 65536 }) cpu.HL
      = cpu_read cpu cpu.HL := rfl
  have p1 : (afterFetchED { cpu with PC := (cpu.PC + 1) % 65536 }).PC
      = ((cpu.PC + 1) % 65536 + 1) % 65536 := rfl
  refine ⟨opc_LDRIddnn_LDIR (afterFetchED { cpu with PC := (cpu.PC + 1) % 65536 }), ?_, ?_, ?_,
    ?_, ?_, ?_, ?_⟩
  · simp only [step_ED, opc_fetch8, h0, if_true]
    exact opc_LDRIddnn_LDIR_of _ _ follByte data e
  · rw [hBC, b1]
  · rw [hPC, b1, p1]
    split <;> omega
  · rw [hT, b1]
  · rw [hHL, l1]
  · rw [hDE, d1]
  · rw [hmem, d1, l1, m1, r1]

theorem ldirCount_step (cpu r : CPU) (n : Nat) (hN : ldirCount cpu = n + 1)
    (hBC : r.BC = (cpu.BC + 65535) % 65536) :
    r.BC = n % 65536 ∧ n < 65536 ∧ (0 < n → ldirCount r = n) := by
  have hlt := BC_lt cpu
  unfold ldirCount at hN ⊢
  rw [hBC]
  split at hN
  · refine ⟨by omega, by omega, fun h => ?_⟩
    rw [if_neg (by omega)]; omega
  · refine ⟨by omega, by omega, fun h => ?_⟩
    rw [if_neg (by omega)]; omega

theorem ldir_run_spec (data : Nat) (n : Nat) :
    ∀ cpu : CPU, cpu.PC < 65536 → ldirCount cpu = n + 1 →
      (∀ k, k ≤ n → ∀ s, ed_steps data k cpu = some s → ldirAt cpu.PC s) →
      (∀ k, k ≤ n → ∃ s, ed_steps data k cpu = some s ∧ s.PC = cpu.PC ∧
        s.BC = (n + 1 - k) % 65536) ∧
      (∃ s, ed_steps data (n + 1) cpu = some s ∧ s.PC = (cpu.PC + 2) % 65536 ∧ s.BC = 0 ∧
        s.TStates 0xED = 16 ∧
        ∀ fuel, n + 1 ≤ fuel → ldir_run data fuel cpu = some (n + 1, s)) ∧
      (∀ fuel, fuel ≤ n → ldir_run data fuel cpu = none) := by
  induction n with
  | zero =>
    intro cpu hpc hN hin
    obtain ⟨r, hr, hBC, hPC, hT, -, -, -⟩ :=
      step_ED_ldir cpu (cpu_read cpu (cpu.PC + 1)) data hpc (hin 0 (le_refl _) cpu rfl)
    obtain ⟨hb, -, -⟩ := ldirCount_step cpu r 0 hN hBC
    have hz : ¬ ((cpu.BC + 65535) % 65536 ≠ 0) := by rw [← hBC, hb]; decide
    rw [if_neg hz] at hPC hT
    have hne : ¬ (r.PC = cpu.PC) := by omega
    have hlt := BC_lt cpu
    refine ⟨fun k hk => ?_, ⟨r, ?_, hPC, by rw [hb], hT, fun fuel hfuel => ?_⟩, fun fuel hf => ?_⟩
    · obtain rfl : k = 0 := by omega
      refine ⟨cpu, rfl, rfl, ?_⟩
      unfold ldirCount at hN
      split at hN <;> omega
    · simp only [ed_steps, hr, Option.some_bind]
    · obtain ⟨f, rfl⟩ : ∃ f, fuel = f + 1 := ⟨fuel - 1, by omega⟩
      simp only [ldir_run, hr, Option.some_bind, if_neg hne]
    · obtain rfl : fuel = 0 := by omega
      rfl
  | succ n ih =>
    intro cpu hpc hN hin
    obtain ⟨r, hr, hBC, hPC, hT, -, -, -⟩ :=
      step_ED_ldir cpu (cpu_read cpu (cpu.PC + 1)) data hpc (hin 0 (Nat.zero_le _) cpu rfl)
    obtain ⟨hb, hn, hcount⟩ := ldirCount_step cpu r (n + 1) hN hBC
    have hz : (cpu.BC + 65535) % 65536 ≠ 0 := by rw [← hBC, hb]; omega
    rw [if_pos hz] at hPC
    have hst : ∀ k, ed_steps data (k + 1) cpu = ed_steps data k r := by
      intro k
      simp only [ed_steps, hr, Option.some_bind]
    obtain ⟨ih1, ⟨s, hs, hsPC, hsBC, hsT, hsrun⟩, ih3⟩ := ih r (by omega) (hcount (by omega))
      (fun k hk s hs => by
        rw [hPC]
        exact hin (k + 1) (by omega) s ((hst k).trans hs))
    have hlt := BC_lt cpu
    refine ⟨fun k hk => ?_, ⟨s, ?_, ?_, hsBC, hsT, fun fuel hfuel => ?_⟩, fun fuel hf => ?_⟩
    · rcases k with _ | k
      · refine ⟨cpu, rfl, rfl, ?_⟩
        unfold ldirCount at hN
        split at hN <;> omega
      · obtain ⟨s', hs', hp', hb'⟩ := ih1 k (by omega)
        refine ⟨s', (hst k).trans hs', hp'.trans hPC, ?_⟩
        have e : n + 1 - k = n + 1 + 1 - (k + 1) := by omega
        rw [hb', e]
    · exact (hst (n + 1)).trans hs
    · rw [hsPC, hPC]
    · obtain ⟨f, rfl⟩ : ∃ f, fuel = f + 1 := ⟨fuel - 1, by omega⟩
      simp only [ldir_run, hr, Option.some_bind, if_pos hPC, hsrun f (by omega),
        Option.map_some']
    · rcases fuel with _ | f
      · rfl
      · simp only [ldir_run, hr, Option.some_bind, if_pos hPC, ih3 f (by omega),
          Option.map_none']

theorem ldirCount_pos (cpu : CPU) : 1 ≤ ldirCount cpu ∧ ldirCount cpu ≤ 65536 := by
  have hlt := BC_lt cpu
  unfold ldirCount
  split <;> omega

theorem ldirAt_of_map (o : Option CPU) (pc : Nat)
    (h : o.map (fun s => (cpu_read s pc, cpu_read s (pc + 1))) = some (0xED, 0xB0)) :
    ∀ s, o = some s → ldirAt pc s := by
  intro s hs
  subst hs
  simp only [Option.map_some', Option.some.injEq, Prod.mk.injEq] at h
  exact h

/-- When source and destination coincide the copy changes nothing that is read. -/
theorem ldir_self_copy (data : Nat) (k : Nat) :
    ∀ cpu : CPU, cpu.PC < 65536 → k < ldirCount cpu → cpu.HL = cpu.DE → ldirAt cpu.PC cpu →
      ∀ s, ed_steps data k cpu = some s → ldirAt cpu.PC s := by
  induction k with
  | zero =>
    intro cpu _ _ _ hat s hs
    cases hs
    exact hat
  | succ k ih =>
    intro cpu hpc hk hhl hat s hs
    obtain ⟨r, hr, hBC, hPC, -, hHL, hDE, hmem⟩ :=
      step_ED_ldir cpu (cpu_read cpu (cpu.PC + 1)) data hpc hat
    obtain ⟨h1, h2⟩ := ldirCount_pos cpu
    obtain ⟨hb, hn, hcount⟩ := ldirCount_step cpu r (ldirCount cpu - 1) (by omega) hBC
    have hz : (cpu.BC + 65535) % 65536 ≠ 0 := by rw [← hBC, hb]; omega
    rw [if_pos hz] at hPC
    have hread : ∀ a, cpu_read r a = cpu_read cpu a := by
      intro a
      have hde := DE_lt cpu
      simp only [cpu_read, hmem, hhl]
      split
      · next h => rw [h, Nat.mod_mod, Nat.mod_mod, Nat.mod_eq_of_lt hde]
      · rfl
    have hat' : ldirAt r.PC r := by
      rw [hPC]
      exact ⟨(hread _).trans hat.1, (hread _).trans hat.2⟩
    have hs' : ed_steps data k r = some s := by
      simp only [ed_steps, hr, Option.some_bind] at hs
      exact hs
    have := ih r (by omega) (by rw [hcount (by omega)]; omega) (by rw [hHL, hDE, hhl]) hat' s hs'
    rw [hPC] at this
    exact this

/-- A copy whose destination addresses stay clear of the two instruction bytes leaves the
instruction in place. -/
theorem ldir_clear_of_instruction (data : Nat) (k : Nat) :
    ∀ cpu : CPU, cpu.PC < 65536 → k < ldirCount cpu → ldirAt cpu.PC cpu →
      (∀ j, j < k → (cpu.DE + j) % 65536 ≠ cpu.PC ∧
        (cpu.DE + j) % 65536 ≠ (cpu.PC + 1) % 65536) →
      ∀ s, ed_steps data k cpu = some s → ldirAt cpu.PC s := by
  induction k with
  | zero =>
    intro cpu _ _ hat _ s hs
    cases hs
    exact hat
  | succ k ih =>
    intro cpu hpc hk hat hclear s hs
    obtain ⟨r, hr, hBC, hPC, -, -, hDE, hmem⟩ :=
      step_ED_ldir cpu (cpu_read cpu (cpu.PC + 1)) data hpc hat
    obtain ⟨h1, h2⟩ := ldirCount_pos cpu
    obtain ⟨hb, hn, hcount⟩ := ldirCount_step cpu r (ldirCount cpu - 1) (by omega) hBC
    have hz : (cpu.BC + 65535) % 65536 ≠ 0 := by rw [← hBC, hb]; omega
    rw [if_pos hz] at hPC
    have h0 := hclear 0 (by omega)
    have hread : ∀ a, a % 65536 ≠ cpu.DE % 65536 → cpu_read r a = cpu_read cpu a := by
      intro a ha
      simp only [cpu_read, hmem, if_neg ha]
    have hat' : ldirAt r.PC r := by
      rw [hPC]
      refine ⟨(hread _ ?_).trans hat.1, (hread _ ?_).trans hat.2⟩
      · have := h0.1; omega
      · have := h0.2; omega
    have hs' : ed_steps data k r = some s := by
      simp only [ed_steps, hr, Option.some_bind] at hs
      exact hs
    have := ih r (by omega) (by rw [hcount (by omega)]; omega) hat' (fun j hj => by
      have := hclear (j + 1) (by omega)
      rw [hDE, hPC]
      omega) s hs'
    rw [hPC] at this
    exact this

/-- C13, refuted for a copy that lands on the instruction: with BC = 3, DE = 0x0001 and the
byte 0x47 at HL the first execution of LDIR replaces its own second byte `B0` and rewinds
PC; the second execution of the `ED` handler then fetches `47` (`LD I,A`), which does not
rewind, and the repetition is over after two executions of the handler with BC = 2, not
after three with BC = 0. -/
theorem ldir_overwriting_its_second_byte_stops :
    ldirCount st_ldir_over = 3 ∧
    (ed_steps 0 1 st_ldir_over).map (fun s => (s.PC, s.BC, cpu_read s 0, cpu_read s 1))
      = some (0, 2, 0xED, 0x47) ∧
    (ed_steps 0 2 st_ldir_over).map (fun s => (s.PC, s.BC)) = some (2, 2) ∧
    (ldir_run 0 3 st_ldir_over).map (fun p => (p.1, p.2.PC, p.2.BC)) = some (2, 2, 2) :=
  ⟨rfl, rfl, rfl, rfl⟩

/-- C13, amended: repeated execution of LDIR ends, provided every execution finds the bytes
`ED B0` at the address of the instruction (hypothesis `hin`: they are read there after each
of the first N - 1 executions, and at the start). With N = BC on entry (65536 when BC = 0)
the driver then makes exactly N executions, each one a whole step with opcode fetch and
handler: after each of the first N - 1 PC is back on the `ED` byte, the N-th leaves PC
behind the instruction with 16 T-states recorded, and BC counts down modulo 2^16 from N to
0 (so from BC = 0 it passes through 0xFFFF). The hypothesis holds whenever the destination
addresses of the first N - 1 copies avoid the two instruction bytes
(`ldir_clear_of_instruction`) and whenever HL = DE (`ldir_self_copy`). -/
theorem ldir_terminates_while_in_place (cpu : CPU) (data : Nat) (hpc : cpu.PC < 65536)
    (hin : ∀ k, k < ldirCount cpu → ∀ s, ed_steps data k cpu = some s → ldirAt cpu.PC s) :
    (∀ k, k < ldirCount cpu → ∃ s, ed_steps data k cpu = some s ∧ s.PC = cpu.PC ∧
      s.BC = (ldirCount cpu - k) % 65536) ∧
    (∃ s, ed_steps data (ldirCount cpu) cpu = some s ∧ s.PC = (cpu.PC + 2) % 65536 ∧
      s.BC = 0 ∧ s.TStates 0xED = 16 ∧
      ∀ fuel, ldirCount cpu ≤ fuel → ldir_run data fuel cpu = some (ldirCount cpu, s)) ∧
    (∀ fuel, fuel < ldirCount cpu → ldir_run data fuel cpu = none) := by
  obtain ⟨h1, h2⟩ := ldirCount_pos cpu
  have e : ldirCount cpu = ldirCount cpu - 1 + 1 := by omega
  obtain ⟨a, b, c⟩ := ldir_run_spec data (ldirCount cpu - 1) cpu hpc e
    (fun k hk => hin k (by omega))
  rw [← e] at a b
  exact ⟨fun k hk => a k (by omega), b, fun fuel hf => c fuel (by omega)⟩


/-- C13 as amended, on the block copy of the spec (BC = 3: three executions) and on a copy
of the whole memory onto itself (BC = 0, HL = DE: 65536 executions). -/
theorem ldir_terminates_while_in_place_witness :
    (st_ldir.PC < 65536 ∧
      (∀ k, k < ldirCount st_ldir → ∀ s, ed_steps 0 k st_ldir = some s →
        ldirAt st_ldir.PC s) ∧
      ∃ s, ldir_run 0 3 st_ldir = some (3, s) ∧ s.BC = 0 ∧ s.PC = 2) ∧
    (st_ldir_self.PC < 65536 ∧
      (∀ k, k < ldirCount st_ldir_self → ∀ s, ed_steps 0 k st_ldir_self = some s →
        ldirAt st_ldir_self.PC s) ∧
      ∃ s, ldir_run 0 65536 st_ldir_self = some (65536, s) ∧ s.BC = 0 ∧ s.PC = 2) := by
  have h3 : ∀ k, k < ldirCount st_ldir → ∀ s, ed_steps 0 k st_ldir = some s →
      ldirAt st_ldir.PC s := by
    intro k hk s hs
    have hk3 : k < 3 := hk
    interval_cases k
    · exact ldirAt_of_map (ed_steps 0 0 st_ldir) 0 rfl s hs
    · exact ldirAt_of_map (ed_steps 0 1 st_ldir) 0 rfl s hs
    · exact ldirAt_of_map (ed_steps 0 2 st_ldir) 0 rfl s hs
  have h0 : ∀ k, k < ldirCount st_ldir_self → ∀ s, ed_steps 0 k st_ldir_self = some s →
      ldirAt st_ldir_self.PC s :=
    fun k hk => ldir_self_copy 0 k st_ldir_self (by decide) hk rfl ⟨rfl, rfl⟩
  obtain ⟨-, ⟨s, -, hp, hb, -, hrun⟩, -⟩ :=
    ldir_terminates_while_in_place st_ldir 0 (by decide) h3
  obtain ⟨-, ⟨s2, -, hp2, hb2, -, hrun2⟩, -⟩ :=
    ldir_terminates_while_in_place st_ldir_self 0 (by decide) h0
  exact ⟨⟨by decide, h3, s, hrun 3 (le_refl _), hb, hp⟩,
    ⟨by decide, h0, s2, hrun2 65536 (le_refl _), hb2, hp2⟩⟩

theorem u8_sub_eq_zero (a m : Nat) (ha : a < 256) (hm : m < 256) :
    u8 ((a : Int) - m) = 0 ↔ a = m := by
  unfold u8
  omega

theorem cp_block_of_fields (cpu r : CPU) (hl : Nat) (hA : cpu.A < 256)
    (hBC : r.BC = (cpu.BC + 65535) % 65536) (hHL : r.HL = hl) (hrA : r.A = cpu.A)
    (hF : r.F = putFlag (putFlag (putFlag (putFlag (putFlag cpu.F 7
        (opc_isNegative8 (u8 ((cpu.A : Int) - cpu_read cpu cpu.HL)))) 6
        (decide (u8 ((cpu.A : Int) - cpu_read cpu cpu.HL) = 0))) 4
        ((u8 ((cpu.A : Int) - cpu_read cpu cpu.HL) ^^^ cpu.A
          ^^^ u8 (cNot (cpu_read cpu cpu.HL) + 1)).testBit 4 ^^ true)) 1 true) 2
        (decide ((cpu.BC + 65535) % 65536 ≠ 0)))
    (hPC : r.PC
      = (if (cpu.BC + 65535) % 65536 ≠ 0 ∧ u8 ((cpu.A : Int) - cpu_read cpu cpu.HL) ≠ 0
          then ((cpu.PC + 1) % 65536 + 65534) % 65536 else (cpu.PC + 1) % 65536))
    (hT : r.TStates 0xED
      = (if (cpu.BC + 65535) % 65536 ≠ 0 ∧ u8 ((cpu.A : Int) - cpu_read cpu cpu.HL) ≠ 0
          then 21 else 16)) :
    r.A = cpu.A ∧ r.HL = hl ∧ r.BC = (cpu.BC + 65535) % 65536 ∧
    (r.PC = (cpu.PC + 65535) % 65536 ↔ (r.BC ≠ 0 ∧ cpu.A ≠ cpu_read cpu cpu.HL)) ∧
    (r.PC = (cpu.PC + 1) % 65536 ↔ ¬ (r.BC ≠ 0 ∧ cpu.A ≠ cpu_read cpu cpu.HL)) ∧
    (r.TStates 0xED = if r.BC ≠ 0 ∧ cpu.A ≠ cpu_read cpu cpu.HL then 21 else 16) ∧
    (r.flag FLAG_ZERO = true ↔ cpu.A = cpu_read cpu cpu.HL) ∧
    r.flag FLAG_ADDSUB = true ∧
    (r.flag FLAG_PARITY = true ↔ r.BC ≠ 0) ∧
    r.flag FLAG_CARRY = cpu.flag FLAG_CARRY := by
  have hm := cpu_read_lt cpu cpu.HL
  have hz := u8_sub_eq_zero cpu.A (cpu_read cpu cpu.HL) hA hm
  have hz' : u8 ((cpu.A : Int) - cpu_read cpu cpu.HL) ≠ 0 ↔ cpu.A ≠ cpu_read cpu cpu.HL :=
    not_congr hz
  refine ⟨hrA, hHL, hBC, ?_, ?_, ?_, ?_, ?_, ?_, ?_⟩
  · rw [hPC, hBC]
    by_cases hb : (cpu.BC + 65535) % 65536 ≠ 0 <;> by_cases ha : cpu.A ≠ cpu_read cpu cpu.HL <;>
      simp only [hb, ha, hz'.mpr, hz', and_self, and_false, false_and, if_true, if_false,
        not_false_eq_true, not_true_eq_false, iff_true, iff_false, ne_eq] <;> omega
  · rw [hPC, hBC]
    by_cases hb : (cpu.BC + 65535) % 65536 ≠ 0 <;> by_cases ha : cpu.A ≠ cpu_read cpu cpu.HL <;>
      simp only [hb, ha, hz'.mpr, hz', and_self, and_false, false_and, if_true, if_false,
        not_false_eq_true, not_true_eq_false, iff_true, iff_false, ne_eq]
    omega
  · rw [hT, hBC]
    simp only [hz']
  · rw [flagZ_eq, hF]
    simp only [testBit_putFlag]
    simp [hz]
  · rw [flagN_eq, hF]
    simp only [testBit_putFlag]
    simp
  · rw [flagPV_eq, hF, hBC]
    simp only [testBit_putFlag]
    simp
  · rw [flagC_eq, flagC_eq, hF]
    simp only [testBit_putFlag]
    simp

/-- C14: one execution of CPIR or CPDR (second opcode byte B1 or B9) leaves A as it is,
moves HL by +1 (CPIR) or -1 (CPDR) and decrements BC; it moves PC back onto the `ED` byte iff
afterwards BC is non-zero and A differs from the byte read at HL, and otherwise leaves PC
behind the instruction; Z is set iff A equals that byte, N is set, P/V is set iff BC is
non-zero after the decrement and the C flag keeps its value. -/
theorem cpir_cpdr_one_execution (cpu : CPU) (opcode follByte data : Nat)
    (hA : cpu.A < 256) (hf : follByte = cpu_read cpu cpu.PC)
    (hop : cpu_read cpu cpu.PC = 0xB1 ∨ cpu_read cpu cpu.PC = 0xB9) :
    ∃ r, opc_LDRIddnn cpu opcode follByte data = some r ∧
      r.A = cpu.A ∧
      r.HL = (if cpu_read cpu cpu.PC = 0xB1 then (cpu.HL + 1) % 65536
        else (cpu.HL + 65535) % 65536) ∧
      r.BC = (cpu.BC + 65535) % 65536 ∧
      (r.PC = (cpu.PC + 65535) % 65536 ↔ (r.BC ≠ 0 ∧ cpu.A ≠ cpu_read cpu cpu.HL)) ∧
      (r.PC = (cpu.PC + 1) % 65536 ↔ ¬ (r.BC ≠ 0 ∧ cpu.A ≠ cpu_read cpu cpu.HL)) ∧
      (r.TStates 0xED = if r.BC ≠ 0 ∧ cpu.A ≠ cpu_read cpu cpu.HL then 21 else 16) ∧
      (r.flag FLAG_ZERO = true ↔ cpu.A = cpu_read cpu cpu.HL) ∧
      r.flag FLAG_ADDSUB = true ∧
      (r.flag FLAG_PARITY = true ↔ r.BC ≠ 0) ∧
      r.flag FLAG_CARRY = cpu.flag FLAG_CARRY := by
  rcases hop with h | h
  · have hne : follByte ≠ 0xA8 := by rw [hf, h]; decide
    obtain ⟨hBC, hHL, hrA, hF, hPC, hT, -⟩ := opc_LDRIddnn_CPIR_fields (afterFetchED cpu)
    refine ⟨_, opc_LDRIddnn_CPIR_of cpu opcode follByte data h hne, ?_⟩
    rw [if_pos h]
    exact cp_block_of_fields cpu _ _ hA hBC hHL hrA hF hPC hT
  · have hne : follByte ≠ 0xA8 := by rw [hf, h]; decide
    obtain ⟨hBC, hHL, hrA, hF, hPC, hT, -⟩ := opc_LDRIddnn_CPDR_fields (afterFetchED cpu)
    refine ⟨_, opc_LDRIddnn_CPDR_of cpu opcode follByte data h hne, ?_⟩
    have hb : ¬ (cpu_read cpu cpu.PC = 0xB1) := by rw [h]; decide
    rw [if_neg hb]
    exact cp_block_of_fields cpu _ _ hA hBC hHL hrA hF hPC hT

/-- C11 as amended, on the block copy of the spec: LDIR leaves BC = 2 with H, N and P/V
clear. -/
theorem block_load_flags_witness :
    cpu_read st_ldir1 st_ldir1.PC = 0xB0 ∧
    ∃ r, opc_LDRIddnn st_ldir1 0xED 0xB0 0 = some r ∧
      r.BC = (st_ldir1.BC + 65535) % 65536 ∧
      r.flag FLAG_HCARRY = false ∧ r.flag FLAG_ADDSUB = false ∧
      r.flag FLAG_PARITY = false :=
  ⟨by decide,
    match block_load_flags st_ldir1 0xED 0xB0 0 (by decide)
        (Or.inr (Or.inr (Or.inl (by decide)))) with
    | ⟨r, h1, h2, h3, h4, _, h6⟩ => ⟨r, h1, h2, h3, h4, h6 (Or.inl (by decide))⟩⟩

/-- C12 on the block copy of the spec, entered with PC on the `B0` byte. -/
theorem ldir_one_execution_witness :
    cpu_read st_ldir1 st_ldir1.PC = 0xB0 ∧
    ∃ r, opc_LDRIddnn st_ldir1 0xED 0xB0 0 = some r ∧
      cpu_read r st_ldir1.DE = cpu_read st_ldir1 st_ldir1.HL ∧
      (∀ a, a % 65536 ≠ st_ldir1.DE → cpu_read r a = cpu_read st_ldir1 a) ∧
      r.HL = (st_ldir1.HL + 1) % 65536 ∧ r.DE = (st_ldir1.DE + 1) % 65536 ∧
      r.BC = (st_ldir1.BC + 65535) % 65536 ∧
      (r.BC ≠ 0 → r.PC = (st_ldir1.PC + 65535) % 65536 ∧ r.TStates 0xED = 21) ∧
      (r.BC = 0 → r.PC = (st_ldir1.PC + 1) % 65536 ∧ r.TStates 0xED = 16) :=
  ⟨by decide, (ldir_one_execution st_ldir1 0xED 0xB0 0 (by decide)).1⟩

/-- C14 on a search that does not match at once: A = 0x22 against the byte 0x11 with
BC = 3. -/
theorem cpir_cpdr_one_execution_witness :
    st_cpir.A < 256 ∧ cpu_read st_cpir st_cpir.PC = 0xB1 ∧
    ∃ r, opc_LDRIddnn st_cpir 0xED 0xB1 0 = some r ∧
      r.A = st_cpir.A ∧
      r.HL = (if cpu_read st_cpir st_cpir.PC = 0xB1 then (st_cpir.HL + 1) % 65536
        else (st_cpir.HL + 65535) % 65536) ∧
      r.BC = (st_cpir.BC + 65535) % 65536 ∧
      (r.PC = (st_cpir.PC + 65535) % 65536 ↔
        (r.BC ≠ 0 ∧ st_cpir.A ≠ cpu_read st_cpir st_cpir.HL)) ∧
      (r.PC = (st_cpir.PC + 1) % 65536 ↔
        ¬ (r.BC ≠ 0 ∧ st_cpir.A ≠ cpu_read st_cpir st_cpir.HL)) ∧
      (r.TStates 0xED = if r.BC ≠ 0 ∧ st_cpir.A ≠ cpu_read st_cpir st_cpir.HL then 21 else 16) ∧
      (r.flag FLAG_ZERO = true ↔ st_cpir.A = cpu_read st_cpir st_cpir.HL) ∧
      r.flag FLAG_ADDSUB = true ∧
      (r.flag FLAG_PARITY = true ↔ r.BC ≠ 0) ∧
      r.flag FLAG_CARRY = st_cpir.flag FLAG_CARRY :=
  ⟨by decide, by decide,
    cpir_cpdr_one_execution st_cpir 0xED 0xB1 0 (by decide) (by decide) (Or.inl (by decide))⟩

theorem FASTSWAP_eq (a b : Nat) (ha : a < 65536) (hb : b < 65536) : FASTSWAP a b = (b, a) := by
  have hab : a ^^^ b < 65536 := Nat.xor_lt_two_pow (n := 16) ha hb
  have e1 : b ^^^ (a ^^^ b) = a := by
    rw [Nat.xor_comm a b, Nat.xor_cancel_left]
  have e2 : a ^^^ b ^^^ a = b := by
    rw [Nat.xor_comm a b, Nat.xor_cancel_right]
  simp only [FASTSWAP, Nat.mod_eq_of_lt hab, e1, Nat.mod_eq_of_lt ha, e2, Nat.mod_eq_of_lt hb]

theorem opc_EXAFAFr_eq (cpu : CPU) (opcode : Nat) (h : cpu.ArFr < 65536) :
    opc_EXAFAFr cpu opcode
      = { cpu with A := cpu.ArFr / 256 % 256, F := cpu.ArFr % 256, ArFr := cpu.AF } := by
  simp only [opc_EXAFAFr, FASTSWAP_eq _ _ (AF_lt cpu) h, CPU.setAF]

theorem opc_EXX_eq (cpu : CPU) (opcode : Nat)
    (hb : cpu.BrCr < 65536) (hd : cpu.DrEr < 65536) (hh : cpu.HrLr < 65536) :
    opc_EXX cpu opcode
      = { cpu with
          B := cpu.BrCr / 256 % 256, C := cpu.BrCr % 256,
          D := cpu.DrEr / 256 % 256, E := cpu.DrEr % 256,
          H := cpu.HrLr / 256 % 256, L := cpu.HrLr % 256,
          BrCr := cpu.BC, DrEr := cpu.DE, HrLr := cpu.HL } := by
  have e1 := FASTSWAP_eq _ _ (BC_lt cpu) hb
  have e2 := FASTSWAP_eq _ _ (DE_lt cpu) hd
  have e3 := FASTSWAP_eq _ _ (HL_lt cpu) hh
  simp only [opc_EXX, CPU.setBC, CPU.setDE, CPU.setHL, CPU.BC, CPU.DE, CPU.HL] at *
  simp only [e1, e2, e3]

/-- C15: on a state whose registers hold values of their width, `EX AF,AF'` exchanges AF
with AF' and `EXX` exchanges BC, DE, HL with BC', DE', HL', nothing else changes, and either
instruction executed twice gives back the state it started from. -/
theorem exchange_involutions (cpu : CPU) (op1 op2 : Nat) (hwf : cpu.WF) (h16 : cpu.WF16) :
    opc_EXAFAFr cpu op1
      = { cpu with A := cpu.ArFr / 256 % 256, F := cpu.ArFr % 256, ArFr := cpu.AF } ∧
    ((opc_EXAFAFr cpu op1).AF = cpu.ArFr ∧ (opc_EXAFAFr cpu op1).ArFr = cpu.AF) ∧
    opc_EXX cpu op1
      = { cpu with
          B := cpu.BrCr / 256 % 256, C := cpu.BrCr % 256,
          D := cpu.DrEr / 256 % 256, E := cpu.DrEr % 256,
          H := cpu.HrLr / 256 % 256, L := cpu.HrLr % 256,
          BrCr := cpu.BC, DrEr := cpu.DE, HrLr := cpu.HL } ∧
    ((opc_EXX cpu op1).BC = cpu.BrCr ∧ (opc_EXX cpu op1).DE = cpu.DrEr ∧
      (opc_EXX cpu op1).HL = cpu.HrLr ∧ (opc_EXX cpu op1).BrCr = cpu.BC ∧
      (opc_EXX cpu op1).DrEr = cpu.DE ∧ (opc_EXX cpu op1).HrLr = cpu.HL) ∧
    opc_EXAFAFr (opc_EXAFAFr cpu op1) op2 = cpu ∧
    opc_EXX (opc_EXX cpu op1) op2 = cpu := by
  obtain ⟨hA, hF, hB, hC, hD, hE, hH, hL, -⟩ := hwf
  obtain ⟨hAF', hBC', hDE', hHL', -⟩ := h16
  have ex1 := opc_EXAFAFr_eq cpu op1 hAF'
  have ex2 := opc_EXX_eq cpu op1 hBC' hDE' hHL'
  refine ⟨ex1, ?_, ex2, ?_, ?_, ?_⟩
  · rw [ex1]
    simp only [CPU.AF]
    exact ⟨by omega, trivial⟩
  · rw [ex2]
    simp only [CPU.BC, CPU.DE, CPU.HL]
    exact ⟨by omega, by omega, by omega, trivial, trivial, trivial⟩
  · rw [opc_EXAFAFr_eq _ op2 (by rw [ex1]; exact AF_lt cpu), ex1]
    cases cpu
    simp only [CPU.AF, CPU.mk.injEq, and_true, true_and] at *
    omega
  · rw [opc_EXX_eq _ op2 (by rw [ex2]; exact BC_lt cpu) (by rw [ex2]; exact DE_lt cpu)
      (by rw [ex2]; exact HL_lt cpu), ex2]
    cases cpu
    simp only [CPU.BC, CPU.DE, CPU.HL, CPU.mk.injEq, and_true, true_and] at *
    omega

/-- C15 on a state whose main and shadow registers all differ. -/
theorem exchange_involutions_witness :
    st_exch.WF ∧ st_exch.WF16 ∧
    opc_EXAFAFr (opc_EXAFAFr st_exch 0x08) 0x08 = st_exch ∧
    opc_EXX (opc_EXX st_exch 0xD9) 0xD9 = st_exch :=
  ⟨by decide, by decide,
    (exchange_involutions st_exch 0x08 0x08 (by decide) (by decide)).2.2.2.2.1,
    (exchange_involutions st_exch 0xD9 0xD9 (by decide) (by decide)).2.2.2.2.2⟩

/-! ## `LD (nn),HL` and `LD HL,(nn)` -/

theorem opc_fetch16_fst_lt (cpu : CPU) : (opc_fetch16 cpu).1 < 65536 :=
  Nat.mod_lt _ (by decide)

theorem opc_LDnnHL_mem (cpu : CPU) (opcode : Nat) :
    (opc_LDnnHL cpu opcode).mem
      = fun a => if a = ((opc_fetch16 cpu).1 + 1) % 65536 then cpu.H % 256
          else if a = (opc_fetch16 cpu).1 % 65536 then cpu.L % 256 else cpu.mem a := rfl

theorem opc_LDHLnn_L (cpu : CPU) (opcode : Nat) :
    (opc_LDHLnn cpu opcode).L = cpu.mem ((opc_fetch16 cpu).1 % 65536) % 256 := rfl

theorem opc_LDHLnn_H (cpu : CPU) (opcode : Nat) :
    (opc_LDHLnn cpu opcode).H = cpu.mem (((opc_fetch16 cpu).1 + 1) % 65536) % 256 := rfl

/-- C16: `LD (nn),HL` stores L at nn and H at nn + 1 (modulo 2^16, so that nn = 0xFFFF puts
H at address 0), changes no other byte of memory and leaves HL as it is; `LD HL,(nn)` run
afterwards with the same nn, from any state holding the memory the store left, loads that
L and H again, so HL has its original value. -/
theorem ld_nn_hl_round_trip (cpu s : CPU) (op1 op2 : Nat)
    (hH : cpu.H < 256) (hL : cpu.L < 256)
    (hmem : s.mem = (opc_LDnnHL cpu op1).mem)
    (hnn : (opc_fetch16 s).1 = (opc_fetch16 cpu).1) :
    cpu_read (opc_LDnnHL cpu op1) (opc_fetch16 cpu).1 = cpu.L ∧
    cpu_read (opc_LDnnHL cpu op1) ((opc_fetch16 cpu).1 + 1) = cpu.H ∧
    (∀ a, a % 65536 ≠ (opc_fetch16 cpu).1 → a % 65536 ≠ ((opc_fetch16 cpu).1 + 1) % 65536 →
      cpu_read (opc_LDnnHL cpu op1) a = cpu_read cpu a) ∧
    (opc_LDnnHL cpu op1).H = cpu.H ∧ (opc_LDnnHL cpu op1).L = cpu.L ∧
    (opc_LDHLnn s op2).L = cpu.L ∧ (opc_LDHLnn s op2).H = cpu.H ∧
    (opc_LDHLnn s op2).HL = cpu.HL := by
  have hlt := opc_fetch16_fst_lt cpu
  have hne : ¬ ((opc_fetch16 cpu).1 % 65536 = ((opc_fetch16 cpu).1 + 1) % 65536) := by omega
  have hLr : (opc_LDHLnn s op2).L = cpu.L := by
    rw [opc_LDHLnn_L, hmem, hnn, opc_LDnnHL_mem]
    simp only [if_neg hne, if_true]
    omega
  have hHr : (opc_LDHLnn s op2).H = cpu.H := by
    rw [opc_LDHLnn_H, hmem, hnn, opc_LDnnHL_mem]
    simp only [if_true]
    omega
  refine ⟨?_, ?_, ?_, rfl, rfl, hLr, hHr, ?_⟩
  · simp only [cpu_read, opc_LDnnHL_mem, if_neg hne, if_true]
    omega
  · simp only [cpu_read, opc_LDnnHL_mem, if_true]
    omega
  · intro a h1 h2
    have h1' : ¬ (a % 65536 = (opc_fetch16 cpu).1 % 65536) := by omega
    simp only [cpu_read, opc_LDnnHL_mem, if_neg h1', if_neg h2]
  · simp only [CPU.HL, hLr, hHr]

/-- C16 at nn = 0xFFFF with HL = 0x1234: L goes to 0xFFFF, H to address 0, and the load
gives HL = 0x1234 again. -/
theorem ld_nn_hl_round_trip_witness :
    (opc_fetch16 st_ldnn).1 = 0xFFFF ∧
    cpu_read (opc_LDnnHL st_ldnn 0x22) 0xFFFF = 0x34 ∧
    cpu_read (opc_LDnnHL st_ldnn 0x22) 0 = 0x12 ∧
    st_ldnn2.HL = 0 ∧
    (opc_LDHLnn st_ldnn2 0x2A).HL = st_ldnn.HL ∧ st_ldnn.HL = 0x1234 :=
  ⟨by decide, by decide, by decide, by decide,
    (ld_nn_hl_round_trip st_ldnn st_ldnn2 0x22 0x2A (by decide) (by decide) rfl
      (by decide)).2.2.2.2.2.2.2,
    by decide⟩

/-! ## The stack and `PUSH qq`, `POP qq` -/

theorem and_255 (v : Nat) : v &&& 0xFF = v % 256 := Nat.and_pow_two_sub_one_eq_mod v 8

theorem shr8_and_255 (v : Nat) : (v >>> 8) &&& 0xFF = v / 256 % 256 := by
  rw [and_255, Nat.shiftRight_eq_div_pow]

theorem shl8_or (hi lo : Nat) (h : lo < 256) : (hi <<< 8) ||| lo = hi * 256 + lo := by
  have e := Nat.mul_add_lt_is_or (i := 8) h hi
  rw [Nat.shiftLeft_eq, Nat.mul_comm hi, ← e]

theorem cpu_stackPush_eq (cpu : CPU) (v : Nat) :
    cpu_stackPush cpu v
      = { cpu with
          SP := (cpu.SP + 65534) % 65536,
          mem := fun a => if a = (cpu.SP + 65534) % 65536 then v % 256
            else if a = (cpu.SP + 65535) % 65536 then v / 256 % 256 else cpu.mem a } := by
  have e1 : u16 ((cpu.SP : Int) - 1) = (cpu.SP + 65535) % 65536 := u16_sub_one cpu.SP
  have e2 : u16 (((cpu.SP + 65535) % 65536 : Nat) - 1 : Int) = (cpu.SP + 65534) % 65536 := by
    rw [u16_sub_one]; omega
  have e3 : v >>> 8 = v / 256 := Nat.shiftRight_eq_div_pow v 8
  simp only [cpu_stackPush, cpu_write, e1, e2, and_255, e3, Nat.mod_mod]

/-- Popping from a state that holds the memory and the stack pointer a push of `v` left
returns `v` and the stack pointer the push started from. -/
theorem cpu_stackPop_push (cpu s : CPU) (v : Nat) (hv : v < 65536) (hSP : cpu.SP < 65536)
    (hm : s.mem = (cpu_stackPush cpu v).mem) (hs : s.SP = (cpu_stackPush cpu v).SP) :
    cpu_stackPop s = (v, { s with SP := cpu.SP }) := by
  rw [cpu_stackPush_eq] at hm hs
  simp only at hm hs
  have n1 : ¬ ((cpu.SP + 65535) % 65536 = (cpu.SP + 65534) % 65536) := by omega
  have n2 : (((cpu.SP + 65534) % 65536 + 1) % 65536) = (cpu.SP + 65535) % 65536 := by omega
  have n3 : ((cpu.SP + 65535) % 65536 + 1) % 65536 = cpu.SP := by omega
  have hlo : v % 256 < 256 := Nat.mod_lt _ (by decide)
  simp only [cpu_stackPop, cpu_read, hm, hs, Nat.mod_mod, if_true, n1, n2, n3, if_false,
    shl8_or _ _ hlo]
  have e : (v / 256 % 256 * 256 + v % 256) % 65536 = v := by omega
  rw [e]

theorem opc_readReg16_QQ_some (cpu : CPU) (c : Nat) (hc : c < 4) :
    ∃ v, opc_readReg16 cpu c .REG16_QQ = some v ∧ v < 65536 := by
  interval_cases c
  · exact ⟨_, rfl, BC_lt cpu⟩
  · exact ⟨_, rfl, DE_lt cpu⟩
  · exact ⟨_, rfl, HL_lt cpu⟩
  · exact ⟨_, rfl, AF_lt cpu⟩

theorem opc_writeReg16_QQ_read (s : CPU) (c v : Nat) (hc : c < 4) (hv : v < 65536) :
    ∃ s2, opc_writeReg16 s c v .REG16_QQ = some s2 ∧ s2.SP = s.SP ∧
      opc_readReg16 s2 c .REG16_QQ = some v := by
  interval_cases c
  · exact ⟨_, rfl, rfl, congrArg some ((BC_setBC s v).trans (Nat.mod_eq_of_lt hv))⟩
  · exact ⟨_, rfl, rfl, congrArg some ((DE_setDE s v).trans (Nat.mod_eq_of_lt hv))⟩
  · exact ⟨_, rfl, rfl, congrArg some ((HL_setHL s v).trans (Nat.mod_eq_of_lt hv))⟩
  · exact ⟨_, rfl, rfl, congrArg some ((AF_setAF s v).trans (Nat.mod_eq_of_lt hv))⟩

theorem opc_writeReg16_QQ_self (cpu : CPU) (m : Nat → Nat) (c v : Nat) (hwf : cpu.WF)
    (hr : opc_readReg16 cpu c .REG16_QQ = some v) :
    opc_writeReg16 { cpu with mem := m } c v .REG16_QQ = some { cpu with mem := m } := by
  obtain ⟨hA, hF, hB, hC, hD, hE, hH, hL, -⟩ := hwf
  unfold opc_readReg16 at hr
  unfold opc_writeReg16
  split at hr <;> simp only [Option.some.injEq, reduceCtorEq] at hr <;> subst hr <;>
    simp only [CPU.setBC, CPU.setDE, CPU.setHL, CPU.setAF, CPU.BC, CPU.DE, CPU.HL, CPU.AF,
      Option.some.injEq, CPU.mk.injEq, and_true, true_and] <;> omega

/-- C17: `PUSH qq` followed by `POP qq` with the same register code (bits 5..4 of the opcode:
0 BC, 1 DE, 2 HL, 3 AF) succeeds and leaves qq and SP with their original values. The push
moves SP down by 2 and stores the high half at SP - 1 and the low half at SP - 2; the pop
restores qq and SP from any state holding that memory and stack pointer, and run directly
after the push on a well-formed state it gives back the original state with only the two
stack bytes written. Code 3 is AF for `REG16_QQ` and SP for `REG16_DD`. -/
theorem push_pop_round_trip (cpu : CPU) (op1 op2 : Nat) (hSP : cpu.SP < 65536)
    (hop : (op2 >>> 4) &&& 0x03 = (op1 >>> 4) &&& 0x03) :
    (∃ v s1, opc_readReg16 cpu ((op1 >>> 4) &&& 0x03) .REG16_QQ = some v ∧
      opc_PUSHqq cpu op1 = some s1 ∧
      s1.SP = (cpu.SP + 65534) % 65536 ∧
      cpu_read s1 (cpu.SP + 65535) = v / 256 ∧ cpu_read s1 (cpu.SP + 65534) = v % 256 ∧
      (∀ s : CPU, s.mem = s1.mem → s.SP = s1.SP →
        ∃ s2, opc_POPqq s op2 = some s2 ∧ s2.SP = cpu.SP ∧
          opc_readReg16 s2 ((op1 >>> 4) &&& 0x03) .REG16_QQ = some v) ∧
      (cpu.WF → opc_POPqq s1 op2 = some { cpu with mem := s1.mem })) ∧
    (opc_readReg16 cpu 3 .REG16_QQ = some cpu.AF ∧
      opc_readReg16 cpu 3 .REG16_DD = some cpu.SP ∧
      (∀ v, opc_writeReg16 cpu 3 v .REG16_QQ = some (cpu.setAF v)) ∧
      (∀ v, opc_writeReg16 cpu 3 v .REG16_DD = some { cpu with SP := v % 65536 })) ∧
    ((0xC5 >>> 4) &&& 0x03 = 0 ∧ (0xD5 >>> 4) &&& 0x03 = 1 ∧ (0xE5 >>> 4) &&& 0x03 = 2 ∧
      (0xF5 >>> 4) &&& 0x03 = 3 ∧ (0xC1 >>> 4) &&& 0x03 = 0 ∧ (0xD1 >>> 4) &&& 0x03 = 1 ∧
      (0xE1 >>> 4) &&& 0x03 = 2 ∧ (0xF1 >>> 4) &&& 0x03 = 3) := by
  refine ⟨?_, ⟨rfl, rfl, fun _ => rfl, fun _ => rfl⟩, by decide⟩
  have hc : (op1 >>> 4) &&& 0x03 < 4 := Nat.lt_succ_of_le Nat.and_le_right
  obtain ⟨v, hv, hlt⟩ := opc_readReg16_QQ_some cpu _ hc
  have hpush : opc_PUSHqq cpu op1 = some (cpu_stackPush cpu v) := by
    simp only [opc_PUSHqq, hv, Option.bind_eq_bind, Option.some_bind]
  refine ⟨v, _, hv, hpush, ?_, ?_, ?_, ?_, ?_⟩
  · rw [cpu_stackPush_eq]
  · rw [cpu_stackPush_eq]
    have n1 : ¬ ((cpu.SP + 65535) % 65536 = (cpu.SP + 65534) % 65536) := by omega
    simp only [cpu_read, if_neg n1, if_true]
    omega
  · rw [cpu_stackPush_eq]
    simp only [cpu_read, if_true]
    omega
  · intro s hm hs
    obtain ⟨s2, h2, hsp2, hr2⟩ :=
      opc_writeReg16_QQ_read { s with SP := cpu.SP } _ v hc hlt
    refine ⟨s2, ?_, hsp2, hr2⟩
    simp only [opc_POPqq, cpu_stackPop_push cpu s v hlt hSP hm hs, hop]
    exact h2
  · intro hwf
    have e : opc_POPqq (cpu_stackPush cpu v) op2
        = opc_writeReg16 { cpu_stackPush cpu v with SP := cpu.SP } ((op1 >>> 4) &&& 0x03) v
            .REG16_QQ := by
      simp only [opc_POPqq, cpu_stackPop_push cpu _ v hlt hSP rfl rfl, hop]
    rw [e]
    exact opc_writeReg16_QQ_self cpu _ _ v hwf hv

/-- C17 for `PUSH AF; POP AF` (F5, F1) with SP = 0x0001, so that the push wraps SP to
0xFFFF: AF = 0xABCD goes to 0x0000 (high half) and 0xFFFF (low half) and comes back. -/
theorem push_pop_round_trip_witness :
    st_push.SP < 65536 ∧ (0xF1 >>> 4) &&& 0x03 = (0xF5 >>> 4) &&& 0x03 ∧
    ∃ v s1, opc_readReg16 st_push ((0xF5 >>> 4) &&& 0x03) .REG16_QQ = some v ∧
      opc_PUSHqq st_push 0xF5 = some s1 ∧
      s1.SP = (st_push.SP + 65534) % 65536 ∧
      cpu_read s1 (st_push.SP + 65535) = v / 256 ∧
      cpu_read s1 (st_push.SP + 65534) = v % 256 ∧
      (∀ s : CPU, s.mem = s1.mem → s.SP = s1.SP →
        ∃ s2, opc_POPqq s 0xF1 = some s2 ∧ s2.SP = st_push.SP ∧
          opc_readReg16 s2 ((0xF5 >>> 4) &&& 0x03) .REG16_QQ = some v) ∧
      (st_push.WF → opc_POPqq s1 0xF1 = some { st_push with mem := s1.mem }) :=
  ⟨by decide, by decide, (push_pop_round_trip st_push 0xF5 0xF1 (by decide) (by decide)).1⟩

/-! ## The accumulator rotates -/

set_option maxRecDepth 100000 in
theorem rlca_A_iterate :
    ∀ a, a < 256 → ∀ k, k < 9 →
      rlca_A^[k] a = rotl8 a k ∧ (1 ≤ k → (rlca_A^[k - 1] a).testBit 7 = a.testBit (8 - k)) := by
  decide

set_option maxRecDepth 100000 in
theorem rotl8_testBit :
    ∀ a, a < 256 → ∀ k, k < 9 → ∀ i, i < 8 →
      (rotl8 a k).testBit i = a.testBit ((i + 8 - k) % 8) := by
  decide

set_option maxRecDepth 100000 in
theorem rotl8_eight : ∀ a, a < 256 → rotl8 a 8 = a := by
  decide

theorem ite_CARRY_eq (c : Prop) [Decidable c] (cpu : CPU) :
    (if c then SET_FLAG_CARRY cpu else RESET_FLAG_CARRY cpu)
      = cpu.withF (putFlag cpu.F 0 (decide c)) := by
  by_cases h : c <;> simp [h] <;> rfl

theorem opc_RLCA_eq (cpu : CPU) (opcode : Nat) :
    opc_RLCA cpu opcode
      = { cpu with
          A := rlca_A cpu.A,
          F := putFlag (putFlag (putFlag cpu.F 0 (cpu.A.testBit 7)) 4 false) 1 false } := by
  have e : decide ((cpu.A >>> 7) &&& 0x1 ≠ 0) = cpu.A.testBit 7 := by
    rw [decide_eq_decide.mpr (shift_and_one_ne_zero cpu.A 7), Bool.decide_eq_true]
  simp only [opc_RLCA, ite_CARRY_eq, RESET_FLAG_HCARRY_eq, RESET_FLAG_ADDSUB_eq, CPU.withF, e,
    rlca_A]

theorem opc_RLCA_iterate (cpu : CPU) (opcode k : Nat) :
    ((fun c => opc_RLCA c opcode)^[k] cpu).A = rlca_A^[k] cpu.A ∧
    (1 ≤ k → ((fun c => opc_RLCA c opcode)^[k] cpu).flag FLAG_CARRY
      = (rlca_A^[k - 1] cpu.A).testBit 7) := by
  induction k with
  | zero => exact ⟨rfl, fun h => absurd h (by decide)⟩
  | succ k ih =>
    rw [Function.iterate_succ_apply', Function.iterate_succ_apply', opc_RLCA_eq]
    refine ⟨by rw [← ih.1], fun _ => ?_⟩
    rw [flagC_eq]
    simp only [testBit_putFlag, Nat.add_sub_cancel, ih.1]
    simp

/-- C18: for every 8-bit value a in A, k executions of RLCA (1 ≤ k ≤ 8) leave A equal to a
rotated left by k bits, bit i of the result being bit (i - k) mod 8 of a, and C equal to
bit 8 - k of a; after eight executions A is a again and C is bit 0 of a. -/
theorem rlca_eight_times (cpu : CPU) (opcode : Nat) (hA : cpu.A < 256) :
    (∀ k, 1 ≤ k → k ≤ 8 →
      ((fun c => opc_RLCA c opcode)^[k] cpu).A = rotl8 cpu.A k ∧
      (∀ i, i < 8 → ((fun c => opc_RLCA c opcode)^[k] cpu).A.testBit i
        = cpu.A.testBit ((i + 8 - k) % 8)) ∧
      ((fun c => opc_RLCA c opcode)^[k] cpu).flag FLAG_CARRY = cpu.A.testBit (8 - k)) ∧
    ((fun c => opc_RLCA c opcode)^[8] cpu).A = cpu.A ∧
    ((fun c => opc_RLCA c opcode)^[8] cpu).flag FLAG_CARRY = cpu.A.testBit 0 := by
  have key : ∀ k, 1 ≤ k → k ≤ 8 →
      ((fun c => opc_RLCA c opcode)^[k] cpu).A = rotl8 cpu.A k ∧
      ((fun c => opc_RLCA c opcode)^[k] cpu).flag FLAG_CARRY = cpu.A.testBit (8 - k) := by
    intro k h1 h8
    obtain ⟨hAk, hCk⟩ := opc_RLCA_iterate cpu opcode k
    obtain ⟨hr, hc⟩ := rlca_A_iterate cpu.A hA k (by omega)
    exact ⟨hAk.trans hr, (hCk h1).trans (hc h1)⟩
  refine ⟨fun k h1 h8 => ?_, ?_, ?_⟩
  · obtain ⟨h, hc⟩ := key k h1 h8
    refine ⟨h, fun i hi => ?_, hc⟩
    rw [h]
    exact rotl8_testBit cpu.A hA k (by omega) i hi
  · rw [(key 8 (by decide) (le_refl 8)).1]
    exact rotl8_eight cpu.A hA
  · exact (key 8 (by decide) (le_refl 8)).2

/-- C18 at A = 0xB4: eight executions of RLCA (opcode 07) give 0xB4 again with C = bit 0 of
0xB4 = 0, and three executions give 0xA5 with C = bit 5 = 1. -/
theorem rlca_eight_times_witness :
    st_rot.A < 256 ∧
    ((fun c => opc_RLCA c 0x07)^[8] st_rot).A = st_rot.A ∧
    ((fun c => opc_RLCA c 0x07)^[8] st_rot).flag FLAG_CARRY = false ∧
    ((fun c => opc_RLCA c 0x07)^[3] st_rot).A = 0xA5 ∧
    ((fun c => opc_RLCA c 0x07)^[3] st_rot).flag FLAG_CARRY = true :=
  ⟨by decide, (rlca_eight_times st_rot 0x07 (by decide)).2.1,
    (rlca_eight_times st_rot 0x07 (by decide)).2.2,
    ((rlca_eight_times st_rot 0x07 (by decide)).1 3 (by decide) (by decide)).1,
    ((rlca_eight_times st_rot 0x07 (by decide)).1 3 (by decide) (by decide)).2.2⟩

theorem and_0x80_ne_zero (x : Nat) : (x &&& 0x80 ≠ 0) ↔ x.testBit 7 = true := by
  have e := Nat.and_two_pow x 7
  simp only [Nat.reducePow] at e
  rw [e]
  cases x.testBit 7 <;> simp

theorem and_1_ne_zero (x : Nat) : (x &&& 0x1 ≠ 0) ↔ x.testBit 0 = true := by
  have e := Nat.and_two_pow x 0
  simp only [Nat.reducePow, Nat.mul_one] at e
  rw [e]
  cases x.testBit 0 <;> simp

theorem opc_RLA_eq (cpu : CPU) (opcode : Nat) :
    opc_RLA cpu opcode
      = { cpu with
          A := ((cpu.A <<< 1) ||| GET_FLAG_CARRY cpu) % 256,
          F := putFlag (putFlag (putFlag cpu.F 0 (cpu.A.testBit 7)) 4 false) 1 false } := by
  have e : decide (cpu.A &&& 0x80 ≠ 0) = cpu.A.testBit 7 := by
    rw [decide_eq_decide.mpr (and_0x80_ne_zero cpu.A), Bool.decide_eq_true]
  simp only [opc_RLA, ite_CARRY_eq, RESET_FLAG_HCARRY_eq, RESET_FLAG_ADDSUB_eq, CPU.withF, e]

theorem opc_RRCA_eq (cpu : CPU) (opcode : Nat) :
    opc_RRCA cpu opcode
      = { cpu with
          A := ((cpu.A >>> 1) ||| ((cpu.A &&& 0x1) <<< 7)) % 256,
          F := putFlag (putFlag (putFlag cpu.F 0 (cpu.A.testBit 0)) 4 false) 1 false } := by
  have e : decide (cpu.A &&& 0x1 ≠ 0) = cpu.A.testBit 0 := by
    rw [decide_eq_decide.mpr (and_1_ne_zero cpu.A), Bool.decide_eq_true]
  simp only [opc_RRCA, ite_CARRY_eq, RESET_FLAG_HCARRY_eq, RESET_FLAG_ADDSUB_eq, CPU.withF, e]

theorem opc_RRA_eq (cpu : CPU) (opcode : Nat) :
    opc_RRA cpu opcode
      = { cpu with
          A := ((cpu.A >>> 1) ||| (GET_FLAG_CARRY cpu <<< 7)) % 256,
          F := putFlag (putFlag (putFlag cpu.F 0 (cpu.A.testBit 0)) 4 false) 1 false } := by
  have e : decide (cpu.A &&& 0x1 ≠ 0) = cpu.A.testBit 0 := by
    rw [decide_eq_decide.mpr (and_1_ne_zero cpu.A), Bool.decide_eq_true]
  simp only [opc_RRA, ite_CARRY_eq, RESET_FLAG_HCARRY_eq, RESET_FLAG_ADDSUB_eq, CPU.withF, e]

/-- A state that differs from `cpu` in A and in the C, H and N bits of F, with H and N clear
and C holding `out`, meets `RotateSpec`. -/
theorem rotateSpec_of (cpu : CPU) (a : Nat) (out : Bool) (hF : cpu.F < 256) :
    RotateSpec cpu out
      { cpu with A := a, F := putFlag (putFlag (putFlag cpu.F 0 out) 4 false) 1 false } := by
  refine ⟨rfl, ?_, ?_, ?_, ?_, ?_, ?_, ?_⟩
  · rw [flagH_eq]; simp only [testBit_putFlag]; simp
  · rw [flagN_eq]; simp only [testBit_putFlag]; simp
  · rw [flagC_eq]; simp only [testBit_putFlag]; simp
  · rw [flagS_eq, flagS_eq]; simp only [testBit_putFlag]; simp
  · rw [flagZ_eq, flagZ_eq]; simp only [testBit_putFlag]; simp
  · rw [flagPV_eq, flagPV_eq]; simp only [testBit_putFlag]; simp
  · intro j h0 h1 h4
    simp only [testBit_putFlag, if_neg (Ne.symm h0), if_neg (Ne.symm h1), if_neg (Ne.symm h4)]
    by_cases hj : j < 8
    · simp [hj]
    · have h : cpu.F.testBit j = false :=
        Nat.testBit_lt_two_pow (lt_of_lt_of_le hF (by
          calc 256 = 2 ^ 8 := by norm_num
            _ ≤ 2 ^ j := Nat.pow_le_pow_right (by decide) (by omega)))
      simp [hj, h]

set_option maxRecDepth 100000 in
theorem rotate_values :
    ∀ a, a < 256 → ∀ c, c < 2 →
      ((a <<< 1) ||| c) % 256 = 2 * a % 256 + c ∧
      ((a >>> 1) ||| (c <<< 7)) % 256 = a / 2 + 128 * c ∧
      ((a >>> 1) ||| ((a &&& 0x1) <<< 7)) % 256 = a / 2 + 128 * (a % 2) ∧
      rlca_A a = 2 * a % 256 + a / 128 := by
  decide

/-- C19: each of RLCA, RLA, RRCA and RRA changes only A and F, and within F only the H, N
and C bits: H and N are cleared and C receives the bit rotated out of A, bit 7 for RLCA and
RLA and bit 0 for RRCA and RRA; S, Z, P/V and the two unused bits of F, every other
register, PC, SP and memory are unchanged. The new A is the old one shifted by one place
with the bit rotated out (RLCA, RRCA) or the old C flag (RLA, RRA) shifted in. -/
theorem accumulator_rotates_frame (cpu : CPU) (opcode : Nat)
    (hA : cpu.A < 256) (hF : cpu.F < 256) :
    (RotateSpec cpu (cpu.A.testBit 7) (opc_RLCA cpu opcode) ∧
      (opc_RLCA cpu opcode).A = 2 * cpu.A % 256 + cpu.A / 128) ∧
    (RotateSpec cpu (cpu.A.testBit 7) (opc_RLA cpu opcode) ∧
      (opc_RLA cpu opcode).A = 2 * cpu.A % 256 + (cpu.flag FLAG_CARRY).toNat) ∧
    (RotateSpec cpu (cpu.A.testBit 0) (opc_RRCA cpu opcode) ∧
      (opc_RRCA cpu opcode).A = cpu.A / 2 + 128 * (cpu.A % 2)) ∧
    (RotateSpec cpu (cpu.A.testBit 0) (opc_RRA cpu opcode) ∧
      (opc_RRA cpu opcode).A = cpu.A / 2 + 128 * (cpu.flag FLAG_CARRY).toNat) := by
  have hc : GET_FLAG_CARRY cpu < 2 := Nat.lt_succ_of_le (GET_FLAG_CARRY_le cpu)
  obtain ⟨v1, v2, v3, v4⟩ := rotate_values cpu.A hA (GET_FLAG_CARRY cpu) hc
  rw [opc_RLCA_eq, opc_RLA_eq, opc_RRCA_eq, opc_RRA_eq]
  refine ⟨⟨rotateSpec_of cpu _ _ hF, v4⟩, ⟨rotateSpec_of cpu _ _ hF, ?_⟩,
    ⟨rotateSpec_of cpu _ _ hF, v3⟩, ⟨rotateSpec_of cpu _ _ hF, ?_⟩⟩
  · rw [← GET_FLAG_CARRY_eq]; exact v1
  · rw [← GET_FLAG_CARRY_eq]; exact v2

/-- C19 at A = 0xB4, F = 0xD7 (S, Z, H, P/V, N and C set): RLA gives A = 0x69 and F = 0xC5,
RRA gives A = 0xDA and F = 0xC4. -/
theorem accumulator_rotates_frame_witness :
    st_rot.A < 256 ∧ st_rot.F < 256 ∧
    RotateSpec st_rot true (opc_RLA st_rot 0x17) ∧ (opc_RLA st_rot 0x17).A = 0x69 ∧
    (opc_RLA st_rot 0x17).F = 0xC5 ∧
    RotateSpec st_rot false (opc_RRA st_rot 0x1F) ∧ (opc_RRA st_rot 0x1F).A = 0xDA ∧
    (opc_RRA st_rot 0x1F).F = 0xC4 :=
  ⟨by decide, by decide,
    (accumulator_rotates_frame st_rot 0x17 (by decide) (by decide)).2.1.1,
    (accumulator_rotates_frame st_rot 0x17 (by decide) (by decide)).2.1.2,
    by decide,
    (accumulator_rotates_frame st_rot 0x1F (by decide) (by decide)).2.2.2.1,
    (accumulator_rotates_frame st_rot 0x1F (by decide) (by decide)).2.2.2.2,
    by decide⟩

/-! ## Register pairs and their halves -/

theorem shr8 (v : Nat) : v >>> 8 = v / 256 := Nat.shiftRight_eq_div_pow v 8

/-- C20: for each pair RP among BC, DE, HL (code rp = 0, 1, 2, whose halves have the 8-bit
codes 2 rp and 2 rp + 1) and every 16-bit v, after `opc_writeReg16` writes v to RP
`opc_readReg16` of RP returns v and `opc_readReg` returns v >> 8 for the high half and
v & 0xFF for the low half; after `opc_writeReg` writes an 8-bit x to one half, the pair
read through `opc_readReg16` has x in that half and its other half unchanged. -/
theorem pair_half_views (cpu : CPU) (rp v x : Nat) (t : reg16_t)
    (hrp : rp < 3) (hv : v < 65536) (hx : x < 256) :
    (∃ s, opc_writeReg16 cpu rp v t = some s ∧
      opc_readReg16 s rp t = some v ∧
      opc_readReg s (2 * rp) = some (v >>> 8) ∧
      opc_readReg s (2 * rp + 1) = some (v &&& 0xFF)) ∧
    (∃ s old new, opc_writeReg cpu (2 * rp) x = some s ∧
      opc_readReg16 cpu rp t = some old ∧ opc_readReg16 s rp t = some new ∧
      new >>> 8 = x ∧ new &&& 0xFF = old &&& 0xFF) ∧
    (∃ s old new, opc_writeReg cpu (2 * rp + 1) x = some s ∧
      opc_readReg16 cpu rp t = some old ∧ opc_readReg16 s rp t = some new ∧
      new &&& 0xFF = x ∧ new >>> 8 = old >>> 8) := by
  interval_cases rp
  · refine ⟨⟨_, rfl, ?_, ?_, ?_⟩, ⟨_, _, _, rfl, rfl, rfl, ?_, ?_⟩, ⟨_, _, _, rfl, rfl, rfl, ?_, ?_⟩⟩ <;>
      simp only [opc_readReg16, opc_readReg, CPU.setBC, CPU.BC, shr8, and_255,
        Option.some.injEq] <;> omega
  · refine ⟨⟨_, rfl, ?_, ?_, ?_⟩, ⟨_, _, _, rfl, rfl, rfl, ?_, ?_⟩, ⟨_, _, _, rfl, rfl, rfl, ?_, ?_⟩⟩ <;>
      simp only [opc_readReg16, opc_readReg, CPU.setDE, CPU.DE, shr8, and_255,
        Option.some.injEq] <;> omega
  · refine ⟨⟨_, rfl, ?_, ?_, ?_⟩, ⟨_, _, _, rfl, rfl, rfl, ?_, ?_⟩, ⟨_, _, _, rfl, rfl, rfl, ?_, ?_⟩⟩ <;>
      simp only [opc_readReg16, opc_readReg, CPU.setHL, CPU.HL, shr8, and_255,
        Option.some.injEq] <;> omega

/-- C20 for DE (code 1, halves D = 2 and E = 3): writing 0xBEEF to DE gives D = 0xBE and
E = 0xEF, and writing 0x56 to D of DE = 0x1234 gives DE = 0x5634. -/
theorem pair_half_views_witness :
    (1 < 3 ∧ 0xBEEF < 65536 ∧ 0x56 < 256) ∧
    (∃ s, opc_writeReg16 st_pair 1 0xBEEF .REG16_DD = some s ∧
      opc_readReg16 s 1 .REG16_DD = some 0xBEEF ∧
      opc_readReg s 2 = some 0xBE ∧ opc_readReg s 3 = some 0xEF) ∧
    (opc_writeReg st_pair 2 0x56).bind (fun s => opc_readReg16 s 1 .REG16_DD) = some 0x5634 :=
  ⟨by decide, (pair_half_views st_pair 1 0xBEEF 0x56 .REG16_DD (by decide) (by decide)
    (by decide)).1, by decide⟩

/-! ## Claims C21 to C30 -/

/-- C21: `opc_fetch8` returns the byte at PC and leaves PC = (PC + 1) mod 2^16 with nothing
else changed; `opc_fetch16`, its two fetches made in the order in which they are written,
returns the byte at PC as low half and the byte at PC + 1 (address modulo 2^16) as high half
and leaves PC = (PC + 2) mod 2^16 with nothing else changed. With PC = 0xFFFF the high half
comes from address 0 and PC ends at 1. -/
theorem fetch_little_endian (cpu : CPU) :
    ((opc_fetch8 cpu).1 = cpu_read cpu cpu.PC ∧
      (opc_fetch8 cpu).2 = { cpu with PC := (cpu.PC + 1) % 65536 }) ∧
    ((opc_fetch16 cpu).1 = cpu_read cpu cpu.PC ||| (cpu_read cpu (cpu.PC + 1) <<< 8) ∧
      (opc_fetch16 cpu).1 % 256 = cpu_read cpu cpu.PC ∧
      (opc_fetch16 cpu).1 / 256 = cpu_read cpu (cpu.PC + 1) ∧
      (opc_fetch16 cpu).2 = { cpu with PC := (cpu.PC + 2) % 65536 }) ∧
    ((opc_fetch16 st_fetch).1 = 0x1234 ∧ (opc_fetch16 st_fetch).2.PC = 0x0001) := by
  have h0 := cpu_read_lt cpu cpu.PC
  have h1 := cpu_read_lt cpu (cpu.PC + 1)
  have e : ((cpu.PC + 1) % 65536 + 1) % 65536 = (cpu.PC + 2) % 65536 := by omega
  have hr : cpu_read { cpu with PC := (cpu.PC + 1) % 65536 } ((cpu.PC + 1) % 65536)
      = cpu_read cpu (cpu.PC + 1) := by
    simp only [cpu_read, Nat.mod_mod]
  have hv : (opc_fetch16 cpu).1
      = (cpu_read cpu cpu.PC ||| (cpu_read cpu (cpu.PC + 1) <<< 8)) % 65536 := by
    simp only [opc_fetch16, opc_fetch8, hr]
  have hor : cpu_read cpu cpu.PC ||| (cpu_read cpu (cpu.PC + 1) <<< 8)
      = cpu_read cpu (cpu.PC + 1) * 256 + cpu_read cpu cpu.PC := by
    rw [Nat.lor_comm, shl8_or _ _ h0]
  refine ⟨⟨rfl, rfl⟩, ⟨?_, ?_, ?_, ?_⟩, by decide, by decide⟩
  · rw [hv, hor]; omega
  · rw [hv, hor]; omega
  · rw [hv, hor]; omega
  · simp only [opc_fetch16, opc_fetch8, e]

/-- With the right operand of `|` evaluated first the two halves change places. -/
theorem opc_fetch16_rightFirst_eq (cpu : CPU) :
    (opc_fetch16_rightFirst cpu).1
      = cpu_read cpu (cpu.PC + 1) ||| (cpu_read cpu cpu.PC <<< 8) ∧
    (opc_fetch16_rightFirst st_fetch).1 = 0x3412 := by
  have h0 := cpu_read_lt cpu cpu.PC
  have h1 := cpu_read_lt cpu (cpu.PC + 1)
  have hr : cpu_read { cpu with PC := (cpu.PC + 1) % 65536 } ((cpu.PC + 1) % 65536)
      = cpu_read cpu (cpu.PC + 1) := by
    simp only [cpu_read, Nat.mod_mod]
  refine ⟨?_, by decide⟩
  simp only [opc_fetch16_rightFirst, opc_fetch8, hr]
  rw [Nat.lor_comm, shl8_or _ _ h1]
  omega

/-- C22, refuted on `LD A,R` at address 0 with R = 0x7F: a fetch through `opc_fetch8` leaves
R = 0x7F where a bump of the low seven bits would give 0x00, a second fetch leaves it again,
and the instruction, which fetches its two bytes that way, loads A = 0x7F and ends with
R = 0x7F. -/
theorem fetch_does_not_bump_R :
    st_ldar.R = 0x7F ∧ (opc_fetch8 st_ldar).2.R = 0x7F ∧
    (opc_fetch8 st_ldar).2.R ≠ (st_ldar.R &&& 0x80) ||| ((st_ldar.R + 1) % 128) ∧
    (opc_fetch8 (opc_fetch8 st_ldar).2).2.R = 0x7F ∧
    (step_ED st_ldar 0x5F 0).map (fun r => (r.A, r.R)) = some (0x7F, 0x7F) :=
  ⟨rfl, rfl, by decide, rfl, rfl⟩

/-- C22, amended: `opc_fetch8` returns the byte at PC and moves PC on by one modulo 2^16, and
that is all it does: R, all eight bits of it, is left as it is, by `opc_fetch8` and by
`opc_fetch16`, so that `LD A,R` run from address 0 with R = 0x7F loads 0x7F, not the 0x01
that two fetches bumping the low seven bits of R would give. -/
theorem fetch_leaves_R (cpu : CPU) :
    (opc_fetch8 cpu).1 = cpu_read cpu cpu.PC ∧
    (opc_fetch8 cpu).2 = { cpu with PC := (cpu.PC + 1) % 65536 } ∧
    (opc_fetch8 cpu).2.R = cpu.R ∧ (opc_fetch16 cpu).2.R = cpu.R ∧
    (step_ED st_ldar 0x5F 0).map (fun r => (r.A, r.R)) = some (0x7F, 0x7F) :=
  ⟨rfl, rfl, rfl, rfl, rfl⟩

/-- C24, as the code has it: `opc_DAA` ends the program for every state, in particular for
A = 0x3C with N = H = C = 0. -/
theorem daa_aborts (cpu : CPU) (opcode : Nat) :
    opc_DAA cpu opcode = none ∧ opc_DAA { cpu_zero with A := 0x3C } 0x27 = none :=
  ⟨rfl, rfl⟩

/-! ## `LD A,I` and `LD A,R` -/

theorem ite_SIGN_eq (c : Prop) [Decidable c] (cpu : CPU) :
    (if c then SET_FLAG_SIGN cpu else RESET_FLAG_SIGN cpu)
      = cpu.withF (putFlag cpu.F 7 (decide c)) := by
  by_cases h : c <;> simp [h] <;> rfl

theorem ite_ZERO_eq (c : Prop) [Decidable c] (cpu : CPU) :
    (if c then SET_FLAG_ZERO cpu else RESET_FLAG_ZERO cpu)
      = cpu.withF (putFlag cpu.F 6 (decide c)) := by
  by_cases h : c <;> simp [h] <;> rfl

/-- The two loads from I and R, each as one update of A and F. -/
theorem ld_a_ir_eq (cpu : CPU) :
    opc_LDRIddnn_LDAI cpu
      = { cpu with
          A := cpu.I,
          F := putFlag (putFlag (putFlag (putFlag (putFlag cpu.F 7 (opc_isNegative8 cpu.I)) 6
            (decide (cpu.I = 0))) 4 false) 1 false) 2 (decide (cpu.IFF2 ≠ 0)) } ∧
    opc_LDRIddnn_LDAR cpu
      = { cpu with
          A := cpu.R,
          F := putFlag (putFlag (putFlag (putFlag (putFlag cpu.F 7 (opc_isNegative8 cpu.R)) 6
            (decide (cpu.R = 0))) 4 false) 1 false) 2 (decide (cpu.IFF2 ≠ 0)) } := by
  constructor
  · simp only [opc_LDRIddnn_LDAI, ite_SIGN_eq, ite_ZERO_eq, ite_PARITY_eq, RESET_FLAG_HCARRY_eq,
      RESET_FLAG_ADDSUB_eq, CPU.withF, Bool.decide_eq_true]
  · simp only [opc_LDRIddnn_LDAR, ite_SIGN_eq, ite_ZERO_eq, ite_PARITY_eq, RESET_FLAG_HCARRY_eq,
      RESET_FLAG_ADDSUB_eq, CPU.withF, Bool.decide_eq_true]

theorem opc_LDRIddnn_LDAI_of (cpu : CPU) (opcode follByte data : Nat)
    (h : cpu_read cpu cpu.PC = 0x57) :
    opc_LDRIddnn cpu opcode follByte data = some (opc_LDRIddnn_LDAI (afterFetchED cpu)) := by
  have e : cpu_read (setTStates cpu 0xED 9) (setTStates cpu 0xED 9).PC = 0x57 := h
  simp only [opc_LDRIddnn, opc_fetch8, e]
  simp
  rfl

theorem opc_LDRIddnn_LDAR_of (cpu : CPU) (opcode follByte data : Nat)
    (h : cpu_read cpu cpu.PC = 0x5F) :
    opc_LDRIddnn cpu opcode follByte data = some (opc_LDRIddnn_LDAR (afterFetchED cpu)) := by
  have e : cpu_read (setTStates cpu 0xED 9) (setTStates cpu 0xED 9).PC = 0x5F := h
  simp only [opc_LDRIddnn, opc_fetch8, e]
  simp
  rfl

/-- The flags the claim names, read off a flag byte built by the five updates of the two
loads. -/
theorem ld_a_ir_flags (f v : Nat) (iff2 : Nat) (hv : v < 256) (r : CPU)
    (hF : r.F = putFlag (putFlag (putFlag (putFlag (putFlag f 7 (opc_isNegative8 v)) 6
      (decide (v = 0))) 4 false) 1 false) 2 (decide (iff2 ≠ 0))) :
    (r.flag FLAG_PARITY = true ↔ iff2 ≠ 0) ∧ r.flag FLAG_SIGN = v.testBit 7 ∧
    (r.flag FLAG_ZERO = true ↔ v = 0) ∧ r.flag FLAG_HCARRY = false ∧
    r.flag FLAG_ADDSUB = false ∧ r.F.testBit 0 = f.testBit 0 := by
  rw [flagPV_eq, flagS_eq, flagZ_eq, flagH_eq, flagN_eq, hF, opc_isNegative8_eq v hv]
  simp only [testBit_putFlag]
  simp

/-- C23: `LD A,I` (second byte 57) and `LD A,R` (second byte 5F) copy I, respectively R,
into A, leave P/V set iff IFF2 is non-zero, S equal to bit 7 of the value copied and Z set
iff it is 0, clear H and N, leave the C flag as it was, and change no register other than
A, F and PC. -/
theorem ld_a_i_and_ld_a_r (cpu : CPU) (opcode follByte data : Nat)
    (hI : cpu.I < 256) (hR : cpu.R < 256) :
    (cpu_read cpu cpu.PC = 0x57 →
      ∃ r, opc_LDRIddnn cpu opcode follByte data = some r ∧ r.A = cpu.I ∧
        (r.flag FLAG_PARITY = true ↔ cpu.IFF2 ≠ 0) ∧ r.flag FLAG_SIGN = cpu.I.testBit 7 ∧
        (r.flag FLAG_ZERO = true ↔ cpu.I = 0) ∧ r.flag FLAG_HCARRY = false ∧
        r.flag FLAG_ADDSUB = false ∧ r.flag FLAG_CARRY = cpu.flag FLAG_CARRY ∧
        r = { afterFetchED cpu with A := r.A, F := r.F }) ∧
    (cpu_read cpu cpu.PC = 0x5F →
      ∃ r, opc_LDRIddnn cpu opcode follByte data = some r ∧ r.A = cpu.R ∧
        (r.flag FLAG_PARITY = true ↔ cpu.IFF2 ≠ 0) ∧ r.flag FLAG_SIGN = cpu.R.testBit 7 ∧
        (r.flag FLAG_ZERO = true ↔ cpu.R = 0) ∧ r.flag FLAG_HCARRY = false ∧
        r.flag FLAG_ADDSUB = false ∧ r.flag FLAG_CARRY = cpu.flag FLAG_CARRY ∧
        r = { afterFetchED cpu with A := r.A, F := r.F }) := by
  obtain ⟨eI, eR⟩ := ld_a_ir_eq (afterFetchED cpu)
  constructor
  · intro h
    refine ⟨_, opc_LDRIddnn_LDAI_of cpu opcode follByte data h, ?_⟩
    obtain ⟨p, s, z, hh, n, c⟩ :=
      ld_a_ir_flags cpu.F cpu.I cpu.IFF2 hI (opc_LDRIddnn_LDAI (afterFetchED cpu))
        (by rw [eI]; rfl)
    refine ⟨by rw [eI]; rfl, p, s, z, hh, n, ?_, by rw [eI]⟩
    rw [flagC_eq, flagC_eq, c]
  · intro h
    refine ⟨_, opc_LDRIddnn_LDAR_of cpu opcode follByte data h, ?_⟩
    obtain ⟨p, s, z, hh, n, c⟩ :=
      ld_a_ir_flags cpu.F cpu.R cpu.IFF2 hR (opc_LDRIddnn_LDAR (afterFetchED cpu))
        (by rw [eR]; rfl)
    refine ⟨by rw [eR]; rfl, p, s, z, hh, n, ?_, by rw [eR]⟩
    rw [flagC_eq, flagC_eq, c]

/-- C23 on a state with I = 0x80, IFF2 = 1 and the flag byte 0x13: `LD A,I` gives
A = 0x80 and F = 0x85 (S, P/V and C set; Z, H and N clear). -/
theorem ld_a_i_and_ld_a_r_witness :
    st_ldai1.I < 256 ∧ st_ldai1.R < 256 ∧ cpu_read st_ldai1 st_ldai1.PC = 0x57 ∧
    (opc_LDRIddnn st_ldai1 0xED 0x57 0).map (fun r => (r.A, r.F)) = some (0x80, 0x85) ∧
    ∃ r, opc_LDRIddnn st_ldai1 0xED 0x57 0 = some r ∧ r.A = st_ldai1.I ∧
      (r.flag FLAG_PARITY = true ↔ st_ldai1.IFF2 ≠ 0) ∧
      r.flag FLAG_SIGN = st_ldai1.I.testBit 7 ∧
      (r.flag FLAG_ZERO = true ↔ st_ldai1.I = 0) ∧ r.flag FLAG_HCARRY = false ∧
      r.flag FLAG_ADDSUB = false ∧ r.flag FLAG_CARRY = st_ldai1.flag FLAG_CARRY ∧
      r = { afterFetchED st_ldai1 with A := r.A, F := r.F } :=
  ⟨by decide, by decide, by decide, by rfl,
    (ld_a_i_and_ld_a_r st_ldai1 0xED 0x57 0 (by decide) (by decide)).1 (by decide)⟩

/-! ## Relative and conditional jumps -/

theorem extended_o_eq (e : Nat) (he : e < 256) :
    extended_o e = if e < 128 then e else e + 0xFF00 := by
  have h := opc_isNegative8_eq e he
  have hb : e.testBit 7 = decide (128 ≤ e) := by
    rw [Nat.testBit_to_div_mod]
    simp only [Nat.reducePow]
    by_cases h128 : 128 ≤ e
    · have : e / 128 % 2 = 1 := by omega
      simp [this, h128]
    · have : e / 128 % 2 = 0 := by omega
      simp [this, h128]
  have hor : e ||| 0xFF00 = e + 0xFF00 := by
    have := Nat.mul_add_lt_is_or (i := 8) he 255
    simp only [Nat.reducePow, Nat.reduceMul] at this
    rw [Nat.lor_comm, ← this]
    omega
  unfold extended_o isNegative
  rw [h, hb, hor]
  by_cases h128 : 128 ≤ e
  · have hn : ¬ e < 128 := by omega
    simp only [h128, decide_True, if_true, hn, if_false]
    omega
  · have hn : e < 128 := by omega
    simp [h128, hn]

/-- The sum the `JR` functions form is the target the spec gives. -/
theorem jr_sum_eq (p e : Nat) (he : e < 256) :
    (p + extended_o e) % 65536 = jrTarget p e := by
  rw [extended_o_eq e he]
  unfold jrTarget u16 toSigned8
  split <;> omega

theorem and_mask_ne_zero (cpu : CPU) (i : Nat) :
    ((cpu.F &&& 2 ^ i ≠ 0) ↔ cpu.F.testBit i = true) ∧
    ((cpu.F &&& 2 ^ i = 0) ↔ cpu.F.testBit i = false) := by
  rw [Nat.and_two_pow]
  cases cpu.F.testBit i <;> simp

/-- C29: with P the address behind the displacement byte (PC after its fetch) and e the
displacement byte, `JR e` leaves PC = (P + s) mod 2^16, s being e read as a signed byte in
-128..127, and changes nothing else; `JR C`, `JR NC`, `JR Z` and `JR NZ` leave that PC when
their condition holds and PC = P when it does not. -/
theorem jr_relative (z80 : CPU) (opcode : Nat) :
    JRe z80 opcode
      = { z80 with PC := jrTarget ((z80.PC + 1) % 65536) (cpu_read z80 z80.PC) } ∧
    (JRCe z80 opcode).PC
      = (if z80.flag FLAG_CARRY then jrTarget ((z80.PC + 1) % 65536) (cpu_read z80 z80.PC)
          else (z80.PC + 1) % 65536) ∧
    (JRNCe z80 opcode).PC
      = (if z80.flag FLAG_CARRY then (z80.PC + 1) % 65536
          else jrTarget ((z80.PC + 1) % 65536) (cpu_read z80 z80.PC)) ∧
    (JRZe z80 opcode).PC
      = (if z80.flag FLAG_ZERO then jrTarget ((z80.PC + 1) % 65536) (cpu_read z80 z80.PC)
          else (z80.PC + 1) % 65536) ∧
    (JRNZe z80 opcode).PC
      = (if z80.flag FLAG_ZERO then (z80.PC + 1) % 65536
          else jrTarget ((z80.PC + 1) % 65536) (cpu_read z80 z80.PC)) ∧
    (∀ e, e < 256 → toSigned8 e = (if e < 128 then (e : Int) else (e : Int) - 256) ∧
      -128 ≤ toSigned8 e ∧ toSigned8 e ≤ 127) ∧
    ((JRe st_jr 0x18).PC = 0x0000 ∧ (JRNZe st_jr 0x20).PC = 0x0002) := by
  have hs := jr_sum_eq ((z80.PC + 1) % 65536) (cpu_read z80 z80.PC) (cpu_read_lt z80 z80.PC)
  simp only [cpu_read] at hs
  have hc := and_mask_ne_zero z80 0
  have hz := and_mask_ne_zero z80 6
  refine ⟨?_, ?_, ?_, ?_, ?_, ?_, by decide, by decide⟩
  · simp only [JRe, fetch8, opc_fetch8, cpu_read, hs]
  · rw [flagC_eq]
    cases hb : z80.F.testBit 0
    · have h0 : ¬ ((z80.F &&& FLAG_CARRY) ≠ 0) := fun h => by
        have := hc.1.mp h; rw [hb] at this; exact absurd this (by decide)
      simp only [JRCe, fetch8, opc_fetch8, cpu_read, setTStates, if_neg h0, Bool.false_eq_true, if_false]
    · have h1 : (z80.F &&& FLAG_CARRY) ≠ 0 := hc.1.mpr hb
      simp only [JRCe, fetch8, opc_fetch8, cpu_read, setTStates, if_pos h1, hs, if_true]
  · rw [flagC_eq]
    cases hb : z80.F.testBit 0
    · have h0 : (z80.F &&& FLAG_CARRY) = 0 := hc.2.mpr hb
      simp only [JRNCe, fetch8, opc_fetch8, cpu_read, setTStates, if_pos h0, hs, Bool.false_eq_true,
        if_false]
    · have h1 : ¬ ((z80.F &&& FLAG_CARRY) = 0) := hc.1.mpr hb
      simp only [JRNCe, fetch8, opc_fetch8, cpu_read, setTStates, if_neg h1, if_true]
  · rw [flagZ_eq]
    cases hb : z80.F.testBit 6
    · have h0 : ¬ ((z80.F &&& FLAG_ZERO) ≠ 0) := fun h => by
        have := hz.1.mp h; rw [hb] at this; exact absurd this (by decide)
      simp only [JRZe, fetch8, opc_fetch8, cpu_read, setTStates, if_neg h0, Bool.false_eq_true, if_false]
    · have h1 : (z80.F &&& FLAG_ZERO) ≠ 0 := hz.1.mpr hb
      simp only [JRZe, fetch8, opc_fetch8, cpu_read, setTStates, if_pos h1, hs, if_true]
  · rw [flagZ_eq]
    cases hb : z80.F.testBit 6
    · have h0 : (z80.F &&& FLAG_ZERO) = 0 := hz.2.mpr hb
      simp only [JRNZe, fetch8, opc_fetch8, cpu_read, setTStates, if_pos h0, hs, Bool.false_eq_true,
        if_false]
    · have h1 : ¬ ((z80.F &&& FLAG_ZERO) = 0) := hz.1.mpr hb
      simp only [JRNZe, fetch8, opc_fetch8, cpu_read, setTStates, if_neg h1, if_true]
  · intro e he
    unfold toSigned8
    refine ⟨rfl, ?_, ?_⟩ <;> split <;> omega

theorem flag_eq_false_iff (cpu : CPU) (i : Nat) :
    (cpu.F &&& 2 ^ i = 0 ↔ (!cpu.flag (2 ^ i)) = true) ∧
    (cpu.F &&& 2 ^ i ≠ 0 ↔ cpu.flag (2 ^ i) = true) := by
  rw [flag_two_pow, Bool.not_eq_true']
  exact ⟨(and_mask_ne_zero cpu i).2, (and_mask_ne_zero cpu i).1⟩

/-- One case of the `switch` of `JPccnn`: a jump taken iff the Boolean `b` is true. -/
theorem jp_case (z80 : CPU) (nn : Nat) (p : Prop) [Decidable p] (b : Bool) (h : p ↔ b = true) :
    (if p then { z80 with PC := nn } else z80)
      = { z80 with PC := if b = true then nn else z80.PC } := by
  by_cases hp : p
  · rw [if_pos hp, if_pos (h.mp hp)]
  · rw [if_neg hp, if_neg (fun hb => hp (h.mpr hb))]

/-- C30: for every opcode and every state, `JP cc,nn` takes its condition from opcode bits
3..5 as 0 NZ, 1 Z, 2 NC, 3 C, 4 PO, 5 PE, 6 P, 7 M, fetches the two operand bytes in either
case and leaves PC = nn when the condition holds and PC = the address behind the operand
(opcode address + 3) when it does not; no flag, register or byte of memory changes. The
opcode 11ccc010 has cc in bits 3..5. -/
theorem jp_cc_nn (z80 : CPU) (opcode : Nat) :
    JPccnn z80 opcode
      = some { z80 with
          PC := if ccHolds ((opcode >>> 3) &&& 0x07) z80 = true then (opc_fetch16 z80).1
            else (z80.PC + 2) % 65536 } ∧
    (∀ cc, cc < 8 → ((0xC2 + 8 * cc) >>> 3) &&& 0x07 = cc) ∧
    ((JPccnn st_jp 0xCA).map (fun r => r.PC) = some 0x1234 ∧
      (JPccnn st_jp 0xC2).map (fun r => r.PC) = some 0x0103) := by
  refine ⟨?_, by decide, by decide, by decide⟩
  have hc : (opcode >>> 3) &&& 0x07 < 8 := and_7_lt _
  have e : ((z80.PC + 1) % 65536 + 1) % 65536 = (z80.PC + 2) % 65536 := by omega
  have hZ := flag_eq_false_iff z80 6
  have hC := flag_eq_false_iff z80 0
  have hP := flag_eq_false_iff z80 2
  have hS := flag_eq_false_iff z80 7
  have hpc : (opc_fetch16 z80).2 = { z80 with PC := (z80.PC + 2) % 65536 } := by
    simp only [opc_fetch16, opc_fetch8, e]
  have key : ∀ (p : Prop) [Decidable p] (b : Bool), (p ↔ b = true) →
      some (if p then { (opc_fetch16 z80).2 with PC := (opc_fetch16 z80).1 }
        else (opc_fetch16 z80).2)
      = some { z80 with PC := if b = true then (opc_fetch16 z80).1 else (z80.PC + 2) % 65536 } := by
    intro p _ b h
    rw [jp_case _ _ p b h, hpc]
  unfold JPccnn fetch16
  generalize hcc : (opcode >>> 3) &&& 0x07 = cc at hc
  interval_cases cc
  · exact key _ (!z80.flag FLAG_ZERO) hZ.1
  · exact key _ (z80.flag FLAG_ZERO) hZ.2
  · exact key _ (!z80.flag FLAG_CARRY) hC.1
  · exact key _ (z80.flag FLAG_CARRY) hC.2
  · exact key _ (!z80.flag FLAG_PARITY) hP.1
  · exact key _ (z80.flag FLAG_PARITY) hP.2
  · exact key _ (!z80.flag FLAG_SIGN) hS.1
  · exact key _ (z80.flag FLAG_SIGN) hS.2

/-! ## The `CB` group -/

theorem opc_RLC_eq (cpu : CPU) (opcode : Nat) :
    opc_RLC cpu opcode = opc_RLC_branches (afterFetchCB cpu) (cpu_read cpu cpu.PC) := rfl

/-- Every second byte of the form `xxxxx110` other than 0x06 ends in the abort of
`opc_readReg(cpu, 6)` or in the final `else`: the register branches are tested before the
`(HL)` branches and take these bytes as well. -/
theorem opc_RLC_branches_HL_none (cpu : CPU) (n : Nat) (hn : n < 256) (h6 : n % 8 = 6)
    (hne : n ≠ 0x06) : opc_RLC_branches cpu n = none := by
  obtain ⟨k, rfl⟩ : ∃ k, n = 8 * k + 6 := ⟨n / 8, by omega⟩
  have hk : k < 32 := by omega
  have hk0 : k ≠ 0 := by omega
  interval_cases k <;> first | exact absurd rfl hk0 | rfl

set_option maxRecDepth 100000 in
/-- C26, as the code has it: of the documented `CB` operations on `(HL)` only `RLC (HL)`
(second byte 06) returns; every other one ends the program, `BIT 0,(HL)` (`CB 46`) among
them. `RLC (HL)` on the byte 0xFE writes 0xFD back to address HL. -/
theorem cb_hl_forms_abort :
    cbHLbytes.filter (fun n => (opc_RLC (st_cb n) 0xCB).isSome) = [0x06] ∧
    (opc_RLC (st_cb 0x46) 0xCB).isNone = true ∧
    (opc_RLC (st_cb 0x06) 0xCB).map (fun r => cpu_read r 0x1000) = some 0xFD := by
  refine ⟨by rfl, by rfl, ?_⟩
  have e : opc_RLC (st_cb 0x06) 0xCB = some (opc_RLC_HL (afterFetchCB (st_cb 0x06)) RLC_body) :=
    rfl
  rw [e]
  simp only [opc_RLC_HL, RLC_body, rot_flags, ite_CARRY_eq, opc_testSFlag8_eq,
    opc_testZFlag8_eq, RESET_FLAG_HCARRY_eq, opc_testPFlag8_eq, RESET_FLAG_ADDSUB_eq, CPU.withF,
    cpu_write, setTStates, Option.map_some']
  rfl

/-! ## `BIT b,r`, `SET b,r` and `RES b,r` -/

theorem opc_RLC_branches_BITr (cpu : CPU) (b r : Nat) (hb : b < 8) (hr : r < 8) :
    opc_RLC_branches cpu (0x40 + 8 * b + r)
      = (opc_readReg cpu r).map (fun data => BIT_body cpu data b) := by
  interval_cases b <;> interval_cases r <;> rfl

theorem opc_RLC_branches_SETr (cpu : CPU) (b r : Nat) (hb : b < 8) (hr : r < 8) :
    opc_RLC_branches cpu (0xC0 + 8 * b + r)
      = (opc_readReg cpu r).bind (fun data => opc_writeReg cpu r (SET_res data b)) := by
  interval_cases b <;> interval_cases r <;> rfl

theorem opc_RLC_branches_RESr (cpu : CPU) (b r : Nat) (hb : b < 8) (hr : r < 8) :
    opc_RLC_branches cpu (0x80 + 8 * b + r)
      = (opc_readReg cpu r).bind (fun data => opc_writeReg cpu r (RES_res data b)) := by
  interval_cases b <;> interval_cases r <;> rfl

theorem testBit_of_lt_256 (v i : Nat) (hv : v < 256) (hi : ¬ i < 8) : v.testBit i = false :=
  Nat.testBit_lt_two_pow (lt_of_lt_of_le hv (by
    calc 256 = 2 ^ 8 := by norm_num
      _ ≤ 2 ^ i := Nat.pow_le_pow_right (by decide) (by omega)))

theorem SET_res_testBit (v b i : Nat) (hv : v < 256) (hb : b < 8) :
    (SET_res v b).testBit i = (v.testBit i || decide (i = b)) := by
  have e : (256 : Nat) = 2 ^ 8 := by norm_num
  unfold SET_res
  rw [e, Nat.testBit_mod_two_pow, Nat.testBit_or, Nat.one_shiftLeft, Nat.testBit_two_pow]
  by_cases hi : i < 8
  · simp [hi, eq_comm]
  · have h1 := testBit_of_lt_256 v i hv hi
    have h2 : ¬ (i = b) := by omega
    simp [hi, h1, h2]

theorem RES_res_testBit (v b i : Nat) (hv : v < 256) :
    (RES_res v b).testBit i = (v.testBit i && !decide (i = b)) := by
  have e : (256 : Nat) = 2 ^ 8 := by norm_num
  have e' : (0xFF : Nat) = 2 ^ 8 - 1 := by norm_num
  unfold RES_res
  rw [e, Nat.testBit_mod_two_pow, Nat.testBit_and, Nat.testBit_xor, Nat.one_shiftLeft,
    Nat.testBit_two_pow, e', Nat.testBit_two_pow_sub_one]
  by_cases hi : i < 8
  · by_cases hib : i = b
    · subst hib; simp [hi]
    · have : ¬ (b = i) := fun h => hib h.symm
      simp [hi, hib, this]
  · have h1 := testBit_of_lt_256 v i hv hi
    simp [hi, h1]

/-- The flags after `BIT_body`: Z from the tested bit, H set, N clear, C as before; the
state differs from the one before in F only. -/
theorem BIT_body_spec (cpu : CPU) (v b : Nat) :
    BIT_body cpu v b = { cpu with F := (BIT_body cpu v b).F } ∧
    ((BIT_body cpu v b).flag FLAG_ZERO = true ↔ v.testBit b = false) ∧
    (BIT_body cpu v b).flag FLAG_HCARRY = true ∧
    (BIT_body cpu v b).flag FLAG_ADDSUB = false ∧
    (BIT_body cpu v b).flag FLAG_CARRY = cpu.flag FLAG_CARRY := by
  have hz : decide ((v >>> b) &&& 0x1 = 0) = !v.testBit b := by
    have h := shift_and_one_ne_zero v b
    cases hb : v.testBit b
    · rw [hb] at h
      have : (v >>> b) &&& 1 = 0 := by
        by_contra hne
        exact absurd (h.mp hne) (by decide)
      rw [Bool.not_false]
      exact decide_eq_true this
    · rw [hb] at h
      have : (v >>> b) &&& 1 ≠ 0 := h.mpr rfl
      rw [Bool.not_true]
      exact decide_eq_false this
  have e : BIT_body cpu v b
      = cpu.withF (putFlag (putFlag (putFlag cpu.F 6 (!v.testBit b)) 4 true) 1 false) := by
    simp only [BIT_body, opc_testZFlag8_eq, SET_FLAG_HCARRY_eq, RESET_FLAG_ADDSUB_eq,
      CPU.withF, hz]
  rw [flagZ_eq, flagH_eq, flagN_eq, flagC_eq, flagC_eq, e]
  refine ⟨rfl, ?_, ?_, ?_, ?_⟩ <;> simp only [CPU.withF, testBit_putFlag] <;> simp

/-- C25: for every bit index b in 0..7 and register code r of B, C, D, E, H, L, A holding v,
on a well-formed state: `BIT b,r` (second byte 0x40 + 8 b + r) sets Z iff bit b of v is 0,
sets H, clears N, leaves C and every register as they were; `SET b,r` (0xC0 + 8 b + r)
leaves r = v with bit b set and `RES b,r` (0x80 + 8 b + r) leaves r = v with bit b cleared,
every other bit of r as it was, and neither changes the flag byte. -/
theorem bit_set_res_register (cpu : CPU) (opcode b r : Nat) (hwf : cpu.WF)
    (hb : b < 8) (hr : r < 8) (hr6 : r ≠ 6) :
    ∃ v, opc_readReg cpu r = some v ∧ v < 256 ∧
      (cpu_read cpu cpu.PC = 0x40 + 8 * b + r →
        ∃ s, opc_RLC cpu opcode = some s ∧
          (s.flag FLAG_ZERO = true ↔ v.testBit b = false) ∧
          s.flag FLAG_HCARRY = true ∧ s.flag FLAG_ADDSUB = false ∧
          s.flag FLAG_CARRY = cpu.flag FLAG_CARRY ∧
          opc_readReg s r = some v ∧ s = { afterFetchCB cpu with F := s.F }) ∧
      (cpu_read cpu cpu.PC = 0xC0 + 8 * b + r →
        ∃ s, opc_RLC cpu opcode = some s ∧ s.F = cpu.F ∧
          ∃ w, opc_readReg s r = some w ∧
            ∀ i, w.testBit i = (v.testBit i || decide (i = b))) ∧
      (cpu_read cpu cpu.PC = 0x80 + 8 * b + r →
        ∃ s, opc_RLC cpu opcode = some s ∧ s.F = cpu.F ∧
          ∃ w, opc_readReg s r = some w ∧
            ∀ i, w.testBit i = (v.testBit i && !decide (i = b))) := by
  obtain ⟨v, hv, hread⟩ := opc_readReg_some cpu hwf r hr hr6
  have hread' : opc_readReg (afterFetchCB cpu) r = some v := by
    rw [← hread]
    interval_cases r <;> rfl
  refine ⟨v, hread, hv, ?_, ?_, ?_⟩
  · intro h
    obtain ⟨hfr, hz, hh, hn, hc⟩ := BIT_body_spec (afterFetchCB cpu) v b
    refine ⟨BIT_body (afterFetchCB cpu) v b, ?_, hz, hh, hn, hc, ?_, hfr⟩
    · rw [opc_RLC_eq, h, opc_RLC_branches_BITr _ b r hb hr, hread']
      rfl
    · rw [hfr, ← hread']
      interval_cases r <;> rfl
  · intro h
    obtain ⟨s, hs, hsF, hsr⟩ := opc_writeReg_some (afterFetchCB cpu) r (SET_res v b) hr hr6
    refine ⟨s, ?_, hsF, SET_res v b % 256, hsr, fun i => ?_⟩
    · rw [opc_RLC_eq, h, opc_RLC_branches_SETr _ b r hb hr, hread']
      exact hs
    · have e : SET_res v b % 256 = SET_res v b := by
        unfold SET_res; exact Nat.mod_mod _ _
      rw [e]
      exact SET_res_testBit v b i hv hb
  · intro h
    obtain ⟨s, hs, hsF, hsr⟩ := opc_writeReg_some (afterFetchCB cpu) r (RES_res v b) hr hr6
    refine ⟨s, ?_, hsF, RES_res v b % 256, hsr, fun i => ?_⟩
    · rw [opc_RLC_eq, h, opc_RLC_branches_RESr _ b r hb hr, hread']
      exact hs
    · have e : RES_res v b % 256 = RES_res v b := by
        unfold RES_res; exact Nat.mod_mod _ _
      rw [e]
      exact RES_res_testBit v b i hv

/-- C25 on B = 0x81 with the flag byte 0x83: `BIT 0,B` (`CB 40`) gives Z = 0, `BIT 1,B`
(`CB 48`) gives Z = 1, `SET 1,B` (`CB C8`) gives B = 0x83 and `RES 7,B` (`CB B8`) gives
B = 0x01, the last two with the flag byte unchanged. -/
theorem bit_set_res_register_witness :
    (st_cb 0x40).WF ∧
    (∃ v, opc_readReg (st_cb 0x40) 0 = some v ∧ v < 256 ∧
      (cpu_read (st_cb 0x40) (st_cb 0x40).PC = 0x40 + 8 * 0 + 0 →
        ∃ s, opc_RLC (st_cb 0x40) 0xCB = some s ∧
          (s.flag FLAG_ZERO = true ↔ v.testBit 0 = false) ∧
          s.flag FLAG_HCARRY = true ∧ s.flag FLAG_ADDSUB = false ∧
          s.flag FLAG_CARRY = (st_cb 0x40).flag FLAG_CARRY ∧
          opc_readReg s 0 = some v ∧ s = { afterFetchCB (st_cb 0x40) with F := s.F })) ∧
    (opc_RLC (st_cb 0x40) 0xCB).map (fun s => (s.F, s.B)) = some (0x91, 0x81) ∧
    (opc_RLC (st_cb 0x48) 0xCB).map (fun s => (s.F, s.B)) = some (0xD1, 0x81) ∧
    (opc_RLC (st_cb 0xC8) 0xCB).map (fun s => (s.F, s.B)) = some (0x83, 0x83) ∧
    (opc_RLC (st_cb 0xB8) 0xCB).map (fun s => (s.F, s.B)) = some (0x83, 0x01) :=
  ⟨by decide,
    match bit_set_res_register (st_cb 0x40) 0xCB 0 0 (by decide) (by decide) (by decide)
        (by decide) with
    | ⟨v, h1, h2, h3, _, _⟩ => ⟨v, h1, h2, h3⟩,
    by rfl, by rfl, by rfl, by rfl⟩

/-! ## Exchange of IX and IY -/

theorem swapIdx_swapIdx (cpu : CPU) : swapIdx (swapIdx cpu) = cpu := by
  have e : (fun i => cpu.TStates
      (if (if i = 0xDD then 0xFD else if i = 0xFD then 0xDD else i) = 0xDD then 0xFD
        else if (if i = 0xDD then 0xFD else if i = 0xFD then 0xDD else i) = 0xFD then 0xDD
        else (if i = 0xDD then 0xFD else if i = 0xFD then 0xDD else i))) = cpu.TStates := by
    funext i
    congr 1
    split_ifs <;> omega
  simp only [swapIdx, e]

theorem setTStates_swapIdx (cpu : CPU) (t : Nat) :
    setTStates (swapIdx cpu) 0xDD t = swapIdx (setTStates cpu 0xFD t) := by
  have e : (fun i => if i = 0xDD then t
      else cpu.TStates (if i = 0xDD then 0xFD else if i = 0xFD then 0xDD else i))
      = (fun i => if (if i = 0xDD then 0xFD else if i = 0xFD then 0xDD else i) = 0xFD then t
          else cpu.TStates (if i = 0xDD then 0xFD else if i = 0xFD then 0xDD else i)) := by
    funext i
    by_cases h : i = 0xDD
    · simp [h]
    · by_cases h' : i = 0xFD
      · simp [h']
      · simp [h, h']
  simp only [setTStates, swapIdx, e]

theorem opc_fetch8_swapIdx (cpu : CPU) :
    opc_fetch8 (swapIdx cpu) = ((opc_fetch8 cpu).1, swapIdx (opc_fetch8 cpu).2) := rfl

theorem opc_fetch16_swapIdx (cpu : CPU) :
    opc_fetch16 (swapIdx cpu) = ((opc_fetch16 cpu).1, swapIdx (opc_fetch16 cpu).2) := rfl

theorem cpu_read_swapIdx (cpu : CPU) (a : Nat) : cpu_read (swapIdx cpu) a = cpu_read cpu a :=
  rfl

theorem cpu_write_swapIdx (cpu : CPU) (v a : Nat) :
    cpu_write (swapIdx cpu) v a = swapIdx (cpu_write cpu v a) := rfl

theorem opc_readReg_swapIdx (cpu : CPU) (r : Nat) :
    opc_readReg (swapIdx cpu) r = opc_readReg cpu r := by
  unfold opc_readReg
  split <;> rfl

theorem opc_writeReg_swapIdx (cpu : CPU) (r v : Nat) :
    opc_writeReg (swapIdx cpu) r v = (opc_writeReg cpu r v).map swapIdx := by
  unfold opc_writeReg
  split <;> rfl

theorem cpu_stackPush_swapIdx (cpu : CPU) (v : Nat) :
    cpu_stackPush (swapIdx cpu) v = swapIdx (cpu_stackPush cpu v) := rfl

theorem cpu_stackPop_swapIdx (cpu : CPU) :
    cpu_stackPop (swapIdx cpu) = ((cpu_stackPop cpu).1, swapIdx (cpu_stackPop cpu).2) := rfl

theorem withF_swapIdx (cpu : CPU) (f : Nat) :
    (swapIdx cpu).withF f = swapIdx (cpu.withF f) := rfl

theorem rot_flags_swapIdx (cpu : CPU) (res : Nat) :
    rot_flags (swapIdx cpu) res = swapIdx (rot_flags cpu res) := by
  simp only [rot_flags, opc_testSFlag8_eq, opc_testZFlag8_eq, RESET_FLAG_HCARRY_eq,
    opc_testPFlag8_eq, RESET_FLAG_ADDSUB_eq, withF_swapIdx]
  rfl

theorem swapIdx_F (cpu : CPU) : (swapIdx cpu).F = cpu.F := rfl

theorem swapIdx_A (cpu : CPU) : (swapIdx cpu).A = cpu.A := rfl

theorem GET_FLAG_CARRY_swapIdx (cpu : CPU) :
    GET_FLAG_CARRY (swapIdx cpu) = GET_FLAG_CARRY cpu := rfl

theorem rot_bodies_swapIdx (cpu : CPU) (d : Nat) :
    RLC_body (swapIdx cpu) d = ((RLC_body cpu d).1, swapIdx (RLC_body cpu d).2) ∧
    RL_body (swapIdx cpu) d = ((RL_body cpu d).1, swapIdx (RL_body cpu d).2) ∧
    RRC_body (swapIdx cpu) d = ((RRC_body cpu d).1, swapIdx (RRC_body cpu d).2) ∧
    RR_body (swapIdx cpu) d = ((RR_body cpu d).1, swapIdx (RR_body cpu d).2) ∧
    SLA_body (swapIdx cpu) d = ((SLA_body cpu d).1, swapIdx (SLA_body cpu d).2) ∧
    SRA_body (swapIdx cpu) d = ((SRA_body cpu d).1, swapIdx (SRA_body cpu d).2) ∧
    SRL_body (swapIdx cpu) d = ((SRL_body cpu d).1, swapIdx (SRL_body cpu d).2) ∧
    INC_body (swapIdx cpu) d = ((INC_body cpu d).1, swapIdx (INC_body cpu d).2) ∧
    DEC_body (swapIdx cpu) d = ((DEC_body cpu d).1, swapIdx (DEC_body cpu d).2) := by
  refine ⟨?_, ?_, ?_, ?_, ?_, ?_, ?_, ?_, ?_⟩ <;>
    simp only [RLC_body, RL_body, RRC_body, RR_body, SLA_body, SRA_body, SRL_body, INC_body,
      DEC_body, GET_FLAG_CARRY_swapIdx, ite_CARRY_eq, ite_PARITY_eq, opc_testSFlag8_eq,
      opc_testZFlag8_eq, opc_testHFlag8_eq, RESET_FLAG_ADDSUB_eq, SET_FLAG_ADDSUB_eq,
      withF_swapIdx, rot_flags_swapIdx, swapIdx_F, withF_F]

theorem alu_bodies_swapIdx (cpu : CPU) (d : Nat) :
    ADDA_body (swapIdx cpu) d = swapIdx (ADDA_body cpu d) ∧
    ADCA_body (swapIdx cpu) d = swapIdx (ADCA_body cpu d) ∧
    SUBA_body (swapIdx cpu) d = swapIdx (SUBA_body cpu d) ∧
    SBCA_body (swapIdx cpu) d = swapIdx (SBCA_body cpu d) ∧
    AND_body (swapIdx cpu) d = swapIdx (AND_body cpu d) ∧
    OR_body (swapIdx cpu) d = swapIdx (OR_body cpu d) ∧
    XOR_body (swapIdx cpu) d = swapIdx (XOR_body cpu d) ∧
    CP_body (swapIdx cpu) d = swapIdx (CP_body cpu d) ∧
    (∀ bit, BIT_body (swapIdx cpu) d bit = swapIdx (BIT_body cpu d bit)) := by
  refine ⟨?_, ?_, ?_, ?_, ?_, ?_, ?_, ?_, fun bit => ?_⟩ <;>
    simp only [ADDA_body, ADCA_body, SUBA_body, SBCA_body, AND_body, OR_body, XOR_body,
      CP_body, BIT_body, GET_FLAG_CARRY_swapIdx, swapIdx_A, swapIdx_F, opc_testSFlag8_eq,
      opc_testZFlag8_eq, opc_testHFlag8_eq, opc_testVFlag8_eq, opc_testCFlag8_eq,
      opc_testPFlag8_eq, RESET_FLAG_ADDSUB_eq, SET_FLAG_ADDSUB_eq, SET_FLAG_HCARRY_eq,
      RESET_FLAG_HCARRY_eq, RESET_FLAG_CARRY_eq, withF_swapIdx, withF_A, withF_F] <;> rfl

theorem swapIdx_IX (cpu : CPU) : (swapIdx cpu).IX = cpu.IY := rfl

theorem swapIdx_SP (cpu : CPU) : (swapIdx cpu).SP = cpu.SP := rfl

theorem swapIdx_setIX (cpu : CPU) (v : Nat) :
    { swapIdx cpu with IX := v } = swapIdx { cpu with IY := v } := rfl

theorem swapIdx_setSP (cpu : CPU) (v : Nat) :
    { swapIdx cpu with SP := v } = swapIdx { cpu with SP := v } := rfl

/-- The helpers of the two handlers correspond under the exchange. -/
theorem opc_LDIX_helpers_swapIdx (cpu : CPU) :
    (∀ body : CPU → Nat → CPU, (∀ c d, body (swapIdx c) d = swapIdx (body c d)) →
      opc_LDIX_alu (swapIdx cpu) body = swapIdx (opc_LDIY_alu cpu body)) ∧
    (∀ body : CPU → Nat → Nat × CPU,
      (∀ c d, body (swapIdx c) d = ((body c d).1, swapIdx (body c d).2)) →
      opc_LDIX_incdec (swapIdx cpu) body = swapIdx (opc_LDIY_incdec cpu body)) ∧
    opc_LDIX_EXSP (swapIdx cpu) = swapIdx (opc_LDIY_EXSP cpu) ∧
    (∀ (addr : Nat) (body : CPU → Nat → Nat × CPU),
      (∀ c d, body (swapIdx c) d = ((body c d).1, swapIdx (body c d).2)) →
      opc_LDIX_rot (swapIdx cpu) addr body = swapIdx (opc_LDIY_rot cpu addr body)) := by
  refine ⟨fun body hb => ?_, fun body hb => ?_, ?_, fun addr body hb => ?_⟩
  · simp only [opc_LDIX_alu, opc_LDIY_alu, opc_fetch8_swapIdx, swapIdx_IX, cpu_read_swapIdx, hb]
  · simp only [opc_LDIX_incdec, opc_LDIY_incdec, setTStates_swapIdx, opc_fetch8_swapIdx,
      swapIdx_IX, cpu_read_swapIdx, hb, cpu_write_swapIdx]
  · simp only [opc_LDIX_EXSP, opc_LDIY_EXSP, setTStates_swapIdx]
    rfl
  · simp only [opc_LDIX_rot, opc_LDIY_rot, setTStates_swapIdx, cpu_read_swapIdx, hb,
      cpu_write_swapIdx]

theorem opc_LDIX_rot_swapIdx (cpu : CPU) (addr : Nat) :
    opc_LDIX_rot (swapIdx cpu) addr RLC_body = swapIdx (opc_LDIY_rot cpu addr RLC_body) ∧
    opc_LDIX_rot (swapIdx cpu) addr RL_body = swapIdx (opc_LDIY_rot cpu addr RL_body) ∧
    opc_LDIX_rot (swapIdx cpu) addr RRC_body = swapIdx (opc_LDIY_rot cpu addr RRC_body) ∧
    opc_LDIX_rot (swapIdx cpu) addr RR_body = swapIdx (opc_LDIY_rot cpu addr RR_body) ∧
    opc_LDIX_rot (swapIdx cpu) addr SLA_body = swapIdx (opc_LDIY_rot cpu addr SLA_body) ∧
    opc_LDIX_rot (swapIdx cpu) addr SRA_body = swapIdx (opc_LDIY_rot cpu addr SRA_body) ∧
    opc_LDIX_rot (swapIdx cpu) addr SRL_body = swapIdx (opc_LDIY_rot cpu addr SRL_body) := by
  have hrot := (opc_LDIX_helpers_swapIdx cpu).2.2.2 addr
  exact ⟨hrot _ (fun c d => (rot_bodies_swapIdx c d).1),
    hrot _ (fun c d => (rot_bodies_swapIdx c d).2.1),
    hrot _ (fun c d => (rot_bodies_swapIdx c d).2.2.1),
    hrot _ (fun c d => (rot_bodies_swapIdx c d).2.2.2.1),
    hrot _ (fun c d => (rot_bodies_swapIdx c d).2.2.2.2.1),
    hrot _ (fun c d => (rot_bodies_swapIdx c d).2.2.2.2.2.1),
    hrot _ (fun c d => (rot_bodies_swapIdx c d).2.2.2.2.2.2.1)⟩

theorem opc_LDIX_alu_swapIdx (cpu : CPU) :
    opc_LDIX_alu (swapIdx cpu) ADDA_body = swapIdx (opc_LDIY_alu cpu ADDA_body) ∧
    opc_LDIX_alu (swapIdx cpu) ADCA_body = swapIdx (opc_LDIY_alu cpu ADCA_body) ∧
    opc_LDIX_alu (swapIdx cpu) SUBA_body = swapIdx (opc_LDIY_alu cpu SUBA_body) ∧
    opc_LDIX_alu (swapIdx cpu) SBCA_body = swapIdx (opc_LDIY_alu cpu SBCA_body) ∧
    opc_LDIX_alu (swapIdx cpu) AND_body = swapIdx (opc_LDIY_alu cpu AND_body) ∧
    opc_LDIX_alu (swapIdx cpu) OR_body = swapIdx (opc_LDIY_alu cpu OR_body) ∧
    opc_LDIX_alu (swapIdx cpu) XOR_body = swapIdx (opc_LDIY_alu cpu XOR_body) ∧
    opc_LDIX_alu (swapIdx cpu) CP_body = swapIdx (opc_LDIY_alu cpu CP_body) ∧
    opc_LDIX_incdec (swapIdx cpu) INC_body = swapIdx (opc_LDIY_incdec cpu INC_body) ∧
    opc_LDIX_incdec (swapIdx cpu) DEC_body = swapIdx (opc_LDIY_incdec cpu DEC_body) := by
  have halu := (opc_LDIX_helpers_swapIdx cpu).1
  have hinc := (opc_LDIX_helpers_swapIdx cpu).2.1
  exact ⟨halu _ (fun c d => (alu_bodies_swapIdx c d).1),
    halu _ (fun c d => (alu_bodies_swapIdx c d).2.1),
    halu _ (fun c d => (alu_bodies_swapIdx c d).2.2.1),
    halu _ (fun c d => (alu_bodies_swapIdx c d).2.2.2.1),
    halu _ (fun c d => (alu_bodies_swapIdx c d).2.2.2.2.1),
    halu _ (fun c d => (alu_bodies_swapIdx c d).2.2.2.2.2.1),
    halu _ (fun c d => (alu_bodies_swapIdx c d).2.2.2.2.2.2.1),
    halu _ (fun c d => (alu_bodies_swapIdx c d).2.2.2.2.2.2.2.1),
    hinc _ (fun c d => (rot_bodies_swapIdx c d).2.2.2.2.2.2.2.1),
    hinc _ (fun c d => (rot_bodies_swapIdx c d).2.2.2.2.2.2.2.2)⟩

theorem map_ite_swapIdx (c : Prop) [Decidable c] (a b : Option CPU) :
    (if c then a else b).map swapIdx = if c then a.map swapIdx else b.map swapIdx := by
  split <;> rfl

theorem opc_LDIX_CB_branches_swapIdx (cpu : CPU) (addr cb : Nat) :
    opc_LDIX_CB_branches (swapIdx cpu) addr cb
      = (opc_LDIY_CB_branches cpu addr cb).map swapIdx := by
  have hbit := fun c d => (alu_bodies_swapIdx c d).2.2.2.2.2.2.2.2
  obtain ⟨r1, r2, r3, r4, r5, r6, r7⟩ := opc_LDIX_rot_swapIdx cpu addr
  unfold opc_LDIX_CB_branches opc_LDIY_CB_branches
  simp only [map_ite_swapIdx]
  refine ite_congr rfl (fun _ => ?_) (fun _ => ?_)
  · rw [r1]; rfl
  refine ite_congr rfl (fun _ => ?_) (fun _ => ?_)
  · rw [setTStates_swapIdx, cpu_read_swapIdx, hbit]; rfl
  refine ite_congr rfl (fun _ => ?_) (fun _ => ?_)
  · rw [setTStates_swapIdx, cpu_read_swapIdx, cpu_write_swapIdx]; rfl
  refine ite_congr rfl (fun _ => ?_) (fun _ => ?_)
  · rw [setTStates_swapIdx, cpu_read_swapIdx, cpu_write_swapIdx]; rfl
  refine ite_congr rfl (fun _ => ?_) (fun _ => ?_)
  · rw [r2]; rfl
  refine ite_congr rfl (fun _ => ?_) (fun _ => ?_)
  · rw [r3]; rfl
  refine ite_congr rfl (fun _ => ?_) (fun _ => ?_)
  · rw [r4]; rfl
  refine ite_congr rfl (fun _ => ?_) (fun _ => ?_)
  · rw [r5]; rfl
  refine ite_congr rfl (fun _ => ?_) (fun _ => ?_)
  · rw [r6]; rfl
  refine ite_congr rfl (fun _ => ?_) (fun _ => ?_)
  · rw [r7]; rfl
  rfl

theorem opc_LDIX_CB_swapIdx (cpu : CPU) :
    opc_LDIX_CB (swapIdx cpu) = (opc_LDIY_CB cpu).map swapIdx :=
  opc_LDIX_CB_branches_swapIdx (opc_fetch8 (opc_fetch8 cpu).2).2
    (idx_addr (opc_fetch8 cpu).2.IY (opc_fetch8 cpu).1) (opc_fetch8 (opc_fetch8 cpu).2).1

theorem opc_LDIX_branches_swapIdx (cpu : CPU) (next_opc follByte : Nat) :
    opc_LDIX_branches (swapIdx cpu) next_opc follByte
      = (opc_LDIY_branches cpu next_opc follByte).map swapIdx := by
  obtain ⟨a1, a2, a3, a4, a5, a6, a7, a8, i1, i2⟩ := opc_LDIX_alu_swapIdx cpu
  have hex := (opc_LDIX_helpers_swapIdx cpu).2.2.1
  unfold opc_LDIX_branches opc_LDIY_branches
  simp only [map_ite_swapIdx]
  refine ite_congr rfl (fun _ => ?_) (fun _ => ?_)
  · rw [opc_fetch8_swapIdx]
    exact opc_writeReg_swapIdx _ _ _
  refine ite_congr rfl (fun _ => ?_) (fun _ => ?_)
  · rw [opc_fetch8_swapIdx]
    simp only []
    rw [opc_readReg_swapIdx]
    cases opc_readReg (opc_fetch8 cpu).2 (next_opc &&& 0x07) <;> rfl
  refine ite_congr rfl (fun _ => ?_) (fun _ => ?_)
  · rfl
  refine ite_congr rfl (fun _ => ?_) (fun _ => ?_)
  · rw [setTStates_swapIdx]; rfl
  refine ite_congr rfl (fun _ => ?_) (fun _ => ?_)
  · rw [setTStates_swapIdx]; rfl
  refine ite_congr rfl (fun _ => ?_) (fun _ => ?_)
  · rw [setTStates_swapIdx]; rfl
  refine ite_congr rfl (fun _ => ?_) (fun _ => ?_)
  · rw [setTStates_swapIdx]; rfl
  refine ite_congr rfl (fun _ => ?_) (fun _ => ?_)
  · rw [setTStates_swapIdx]; rfl
  refine ite_congr rfl (fun _ => ?_) (fun _ => ?_)
  · rw [setTStates_swapIdx]; rfl
  refine ite_congr rfl (fun _ => ?_) (fun _ => ?_)
  · rw [hex]; rfl
  refine ite_congr rfl (fun _ => ?_) (fun _ => ?_)
  · rw [a1]; rfl
  refine ite_congr rfl (fun _ => ?_) (fun _ => ?_)
  · rw [a2]; rfl
  refine ite_congr rfl (fun _ => ?_) (fun _ => ?_)
  · rw [a3]; rfl
  refine ite_congr rfl (fun _ => ?_) (fun _ => ?_)
  · rw [a4]; rfl
  refine ite_congr rfl (fun _ => ?_) (fun _ => ?_)
  · rw [a5]; rfl
  refine ite_congr rfl (fun _ => ?_) (fun _ => ?_)
  · rw [a6]; rfl
  refine ite_congr rfl (fun _ => ?_) (fun _ => ?_)
  · rw [a7]; rfl
  refine ite_congr rfl (fun _ => ?_) (fun _ => ?_)
  · rw [a8]; rfl
  refine ite_congr rfl (fun _ => ?_) (fun _ => ?_)
  · rw [i1]; rfl
  refine ite_congr rfl (fun _ => ?_) (fun _ => ?_)
  · rw [i2]; rfl
  refine ite_congr rfl (fun _ => ?_) (fun _ => ?_)
  · rfl
  refine ite_congr rfl (fun _ => ?_) (fun _ => ?_)
  · rfl
  refine ite_congr rfl (fun _ => ?_) (fun _ => ?_)
  · rfl
  refine ite_congr rfl (fun _ => ?_) (fun _ => ?_)
  · rfl
  refine ite_congr rfl (fun _ => ?_) (fun _ => ?_)
  · exact opc_LDIX_CB_swapIdx cpu
  rfl

/-- The `DD` handler on the exchanged state is the `FD` handler followed by the
exchange. -/
theorem opc_LDIX_swapIdx (cpu : CPU) (opcode follByte : Nat) :
    opc_LDIX (swapIdx cpu) opcode follByte = (opc_LDIY cpu opcode follByte).map swapIdx := by
  have e : opc_LDIX (swapIdx cpu) opcode follByte
      = opc_LDIX_branches (opc_fetch8 (setTStates (swapIdx cpu) 0xDD 19)).2
          (opc_fetch8 (setTStates (swapIdx cpu) 0xDD 19)).1 follByte := rfl
  rw [e, setTStates_swapIdx, opc_fetch8_swapIdx]
  exact opc_LDIX_branches_swapIdx _ _ _

/-- C27: the `FD` handler is the `DD` handler with IY in place of IX. For every state and
every value of `follByte`, `opc_LDIY` returns exactly what `opc_LDIX` returns on the state
with IX and IY (and the table entries 0xDD and 0xFD) exchanged, with the exchange undone in
the result: the same registers, flags, PC, SP and memory, an abort exactly when `opc_LDIX`
aborts, and in entry 0xFD the T-state count `opc_LDIX` leaves in entry 0xDD. -/
theorem fd_handler_is_dd_handler_with_iy (cpu : CPU) (opcode follByte : Nat) :
    opc_LDIY cpu opcode follByte = opc_LDIY_spec cpu opcode follByte ∧
    (opc_LDIY cpu opcode follByte = none ↔ opc_LDIX (swapIdx cpu) opcode follByte = none) ∧
    (∀ r, opc_LDIY cpu opcode follByte = some r →
      ∃ r', opc_LDIX (swapIdx cpu) opcode follByte = some r' ∧
        r.IY = r'.IX ∧ r.IX = r'.IY ∧ r.TStates 0xFD = r'.TStates 0xDD ∧
        r.TStates 0xDD = r'.TStates 0xFD ∧ r.mem = r'.mem ∧
        r = { r' with IX := r.IX, IY := r.IY, TStates := r.TStates }) := by
  have h := opc_LDIX_swapIdx cpu opcode follByte
  refine ⟨?_, ?_, ?_⟩
  · unfold opc_LDIY_spec
    rw [h, Option.map_map]
    cases opc_LDIY cpu opcode follByte with
    | none => rfl
    | some r => exact congrArg some (swapIdx_swapIdx r).symm
  · rw [h]
    cases opc_LDIY cpu opcode follByte <;> simp
  · intro r hr
    rw [h, hr]
    exact ⟨swapIdx r, rfl, rfl, rfl, rfl, rfl, rfl, rfl⟩

/-! ## `DD CB d op` and `LD (IX+d),n` -/

theorem cpu_read_mod (cpu : CPU) (a : Nat) : cpu_read cpu (a % 65536) = cpu_read cpu a := by
  simp only [cpu_read, Nat.mod_mod]

/-- With `CB` after the prefix the handler fetches the displacement, then the operation
byte, and runs the chain of the `DD CB` group on the byte at IX + d. -/
theorem opc_LDIX_CB_of (cpu : CPU) (opcode follByte : Nat)
    (h : cpu_read cpu cpu.PC = 0xCB) (hf : follByte = cpu_read cpu cpu.PC) :
    opc_LDIX cpu opcode follByte
      = opc_LDIX_CB_branches (afterFetchDD3 cpu) (idx_addr cpu.IX (cpu_read cpu (cpu.PC + 1)))
          (cpu_read cpu (cpu.PC + 2)) := by
  have e1 : opc_LDIX cpu opcode follByte
      = opc_LDIX_branches (opc_fetch8 (setTStates cpu 0xDD 19)).2 (cpu_read cpu cpu.PC)
          follByte := rfl
  have e2 : ∀ c, opc_LDIX_branches c 0xCB 0xCB = opc_LDIX_CB c := fun _ => rfl
  have e3 : ∀ c, opc_LDIX_CB c
      = opc_LDIX_CB_branches { c with PC := ((c.PC + 1) % 65536 + 1) % 65536 }
          (idx_addr c.IX (cpu_read c c.PC)) (cpu_read c ((c.PC + 1) % 65536)) := fun _ => rfl
  have p3 : (((cpu.PC + 1) % 65536 + 1) % 65536 + 1) % 65536 = (cpu.PC + 3) % 65536 := by omega
  have p2 : ((cpu.PC + 1) % 65536 + 1) % 65536 = (cpu.PC + 2) % 65536 := by omega
  have r1 : cpu_read (opc_fetch8 (setTStates cpu 0xDD 19)).2
      (opc_fetch8 (setTStates cpu 0xDD 19)).2.PC = cpu_read cpu (cpu.PC + 1) :=
    cpu_read_mod cpu (cpu.PC + 1)
  have r2 : cpu_read (opc_fetch8 (setTStates cpu 0xDD 19)).2
      (((opc_fetch8 (setTStates cpu 0xDD 19)).2.PC + 1) % 65536) = cpu_read cpu (cpu.PC + 2) := by
    have : ((opc_fetch8 (setTStates cpu 0xDD 19)).2.PC + 1) % 65536 = (cpu.PC + 2) % 65536 := p2
    rw [this]
    exact cpu_read_mod cpu (cpu.PC + 2)
  have s3 : ({ (opc_fetch8 (setTStates cpu 0xDD 19)).2 with
      PC := (((opc_fetch8 (setTStates cpu 0xDD 19)).2.PC + 1) % 65536 + 1) % 65536 } : CPU)
      = afterFetchDD3 cpu := by
    simp only [afterFetchDD3, opc_fetch8, setTStates, p3]
  rw [e1, hf, h, e2, e3, r1, r2, s3]
  rfl

theorem opc_LDIX_CB_branches_bit (c : CPU) (addr b : Nat) (hb : b < 8) :
    opc_LDIX_CB_branches c addr (0xC6 + 8 * b)
      = some (cpu_write (setTStates c 0xDD 23) (SET_res (cpu_read c addr) b) addr) ∧
    opc_LDIX_CB_branches c addr (0x86 + 8 * b)
      = some (cpu_write (setTStates c 0xDD 23) (RES_res (cpu_read c addr) b) addr) ∧
    opc_LDIX_CB_branches c addr (0x46 + 8 * b)
      = some (BIT_body (setTStates c 0xDD 20) (cpu_read c addr) b) := by
  interval_cases b <;> exact ⟨rfl, rfl, rfl⟩

/-- With `36` after the prefix the handler fetches the displacement, then the immediate
byte, and stores the immediate at IX + d. -/
theorem opc_LDIX_LDn_of (cpu : CPU) (opcode follByte : Nat) (h : cpu_read cpu cpu.PC = 0x36) :
    opc_LDIX cpu opcode follByte
      = some (cpu_write (afterFetchDD3 cpu) (cpu_read cpu (cpu.PC + 2))
          (idx_addr cpu.IX (cpu_read cpu (cpu.PC + 1)))) := by
  have e1 : opc_LDIX cpu opcode follByte
      = opc_LDIX_branches (opc_fetch8 (setTStates cpu 0xDD 19)).2 (cpu_read cpu cpu.PC)
          follByte := rfl
  have e2 : ∀ c, opc_LDIX_branches c 0x36 follByte
      = some (cpu_write { c with PC := ((c.PC + 1) % 65536 + 1) % 65536 }
          (cpu_read c ((c.PC + 1) % 65536)) (idx_addr c.IX (cpu_read c c.PC))) := fun _ => rfl
  have p3 : (((cpu.PC + 1) % 65536 + 1) % 65536 + 1) % 65536 = (cpu.PC + 3) % 65536 := by omega
  have p2 : ((cpu.PC + 1) % 65536 + 1) % 65536 = (cpu.PC + 2) % 65536 := by omega
  have r1 : cpu_read (opc_fetch8 (setTStates cpu 0xDD 19)).2
      (opc_fetch8 (setTStates cpu 0xDD 19)).2.PC = cpu_read cpu (cpu.PC + 1) :=
    cpu_read_mod cpu (cpu.PC + 1)
  have r2 : cpu_read (opc_fetch8 (setTStates cpu 0xDD 19)).2
      (((opc_fetch8 (setTStates cpu 0xDD 19)).2.PC + 1) % 65536) = cpu_read cpu (cpu.PC + 2) := by
    have : ((opc_fetch8 (setTStates cpu 0xDD 19)).2.PC + 1) % 65536 = (cpu.PC + 2) % 65536 := p2
    rw [this]
    exact cpu_read_mod cpu (cpu.PC + 2)
  have s3 : ({ (opc_fetch8 (setTStates cpu 0xDD 19)).2 with
      PC := (((opc_fetch8 (setTStates cpu 0xDD 19)).2.PC + 1) % 65536 + 1) % 65536 } : CPU)
      = afterFetchDD3 cpu := by
    simp only [afterFetchDD3, opc_fetch8, setTStates, p3]
  rw [e1, h, e2, r1, r2, s3]
  rfl

theorem idx_addr_lt (base d : Nat) : idx_addr base d < 65536 := by
  unfold idx_addr u16
  omega

/-- Reading back a byte written at an address below 2^16, and reading elsewhere. -/
theorem cpu_read_cpu_write (c : CPU) (v addr : Nat) (h : addr < 65536) :
    cpu_read (cpu_write c v addr) addr = v % 256 ∧
    ∀ a, a % 65536 ≠ addr → cpu_read (cpu_write c v addr) a = cpu_read c a := by
  have e : addr % 65536 = addr := Nat.mod_eq_of_lt h
  refine ⟨?_, fun a ha => ?_⟩
  · simp only [cpu_read, cpu_write, e, if_true, Nat.mod_mod]
  · simp only [cpu_read, cpu_write, e, if_neg ha]

/-- C28: in `DD CB d op` the byte after `CB` is the displacement d and the byte after that
the operation: the handler leaves PC three bytes behind the one after the prefix, and the
operand address is (IX + d) mod 2^16 with d read as a signed byte in -128..127. For b below
8, `SET b,(IX+d)` (op = 0xC6 + 8 b) sets and `RES b,(IX+d)` (op = 0x86 + 8 b) clears bit b of
the byte at that address, leaving its other bits, every other byte of memory, the flag byte
and the registers as they were; `BIT b,(IX+d)` (op = 0x46 + 8 b) sets Z iff bit b of that
byte is 0, sets H, clears N, leaves C and writes no memory. In `LD (IX+d),n` (`DD 36 d n`)
the displacement is likewise the byte before the immediate n, which is stored at IX + d. -/
theorem dd_cb_displacement_before_op (cpu : CPU) (opcode follByte b : Nat)
    (hf : follByte = cpu_read cpu cpu.PC) (hb : b < 8) :
    (idx_addr cpu.IX (cpu_read cpu (cpu.PC + 1))
        = u16 ((cpu.IX : Int) + toSigned8 (cpu_read cpu (cpu.PC + 1))) ∧
      -128 ≤ toSigned8 (cpu_read cpu (cpu.PC + 1)) ∧
      toSigned8 (cpu_read cpu (cpu.PC + 1)) ≤ 127) ∧
    (cpu_read cpu cpu.PC = 0xCB → cpu_read cpu (cpu.PC + 2) = 0xC6 + 8 * b →
      ∃ s, opc_LDIX cpu opcode follByte = some s ∧
        s = { afterFetchDD3 cpu with mem := s.mem, TStates := s.TStates } ∧
        (∀ i, (cpu_read s (idx_addr cpu.IX (cpu_read cpu (cpu.PC + 1)))).testBit i
          = ((cpu_read cpu (idx_addr cpu.IX (cpu_read cpu (cpu.PC + 1)))).testBit i
              || decide (i = b))) ∧
        (∀ a, a % 65536 ≠ idx_addr cpu.IX (cpu_read cpu (cpu.PC + 1)) →
          cpu_read s a = cpu_read cpu a)) ∧
    (cpu_read cpu cpu.PC = 0xCB → cpu_read cpu (cpu.PC + 2) = 0x86 + 8 * b →
      ∃ s, opc_LDIX cpu opcode follByte = some s ∧
        s = { afterFetchDD3 cpu with mem := s.mem, TStates := s.TStates } ∧
        (∀ i, (cpu_read s (idx_addr cpu.IX (cpu_read cpu (cpu.PC + 1)))).testBit i
          = ((cpu_read cpu (idx_addr cpu.IX (cpu_read cpu (cpu.PC + 1)))).testBit i
              && !decide (i = b))) ∧
        (∀ a, a % 65536 ≠ idx_addr cpu.IX (cpu_read cpu (cpu.PC + 1)) →
          cpu_read s a = cpu_read cpu a)) ∧
    (cpu_read cpu cpu.PC = 0xCB → cpu_read cpu (cpu.PC + 2) = 0x46 + 8 * b →
      ∃ s, opc_LDIX cpu opcode follByte = some s ∧
        s = { afterFetchDD3 cpu with F := s.F, TStates := s.TStates } ∧
        (s.flag FLAG_ZERO = true ↔
          (cpu_read cpu (idx_addr cpu.IX (cpu_read cpu (cpu.PC + 1)))).testBit b = false) ∧
        s.flag FLAG_HCARRY = true ∧ s.flag FLAG_ADDSUB = false ∧
        s.flag FLAG_CARRY = cpu.flag FLAG_CARRY) ∧
    (cpu_read cpu cpu.PC = 0x36 →
      ∃ s, opc_LDIX cpu opcode follByte = some s ∧
        s = { afterFetchDD3 cpu with mem := s.mem } ∧
        cpu_read s (idx_addr cpu.IX (cpu_read cpu (cpu.PC + 1))) = cpu_read cpu (cpu.PC + 2) ∧
        (∀ a, a % 65536 ≠ idx_addr cpu.IX (cpu_read cpu (cpu.PC + 1)) →
          cpu_read s a = cpu_read cpu a)) := by
  have hd := cpu_read_lt cpu (cpu.PC + 1)
  have hlt := idx_addr_lt cpu.IX (cpu_read cpu (cpu.PC + 1))
  have hv := cpu_read_lt cpu (idx_addr cpu.IX (cpu_read cpu (cpu.PC + 1)))
  obtain ⟨bs, br, bb⟩ := opc_LDIX_CB_branches_bit (afterFetchDD3 cpu)
    (idx_addr cpu.IX (cpu_read cpu (cpu.PC + 1))) b hb
  refine ⟨⟨rfl, ?_, ?_⟩, ?_, ?_, ?_, ?_⟩
  · unfold toSigned8; split <;> omega
  · unfold toSigned8; split <;> omega
  · intro h hop
    obtain ⟨w1, w2⟩ := cpu_read_cpu_write (setTStates (afterFetchDD3 cpu) 0xDD 23)
      (SET_res (cpu_read (afterFetchDD3 cpu) (idx_addr cpu.IX (cpu_read cpu (cpu.PC + 1)))) b)
      _ hlt
    refine ⟨_, by rw [opc_LDIX_CB_of cpu opcode follByte h hf, hop, bs], rfl, fun i => ?_,
      fun a ha => w2 a ha⟩
    rw [w1]
    have e : ∀ x, SET_res x b % 256 = SET_res x b := fun x => by
      unfold SET_res; exact Nat.mod_mod _ _
    rw [e]
    exact SET_res_testBit _ b i hv hb
  · intro h hop
    obtain ⟨w1, w2⟩ := cpu_read_cpu_write (setTStates (afterFetchDD3 cpu) 0xDD 23)
      (RES_res (cpu_read (afterFetchDD3 cpu) (idx_addr cpu.IX (cpu_read cpu (cpu.PC + 1)))) b)
      _ hlt
    refine ⟨_, by rw [opc_LDIX_CB_of cpu opcode follByte h hf, hop, br], rfl, fun i => ?_,
      fun a ha => w2 a ha⟩
    rw [w1]
    have e : ∀ x, RES_res x b % 256 = RES_res x b := fun x => by
      unfold RES_res; exact Nat.mod_mod _ _
    rw [e]
    exact RES_res_testBit _ b i hv
  · intro h hop
    obtain ⟨hfr, hz, hh, hn, hc⟩ := BIT_body_spec (setTStates (afterFetchDD3 cpu) 0xDD 20)
      (cpu_read cpu (idx_addr cpu.IX (cpu_read cpu (cpu.PC + 1)))) b
    refine ⟨_, by rw [opc_LDIX_CB_of cpu opcode follByte h hf, hop, bb]; rfl, ?_, hz, hh, hn,
      hc⟩
    rw [hfr]
    rfl
  · intro h
    obtain ⟨w1, w2⟩ := cpu_read_cpu_write (afterFetchDD3 cpu) (cpu_read cpu (cpu.PC + 2))
      _ hlt
    refine ⟨_, opc_LDIX_LDn_of cpu opcode follByte h, rfl, ?_, fun a ha => w2 a ha⟩
    rw [w1]
    exact Nat.mod_eq_of_lt (cpu_read_lt cpu (cpu.PC + 2))

/-- C28 at IX = 0x2000 and d = 0xFE (-2), on the byte 0x5A at 0x1FFE: `SET 0` gives 0x5B,
`RES 1` gives 0x58, `BIT 0` leaves the byte and sets Z and H, `LD (IX-2),0x77` stores 0x77;
PC ends at 0x0104 each time. -/
theorem dd_cb_displacement_before_op_witness :
    (0xCB = cpu_read (st_dd 0xCB 0xFE 0xC6) (st_dd 0xCB 0xFE 0xC6).PC ∧ 0 < 8) ∧
    (∃ s, opc_LDIX (st_dd 0xCB 0xFE 0xC6) 0xDD 0xCB = some s ∧
      s = { afterFetchDD3 (st_dd 0xCB 0xFE 0xC6) with mem := s.mem, TStates := s.TStates } ∧
      (∀ i, (cpu_read s (idx_addr (st_dd 0xCB 0xFE 0xC6).IX
            (cpu_read (st_dd 0xCB 0xFE 0xC6) ((st_dd 0xCB 0xFE 0xC6).PC + 1)))).testBit i
        = ((cpu_read (st_dd 0xCB 0xFE 0xC6) (idx_addr (st_dd 0xCB 0xFE 0xC6).IX
            (cpu_read (st_dd 0xCB 0xFE 0xC6) ((st_dd 0xCB 0xFE 0xC6).PC + 1)))).testBit i
            || decide (i = 0))) ∧
      (∀ a, a % 65536 ≠ idx_addr (st_dd 0xCB 0xFE 0xC6).IX
          (cpu_read (st_dd 0xCB 0xFE 0xC6) ((st_dd 0xCB 0xFE 0xC6).PC + 1)) →
        cpu_read s a = cpu_read (st_dd 0xCB 0xFE 0xC6) a)) ∧
    (opc_LDIX (st_dd 0xCB 0xFE 0xC6) 0xDD 0xCB).map (fun s => (cpu_read s 0x1FFE, s.PC, s.F))
      = some (0x5B, 0x0104, 0x01) ∧
    (opc_LDIX (st_dd 0xCB 0xFE 0x8E) 0xDD 0xCB).map (fun s => (cpu_read s 0x1FFE, s.PC, s.F))
      = some (0x58, 0x0104, 0x01) ∧
    (opc_LDIX (st_dd 0xCB 0xFE 0x46) 0xDD 0xCB).map (fun s => (cpu_read s 0x1FFE, s.PC, s.F))
      = some (0x5A, 0x0104, 0x51) ∧
    (opc_LDIX (st_dd 0x36 0xFE 0x77) 0xDD 0x36).map (fun s => (cpu_read s 0x1FFE, s.PC, s.F))
      = some (0x77, 0x0104, 0x01) :=
  ⟨⟨by decide, by decide⟩,
    (dd_cb_displacement_before_op (st_dd 0xCB 0xFE 0xC6) 0xDD 0xCB 0 (by decide)
      (by decide)).2.1 (by decide) (by decide),
    by rfl, by rfl, by rfl, by rfl⟩

/-! ## Claims C31 to C40 -/

/-- What `CALLnn` leaves: PC on the operand, SP two lower, and the address behind the
operand in the two bytes under the former SP. -/
theorem CALLnn_eq (z80 : CPU) :
    CALLnn z80 0xCD
      = { z80 with
          PC := (fetch16 z80).1,
          SP := (z80.SP + 65534) % 65536,
          mem := fun a => if a = (z80.SP + 65534) % 65536 then (z80.PC + 2) % 65536 % 256
            else if a = (z80.SP + 65535) % 65536 then (z80.PC + 2) % 65536 / 256 % 256
            else z80.mem a } := by
  have e : ((z80.PC + 1) % 65536 + 1) % 65536 = (z80.PC + 2) % 65536 := by omega
  simp only [CALLnn, stackPush, fetch16, opc_fetch16, opc_fetch8, cpu_stackPush_eq, e]

/-- C31: `CALL nn` stores the address of the instruction behind its three bytes (high half at
SP-1, low half at SP-2), lowers SP by 2 and sets PC to nn; a `RET` run next puts that address
into PC and SP back. On the example of the spec (SP = 0xFFFE, `CD 06 00` at address 0):
after the call PC = 0x0006, SP = 0xFFFC, the bytes at 0xFFFC and 0xFFFD are 0x03 and 0x00;
after the return PC = 0x0003 and SP = 0xFFFE. -/
theorem call_then_ret (z80 : CPU) (hSP : z80.SP < 65536) :
    (CALLnn z80 0xCD).PC = (fetch16 z80).1 ∧
    (CALLnn z80 0xCD).SP = u16 ((z80.SP : Int) - 2) ∧
    cpu_read (CALLnn z80 0xCD) (u16 ((z80.SP : Int) - 1)) = (z80.PC + 2) % 65536 / 256 ∧
    cpu_read (CALLnn z80 0xCD) (u16 ((z80.SP : Int) - 2)) = (z80.PC + 2) % 65536 % 256 ∧
    (∀ a, a < 65536 → a ≠ u16 ((z80.SP : Int) - 1) → a ≠ u16 ((z80.SP : Int) - 2) →
      cpu_read (CALLnn z80 0xCD) a = cpu_read z80 a) ∧
    (RET (CALLnn z80 0xCD) 0xC9).PC = (z80.PC + 2) % 65536 ∧
    (RET (CALLnn z80 0xCD) 0xC9).SP = z80.SP ∧
    (CALLnn st_call 0xCD).PC = 0x0006 ∧ (CALLnn st_call 0xCD).SP = 0xFFFC ∧
    cpu_read (CALLnn st_call 0xCD) 0xFFFC = 0x03 ∧
    cpu_read (CALLnn st_call 0xCD) 0xFFFD = 0x00 ∧
    (RET (CALLnn st_call 0xCD) 0xC9).PC = 0x0003 ∧
    (RET (CALLnn st_call 0xCD) 0xC9).SP = 0xFFFE := by
  have hpop : cpu_stackPop (CALLnn z80 0xCD)
      = ((z80.PC + 2) % 65536, { CALLnn z80 0xCD with SP := z80.SP }) := by
    refine cpu_stackPop_push { z80 with PC := (z80.PC + 2) % 65536 } (CALLnn z80 0xCD)
      ((z80.PC + 2) % 65536) (Nat.mod_lt _ (by decide)) hSP ?_ ?_
    · rw [CALLnn_eq, cpu_stackPush_eq]
    · rw [CALLnn_eq, cpu_stackPush_eq]
  have n1 : ¬ ((z80.SP + 65535) % 65536 = (z80.SP + 65534) % 65536) := by omega
  refine ⟨by rw [CALLnn_eq], by rw [CALLnn_eq, u16_sub_two], ?_, ?_, ?_, ?_, ?_,
    by decide, by decide, by decide, by decide, by decide, by decide⟩
  · rw [CALLnn_eq, u16_sub_one]
    simp only [cpu_read, Nat.mod_mod, if_neg n1, if_true]
    omega
  · rw [CALLnn_eq, u16_sub_two]
    simp only [cpu_read, Nat.mod_mod, if_true]
  · intro a ha h1 h2
    rw [u16_sub_one] at h1
    rw [u16_sub_two] at h2
    rw [CALLnn_eq]
    simp only [cpu_read, Nat.mod_eq_of_lt ha, if_neg h1, if_neg h2]
  · simp only [RET, stackPop, hpop]
  · simp only [RET, stackPop, hpop]

theorem call_then_ret_witness :
    st_call.SP < 65536 ∧ (RET (CALLnn st_call 0xCD) 0xC9).PC = (st_call.PC + 2) % 65536 :=
  ⟨by decide, (call_then_ret st_call (by decide)).2.2.2.2.2.1⟩

theorem opc_ADDHLss_eq (cpu : CPU) (opcode : Nat) :
    ∃ v, opc_readReg16 cpu ((opcode >>> 4) &&& 0x03) .REG16_DD = some v ∧
      opc_ADDHLss cpu opcode
        = some ((cpu.setHL ((cpu.HL + v) % 65536)).withF (putFlag cpu.F 1 false)) := by
  have h : (opcode >>> 4) &&& 0x03 < 4 := by
    have := @Nat.and_le_right (opcode >>> 4) 3
    omega
  unfold opc_ADDHLss
  generalize (opcode >>> 4) &&& 0x03 = s at h
  interval_cases s
  · exact ⟨cpu.BC, rfl, rfl⟩
  · exact ⟨cpu.DE, rfl, rfl⟩
  · exact ⟨cpu.HL, rfl, rfl⟩
  · exact ⟨cpu.SP, rfl, rfl⟩

/-- C32: `opc_ADDHLss` adds the pair to HL modulo 2^16 and clears N, and that is all it does
to the flags: C and H keep the values they had. With HL = 0xFFFF, BC = 0x0001 and C clear,
`ADD HL,BC` leaves HL = 0 with C still clear although the sum exceeds 0xFFFF; with
HL = 0x0FFF and DE = 0x0001, `ADD HL,DE` leaves H clear although bit 11 carries. -/
theorem add_hl_ss_leaves_carry_and_half_carry :
    (∀ cpu opcode,
      (opc_ADDHLss cpu opcode).map (fun r => r.F) = some (putFlag cpu.F 1 false)) ∧
    (∀ cpu opcode, (opc_ADDHLss cpu opcode).map (fun r => r.flag FLAG_CARRY)
      = some (cpu.flag FLAG_CARRY)) ∧
    (∀ cpu opcode, (opc_ADDHLss cpu opcode).map (fun r => r.flag FLAG_HCARRY)
      = some (cpu.flag FLAG_HCARRY)) ∧
    st_addhl.HL + st_addhl.BC > 0xFFFF ∧
    (opc_ADDHLss st_addhl 0x09).map (fun r => (r.HL, r.flag FLAG_CARRY))
      = some (0x0000, false) ∧
    (st_addhl2.HL % 4096 + st_addhl2.DE % 4096 > 0xFFF) ∧
    (opc_ADDHLss st_addhl2 0x19).map (fun r => (r.HL, r.flag FLAG_HCARRY))
      = some (0x1000, false) := by
  refine ⟨fun cpu opcode => ?_, fun cpu opcode => ?_, fun cpu opcode => ?_,
    by decide, by decide, by decide, by decide⟩
  · obtain ⟨v, -, h⟩ := opc_ADDHLss_eq cpu opcode
    rw [h]; rfl
  · obtain ⟨v, -, h⟩ := opc_ADDHLss_eq cpu opcode
    rw [h]
    simp only [Option.map_some', flagC_eq, withF_F, testBit_putFlag]
    simp
  · obtain ⟨v, -, h⟩ := opc_ADDHLss_eq cpu opcode
    rw [h]
    simp only [Option.map_some', flagH_eq, withF_F, testBit_putFlag]
    simp

/-! ## `ADC HL,ss` and `SBC HL,ss` -/

/-- C34: `opc_HALT` sets the halted flag and changes no register, no flag and no memory. It
does not move PC either: after the fetch of the opcode and the handler PC is on the byte
after the `HALT`, and where PC rests after the step is the doing of the driver. With the
driver of the spec, which holds a halted processor on the `HALT`, a step on a `HALT` ends
halted with PC on the `HALT` and everything else as before, and the next step executes the
same `HALT` again; the `HALT` at 0x0003 of the spec's example ends with PC = 0x0003. -/
theorem halt_sets_halted_and_stays (cpu : CPU) :
    (∀ opcode, opc_HALT cpu opcode = { cpu with halt := 1 }) ∧
    (opc_HALT (opc_fetch8 cpu).2 (opc_fetch8 cpu).1).PC = (cpu.PC + 1) % 65536 ∧
    (cpu_read cpu cpu.PC = 0x76 →
      driver_step_HALT cpu = some { cpu with halt := 1 } ∧
      (driver_step_HALT cpu).bind driver_step_HALT = some { cpu with halt := 1 }) ∧
    st_halt.PC = 0x0003 ∧
    (driver_step_HALT st_halt).map (fun r => (r.halt, r.PC, cpu_read r r.PC))
      = some (1, 0x0003, 0x76) := by
  refine ⟨fun _ => rfl, rfl, fun h => ?_, rfl, rfl⟩
  have e : driver_step_HALT cpu = some { cpu with halt := 1 } := by
    simp only [driver_step_HALT, opc_fetch8, h, if_true, opc_HALT]
  have h2 : cpu_read ({ cpu with halt := 1 } : CPU) ({ cpu with halt := 1 } : CPU).PC = 0x76 := h
  refine ⟨e, ?_⟩
  rw [e, Option.some_bind]
  simp only [driver_step_HALT, opc_fetch8, h2, if_true, opc_HALT]

/-! ## `RLD` and `RRD` -/

set_option maxRecDepth 100000 in
theorem nib_hi_all : ∀ x, x < 256 → x &&& 0xF0 = x / 16 * 16 := by decide

theorem nib_hi (x : Nat) (hx : x < 256) : x &&& 0xF0 = x / 16 * 16 := nib_hi_all x hx

theorem nib_lo (x : Nat) : x &&& 0xF = x % 16 :=
  Nat.and_pow_two_sub_one_eq_mod x 4

theorem nib_or (h l : Nat) (hl : l < 16) : (h * 16) ||| l = h * 16 + l := by
  have := Nat.mul_add_lt_is_or (i := 4) (by norm_num; exact hl) h
  simp only [Nat.reducePow] at this
  rw [Nat.mul_comm h 16, ← this]

theorem rld_bytes (a m : Nat) (ha : a < 256) (hm : m < 256) :
    ((a &&& 0xF0) ||| ((m >>> 4) &&& 0xF)) % 256 = a / 16 * 16 + m / 16 ∧
    (((m &&& 0xF) <<< 4) ||| (a &&& 0xF)) % 256 = m % 16 * 16 + a % 16 ∧
    ((a &&& 0xF0) ||| (m &&& 0xF)) % 256 = a / 16 * 16 + m % 16 ∧
    (((a &&& 0xF) <<< 4) ||| ((m >>> 4) &&& 0xF)) % 256 = a % 16 * 16 + m / 16 ∧
    (a &&& 0xF0) ||| (m >>> 4) = a / 16 * 16 + m / 16 ∧
    ((m &&& 0x0F) <<< 4) ||| (a &&& 0x0F) = m % 16 * 16 + a % 16 ∧
    (a &&& 0xF0) ||| (m &&& 0x0F) = a / 16 * 16 + m % 16 ∧
    ((a &&& 0x0F) <<< 4) ||| (m >>> 4) = a % 16 * 16 + m / 16 := by
  have s : m >>> 4 = m / 16 := Nat.shiftRight_eq_div_pow m 4
  have l1 : ∀ x, x <<< 4 = x * 16 := fun x => by rw [Nat.shiftLeft_eq]
  have d : m / 16 % 16 = m / 16 := by omega
  simp only [nib_hi a ha, nib_lo, s, l1, d]
  rw [nib_or _ _ (by omega), nib_or _ _ (by omega), nib_or _ _ (by omega),
    nib_or _ _ (by omega)]
  refine ⟨?_, ?_, ?_, ?_, rfl, rfl, rfl, rfl⟩ <;> omega

theorem opc_LDRIddnn_RLD_eq (cpu : CPU) (hA : cpu.A < 256) :
    opc_LDRIddnn_RLD cpu
      = { cpu with
          TStates := fun i => if i = 0xED then 18 else cpu.TStates i,
          A := cpu.A / 16 * 16 + cpu_read cpu cpu.HL / 16,
          F := putFlag (putFlag (putFlag (putFlag (putFlag cpu.F
            7 (opc_isNegative8 (cpu.A / 16 * 16 + cpu_read cpu cpu.HL / 16)))
            6 (decide (cpu.A / 16 * 16 + cpu_read cpu cpu.HL / 16 = 0)))
            4 false)
            2 (decide (opc_testPFlag8_loop
              (cpu.A / 16 * 16 + cpu_read cpu cpu.HL / 16) 0 % 2 = 0)))
            1 false,
          mem := fun a => if a = cpu.HL % 65536
            then (cpu_read cpu cpu.HL % 16 * 16 + cpu.A % 16) % 256 else cpu.mem a } := by
  obtain ⟨e1, e2, -⟩ := rld_bytes cpu.A (cpu_read cpu cpu.HL) hA (cpu_read_lt _ _)
  have r : cpu_read (setTStates cpu 0xED 18) (setTStates cpu 0xED 18).HL
      = cpu_read cpu cpu.HL := rfl
  have a : (setTStates cpu 0xED 18).A = cpu.A := rfl
  simp only [opc_LDRIddnn_RLD, r, a, e1, e2, opc_testSFlag8_eq, opc_testZFlag8_eq,
    RESET_FLAG_HCARRY_eq, opc_testPFlag8_eq, RESET_FLAG_ADDSUB_eq, CPU.withF]
  rfl

theorem opc_LDRIddnn_RRD_eq (cpu : CPU) (hA : cpu.A < 256) :
    opc_LDRIddnn_RRD cpu
      = { cpu with
          TStates := fun i => if i = 0xED then 18 else cpu.TStates i,
          A := cpu.A / 16 * 16 + cpu_read cpu cpu.HL % 16,
          F := putFlag (putFlag (putFlag (putFlag (putFlag cpu.F
            7 (opc_isNegative8 (cpu.A / 16 * 16 + cpu_read cpu cpu.HL % 16)))
            6 (decide (cpu.A / 16 * 16 + cpu_read cpu cpu.HL % 16 = 0)))
            4 false)
            2 (decide (opc_testPFlag8_loop
              (cpu.A / 16 * 16 + cpu_read cpu cpu.HL % 16) 0 % 2 = 0)))
            1 false,
          mem := fun a => if a = cpu.HL % 65536
            then (cpu.A % 16 * 16 + cpu_read cpu cpu.HL / 16) % 256 else cpu.mem a } := by
  obtain ⟨-, -, e1, e2, -⟩ := rld_bytes cpu.A (cpu_read cpu cpu.HL) hA (cpu_read_lt _ _)
  have r : cpu_read (setTStates cpu 0xED 18) (setTStates cpu 0xED 18).HL
      = cpu_read cpu cpu.HL := rfl
  have a : (setTStates cpu 0xED 18).A = cpu.A := rfl
  simp only [opc_LDRIddnn_RRD, r, a, e1, e2, opc_testSFlag8_eq, opc_testZFlag8_eq,
    RESET_FLAG_HCARRY_eq, opc_testPFlag8_eq, RESET_FLAG_ADDSUB_eq, CPU.withF]
  rfl

theorem RLD_fields (cpu : CPU) (hA : cpu.A < 256) :
    (opc_LDRIddnn_RLD cpu).A = cpu.A / 16 * 16 + cpu_read cpu cpu.HL / 16 ∧
    (opc_LDRIddnn_RLD cpu).HL = cpu.HL ∧
    (opc_LDRIddnn_RLD cpu).F
      = putFlag (putFlag (putFlag (putFlag (putFlag cpu.F
          7 (opc_isNegative8 (cpu.A / 16 * 16 + cpu_read cpu cpu.HL / 16)))
          6 (decide (cpu.A / 16 * 16 + cpu_read cpu cpu.HL / 16 = 0)))
          4 false)
          2 (decide (opc_testPFlag8_loop
            (cpu.A / 16 * 16 + cpu_read cpu cpu.HL / 16) 0 % 2 = 0)))
          1 false ∧
    (∀ a, cpu_read (opc_LDRIddnn_RLD cpu) a
      = if a % 65536 = cpu.HL then cpu_read cpu cpu.HL % 16 * 16 + cpu.A % 16
        else cpu_read cpu a) := by
  have hm := cpu_read_lt cpu cpu.HL
  have hh : cpu.HL % 65536 = cpu.HL := Nat.mod_eq_of_lt (HL_lt cpu)
  rw [opc_LDRIddnn_RLD_eq cpu hA]
  refine ⟨rfl, rfl, rfl, fun a => ?_⟩
  simp only [cpu_read, hh]
  split
  · simp only [cpu_read, hh] at hm
    omega
  · rfl

theorem RRD_fields (cpu : CPU) (hA : cpu.A < 256) :
    (opc_LDRIddnn_RRD cpu).A = cpu.A / 16 * 16 + cpu_read cpu cpu.HL % 16 ∧
    (opc_LDRIddnn_RRD cpu).HL = cpu.HL ∧
    (opc_LDRIddnn_RRD cpu).F
      = putFlag (putFlag (putFlag (putFlag (putFlag cpu.F
          7 (opc_isNegative8 (cpu.A / 16 * 16 + cpu_read cpu cpu.HL % 16)))
          6 (decide (cpu.A / 16 * 16 + cpu_read cpu cpu.HL % 16 = 0)))
          4 false)
          2 (decide (opc_testPFlag8_loop
            (cpu.A / 16 * 16 + cpu_read cpu cpu.HL % 16) 0 % 2 = 0)))
          1 false ∧
    (∀ a, cpu_read (opc_LDRIddnn_RRD cpu) a
      = if a % 65536 = cpu.HL then cpu.A % 16 * 16 + cpu_read cpu cpu.HL / 16
        else cpu_read cpu a) := by
  have hm := cpu_read_lt cpu cpu.HL
  have hh : cpu.HL % 65536 = cpu.HL := Nat.mod_eq_of_lt (HL_lt cpu)
  rw [opc_LDRIddnn_RRD_eq cpu hA]
  refine ⟨rfl, rfl, rfl, fun a => ?_⟩
  simp only [cpu_read, hh]
  split
  · simp only [cpu_read, hh] at hm
    omega
  · rfl

/-- The flags a digit rotate leaves, from the byte `v` it put into A. -/
theorem digit_rotate_flags (f v j : Nat) (hv : v < 256) :
    (putFlag (putFlag (putFlag (putFlag (putFlag f 7 (opc_isNegative8 v)) 6 (decide (v = 0)))
      4 false) 2 (decide (opc_testPFlag8_loop v 0 % 2 = 0))) 1 false).testBit j
    = (decide (j < 8) && if j = 7 then v.testBit 7 else if j = 6 then decide (v = 0)
        else if j = 4 then false else if j = 2 then decide (Even (popcount8 v))
        else if j = 1 then false else f.testBit j) := by
  simp only [testBit_putFlag, opc_isNegative8_eq v hv, opc_testPFlag8_loop_eq v hv,
    Nat.even_iff]
  by_cases h8 : j < 8
  · interval_cases j <;> simp
  · simp [h8]

theorem opc_LDRIddnn_RLD_of (cpu : CPU) (opcode data : Nat) (h : cpu_read cpu cpu.PC = 0x6F) :
    opc_LDRIddnn cpu opcode 0x6F data = some (opc_LDRIddnn_RLD (afterFetchED cpu)) := by
  have e : cpu_read (setTStates cpu 0xED 9) (setTStates cpu 0xED 9).PC = 0x6F := h
  simp only [opc_LDRIddnn, opc_fetch8, e]
  simp
  rfl

theorem opc_LDRIddnn_RRD_of (cpu : CPU) (opcode data : Nat) (h : cpu_read cpu cpu.PC = 0x67) :
    opc_LDRIddnn cpu opcode 0x67 data = some (opc_LDRIddnn_RRD (afterFetchED cpu)) := by
  have e : cpu_read (setTStates cpu 0xED 9) (setTStates cpu 0xED 9).PC = 0x67 := h
  simp only [opc_LDRIddnn, opc_fetch8, e]
  simp
  rfl

theorem nib_pack (h l : Nat) (hl : l < 16) :
    (h * 16 + l) / 16 = h ∧ (h * 16 + l) % 16 = l := by
  omega

/-- C35: with m the byte at HL, `RLD` leaves A = (A & 0xF0) | (m >> 4) and
mem[HL] = ((m & 0x0F) << 4) | (A & 0x0F); `RRD` leaves A = (A & 0xF0) | (m & 0x0F) and
mem[HL] = ((A & 0x0F) << 4) | (m >> 4). Both take S, Z and P/V (even parity) from the new A,
clear H and N and leave C as it was. `RLD` followed by `RRD`, and `RLD` three times, bring A
and the memory back. With the byte after `ED` equal to 0x6F or 0x67 the handler runs these
branches. -/
theorem rld_rrd (cpu : CPU) (hA : cpu.A < 256) :
    (opc_LDRIddnn_RLD cpu).A = (cpu.A &&& 0xF0) ||| (cpu_read cpu cpu.HL >>> 4) ∧
    cpu_read (opc_LDRIddnn_RLD cpu) cpu.HL
      = ((cpu_read cpu cpu.HL &&& 0x0F) <<< 4) ||| (cpu.A &&& 0x0F) ∧
    (opc_LDRIddnn_RRD cpu).A = (cpu.A &&& 0xF0) ||| (cpu_read cpu cpu.HL &&& 0x0F) ∧
    cpu_read (opc_LDRIddnn_RRD cpu) cpu.HL
      = ((cpu.A &&& 0x0F) <<< 4) ||| (cpu_read cpu cpu.HL >>> 4) ∧
    (∀ r, r = opc_LDRIddnn_RLD cpu ∨ r = opc_LDRIddnn_RRD cpu →
      r.flag FLAG_SIGN = r.A.testBit 7 ∧ r.flag FLAG_ZERO = decide (r.A = 0) ∧
      r.flag FLAG_PARITY = decide (Even (popcount8 r.A)) ∧
      r.flag FLAG_HCARRY = false ∧ r.flag FLAG_ADDSUB = false ∧
      r.flag FLAG_CARRY = cpu.flag FLAG_CARRY) ∧
    (opc_LDRIddnn_RRD (opc_LDRIddnn_RLD cpu)).A = cpu.A ∧
    (∀ a, cpu_read (opc_LDRIddnn_RRD (opc_LDRIddnn_RLD cpu)) a = cpu_read cpu a) ∧
    (opc_LDRIddnn_RLD (opc_LDRIddnn_RLD (opc_LDRIddnn_RLD cpu))).A = cpu.A ∧
    (∀ a, cpu_read (opc_LDRIddnn_RLD (opc_LDRIddnn_RLD (opc_LDRIddnn_RLD cpu))) a
      = cpu_read cpu a) ∧
    (∀ c opcode data, cpu_read c c.PC = 0x6F →
      opc_LDRIddnn c opcode 0x6F data = some (opc_LDRIddnn_RLD (afterFetchED c))) ∧
    (∀ c opcode data, cpu_read c c.PC = 0x67 →
      opc_LDRIddnn c opcode 0x67 data = some (opc_LDRIddnn_RRD (afterFetchED c))) := by
  have hm := cpu_read_lt cpu cpu.HL
  have hh : cpu.HL % 65536 = cpu.HL := Nat.mod_eq_of_lt (HL_lt cpu)
  obtain ⟨-, -, -, -, b1, b2, b3, b4⟩ := rld_bytes cpu.A (cpu_read cpu cpu.HL) hA hm
  obtain ⟨l1, l2, lf, l3⟩ := RLD_fields cpu hA
  obtain ⟨r1, -, rf, r3⟩ := RRD_fields cpu hA
  have hA1 : (opc_LDRIddnn_RLD cpu).A < 256 := by rw [l1]; omega
  obtain ⟨m1, m2, -, m3⟩ := RLD_fields (opc_LDRIddnn_RLD cpu) hA1
  have hA2 : (opc_LDRIddnn_RLD (opc_LDRIddnn_RLD cpu)).A < 256 := by
    rw [m1, l1, l2, l3, if_pos hh]; omega
  obtain ⟨n1, -, -, n3⟩ := RLD_fields (opc_LDRIddnn_RLD (opc_LDRIddnn_RLD cpu)) hA2
  obtain ⟨q1, -, -, q3⟩ := RRD_fields (opc_LDRIddnn_RLD cpu) hA1
  have p1 := nib_pack (cpu_read cpu cpu.HL % 16) (cpu.A % 16) (by omega)
  have p2 := nib_pack (cpu.A / 16) (cpu_read cpu cpu.HL / 16) (by omega)
  have p3 := nib_pack (cpu.A % 16) (cpu_read cpu cpu.HL / 16) (by omega)
  have p4 := nib_pack (cpu.A / 16) (cpu_read cpu cpu.HL % 16) (by omega)
  refine ⟨by rw [l1, b1], by rw [l3, if_pos hh, b2], by rw [r1, b3],
    by rw [r3, if_pos hh, b4], ?_, ?_, ?_, ?_, ?_,
    fun c opcode data h => opc_LDRIddnn_RLD_of c opcode data h,
    fun c opcode data h => opc_LDRIddnn_RRD_of c opcode data h⟩
  · intro r hr
    rcases hr with hr | hr
    · subst hr
      have hv : cpu.A / 16 * 16 + cpu_read cpu cpu.HL / 16 < 256 := by omega
      simp only [flagS_eq, flagZ_eq, flagPV_eq, flagH_eq, flagN_eq, flagC_eq, lf, l1,
        digit_rotate_flags _ _ _ hv]
      simp
    · subst hr
      have hv : cpu.A / 16 * 16 + cpu_read cpu cpu.HL % 16 < 256 := by omega
      simp only [flagS_eq, flagZ_eq, flagPV_eq, flagH_eq, flagN_eq, flagC_eq, rf, r1,
        digit_rotate_flags _ _ _ hv]
      simp
  · rw [q1, l2, l1, l3, if_pos hh]
    simp only [p1.1, p1.2, p2.1, p2.2]
    omega
  · intro a
    have ha : a % 65536 = cpu.HL → cpu_read cpu a = cpu_read cpu cpu.HL := fun h => by
      unfold cpu_read; rw [h, hh]
    rw [q3, l2, l1, l3 cpu.HL, if_pos hh, l3 a]
    by_cases h : a % 65536 = cpu.HL
    · simp only [if_pos h, ha h, p1.1, p1.2, p2.1, p2.2]; omega
    · simp only [if_neg h]
  · rw [n1, m2, l2, m3 cpu.HL, l2, if_pos hh, m1, l2, l1, l3 cpu.HL, if_pos hh]
    simp only [p1.1, p1.2, p2.1, p2.2, p3.1, p3.2, p4.1, p4.2]
    omega
  · intro a
    have ha : a % 65536 = cpu.HL → cpu_read cpu a = cpu_read cpu cpu.HL := fun h => by
      unfold cpu_read; rw [h, hh]
    rw [n3, m2, l2, m3 cpu.HL, l2, if_pos hh, m1, l2, l1, l3 cpu.HL, if_pos hh, m3 a, l2,
      l3 a]
    by_cases h : a % 65536 = cpu.HL
    · simp only [if_pos h, ha h, p1.1, p1.2, p2.1, p2.2, p3.1, p3.2, p4.1, p4.2]; omega
    · simp only [if_neg h]

theorem rld_rrd_witness :
    st_rld.A < 256 ∧
    (opc_LDRIddnn_RLD st_rld).A = (st_rld.A &&& 0xF0) ||| (cpu_read st_rld st_rld.HL >>> 4) :=
  ⟨by decide, (rld_rrd st_rld (by decide)).1⟩

/-! ## Bytes without a branch -/

set_option maxRecDepth 100000 in
theorem opc_LDRIddnn_none (cpu : CPU) (opcode data b : Nat) (hb : b < 256)
    (h : cpu_read cpu cpu.PC = b) (hno : b ∉ edBytes) :
    opc_LDRIddnn cpu opcode b data = none := by
  have e : cpu_read (setTStates cpu 0xED 9) (setTStates cpu 0xED 9).PC = b := h
  simp only [opc_LDRIddnn, opc_fetch8, e]
  clear e h
  interval_cases b <;> first | rfl | exact absurd (by decide) hno

set_option maxRecDepth 100000 in
theorem opc_LDIX_branches_none (cpu : CPU) (b : Nat) (hb : b < 256) (hno : b ∉ ddBytes) :
    opc_LDIX_branches cpu b b = none ∧ opc_LDIY_branches cpu b b = none := by
  interval_cases b <;> first | exact ⟨rfl, rfl⟩ | exact absurd (by decide) hno

set_option maxRecDepth 100000 in
theorem opc_RLC_branches_none (cpu : CPU) (b : Nat) (hb : b < 256) (hno : b ∉ cbBytes) :
    opc_RLC_branches cpu b = none := by
  interval_cases b <;> first | rfl | exact absurd (by decide) hno

set_option maxRecDepth 100000 in
theorem opc_LDIX_CB_branches_none (cpu : CPU) (addr c : Nat) (hc : c < 256)
    (hno : c ∉ idxcbBytes) :
    opc_LDIX_CB_branches cpu addr c = none ∧ opc_LDIY_CB_branches cpu addr c = none := by
  interval_cases c <;> first | exact ⟨rfl, rfl⟩ | exact absurd (by decide) hno

theorem opc_LDIY_branches_eq (cpu : CPU) (opcode follByte : Nat) :
    opc_LDIY cpu opcode follByte
      = opc_LDIY_branches (opc_fetch8 (setTStates cpu 0xFD 19)).2 (cpu_read cpu cpu.PC)
          follByte := rfl

theorem opc_LDIX_branches_eq (cpu : CPU) (opcode follByte : Nat) :
    opc_LDIX cpu opcode follByte
      = opc_LDIX_branches (opc_fetch8 (setTStates cpu 0xDD 19)).2 (cpu_read cpu cpu.PC)
          follByte := rfl

theorem opc_LDIY_CB_eq (c : CPU) :
    opc_LDIY_CB c
      = opc_LDIY_CB_branches { c with PC := ((c.PC + 1) % 65536 + 1) % 65536 }
          (idx_addr c.IY (cpu_read c c.PC)) (cpu_read c ((c.PC + 1) % 65536)) := rfl

theorem opc_LDIX_CB_eq (c : CPU) :
    opc_LDIX_CB c
      = opc_LDIX_CB_branches { c with PC := ((c.PC + 1) % 65536 + 1) % 65536 }
          (idx_addr c.IX (cpu_read c c.PC)) (cpu_read c ((c.PC + 1) % 65536)) := rfl

/-- The operation byte of `DD CB d op`, as the handler reads it after the prefix byte, the
`CB` and the displacement. -/
theorem fourth_byte (cpu : CPU) (t i : Nat) :
    cpu_read (opc_fetch8 (setTStates cpu i t)).2
      (((opc_fetch8 (setTStates cpu i t)).2.PC + 1) % 65536) = cpu_read cpu (cpu.PC + 2) := by
  have p2 : ((cpu.PC + 1) % 65536 + 1) % 65536 = (cpu.PC + 2) % 65536 := by omega
  have : ((opc_fetch8 (setTStates cpu i t)).2.PC + 1) % 65536 = (cpu.PC + 2) % 65536 := p2
  rw [this]
  exact cpu_read_mod cpu (cpu.PC + 2)

/-- C36: a byte after a prefix that none of the handler's tests accepts ends the program.
With the undeclared `follByte` equal to the byte after the prefix, `opc_LDRIddnn` (`ED`),
`opc_LDIX` (`DD`), `opc_LDIY` (`FD`) and `opc_RLC` (`CB`) abort on every second byte outside
`edBytes`, `ddBytes`, `ddBytes` and `cbBytes`, and the `DD CB d op` and `FD CB d op` chains
abort on every operation byte outside `idxcbBytes`; no such byte returns a state. `ED 00`,
`DD 00`, `FD 00` and `CB 30` are among them. -/
theorem unrecognised_byte_aborts :
    (∀ cpu data b, b < 256 → cpu_read cpu cpu.PC = b → b ∉ edBytes →
      opc_LDRIddnn cpu 0xED b data = none) ∧
    (∀ cpu b, b < 256 → cpu_read cpu cpu.PC = b → b ∉ ddBytes →
      opc_LDIX cpu 0xDD b = none ∧ opc_LDIY cpu 0xFD b = none) ∧
    (∀ cpu b, b < 256 → cpu_read cpu cpu.PC = b → b ∉ cbBytes → opc_RLC cpu 0xCB = none) ∧
    (∀ cpu c, c < 256 → cpu_read cpu cpu.PC = 0xCB → cpu_read cpu (cpu.PC + 2) = c →
      c ∉ idxcbBytes → opc_LDIX cpu 0xDD 0xCB = none ∧ opc_LDIY cpu 0xFD 0xCB = none) ∧
    opc_LDRIddnn (st_bytes 0xED 0x00) 0xED 0x00 0 = none ∧
    opc_LDIX (st_bytes 0xDD 0x00) 0xDD 0x00 = none ∧
    opc_LDIY (st_bytes 0xFD 0x00) 0xFD 0x00 = none ∧
    opc_RLC (st_bytes 0xCB 0x30) 0xCB = none ∧
    opc_LDIX (st_dd 0xCB 0xFE 0x00) 0xDD 0xCB = none ∧
    opc_LDIY (st_dd 0xCB 0xFE 0x00) 0xFD 0xCB = none := by
  refine ⟨fun cpu data b hb h hno => opc_LDRIddnn_none cpu 0xED data b hb h hno,
    fun cpu b hb h hno => ?_, fun cpu b hb h hno => ?_, fun cpu c hc h h2 hno => ?_,
    rfl, rfl, rfl, rfl, rfl, rfl⟩
  · rw [opc_LDIX_branches_eq, opc_LDIY_branches_eq, h]
    exact ⟨(opc_LDIX_branches_none _ b hb hno).1, (opc_LDIX_branches_none _ b hb hno).2⟩
  · rw [opc_RLC_eq, h]
    exact opc_RLC_branches_none _ b hb hno
  · have e2 : ∀ s, opc_LDIX_branches s 0xCB 0xCB = opc_LDIX_CB s := fun _ => rfl
    have e3 : ∀ s, opc_LDIY_branches s 0xCB 0xCB = opc_LDIY_CB s := fun _ => rfl
    rw [opc_LDIX_branches_eq, opc_LDIY_branches_eq, h, e2, e3, opc_LDIX_CB_eq, opc_LDIY_CB_eq,
      fourth_byte, fourth_byte, h2]
    exact ⟨(opc_LDIX_CB_branches_none _ _ c hc hno).1, (opc_LDIX_CB_branches_none _ _ c hc hno).2⟩

/-! ## T-states of the conditional handlers -/

theorem cond_zero (z80 : CPU) (mask : Nat) :
    decide ((z80.F &&& mask) = 0) = !z80.flag mask ∧
    decide ((z80.F &&& mask) ≠ 0) = z80.flag mask := by
  unfold CPU.flag
  by_cases h : (z80.F &&& mask) = 0 <;> simp [h]

theorem CALLccnn_eq (z80 : CPU) (cc : Nat) (hcc : cc < 8) :
    CALLccnn z80 (0xC4 + 8 * cc)
      = some (CALLccnn_case (fetch16 z80).2 (fetch16 z80).1 (ccHolds cc z80) (0xC4 + 8 * cc)) := by
  have c := fun m => cond_zero (fetch16 z80).2 m
  interval_cases cc
  · show some (CALLccnn_case _ _ (decide ((fetch16 z80).2.F &&& FLAG_ZERO = 0)) _) = _
    rw [(c FLAG_ZERO).1]; rfl
  · show some (CALLccnn_case _ _ (decide ((fetch16 z80).2.F &&& FLAG_ZERO ≠ 0)) _) = _
    rw [(c FLAG_ZERO).2]; rfl
  · show some (CALLccnn_case _ _ (decide ((fetch16 z80).2.F &&& FLAG_CARRY = 0)) _) = _
    rw [(c FLAG_CARRY).1]; rfl
  · show some (CALLccnn_case _ _ (decide ((fetch16 z80).2.F &&& FLAG_CARRY ≠ 0)) _) = _
    rw [(c FLAG_CARRY).2]; rfl
  · show some (CALLccnn_case _ _ (decide ((fetch16 z80).2.F &&& FLAG_PARITY = 0)) _) = _
    rw [(c FLAG_PARITY).1]; rfl
  · show some (CALLccnn_case _ _ (decide ((fetch16 z80).2.F &&& FLAG_PARITY ≠ 0)) _) = _
    rw [(c FLAG_PARITY).2]; rfl
  · show some (CALLccnn_case _ _ (decide ((fetch16 z80).2.F &&& FLAG_SIGN = 0)) _) = _
    rw [(c FLAG_SIGN).1]; rfl
  · show some (CALLccnn_case _ _ (decide ((fetch16 z80).2.F &&& FLAG_SIGN ≠ 0)) _) = _
    rw [(c FLAG_SIGN).2]; rfl

theorem RETcc_eq (z80 : CPU) (cc : Nat) (hcc : cc < 8) :
    RETcc z80 (0xC0 + 8 * cc) = some (RETcc_case z80 (ccHolds cc z80) (0xC0 + 8 * cc)) := by
  have c := fun m => cond_zero z80 m
  interval_cases cc
  · show some (RETcc_case _ (decide (z80.F &&& FLAG_ZERO = 0)) _) = _
    rw [(c FLAG_ZERO).1]; rfl
  · show some (RETcc_case _ (decide (z80.F &&& FLAG_ZERO ≠ 0)) _) = _
    rw [(c FLAG_ZERO).2]; rfl
  · show some (RETcc_case _ (decide (z80.F &&& FLAG_CARRY = 0)) _) = _
    rw [(c FLAG_CARRY).1]; rfl
  · show some (RETcc_case _ (decide (z80.F &&& FLAG_CARRY ≠ 0)) _) = _
    rw [(c FLAG_CARRY).2]; rfl
  · show some (RETcc_case _ (decide (z80.F &&& FLAG_PARITY = 0)) _) = _
    rw [(c FLAG_PARITY).1]; rfl
  · show some (RETcc_case _ (decide (z80.F &&& FLAG_PARITY ≠ 0)) _) = _
    rw [(c FLAG_PARITY).2]; rfl
  · show some (RETcc_case _ (decide (z80.F &&& FLAG_SIGN = 0)) _) = _
    rw [(c FLAG_SIGN).1]; rfl
  · show some (RETcc_case _ (decide (z80.F &&& FLAG_SIGN ≠ 0)) _) = _
    rw [(c FLAG_SIGN).2]; rfl

theorem setTStates_spec (z80 : CPU) (idx t : Nat) :
    (setTStates z80 idx t).TStates idx = t ∧
    (∀ i, i ≠ idx → (setTStates z80 idx t).TStates i = z80.TStates i) := by
  refine ⟨?_, fun i hi => ?_⟩
  · simp only [setTStates, if_true]
  · simp only [setTStates, if_neg hi]

theorem CALLccnn_case_spec (z80 : CPU) (nn idx : Nat) (cond : Bool) :
    (CALLccnn_case z80 nn cond idx).TStates idx = (if cond then 17 else 10) ∧
    (∀ i, i ≠ idx → (CALLccnn_case z80 nn cond idx).TStates i = z80.TStates i) ∧
    (cond = false → (CALLccnn_case z80 nn cond idx).SP = z80.SP ∧
      (CALLccnn_case z80 nn cond idx).mem = z80.mem ∧
      (CALLccnn_case z80 nn cond idx).PC = z80.PC) := by
  cases cond
  · exact ⟨(setTStates_spec z80 idx 10).1, (setTStates_spec z80 idx 10).2,
      fun _ => ⟨rfl, rfl, rfl⟩⟩
  · refine ⟨?_, fun i hi => ?_, fun h => absurd h (by decide)⟩
    · exact (setTStates_spec _ idx 17).1
    · exact (setTStates_spec _ idx 17).2 i hi

theorem RETcc_case_spec (z80 : CPU) (idx : Nat) (cond : Bool) :
    (RETcc_case z80 cond idx).TStates idx = (if cond then 11 else 5) ∧
    (∀ i, i ≠ idx → (RETcc_case z80 cond idx).TStates i = z80.TStates i) ∧
    (cond = false → (RETcc_case z80 cond idx).SP = z80.SP ∧
      (RETcc_case z80 cond idx).mem = z80.mem ∧ (RETcc_case z80 cond idx).PC = z80.PC) := by
  cases cond
  · exact ⟨(setTStates_spec z80 idx 5).1, (setTStates_spec z80 idx 5).2,
      fun _ => ⟨rfl, rfl, rfl⟩⟩
  · refine ⟨?_, fun i hi => ?_, fun h => absurd h (by decide)⟩
    · exact (setTStates_spec _ idx 11).1
    · exact (setTStates_spec _ idx 11).2 i hi

/-- The table after one of the four `JR cc,e` functions whose test is `cond`. -/
theorem jr_tstates (z80 : CPU) (idx off : Nat) (c : Prop) [Decidable c] (s : CPU)
    (hs : s.TStates = (setTStates z80 idx 12).TStates) :
    (if c then { s with PC := off } else setTStates s idx 7).TStates idx
      = (if c then 12 else 7) ∧
    (∀ i, i ≠ idx →
      (if c then { s with PC := off } else setTStates s idx 7).TStates i = z80.TStates i) := by
  by_cases h : c
  · simp only [if_pos h, hs]
    exact setTStates_spec z80 idx 12
  · simp only [if_neg h]
    refine ⟨(setTStates_spec s idx 7).1, fun i hi => ?_⟩
    rw [(setTStates_spec s idx 7).2 i hi, hs]
    exact (setTStates_spec z80 idx 12).2 i hi

theorem ite_flag (z80 : CPU) (m a b : Nat) :
    (if (z80.F &&& m) ≠ 0 then a else b) = (if z80.flag m then a else b) ∧
    (if (z80.F &&& m) = 0 then a else b) = (if !z80.flag m then a else b) := by
  unfold CPU.flag
  by_cases h : (z80.F &&& m) = 0 <;> simp [h]

/-- C37: the T-state count a conditional handler leaves in the table entry of its own opcode,
every other entry being as before: `CALL cc,nn` (opcode 0xC4 + 8 cc) 17 when the condition
holds and 10 when not, `RET cc` (0xC0 + 8 cc) 11 and 5, `JR C`, `JR NC`, `JR Z`, `JR NZ`
(0x38, 0x30, 0x28, 0x20) 12 and 7, `DJNZ` (0x10) 13 when B is non-zero after the decrement
and 8 when it is zero. When the condition does not hold, `CALL cc,nn` and `RET cc` leave SP
and the memory as they were. -/
theorem conditional_tstates (z80 : CPU) (cc : Nat) (hcc : cc < 8) :
    (∃ r, CALLccnn z80 (0xC4 + 8 * cc) = some r ∧
      r.TStates (0xC4 + 8 * cc) = (if ccHolds cc z80 then 17 else 10) ∧
      (∀ i, i ≠ 0xC4 + 8 * cc → r.TStates i = z80.TStates i) ∧
      (ccHolds cc z80 = false → r.SP = z80.SP ∧ r.mem = z80.mem)) ∧
    (∃ r, RETcc z80 (0xC0 + 8 * cc) = some r ∧
      r.TStates (0xC0 + 8 * cc) = (if ccHolds cc z80 then 11 else 5) ∧
      (∀ i, i ≠ 0xC0 + 8 * cc → r.TStates i = z80.TStates i) ∧
      (ccHolds cc z80 = false → r.SP = z80.SP ∧ r.mem = z80.mem)) ∧
    ((JRCe z80 0x38).TStates 0x38 = (if ccHolds 3 z80 then 12 else 7) ∧
      ∀ i, i ≠ 0x38 → (JRCe z80 0x38).TStates i = z80.TStates i) ∧
    ((JRNCe z80 0x30).TStates 0x30 = (if ccHolds 2 z80 then 12 else 7) ∧
      ∀ i, i ≠ 0x30 → (JRNCe z80 0x30).TStates i = z80.TStates i) ∧
    ((JRZe z80 0x28).TStates 0x28 = (if ccHolds 1 z80 then 12 else 7) ∧
      ∀ i, i ≠ 0x28 → (JRZe z80 0x28).TStates i = z80.TStates i) ∧
    ((JRNZe z80 0x20).TStates 0x20 = (if ccHolds 0 z80 then 12 else 7) ∧
      ∀ i, i ≠ 0x20 → (JRNZe z80 0x20).TStates i = z80.TStates i) ∧
    ((DJNZe z80 0x10).B = u8 ((z80.B : Int) - 1) ∧
      (DJNZe z80 0x10).TStates 0x10 = (if (DJNZe z80 0x10).B ≠ 0 then 13 else 8) ∧
      ∀ i, i ≠ 0x10 → (DJNZe z80 0x10).TStates i = z80.TStates i) := by
  refine ⟨⟨_, CALLccnn_eq z80 cc hcc, ?_, ?_, ?_⟩, ⟨_, RETcc_eq z80 cc hcc, ?_, ?_, ?_⟩,
    ?_, ?_, ?_, ?_, ?_⟩
  · exact (CALLccnn_case_spec _ _ _ _).1
  · exact (CALLccnn_case_spec _ _ _ _).2.1
  · intro h
    obtain ⟨h1, h2, -⟩ := (CALLccnn_case_spec (fetch16 z80).2 (fetch16 z80).1 (0xC4 + 8 * cc)
      (ccHolds cc z80)).2.2 h
    exact ⟨h1, h2⟩
  · exact (RETcc_case_spec _ _ _).1
  · exact (RETcc_case_spec _ _ _).2.1
  · intro h
    obtain ⟨h1, h2, -⟩ := (RETcc_case_spec z80 (0xC0 + 8 * cc) (ccHolds cc z80)).2.2 h
    exact ⟨h1, h2⟩
  · have k := jr_tstates z80 0x38
      (((fetch8 (setTStates z80 0x38 12)).2.PC
        + extended_o (fetch8 (setTStates z80 0x38 12)).1) % 65536)
      ((z80.F &&& FLAG_CARRY) ≠ 0) (fetch8 (setTStates z80 0x38 12)).2 rfl
    rw [(ite_flag z80 FLAG_CARRY 12 7).1] at k
    exact k
  · have k := jr_tstates z80 0x30
      (((fetch8 (setTStates z80 0x30 12)).2.PC
        + extended_o (fetch8 (setTStates z80 0x30 12)).1) % 65536)
      ((z80.F &&& FLAG_CARRY) = 0) (fetch8 (setTStates z80 0x30 12)).2 rfl
    rw [(ite_flag z80 FLAG_CARRY 12 7).2] at k
    exact k
  · have k := jr_tstates z80 0x28
      (((fetch8 (setTStates z80 0x28 12)).2.PC
        + extended_o (fetch8 (setTStates z80 0x28 12)).1) % 65536)
      ((z80.F &&& FLAG_ZERO) ≠ 0) (fetch8 (setTStates z80 0x28 12)).2 rfl
    rw [(ite_flag z80 FLAG_ZERO 12 7).1] at k
    exact k
  · have k := jr_tstates z80 0x20
      (((fetch8 (setTStates z80 0x20 12)).2.PC
        + extended_o (fetch8 (setTStates z80 0x20 12)).1) % 65536)
      ((z80.F &&& FLAG_ZERO) = 0) (fetch8 (setTStates z80 0x20 12)).2 rfl
    rw [(ite_flag z80 FLAG_ZERO 12 7).2] at k
    exact k
  · by_cases h : u8 ((z80.B : Int) - 1) ≠ 0
    · have e : DJNZe z80 0x10
          = { setTStates { (fetch8 z80).2 with B := u8 ((z80.B : Int) - 1) } 0x10 13 with
              PC := ((fetch8 z80).2.PC + extended_o (fetch8 z80).1) % 65536 } := by
        simp only [DJNZe, fetch8, opc_fetch8]
        rw [if_pos h]
        rfl
      rw [e]
      refine ⟨rfl, ?_, fun i hi => ?_⟩
      · exact ((setTStates_spec { (fetch8 z80).2 with B := u8 ((z80.B : Int) - 1) }
          0x10 13).1).trans (if_pos h).symm
      · exact (setTStates_spec { (fetch8 z80).2 with B := u8 ((z80.B : Int) - 1) } 0x10 13).2 i hi
    · have e : DJNZe z80 0x10
          = setTStates { (fetch8 z80).2 with B := u8 ((z80.B : Int) - 1) } 0x10 8 := by
        simp only [DJNZe, fetch8, opc_fetch8]
        rw [if_neg h]
      rw [e]
      refine ⟨rfl, ?_, fun i hi => ?_⟩
      · exact ((setTStates_spec { (fetch8 z80).2 with B := u8 ((z80.B : Int) - 1) }
          0x10 8).1).trans (if_neg h).symm
      · exact (setTStates_spec { (fetch8 z80).2 with B := u8 ((z80.B : Int) - 1) } 0x10 8).2 i hi

theorem conditional_tstates_witness :
    (1 : Nat) < 8 ∧
    ∃ r, CALLccnn st_callz (0xC4 + 8 * 1) = some r ∧
      r.TStates (0xC4 + 8 * 1) = (if ccHolds 1 st_callz then 17 else 10) ∧
      (∀ i, i ≠ 0xC4 + 8 * 1 → r.TStates i = st_callz.TStates i) ∧
      (ccHolds 1 st_callz = false → r.SP = st_callz.SP ∧ r.mem = st_callz.mem) :=
  ⟨by decide, (conditional_tstates st_callz 1 (by decide)).1⟩

/-! ## `RL r` followed by `RR r` -/

set_option maxRecDepth 100000 in
theorem rl_rr_bytes : ∀ x, x < 256 → ∀ c, c < 2 →
    (((((x <<< 1) ||| c) % 256) >>> 1) ||| ((x.testBit 7).toNat <<< 7)) % 256 = x ∧
    (((x <<< 1) ||| c) % 256).testBit 0 = decide (c = 1) := by
  decide

theorem rot_flags_carry (cpu : CPU) (res : Nat) :
    (rot_flags cpu res).F.testBit 0 = cpu.F.testBit 0 := by
  simp only [rot_flags, opc_testSFlag8_eq, opc_testZFlag8_eq, RESET_FLAG_HCARRY_eq,
    opc_testPFlag8_eq, RESET_FLAG_ADDSUB_eq, withF_F, testBit_putFlag]
  simp

theorem RL_body_spec (cpu : CPU) (x : Nat) :
    (RL_body cpu x).1 = ((x <<< 1) ||| GET_FLAG_CARRY cpu) % 256 ∧
    (RL_body cpu x).2.F.testBit 0 = x.testBit 7 := by
  have e : decide (x &&& 0x80 ≠ 0) = x.testBit 7 := by
    rw [decide_eq_decide.mpr (and_0x80_ne_zero x), Bool.decide_eq_true]
  refine ⟨rfl, ?_⟩
  simp only [RL_body, rot_flags_carry, ite_CARRY_eq, withF_F, testBit_putFlag, e]
  simp

theorem RR_body_spec (cpu : CPU) (x : Nat) :
    (RR_body cpu x).1 = ((x >>> 1) ||| (GET_FLAG_CARRY cpu <<< 7)) % 256 ∧
    (RR_body cpu x).2.F.testBit 0 = x.testBit 0 := by
  have e : decide (x &&& 0x1 ≠ 0) = x.testBit 0 := by
    rw [decide_eq_decide.mpr (and_1_ne_zero x), Bool.decide_eq_true]
  refine ⟨rfl, ?_⟩
  simp only [RR_body, rot_flags_carry, ite_CARRY_eq, withF_F, testBit_putFlag, e]
  simp

/-- A rotate body leaves the registers, the memory, PC and the table as they are: it
changes F only. -/
theorem rot_body_frame (cpu : CPU) (x : Nat) :
    (RL_body cpu x).2 = cpu.withF (RL_body cpu x).2.F ∧
    (RR_body cpu x).2 = cpu.withF (RR_body cpu x).2.F := by
  constructor
  · simp only [RL_body, rot_flags, ite_CARRY_eq, opc_testSFlag8_eq, opc_testZFlag8_eq,
      RESET_FLAG_HCARRY_eq, opc_testPFlag8_eq, RESET_FLAG_ADDSUB_eq, withF_F, withF_withF]
  · simp only [RR_body, rot_flags, ite_CARRY_eq, opc_testSFlag8_eq, opc_testZFlag8_eq,
      RESET_FLAG_HCARRY_eq, opc_testPFlag8_eq, RESET_FLAG_ADDSUB_eq, withF_F, withF_withF]

theorem opc_writeReg_frame (cpu : CPU) (reg v : Nat) (h8 : reg < 8) (h6 : reg ≠ 6) :
    ∃ r, opc_writeReg cpu reg v = some r ∧ r.F = cpu.F ∧ r.mem = cpu.mem ∧ r.PC = cpu.PC ∧
      r.TStates = cpu.TStates ∧ opc_readReg r reg = some (v % 256) := by
  interval_cases reg
  · exact ⟨_, rfl, rfl, rfl, rfl, rfl, rfl⟩
  · exact ⟨_, rfl, rfl, rfl, rfl, rfl, rfl⟩
  · exact ⟨_, rfl, rfl, rfl, rfl, rfl, rfl⟩
  · exact ⟨_, rfl, rfl, rfl, rfl, rfl, rfl⟩
  · exact ⟨_, rfl, rfl, rfl, rfl, rfl, rfl⟩
  · exact ⟨_, rfl, rfl, rfl, rfl, rfl, rfl⟩
  · exact absurd rfl h6
  · exact ⟨_, rfl, rfl, rfl, rfl, rfl, rfl⟩

/-- Reading a register looks at the eight registers only. -/
theorem opc_readReg_congr (a b : CPU) (reg : Nat)
    (h : a.A = b.A ∧ a.B = b.B ∧ a.C = b.C ∧ a.D = b.D ∧ a.E = b.E ∧ a.H = b.H ∧ a.L = b.L) :
    opc_readReg a reg = opc_readReg b reg := by
  obtain ⟨hA, hB, hC, hD, hE, hH, hL⟩ := h
  unfold opc_readReg
  rw [hA, hB, hC, hD, hE, hH, hL]

/-- A register form of the `CB` group on a state whose register `reg` holds `x`. -/
theorem opc_RLC_r_some (cpu : CPU) (n reg x : Nat) (body : CPU → Nat → Nat × CPU)
    (hn : n &&& 0x07 = reg) (hx : opc_readReg cpu reg = some x) :
    opc_RLC_r cpu n body = opc_writeReg (body cpu x).2 reg (body cpu x).1 := by
  simp only [opc_RLC_r, hn, hx, Option.bind_eq_bind, Option.some_bind]

theorem opc_RLC_branches_RL_RR (cpu : CPU) (r : Nat) (hr : r < 8) (h6 : r ≠ 6) :
    opc_RLC_branches cpu (0x10 + r) = opc_RLC_r cpu (0x10 + r) RL_body ∧
    opc_RLC_branches cpu (0x18 + r) = opc_RLC_r cpu (0x18 + r) RR_body ∧
    (0x10 + r) &&& 0x07 = r ∧ (0x18 + r) &&& 0x07 = r := by
  interval_cases r <;> first | exact absurd rfl h6 | exact ⟨rfl, rfl, rfl, rfl⟩

theorem GET_FLAG_CARRY_testBit (cpu : CPU) :
    GET_FLAG_CARRY cpu = (cpu.F.testBit 0).toNat ∧ GET_FLAG_CARRY cpu < 2 := by
  have := GET_FLAG_CARRY_le cpu
  refine ⟨by rw [GET_FLAG_CARRY_eq, flagC_eq], by omega⟩

theorem decide_toNat_eq_one (b : Bool) : decide (b.toNat = 1) = b := by
  cases b <;> rfl

/-- `RL` then `RR` on a byte `x` with carry `f.testBit 0`: the byte and the carry return. -/
theorem rl_rr_compose (c0 c1 : CPU) (x : Nat) (hx : x < 256)
    (hF : c1.F = (RL_body c0 x).2.F) :
    (RR_body c1 ((RL_body c0 x).1 % 256)).1 % 256 = x ∧
    (RR_body c1 ((RL_body c0 x).1 % 256)).2.F.testBit 0 = c0.F.testBit 0 := by
  obtain ⟨g0, g0lt⟩ := GET_FLAG_CARRY_testBit c0
  obtain ⟨g1, -⟩ := GET_FLAG_CARRY_testBit c1
  obtain ⟨b1, b2⟩ := rl_rr_bytes x hx (GET_FLAG_CARRY c0) g0lt
  rw [(RR_body_spec _ _).1, (RR_body_spec _ _).2, (RL_body_spec _ _).1, g1, hF,
    (RL_body_spec _ _).2, Nat.mod_mod, Nat.mod_mod, b1, b2, g0, decide_toNat_eq_one]
  exact ⟨rfl, rfl⟩

/-- C39: for a register r other than code 6, `RL r` (`CB 10+r`) followed by `RR r`
(`CB 18+r`) leaves r and the C flag as they were before the two instructions, and so does
`RLA` followed by `RRA` for A. -/
theorem rl_then_rr_restores (cpu : CPU) (r : Nat) (hwf : cpu.WF) (hr : r < 8) (h6 : r ≠ 6)
    (h1 : cpu_read cpu cpu.PC = 0x10 + r) (h2 : cpu_read cpu (cpu.PC + 2) = 0x18 + r) :
    (∃ s t, opc_RLC cpu 0xCB = some s ∧ opc_RLC (opc_fetch8 s).2 0xCB = some t ∧
      opc_readReg t r = opc_readReg cpu r ∧ t.flag FLAG_CARRY = cpu.flag FLAG_CARRY) ∧
    (opc_RRA (opc_RLA cpu 0x17) 0x1F).A = cpu.A ∧
    (opc_RRA (opc_RLA cpu 0x17) 0x1F).flag FLAG_CARRY = cpu.flag FLAG_CARRY := by
  constructor
  · obtain ⟨x, hx256, hx⟩ := opc_readReg_some cpu hwf r hr h6
    have hx0 : opc_readReg (afterFetchCB cpu) r = some x := hx
    obtain ⟨d1, -, m1, -⟩ := opc_RLC_branches_RL_RR (afterFetchCB cpu) r hr h6
    obtain ⟨s, hs, sF, smem, sPC, -, sread⟩ :=
      opc_writeReg_frame (RL_body (afterFetchCB cpu) x).2 r (RL_body (afterFetchCB cpu) x).1 hr h6
    have e1 : opc_RLC cpu 0xCB = some s := by
      rw [opc_RLC_eq, h1, d1, opc_RLC_r_some _ _ r x _ m1 hx0, hs]
    have fr := (rot_body_frame (afterFetchCB cpu) x).1
    have sPC' : s.PC = (cpu.PC + 1) % 65536 := by rw [sPC, fr]; rfl
    have smem' : s.mem = cpu.mem := by rw [smem, fr]; rfl
    have rd : cpu_read (opc_fetch8 s).2 (opc_fetch8 s).2.PC = 0x18 + r := by
      have p : ((cpu.PC + 1) % 65536 + 1) % 65536 % 65536 = (cpu.PC + 2) % 65536 := by omega
      rw [← h2]
      simp only [cpu_read, opc_fetch8, sPC', smem', p]
    have hx1 : opc_readReg (afterFetchCB (opc_fetch8 s).2) r
        = some ((RL_body (afterFetchCB cpu) x).1 % 256) := sread
    obtain ⟨-, d2, -, m2⟩ := opc_RLC_branches_RL_RR (afterFetchCB (opc_fetch8 s).2) r hr h6
    obtain ⟨t, ht, tF, -, -, -, tread⟩ :=
      opc_writeReg_frame
        (RR_body (afterFetchCB (opc_fetch8 s).2) ((RL_body (afterFetchCB cpu) x).1 % 256)).2 r
        (RR_body (afterFetchCB (opc_fetch8 s).2) ((RL_body (afterFetchCB cpu) x).1 % 256)).1
        hr h6
    have e2 : opc_RLC (opc_fetch8 s).2 0xCB = some t := by
      rw [opc_RLC_eq, rd, d2, opc_RLC_r_some _ _ r _ _ m2 hx1, ht]
    have hF : (afterFetchCB (opc_fetch8 s).2).F = (RL_body (afterFetchCB cpu) x).2.F := sF
    obtain ⟨k1, k2⟩ := rl_rr_compose (afterFetchCB cpu) (afterFetchCB (opc_fetch8 s).2) x hx256 hF
    refine ⟨s, t, e1, e2, ?_, ?_⟩
    · rw [tread, k1, hx]
    · rw [flagC_eq, flagC_eq, tF, k2]
      rfl
  · have hA : cpu.A < 256 := hwf.1
    obtain ⟨g0, g0lt⟩ := GET_FLAG_CARRY_testBit cpu
    obtain ⟨g1, -⟩ := GET_FLAG_CARRY_testBit (opc_RLA cpu 0x17)
    obtain ⟨b1, b2⟩ := rl_rr_bytes cpu.A hA (GET_FLAG_CARRY cpu) g0lt
    have f1 : (opc_RLA cpu 0x17).F.testBit 0 = cpu.A.testBit 7 := by
      rw [opc_RLA_eq]
      simp only [testBit_putFlag]
      simp
    have a1 : (opc_RLA cpu 0x17).A = ((cpu.A <<< 1) ||| GET_FLAG_CARRY cpu) % 256 := by
      rw [opc_RLA_eq]
    constructor
    · rw [opc_RRA_eq]
      show (((opc_RLA cpu 0x17).A >>> 1) ||| (GET_FLAG_CARRY (opc_RLA cpu 0x17) <<< 7)) % 256
        = cpu.A
      rw [g1, f1, a1, b1]
    · rw [flagC_eq, flagC_eq, opc_RRA_eq]
      simp only [testBit_putFlag]
      rw [a1, b2, g0, decide_toNat_eq_one]
      simp

theorem rl_then_rr_restores_witness :
    st_rlrr.WF ∧
    (∃ s t, opc_RLC st_rlrr 0xCB = some s ∧ opc_RLC (opc_fetch8 s).2 0xCB = some t ∧
      opc_readReg t 2 = opc_readReg st_rlrr 2 ∧
      t.flag FLAG_CARRY = st_rlrr.flag FLAG_CARRY) :=
  ⟨by decide, (rl_then_rr_restores st_rlrr 2 (by decide) (by decide) (by decide)
    (by decide) (by decide)).1⟩

/-! ## The handlers do not read the table -/

theorem setTStates_other (i k : Nat) (t : Nat → Nat) (c : CPU) :
    setTStates (otherEntries i t c) i k = otherEntries i t (setTStates c i k) := by
  have e : (fun j => if j = i then k else if j = i then c.TStates j else t j)
      = (fun j => if j = i then (if j = i then k else c.TStates j) else t j) := by
    funext j
    by_cases h : j = i <;> simp [h]
  simp only [setTStates, otherEntries, e]

theorem setTStates_table (i k : Nat) (t : Nat → Nat) (c : CPU) :
    setTStates { c with TStates := t } i k = otherEntries i t (setTStates c i k) := by
  have e : (fun j => if j = i then k else t j)
      = (fun j => if j = i then (if j = i then k else c.TStates j) else t j) := by
    funext j
    by_cases h : j = i <;> simp [h]
  simp only [setTStates, otherEntries, e]

theorem opc_fetch8_other (i : Nat) (t : Nat → Nat) (c : CPU) :
    opc_fetch8 (otherEntries i t c) = ((opc_fetch8 c).1, otherEntries i t (opc_fetch8 c).2) :=
  rfl

theorem opc_fetch16_other (i : Nat) (t : Nat → Nat) (c : CPU) :
    opc_fetch16 (otherEntries i t c)
      = ((opc_fetch16 c).1, otherEntries i t (opc_fetch16 c).2) := rfl

theorem cpu_read_other (i : Nat) (t : Nat → Nat) (c : CPU) (a : Nat) :
    cpu_read (otherEntries i t c) a = cpu_read c a := rfl

theorem cpu_write_other (i : Nat) (t : Nat → Nat) (c : CPU) (v a : Nat) :
    cpu_write (otherEntries i t c) v a = otherEntries i t (cpu_write c v a) := rfl

theorem opc_readReg_other (i : Nat) (t : Nat → Nat) (c : CPU) (r : Nat) :
    opc_readReg (otherEntries i t c) r = opc_readReg c r := by
  unfold opc_readReg
  split <;> rfl

theorem opc_writeReg_other (i : Nat) (t : Nat → Nat) (c : CPU) (r v : Nat) :
    opc_writeReg (otherEntries i t c) r v = (opc_writeReg c r v).map (otherEntries i t) := by
  unfold opc_writeReg
  split <;> rfl

theorem opc_readReg16_other (i : Nat) (t : Nat → Nat) (c : CPU) (r : Nat) (ty : reg16_t) :
    opc_readReg16 (otherEntries i t c) r ty = opc_readReg16 c r ty := by
  unfold opc_readReg16
  split <;> rfl

theorem opc_writeReg16_other (i : Nat) (t : Nat → Nat) (c : CPU) (r v : Nat) (ty : reg16_t) :
    opc_writeReg16 (otherEntries i t c) r v ty
      = (opc_writeReg16 c r v ty).map (otherEntries i t) := by
  unfold opc_writeReg16
  split <;> first | rfl | (cases ty <;> rfl)

theorem cpu_stackPush_other (i : Nat) (t : Nat → Nat) (c : CPU) (v : Nat) :
    cpu_stackPush (otherEntries i t c) v = otherEntries i t (cpu_stackPush c v) := rfl

theorem cpu_stackPop_other (i : Nat) (t : Nat → Nat) (c : CPU) :
    cpu_stackPop (otherEntries i t c)
      = ((cpu_stackPop c).1, otherEntries i t (cpu_stackPop c).2) := rfl

theorem withF_other (i : Nat) (t : Nat → Nat) (c : CPU) (f : Nat) :
    (otherEntries i t c).withF f = otherEntries i t (c.withF f) := rfl

theorem other_fields (i : Nat) (t : Nat → Nat) (c : CPU) :
    (otherEntries i t c).F = c.F ∧ (otherEntries i t c).A = c.A ∧
    (otherEntries i t c).HL = c.HL ∧ (otherEntries i t c).BC = c.BC ∧
    (otherEntries i t c).DE = c.DE ∧ (otherEntries i t c).IX = c.IX ∧
    (otherEntries i t c).IY = c.IY ∧ (otherEntries i t c).SP = c.SP ∧
    (otherEntries i t c).PC = c.PC ∧ (otherEntries i t c).I = c.I ∧
    (otherEntries i t c).R = c.R ∧ (otherEntries i t c).IFF2 = c.IFF2 ∧
    GET_FLAG_CARRY (otherEntries i t c) = GET_FLAG_CARRY c :=
  ⟨rfl, rfl, rfl, rfl, rfl, rfl, rfl, rfl, rfl, rfl, rfl, rfl, rfl⟩

theorem rot_flags_other (i : Nat) (t : Nat → Nat) (c : CPU) (res : Nat) :
    rot_flags (otherEntries i t c) res = otherEntries i t (rot_flags c res) := by
  simp only [rot_flags, opc_testSFlag8_eq, opc_testZFlag8_eq, RESET_FLAG_HCARRY_eq,
    opc_testPFlag8_eq, RESET_FLAG_ADDSUB_eq, withF_other]
  rfl

theorem rot_bodies_other (i : Nat) (t : Nat → Nat) (c : CPU) (d : Nat) :
    RLC_body (otherEntries i t c) d = ((RLC_body c d).1, otherEntries i t (RLC_body c d).2) ∧
    RL_body (otherEntries i t c) d = ((RL_body c d).1, otherEntries i t (RL_body c d).2) ∧
    RRC_body (otherEntries i t c) d = ((RRC_body c d).1, otherEntries i t (RRC_body c d).2) ∧
    RR_body (otherEntries i t c) d = ((RR_body c d).1, otherEntries i t (RR_body c d).2) ∧
    SLA_body (otherEntries i t c) d = ((SLA_body c d).1, otherEntries i t (SLA_body c d).2) ∧
    SRA_body (otherEntries i t c) d = ((SRA_body c d).1, otherEntries i t (SRA_body c d).2) ∧
    SRL_body (otherEntries i t c) d = ((SRL_body c d).1, otherEntries i t (SRL_body c d).2) ∧
    INC_body (otherEntries i t c) d = ((INC_body c d).1, otherEntries i t (INC_body c d).2) ∧
    DEC_body (otherEntries i t c) d
      = ((DEC_body c d).1, otherEntries i t (DEC_body c d).2) := by
  have hF : ∀ x : CPU, (otherEntries i t x).F = x.F := fun _ => rfl
  have hG : ∀ x : CPU, GET_FLAG_CARRY (otherEntries i t x) = GET_FLAG_CARRY x := fun _ => rfl
  refine ⟨?_, ?_, ?_, ?_, ?_, ?_, ?_, ?_, ?_⟩ <;>
    simp only [RLC_body, RL_body, RRC_body, RR_body, SLA_body, SRA_body, SRL_body, INC_body,
      DEC_body, hG, ite_CARRY_eq, ite_PARITY_eq, opc_testSFlag8_eq,
      opc_testZFlag8_eq, opc_testHFlag8_eq, RESET_FLAG_ADDSUB_eq, SET_FLAG_ADDSUB_eq,
      withF_other, rot_flags_other, hF, withF_F]

theorem alu_bodies_other (i : Nat) (t : Nat → Nat) (c : CPU) (d : Nat) :
    ADDA_body (otherEntries i t c) d = otherEntries i t (ADDA_body c d) ∧
    ADCA_body (otherEntries i t c) d = otherEntries i t (ADCA_body c d) ∧
    SUBA_body (otherEntries i t c) d = otherEntries i t (SUBA_body c d) ∧
    SBCA_body (otherEntries i t c) d = otherEntries i t (SBCA_body c d) ∧
    AND_body (otherEntries i t c) d = otherEntries i t (AND_body c d) ∧
    OR_body (otherEntries i t c) d = otherEntries i t (OR_body c d) ∧
    XOR_body (otherEntries i t c) d = otherEntries i t (XOR_body c d) ∧
    CP_body (otherEntries i t c) d = otherEntries i t (CP_body c d) ∧
    (∀ bit, BIT_body (otherEntries i t c) d bit = otherEntries i t (BIT_body c d bit)) := by
  have hF : ∀ x : CPU, (otherEntries i t x).F = x.F := fun _ => rfl
  have hA : ∀ x : CPU, (otherEntries i t x).A = x.A := fun _ => rfl
  have hG : ∀ x : CPU, GET_FLAG_CARRY (otherEntries i t x) = GET_FLAG_CARRY x := fun _ => rfl
  refine ⟨?_, ?_, ?_, ?_, ?_, ?_, ?_, ?_, fun bit => ?_⟩ <;>
    simp only [ADDA_body, ADCA_body, SUBA_body, SBCA_body, AND_body, OR_body, XOR_body,
      CP_body, BIT_body, hG, hA, hF, opc_testSFlag8_eq,
      opc_testZFlag8_eq, opc_testHFlag8_eq, opc_testVFlag8_eq, opc_testCFlag8_eq,
      opc_testPFlag8_eq, RESET_FLAG_ADDSUB_eq, SET_FLAG_ADDSUB_eq, SET_FLAG_HCARRY_eq,
      RESET_FLAG_HCARRY_eq, RESET_FLAG_CARRY_eq, withF_other, withF_A, withF_F] <;> rfl

theorem map_ite_other (i : Nat) (t : Nat → Nat) (c : Prop) [Decidable c] (a b : Option CPU) :
    (if c then a else b).map (otherEntries i t)
      = if c then a.map (otherEntries i t) else b.map (otherEntries i t) := by
  split <;> rfl

theorem CPU_ext (a b : CPU) (h1 : a.A = b.A) (h2 : a.F = b.F) (h3 : a.B = b.B) (h4 : a.C = b.C)
    (h5 : a.D = b.D) (h6 : a.E = b.E) (h7 : a.H = b.H) (h8 : a.L = b.L)
    (h9 : a.ArFr = b.ArFr) (h10 : a.BrCr = b.BrCr) (h11 : a.DrEr = b.DrEr)
    (h12 : a.HrLr = b.HrLr) (h13 : a.IX = b.IX) (h14 : a.IY = b.IY) (h15 : a.SP = b.SP)
    (h16 : a.PC = b.PC) (h17 : a.I = b.I) (h18 : a.R = b.R) (h19 : a.IFF1 = b.IFF1)
    (h20 : a.IFF2 = b.IFF2) (h21 : a.IM = b.IM) (h22 : a.halt = b.halt) (h23 : a.mem = b.mem)
    (h24 : a.TStates = b.TStates) : a = b := by
  cases a; cases b
  simp only at *
  simp only [*]

/-- The branches of `opc_RLC` on a state run from another table. -/
theorem opc_RLC_bodies_other (t : Nat → Nat) (c : CPU) (n : Nat) :
    (∀ body : CPU → Nat → Nat × CPU,
      (∀ x d, body (otherEntries 0xCB t x) d = ((body x d).1, otherEntries 0xCB t (body x d).2)) →
      opc_RLC_r (otherEntries 0xCB t c) n body
        = (opc_RLC_r c n body).map (otherEntries 0xCB t)) ∧
    (∀ body : CPU → Nat → Nat × CPU,
      (∀ x d, body (otherEntries 0xCB t x) d = ((body x d).1, otherEntries 0xCB t (body x d).2)) →
      opc_RLC_HL (otherEntries 0xCB t c) body = otherEntries 0xCB t (opc_RLC_HL c body)) ∧
    opc_RLC_BITr (otherEntries 0xCB t c) n = (opc_RLC_BITr c n).map (otherEntries 0xCB t) ∧
    opc_RLC_BITHL (otherEntries 0xCB t c) n = otherEntries 0xCB t (opc_RLC_BITHL c n) ∧
    opc_RLC_SETr (otherEntries 0xCB t c) n = (opc_RLC_SETr c n).map (otherEntries 0xCB t) ∧
    opc_RLC_SETHL (otherEntries 0xCB t c) n = otherEntries 0xCB t (opc_RLC_SETHL c n) ∧
    opc_RLC_RESr (otherEntries 0xCB t c) n = (opc_RLC_RESr c n).map (otherEntries 0xCB t) ∧
    opc_RLC_RESHL (otherEntries 0xCB t c) n = otherEntries 0xCB t (opc_RLC_RESHL c n) := by
  have hbit := fun x d => (alu_bodies_other 0xCB t x d).2.2.2.2.2.2.2.2
  have hHL : ∀ x : CPU, (otherEntries 0xCB t x).HL = x.HL := fun _ => rfl
  refine ⟨fun body hb => ?_, fun body hb => ?_, ?_, ?_, ?_, ?_, ?_, ?_⟩
  · simp only [opc_RLC_r, opc_readReg_other, Option.bind_eq_bind]
    cases opc_readReg c (n &&& 0x07) with
    | none => rfl
    | some d =>
      simp only [Option.some_bind, hb]
      exact opc_writeReg_other _ _ _ _ _
  · simp only [opc_RLC_HL, setTStates_other, cpu_read_other, hHL, hb, cpu_write_other]
  · simp only [opc_RLC_BITr, opc_readReg_other, Option.bind_eq_bind]
    cases opc_readReg c (n &&& 0x07) with
    | none => rfl
    | some d => simp only [Option.some_bind, hbit, Option.map_some']
  · simp only [opc_RLC_BITHL, setTStates_other, cpu_read_other, hHL, hbit]
  · simp only [opc_RLC_SETr, opc_readReg_other, Option.bind_eq_bind]
    cases opc_readReg c (n &&& 0x07) with
    | none => rfl
    | some d =>
      simp only [Option.some_bind]
      exact opc_writeReg_other _ _ _ _ _
  · simp only [opc_RLC_SETHL, setTStates_other, cpu_read_other, hHL, cpu_write_other]
  · simp only [opc_RLC_RESr, opc_readReg_other, Option.bind_eq_bind]
    cases opc_readReg c (n &&& 0x07) with
    | none => rfl
    | some d =>
      simp only [Option.some_bind]
      exact opc_writeReg_other _ _ _ _ _
  · simp only [opc_RLC_RESHL, setTStates_other, cpu_read_other, hHL, cpu_write_other]

theorem opc_RLC_branches_other (t : Nat → Nat) (c : CPU) (n : Nat) :
    opc_RLC_branches (otherEntries 0xCB t c) n
      = (opc_RLC_branches c n).map (otherEntries 0xCB t) := by
  obtain ⟨hr, hHL, b1, b2, s1, s2, r1, r2⟩ := opc_RLC_bodies_other t c n
  have hb := fun x d => rot_bodies_other 0xCB t x d
  unfold opc_RLC_branches
  simp only [map_ite_other]
  refine ite_congr rfl (fun _ => ?_) (fun _ => ?_)
  · exact hr _ (fun x d => (hb x d).1)
  refine ite_congr rfl (fun _ => ?_) (fun _ => ?_)
  · rw [hHL _ (fun x d => (hb x d).1)]; rfl
  refine ite_congr rfl (fun _ => ?_) (fun _ => ?_)
  · exact b1
  refine ite_congr rfl (fun _ => ?_) (fun _ => ?_)
  · rw [b2]; rfl
  refine ite_congr rfl (fun _ => ?_) (fun _ => ?_)
  · exact s1
  refine ite_congr rfl (fun _ => ?_) (fun _ => ?_)
  · rw [s2]; rfl
  refine ite_congr rfl (fun _ => ?_) (fun _ => ?_)
  · exact r1
  refine ite_congr rfl (fun _ => ?_) (fun _ => ?_)
  · rw [r2]; rfl
  refine ite_congr rfl (fun _ => ?_) (fun _ => ?_)
  · exact hr _ (fun x d => (hb x d).2.1)
  refine ite_congr rfl (fun _ => ?_) (fun _ => ?_)
  · rw [hHL _ (fun x d => (hb x d).2.1)]; rfl
  refine ite_congr rfl (fun _ => ?_) (fun _ => ?_)
  · exact hr _ (fun x d => (hb x d).2.2.1)
  refine ite_congr rfl (fun _ => ?_) (fun _ => ?_)
  · rw [hHL _ (fun x d => (hb x d).2.2.1)]; rfl
  refine ite_congr rfl (fun _ => ?_) (fun _ => ?_)
  · exact hr _ (fun x d => (hb x d).2.2.2.1)
  refine ite_congr rfl (fun _ => ?_) (fun _ => ?_)
  · rw [hHL _ (fun x d => (hb x d).2.2.2.1)]; rfl
  refine ite_congr rfl (fun _ => ?_) (fun _ => ?_)
  · exact hr _ (fun x d => (hb x d).2.2.2.2.1)
  refine ite_congr rfl (fun _ => ?_) (fun _ => ?_)
  · rw [hHL _ (fun x d => (hb x d).2.2.2.2.1)]; rfl
  refine ite_congr rfl (fun _ => ?_) (fun _ => ?_)
  · exact hr _ (fun x d => (hb x d).2.2.2.2.2.1)
  refine ite_congr rfl (fun _ => ?_) (fun _ => ?_)
  · rw [hHL _ (fun x d => (hb x d).2.2.2.2.2.1)]; rfl
  refine ite_congr rfl (fun _ => ?_) (fun _ => ?_)
  · exact hr _ (fun x d => (hb x d).2.2.2.2.2.2.1)
  refine ite_congr rfl (fun _ => ?_) (fun _ => ?_)
  · rw [hHL _ (fun x d => (hb x d).2.2.2.2.2.2.1)]; rfl
  rfl

/-- Run from a table with other contents, `opc_RLC` returns the same state with the same
entry 0xCB, the other entries being those of that table. -/
theorem opc_RLC_table (t : Nat → Nat) (c : CPU) (opcode : Nat) :
    opc_RLC { c with TStates := t } opcode = (opc_RLC c opcode).map (otherEntries 0xCB t) := by
  have e : opc_RLC { c with TStates := t } opcode
      = opc_RLC_branches (opc_fetch8 (setTStates { c with TStates := t } 0xCB 8)).2
          (opc_fetch8 (setTStates { c with TStates := t } 0xCB 8)).1 := rfl
  rw [e, setTStates_table, opc_fetch8_other]
  exact opc_RLC_branches_other _ _ _

/-- The helpers of `opc_LDIX` on a state run from another table. -/
theorem opc_LDIX_helpers_other (t : Nat → Nat) (c : CPU) :
    (∀ body : CPU → Nat → CPU, (∀ x d, body (otherEntries 0xDD t x) d = otherEntries 0xDD t (body x d)) →
      opc_LDIX_alu (otherEntries 0xDD t c) body = otherEntries 0xDD t (opc_LDIX_alu c body)) ∧
    (∀ body : CPU → Nat → Nat × CPU,
      (∀ x d, body (otherEntries 0xDD t x) d = ((body x d).1, otherEntries 0xDD t (body x d).2)) →
      opc_LDIX_incdec (otherEntries 0xDD t c) body = otherEntries 0xDD t (opc_LDIX_incdec c body)) ∧
    opc_LDIX_EXSP (otherEntries 0xDD t c) = otherEntries 0xDD t (opc_LDIX_EXSP c) ∧
    (∀ (addr : Nat) (body : CPU → Nat → Nat × CPU),
      (∀ x d, body (otherEntries 0xDD t x) d = ((body x d).1, otherEntries 0xDD t (body x d).2)) →
      opc_LDIX_rot (otherEntries 0xDD t c) addr body = otherEntries 0xDD t (opc_LDIX_rot c addr body)) := by
  have hX : ∀ x : CPU, (otherEntries 0xDD t x).IX = x.IX := fun _ => rfl
  refine ⟨fun body hb => ?_, fun body hb => ?_, ?_, fun addr body hb => ?_⟩
  · simp only [opc_LDIX_alu, opc_fetch8_other, hX, cpu_read_other, hb]
  · simp only [opc_LDIX_incdec, setTStates_other, opc_fetch8_other, hX, cpu_read_other, hb,
      cpu_write_other]
  · simp only [opc_LDIX_EXSP, setTStates_other]
    rfl
  · simp only [opc_LDIX_rot, setTStates_other, cpu_read_other, hb, cpu_write_other]

theorem opc_LDIX_CB_branches_other (t : Nat → Nat) (c : CPU) (addr cb : Nat) :
    opc_LDIX_CB_branches (otherEntries 0xDD t c) addr cb
      = (opc_LDIX_CB_branches c addr cb).map (otherEntries 0xDD t) := by
  have hbit := fun x d => (alu_bodies_other 0xDD t x d).2.2.2.2.2.2.2.2
  have hb := fun x d => rot_bodies_other 0xDD t x d
  have hrot := (opc_LDIX_helpers_other t c).2.2.2 addr
  unfold opc_LDIX_CB_branches
  simp only [map_ite_other]
  refine ite_congr rfl (fun _ => ?_) (fun _ => ?_)
  · rw [hrot _ (fun x d => (hb x d).1)]; rfl
  refine ite_congr rfl (fun _ => ?_) (fun _ => ?_)
  · rw [setTStates_other, cpu_read_other, hbit]; rfl
  refine ite_congr rfl (fun _ => ?_) (fun _ => ?_)
  · rw [setTStates_other, cpu_read_other, cpu_write_other]; rfl
  refine ite_congr rfl (fun _ => ?_) (fun _ => ?_)
  · rw [setTStates_other, cpu_read_other, cpu_write_other]; rfl
  refine ite_congr rfl (fun _ => ?_) (fun _ => ?_)
  · rw [hrot _ (fun x d => (hb x d).2.1)]; rfl
  refine ite_congr rfl (fun _ => ?_) (fun _ => ?_)
  · rw [hrot _ (fun x d => (hb x d).2.2.1)]; rfl
  refine ite_congr rfl (fun _ => ?_) (fun _ => ?_)
  · rw [hrot _ (fun x d => (hb x d).2.2.2.1)]; rfl
  refine ite_congr rfl (fun _ => ?_) (fun _ => ?_)
  · rw [hrot _ (fun x d => (hb x d).2.2.2.2.1)]; rfl
  refine ite_congr rfl (fun _ => ?_) (fun _ => ?_)
  · rw [hrot _ (fun x d => (hb x d).2.2.2.2.2.1)]; rfl
  refine ite_congr rfl (fun _ => ?_) (fun _ => ?_)
  · rw [hrot _ (fun x d => (hb x d).2.2.2.2.2.2.1)]; rfl
  rfl

theorem opc_LDIX_CB_other (t : Nat → Nat) (c : CPU) :
    opc_LDIX_CB (otherEntries 0xDD t c) = (opc_LDIX_CB c).map (otherEntries 0xDD t) :=
  opc_LDIX_CB_branches_other t (opc_fetch8 (opc_fetch8 c).2).2
    (idx_addr (opc_fetch8 c).2.IX (opc_fetch8 c).1) (opc_fetch8 (opc_fetch8 c).2).1

theorem opc_LDIX_branches_other (t : Nat → Nat) (c : CPU) (next_opc follByte : Nat) :
    opc_LDIX_branches (otherEntries 0xDD t c) next_opc follByte
      = (opc_LDIX_branches c next_opc follByte).map (otherEntries 0xDD t) := by
  have ha := fun x d => alu_bodies_other 0xDD t x d
  have hb := fun x d => rot_bodies_other 0xDD t x d
  obtain ⟨halu, hinc, hex, -⟩ := opc_LDIX_helpers_other t c
  unfold opc_LDIX_branches
  simp only [map_ite_other]
  refine ite_congr rfl (fun _ => ?_) (fun _ => ?_)
  · rw [opc_fetch8_other]
    exact opc_writeReg_other _ _ _ _ _
  refine ite_congr rfl (fun _ => ?_) (fun _ => ?_)
  · rw [opc_fetch8_other]
    simp only []
    rw [opc_readReg_other]
    cases opc_readReg (opc_fetch8 c).2 (next_opc &&& 0x07) <;> rfl
  refine ite_congr rfl (fun _ => ?_) (fun _ => ?_)
  · rfl
  refine ite_congr rfl (fun _ => ?_) (fun _ => ?_)
  · rw [setTStates_other]; rfl
  refine ite_congr rfl (fun _ => ?_) (fun _ => ?_)
  · rw [setTStates_other]; rfl
  refine ite_congr rfl (fun _ => ?_) (fun _ => ?_)
  · rw [setTStates_other]; rfl
  refine ite_congr rfl (fun _ => ?_) (fun _ => ?_)
  · rw [setTStates_other]; rfl
  refine ite_congr rfl (fun _ => ?_) (fun _ => ?_)
  · rw [setTStates_other]; rfl
  refine ite_congr rfl (fun _ => ?_) (fun _ => ?_)
  · rw [setTStates_other]; rfl
  refine ite_congr rfl (fun _ => ?_) (fun _ => ?_)
  · rw [hex]; rfl
  refine ite_congr rfl (fun _ => ?_) (fun _ => ?_)
  · rw [halu _ (fun x d => (ha x d).1)]; rfl
  refine ite_congr rfl (fun _ => ?_) (fun _ => ?_)
  · rw [halu _ (fun x d => (ha x d).2.1)]; rfl
  refine ite_congr rfl (fun _ => ?_) (fun _ => ?_)
  · rw [halu _ (fun x d => (ha x d).2.2.1)]; rfl
  refine ite_congr rfl (fun _ => ?_) (fun _ => ?_)
  · rw [halu _ (fun x d => (ha x d).2.2.2.1)]; rfl
  refine ite_congr rfl (fun _ => ?_) (fun _ => ?_)
  · rw [halu _ (fun x d => (ha x d).2.2.2.2.1)]; rfl
  refine ite_congr rfl (fun _ => ?_) (fun _ => ?_)
  · rw [halu _ (fun x d => (ha x d).2.2.2.2.2.1)]; rfl
  refine ite_congr rfl (fun _ => ?_) (fun _ => ?_)
  · rw [halu _ (fun x d => (ha x d).2.2.2.2.2.2.1)]; rfl
  refine ite_congr rfl (fun _ => ?_) (fun _ => ?_)
  · rw [halu _ (fun x d => (ha x d).2.2.2.2.2.2.2.1)]; rfl
  refine ite_congr rfl (fun _ => ?_) (fun _ => ?_)
  · rw [hinc _ (fun x d => (hb x d).2.2.2.2.2.2.2.1)]; rfl
  refine ite_congr rfl (fun _ => ?_) (fun _ => ?_)
  · rw [hinc _ (fun x d => (hb x d).2.2.2.2.2.2.2.2)]; rfl
  refine ite_congr rfl (fun _ => ?_) (fun _ => ?_)
  · rfl
  refine ite_congr rfl (fun _ => ?_) (fun _ => ?_)
  · rfl
  refine ite_congr rfl (fun _ => ?_) (fun _ => ?_)
  · rfl
  refine ite_congr rfl (fun _ => ?_) (fun _ => ?_)
  · rfl
  refine ite_congr rfl (fun _ => ?_) (fun _ => ?_)
  · exact opc_LDIX_CB_other t c
  rfl

/-- Run from a table with other contents, `opc_LDIX` returns the same state with the same
entry 0xDD, the other entries being those of that table. -/
theorem opc_LDIX_table (t : Nat → Nat) (c : CPU) (opcode follByte : Nat) :
    opc_LDIX { c with TStates := t } opcode follByte
      = (opc_LDIX c opcode follByte).map (otherEntries 0xDD t) := by
  have e : opc_LDIX { c with TStates := t } opcode follByte
      = opc_LDIX_branches (opc_fetch8 (setTStates { c with TStates := t } 0xDD 19)).2
          (opc_fetch8 (setTStates { c with TStates := t } 0xDD 19)).1 follByte := rfl
  rw [e, setTStates_table, opc_fetch8_other]
  exact opc_LDIX_branches_other _ _ _ _

/-- The helpers of `opc_LDIY` on a state run from another table. -/
theorem opc_LDIY_helpers_other (t : Nat → Nat) (c : CPU) :
    (∀ body : CPU → Nat → CPU, (∀ x d, body (otherEntries 0xFD t x) d = otherEntries 0xFD t (body x d)) →
      opc_LDIY_alu (otherEntries 0xFD t c) body = otherEntries 0xFD t (opc_LDIY_alu c body)) ∧
    (∀ body : CPU → Nat → Nat × CPU,
      (∀ x d, body (otherEntries 0xFD t x) d = ((body x d).1, otherEntries 0xFD t (body x d).2)) →
      opc_LDIY_incdec (otherEntries 0xFD t c) body = otherEntries 0xFD t (opc_LDIY_incdec c body)) ∧
    opc_LDIY_EXSP (otherEntries 0xFD t c) = otherEntries 0xFD t (opc_LDIY_EXSP c) ∧
    (∀ (addr : Nat) (body : CPU → Nat → Nat × CPU),
      (∀ x d, body (otherEntries 0xFD t x) d = ((body x d).1, otherEntries 0xFD t (body x d).2)) →
      opc_LDIY_rot (otherEntries 0xFD t c) addr body = otherEntries 0xFD t (opc_LDIY_rot c addr body)) := by
  have hX : ∀ x : CPU, (otherEntries 0xFD t x).IY = x.IY := fun _ => rfl
  refine ⟨fun body hb => ?_, fun body hb => ?_, ?_, fun addr body hb => ?_⟩
  · simp only [opc_LDIY_alu, opc_fetch8_other, hX, cpu_read_other, hb]
  · simp only [opc_LDIY_incdec, setTStates_other, opc_fetch8_other, hX, cpu_read_other, hb,
      cpu_write_other]
  · simp only [opc_LDIY_EXSP, setTStates_other]
    rfl
  · simp only [opc_LDIY_rot, setTStates_other, cpu_read_other, hb, cpu_write_other]

theorem opc_LDIY_CB_branches_other (t : Nat → Nat) (c : CPU) (addr cb : Nat) :
    opc_LDIY_CB_branches (otherEntries 0xFD t c) addr cb
      = (opc_LDIY_CB_branches c addr cb).map (otherEntries 0xFD t) := by
  have hbit := fun x d => (alu_bodies_other 0xFD t x d).2.2.2.2.2.2.2.2
  have hb := fun x d => rot_bodies_other 0xFD t x d
  have hrot := (opc_LDIY_helpers_other t c).2.2.2 addr
  unfold opc_LDIY_CB_branches
  simp only [map_ite_other]
  refine ite_congr rfl (fun _ => ?_) (fun _ => ?_)
  · rw [hrot _ (fun x d => (hb x d).1)]; rfl
  refine ite_congr rfl (fun _ => ?_) (fun _ => ?_)
  · rw [setTStates_other, cpu_read_other, hbit]; rfl
  refine ite_congr rfl (fun _ => ?_) (fun _ => ?_)
  · rw [setTStates_other, cpu_read_other, cpu_write_other]; rfl
  refine ite_congr rfl (fun _ => ?_) (fun _ => ?_)
  · rw [setTStates_other, cpu_read_other, cpu_write_other]; rfl
  refine ite_congr rfl (fun _ => ?_) (fun _ => ?_)
  · rw [hrot _ (fun x d => (hb x d).2.1)]; rfl
  refine ite_congr rfl (fun _ => ?_) (fun _ => ?_)
  · rw [hrot _ (fun x d => (hb x d).2.2.1)]; rfl
  refine ite_congr rfl (fun _ => ?_) (fun _ => ?_)
  · rw [hrot _ (fun x d => (hb x d).2.2.2.1)]; rfl
  refine ite_congr rfl (fun _ => ?_) (fun _ => ?_)
  · rw [hrot _ (fun x d => (hb x d).2.2.2.2.1)]; rfl
  refine ite_congr rfl (fun _ => ?_) (fun _ => ?_)
  · rw [hrot _ (fun x d => (hb x d).2.2.2.2.2.1)]; rfl
  refine ite_congr rfl (fun _ => ?_) (fun _ => ?_)
  · rw [hrot _ (fun x d => (hb x d).2.2.2.2.2.2.1)]; rfl
  rfl

theorem opc_LDIY_CB_other (t : Nat → Nat) (c : CPU) :
    opc_LDIY_CB (otherEntries 0xFD t c) = (opc_LDIY_CB c).map (otherEntries 0xFD t) :=
  opc_LDIY_CB_branches_other t (opc_fetch8 (opc_fetch8 c).2).2
    (idx_addr (opc_fetch8 c).2.IY (opc_fetch8 c).1) (opc_fetch8 (opc_fetch8 c).2).1

theorem opc_LDIY_branches_other (t : Nat → Nat) (c : CPU) (next_opc follByte : Nat) :
    opc_LDIY_branches (otherEntries 0xFD t c) next_opc follByte
      = (opc_LDIY_branches c next_opc follByte).map (otherEntries 0xFD t) := by
  have ha := fun x d => alu_bodies_other 0xFD t x d
  have hb := fun x d => rot_bodies_other 0xFD t x d
  obtain ⟨halu, hinc, hex, -⟩ := opc_LDIY_helpers_other t c
  unfold opc_LDIY_branches
  simp only [map_ite_other]
  refine ite_congr rfl (fun _ => ?_) (fun _ => ?_)
  · rw [opc_fetch8_other]
    exact opc_writeReg_other _ _ _ _ _
  refine ite_congr rfl (fun _ => ?_) (fun _ => ?_)
  · rw [opc_fetch8_other]
    simp only []
    rw [opc_readReg_other]
    cases opc_readReg (opc_fetch8 c).2 (next_opc &&& 0x07) <;> rfl
  refine ite_congr rfl (fun _ => ?_) (fun _ => ?_)
  · rfl
  refine ite_congr rfl (fun _ => ?_) (fun _ => ?_)
  · rw [setTStates_other]; rfl
  refine ite_congr rfl (fun _ => ?_) (fun _ => ?_)
  · rw [setTStates_other]; rfl
  refine ite_congr rfl (fun _ => ?_) (fun _ => ?_)
  · rw [setTStates_other]; rfl
  refine ite_congr rfl (fun _ => ?_) (fun _ => ?_)
  · rw [setTStates_other]; rfl
  refine ite_congr rfl (fun _ => ?_) (fun _ => ?_)
  · rw [setTStates_other]; rfl
  refine ite_congr rfl (fun _ => ?_) (fun _ => ?_)
  · rw [setTStates_other]; rfl
  refine ite_congr rfl (fun _ => ?_) (fun _ => ?_)
  · rw [hex]; rfl
  refine ite_congr rfl (fun _ => ?_) (fun _ => ?_)
  · rw [halu _ (fun x d => (ha x d).1)]; rfl
  refine ite_congr rfl (fun _ => ?_) (fun _ => ?_)
  · rw [halu _ (fun x d => (ha x d).2.1)]; rfl
  refine ite_congr rfl (fun _ => ?_) (fun _ => ?_)
  · rw [halu _ (fun x d => (ha x d).2.2.1)]; rfl
  refine ite_congr rfl (fun _ => ?_) (fun _ => ?_)
  · rw [halu _ (fun x d => (ha x d).2.2.2.1)]; rfl
  refine ite_congr rfl (fun _ => ?_) (fun _ => ?_)
  · rw [halu _ (fun x d => (ha x d).2.2.2.2.1)]; rfl
  refine ite_congr rfl (fun _ => ?_) (fun _ => ?_)
  · rw [halu _ (fun x d => (ha x d).2.2.2.2.2.1)]; rfl
  refine ite_congr rfl (fun _ => ?_) (fun _ => ?_)
  · rw [halu _ (fun x d => (ha x d).2.2.2.2.2.2.1)]; rfl
  refine ite_congr rfl (fun _ => ?_) (fun _ => ?_)
  · rw [halu _ (fun x d => (ha x d).2.2.2.2.2.2.2.1)]; rfl
  refine ite_congr rfl (fun _ => ?_) (fun _ => ?_)
  · rw [hinc _ (fun x d => (hb x d).2.2.2.2.2.2.2.1)]; rfl
  refine ite_congr rfl (fun _ => ?_) (fun _ => ?_)
  · rw [hinc _ (fun x d => (hb x d).2.2.2.2.2.2.2.2)]; rfl
  refine ite_congr rfl (fun _ => ?_) (fun _ => ?_)
  · rfl
  refine ite_congr rfl (fun _ => ?_) (fun _ => ?_)
  · rfl
  refine ite_congr rfl (fun _ => ?_) (fun _ => ?_)
  · rfl
  refine ite_congr rfl (fun _ => ?_) (fun _ => ?_)
  · rfl
  refine ite_congr rfl (fun _ => ?_) (fun _ => ?_)
  · exact opc_LDIY_CB_other t c
  rfl

/-- Run from a table with other contents, `opc_LDIY` returns the same state with the same
entry 0xFD, the other entries being those of that table. -/
theorem opc_LDIY_table (t : Nat → Nat) (c : CPU) (opcode follByte : Nat) :
    opc_LDIY { c with TStates := t } opcode follByte
      = (opc_LDIY c opcode follByte).map (otherEntries 0xFD t) := by
  have e : opc_LDIY { c with TStates := t } opcode follByte
      = opc_LDIY_branches (opc_fetch8 (setTStates { c with TStates := t } 0xFD 19)).2
          (opc_fetch8 (setTStates { c with TStates := t } 0xFD 19)).1 follByte := rfl
  rw [e, setTStates_table, opc_fetch8_other]
  exact opc_LDIY_branches_other _ _ _ _

/-! ## The branches of `opc_LDRIddnn` on a state run from another table -/

theorem pairs_other (i : Nat) (t : Nat → Nat) (c : CPU) (v : Nat) :
    (otherEntries i t c).setBC v = otherEntries i t (c.setBC v) ∧
    (otherEntries i t c).setDE v = otherEntries i t (c.setDE v) ∧
    (otherEntries i t c).setHL v = otherEntries i t (c.setHL v) :=
  ⟨rfl, rfl, rfl⟩

theorem other_TStates (i : Nat) (t : Nat → Nat) (c : CPU) :
    (otherEntries i t c).TStates = fun j => if j = i then c.TStates j else t j := rfl

theorem opc_LDRIddnn_LDAI_other (t : Nat → Nat) (c : CPU) :
    opc_LDRIddnn_LDAI (otherEntries 0xED t c)
      = otherEntries 0xED t (opc_LDRIddnn_LDAI c) := by
  simp only [opc_LDRIddnn_LDAI, ite_SIGN_eq, ite_ZERO_eq, ite_PARITY_eq, ite_CARRY_eq, opc_testSFlag8_eq,
    opc_testZFlag8_eq, opc_testHFlag8_eq, opc_testPFlag8_eq, SET_FLAG_ADDSUB_eq,
    RESET_FLAG_HCARRY_eq, RESET_FLAG_ADDSUB_eq]
  apply CPU_ext <;> rfl

theorem opc_LDRIddnn_LDAR_other (t : Nat → Nat) (c : CPU) :
    opc_LDRIddnn_LDAR (otherEntries 0xED t c)
      = otherEntries 0xED t (opc_LDRIddnn_LDAR c) := by
  simp only [opc_LDRIddnn_LDAR, ite_SIGN_eq, ite_ZERO_eq, ite_PARITY_eq, ite_CARRY_eq, opc_testSFlag8_eq,
    opc_testZFlag8_eq, opc_testHFlag8_eq, opc_testPFlag8_eq, SET_FLAG_ADDSUB_eq,
    RESET_FLAG_HCARRY_eq, RESET_FLAG_ADDSUB_eq]
  apply CPU_ext <;> rfl

theorem opc_LDRIddnn_RLD_other (t : Nat → Nat) (c : CPU) :
    opc_LDRIddnn_RLD (otherEntries 0xED t c)
      = otherEntries 0xED t (opc_LDRIddnn_RLD c) := by
  simp only [opc_LDRIddnn_RLD, setTStates_other, ite_SIGN_eq, ite_ZERO_eq, ite_PARITY_eq, ite_CARRY_eq, opc_testSFlag8_eq,
    opc_testZFlag8_eq, opc_testHFlag8_eq, opc_testPFlag8_eq, SET_FLAG_ADDSUB_eq,
    RESET_FLAG_HCARRY_eq, RESET_FLAG_ADDSUB_eq]
  apply CPU_ext <;> rfl

theorem opc_LDRIddnn_RRD_other (t : Nat → Nat) (c : CPU) :
    opc_LDRIddnn_RRD (otherEntries 0xED t c)
      = otherEntries 0xED t (opc_LDRIddnn_RRD c) := by
  simp only [opc_LDRIddnn_RRD, setTStates_other, ite_SIGN_eq, ite_ZERO_eq, ite_PARITY_eq, ite_CARRY_eq, opc_testSFlag8_eq,
    opc_testZFlag8_eq, opc_testHFlag8_eq, opc_testPFlag8_eq, SET_FLAG_ADDSUB_eq,
    RESET_FLAG_HCARRY_eq, RESET_FLAG_ADDSUB_eq]
  apply CPU_ext <;> rfl

theorem opc_LDRIddnn_LDI_other (t : Nat → Nat) (c : CPU) :
    opc_LDRIddnn_LDI (otherEntries 0xED t c)
      = otherEntries 0xED t (opc_LDRIddnn_LDI c) := by
  simp only [opc_LDRIddnn_LDI, ite_SIGN_eq, ite_ZERO_eq, ite_PARITY_eq, ite_CARRY_eq, opc_testSFlag8_eq,
    opc_testZFlag8_eq, opc_testHFlag8_eq, opc_testPFlag8_eq, SET_FLAG_ADDSUB_eq,
    RESET_FLAG_HCARRY_eq, RESET_FLAG_ADDSUB_eq, setTStates_other, cpu_read_other, cpu_write_other, withF_other,
    (pairs_other _ _ _ _).1, (pairs_other _ _ _ _).2.1, (pairs_other _ _ _ _).2.2,
    (other_fields _ _ _).1, (other_fields _ _ _).2.1, (other_fields _ _ _).2.2.1,
    (other_fields _ _ _).2.2.2.1, (other_fields _ _ _).2.2.2.2.1,
    (other_fields _ _ _).2.2.2.2.2.2.2.2.1]

theorem opc_LDRIddnn_LDD_other (t : Nat → Nat) (c : CPU) :
    opc_LDRIddnn_LDD (otherEntries 0xED t c)
      = otherEntries 0xED t (opc_LDRIddnn_LDD c) := by
  simp only [opc_LDRIddnn_LDD, ite_SIGN_eq, ite_ZERO_eq, ite_PARITY_eq, ite_CARRY_eq, opc_testSFlag8_eq,
    opc_testZFlag8_eq, opc_testHFlag8_eq, opc_testPFlag8_eq, SET_FLAG_ADDSUB_eq,
    RESET_FLAG_HCARRY_eq, RESET_FLAG_ADDSUB_eq, setTStates_other, cpu_read_other, cpu_write_other, withF_other,
    (pairs_other _ _ _ _).1, (pairs_other _ _ _ _).2.1, (pairs_other _ _ _ _).2.2,
    (other_fields _ _ _).1, (other_fields _ _ _).2.1, (other_fields _ _ _).2.2.1,
    (other_fields _ _ _).2.2.2.1, (other_fields _ _ _).2.2.2.2.1,
    (other_fields _ _ _).2.2.2.2.2.2.2.2.1]

theorem opc_LDRIddnn_CPI_other (t : Nat → Nat) (c : CPU) :
    opc_LDRIddnn_CPI (otherEntries 0xED t c)
      = otherEntries 0xED t (opc_LDRIddnn_CPI c) := by
  simp only [opc_LDRIddnn_CPI, ite_SIGN_eq, ite_ZERO_eq, ite_PARITY_eq, ite_CARRY_eq, opc_testSFlag8_eq,
    opc_testZFlag8_eq, opc_testHFlag8_eq, opc_testPFlag8_eq, SET_FLAG_ADDSUB_eq,
    RESET_FLAG_HCARRY_eq, RESET_FLAG_ADDSUB_eq, setTStates_other, cpu_read_other, cpu_write_other, withF_other,
    (pairs_other _ _ _ _).1, (pairs_other _ _ _ _).2.1, (pairs_other _ _ _ _).2.2,
    (other_fields _ _ _).1, (other_fields _ _ _).2.1, (other_fields _ _ _).2.2.1,
    (other_fields _ _ _).2.2.2.1, (other_fields _ _ _).2.2.2.2.1,
    (other_fields _ _ _).2.2.2.2.2.2.2.2.1]

theorem opc_LDRIddnn_CPD_other (t : Nat → Nat) (c : CPU) :
    opc_LDRIddnn_CPD (otherEntries 0xED t c)
      = otherEntries 0xED t (opc_LDRIddnn_CPD c) := by
  simp only [opc_LDRIddnn_CPD, ite_SIGN_eq, ite_ZERO_eq, ite_PARITY_eq, ite_CARRY_eq, opc_testSFlag8_eq,
    opc_testZFlag8_eq, opc_testHFlag8_eq, opc_testPFlag8_eq, SET_FLAG_ADDSUB_eq,
    RESET_FLAG_HCARRY_eq, RESET_FLAG_ADDSUB_eq, setTStates_other, cpu_read_other, cpu_write_other, withF_other,
    (pairs_other _ _ _ _).1, (pairs_other _ _ _ _).2.1, (pairs_other _ _ _ _).2.2,
    (other_fields _ _ _).1, (other_fields _ _ _).2.1, (other_fields _ _ _).2.2.1,
    (other_fields _ _ _).2.2.2.1, (other_fields _ _ _).2.2.2.2.1,
    (other_fields _ _ _).2.2.2.2.2.2.2.2.1]

theorem opc_LDRIddnn_LDIR_other (t : Nat → Nat) (c : CPU) :
    opc_LDRIddnn_LDIR (otherEntries 0xED t c)
      = otherEntries 0xED t (opc_LDRIddnn_LDIR c) := by
  have tt : ∀ (k : Nat) (f : Nat → Nat),
      (fun j => if j = 0xED then k else if j = 0xED then f j else t j)
        = (fun j => if j = 0xED then (if j = 0xED then k else f j) else t j) := by
    intro k f
    funext j
    by_cases h : j = 0xED <;> simp [h]
  simp only [opc_LDRIddnn_LDIR, RESET_FLAG_PARITY_eq, RESET_FLAG_HCARRY_eq, RESET_FLAG_ADDSUB_eq, setTStates_other, cpu_read_other, cpu_write_other, withF_other,
    (pairs_other _ _ _ _).1, (pairs_other _ _ _ _).2.1, (pairs_other _ _ _ _).2.2,
    (other_fields _ _ _).1, (other_fields _ _ _).2.1, (other_fields _ _ _).2.2.1,
    (other_fields _ _ _).2.2.2.1, (other_fields _ _ _).2.2.2.2.1,
    (other_fields _ _ _).2.2.2.2.2.2.2.2.1]
  split
  · apply CPU_ext <;> first | rfl | exact tt _ _
  · rfl

theorem opc_LDRIddnn_LDDR_other (t : Nat → Nat) (c : CPU) :
    opc_LDRIddnn_LDDR (otherEntries 0xED t c)
      = otherEntries 0xED t (opc_LDRIddnn_LDDR c) := by
  have tt : ∀ (k : Nat) (f : Nat → Nat),
      (fun j => if j = 0xED then k else if j = 0xED then f j else t j)
        = (fun j => if j = 0xED then (if j = 0xED then k else f j) else t j) := by
    intro k f
    funext j
    by_cases h : j = 0xED <;> simp [h]
  simp only [opc_LDRIddnn_LDDR, RESET_FLAG_PARITY_eq, RESET_FLAG_HCARRY_eq, RESET_FLAG_ADDSUB_eq, setTStates_other, cpu_read_other, cpu_write_other, withF_other,
    (pairs_other _ _ _ _).1, (pairs_other _ _ _ _).2.1, (pairs_other _ _ _ _).2.2,
    (other_fields _ _ _).1, (other_fields _ _ _).2.1, (other_fields _ _ _).2.2.1,
    (other_fields _ _ _).2.2.2.1, (other_fields _ _ _).2.2.2.2.1,
    (other_fields _ _ _).2.2.2.2.2.2.2.2.1]
  split
  · apply CPU_ext <;> first | rfl | exact tt _ _
  · rfl

theorem opc_LDRIddnn_CPIR_other (t : Nat → Nat) (c : CPU) :
    opc_LDRIddnn_CPIR (otherEntries 0xED t c)
      = otherEntries 0xED t (opc_LDRIddnn_CPIR c) := by
  simp only [opc_LDRIddnn_CPIR, ite_SIGN_eq, ite_ZERO_eq, ite_PARITY_eq, ite_CARRY_eq, opc_testSFlag8_eq,
    opc_testZFlag8_eq, opc_testHFlag8_eq, opc_testPFlag8_eq, SET_FLAG_ADDSUB_eq,
    RESET_FLAG_HCARRY_eq, RESET_FLAG_ADDSUB_eq, setTStates_other, cpu_read_other, cpu_write_other, withF_other,
    (pairs_other _ _ _ _).1, (pairs_other _ _ _ _).2.1, (pairs_other _ _ _ _).2.2,
    (other_fields _ _ _).1, (other_fields _ _ _).2.1, (other_fields _ _ _).2.2.1,
    (other_fields _ _ _).2.2.2.1, (other_fields _ _ _).2.2.2.2.1,
    (other_fields _ _ _).2.2.2.2.2.2.2.2.1]
  split
  · apply CPU_ext <;> rfl
  · rfl

theorem opc_LDRIddnn_CPDR_other (t : Nat → Nat) (c : CPU) :
    opc_LDRIddnn_CPDR (otherEntries 0xED t c)
      = otherEntries 0xED t (opc_LDRIddnn_CPDR c) := by
  simp only [opc_LDRIddnn_CPDR, ite_SIGN_eq, ite_ZERO_eq, ite_PARITY_eq, ite_CARRY_eq, opc_testSFlag8_eq,
    opc_testZFlag8_eq, opc_testHFlag8_eq, opc_testPFlag8_eq, SET_FLAG_ADDSUB_eq,
    RESET_FLAG_HCARRY_eq, RESET_FLAG_ADDSUB_eq, setTStates_other, cpu_read_other, cpu_write_other, withF_other,
    (pairs_other _ _ _ _).1, (pairs_other _ _ _ _).2.1, (pairs_other _ _ _ _).2.2,
    (other_fields _ _ _).1, (other_fields _ _ _).2.1, (other_fields _ _ _).2.2.1,
    (other_fields _ _ _).2.2.2.1, (other_fields _ _ _).2.2.2.2.1,
    (other_fields _ _ _).2.2.2.2.2.2.2.2.1]
  split
  · apply CPU_ext <;> rfl
  · rfl

theorem opc_LDRIddnn_NEG_other (t : Nat → Nat) (c : CPU) (data : Nat) :
    opc_LDRIddnn_NEG (otherEntries 0xED t c) data
      = otherEntries 0xED t (opc_LDRIddnn_NEG c data) := by
  simp only [opc_LDRIddnn_NEG, ite_SIGN_eq, ite_ZERO_eq, ite_PARITY_eq, ite_CARRY_eq, opc_testSFlag8_eq,
    opc_testZFlag8_eq, opc_testHFlag8_eq, opc_testPFlag8_eq, SET_FLAG_ADDSUB_eq,
    RESET_FLAG_HCARRY_eq, RESET_FLAG_ADDSUB_eq, setTStates_other, cpu_read_other, cpu_write_other, withF_other,
    (pairs_other _ _ _ _).1, (pairs_other _ _ _ _).2.1, (pairs_other _ _ _ _).2.2,
    (other_fields _ _ _).1, (other_fields _ _ _).2.1, (other_fields _ _ _).2.2.1,
    (other_fields _ _ _).2.2.2.1, (other_fields _ _ _).2.2.2.2.1,
    (other_fields _ _ _).2.2.2.2.2.2.2.2.1]
  apply CPU_ext <;> rfl

theorem opc_LDRIddnn_IM_other (t : Nat → Nat) (c : CPU) (m : Nat) :
    opc_LDRIddnn_IM (otherEntries 0xED t c) m
      = otherEntries 0xED t (opc_LDRIddnn_IM c m) := by
  simp only [opc_LDRIddnn_IM, setTStates_other]
  apply CPU_ext <;> rfl

theorem opc_LDRIddnn_LDddnn_other (t : Nat → Nat) (c : CPU) (n : Nat) :
    opc_LDRIddnn_LDddnn (otherEntries 0xED t c) n
      = (opc_LDRIddnn_LDddnn c n).map (otherEntries 0xED t) := by
  simp only [opc_LDRIddnn_LDddnn, setTStates_other, opc_fetch16_other, cpu_read_other]
  exact opc_writeReg16_other _ _ _ _ _ _

theorem opc_LDRIddnn_LDnndd_other (t : Nat → Nat) (c : CPU) (n : Nat) :
    opc_LDRIddnn_LDnndd (otherEntries 0xED t c) n
      = (opc_LDRIddnn_LDnndd c n).map (otherEntries 0xED t) := by
  simp only [opc_LDRIddnn_LDnndd, setTStates_other, opc_fetch16_other, opc_readReg16_other,
    Option.bind_eq_bind]
  cases opc_readReg16 (opc_fetch16 (setTStates c 0xED 20)).2 ((n >>> 4) &&& 0x03) .REG16_DD with
  | none => rfl
  | some d => rfl

/-- Run from a table with other contents, `opc_LDRIddnn` returns the same state with the same
entry 0xED, the other entries being those of that table. -/
theorem opc_LDRIddnn_table (t : Nat → Nat) (c : CPU) (opcode follByte data : Nat) :
    opc_LDRIddnn { c with TStates := t } opcode follByte data
      = (opc_LDRIddnn c opcode follByte data).map (otherEntries 0xED t) := by
  unfold opc_LDRIddnn
  simp only []
  rw [setTStates_table, opc_fetch8_other]
  generalize opc_fetch8 (setTStates c 0xED 9) = p
  obtain ⟨n, s⟩ := p
  simp only [map_ite_other]
  refine ite_congr rfl (fun _ => ?_) (fun _ => ?_)
  · rw [opc_LDRIddnn_LDAI_other]; rfl
  refine ite_congr rfl (fun _ => ?_) (fun _ => ?_)
  · rw [opc_LDRIddnn_LDAR_other]; rfl
  refine ite_congr rfl (fun _ => ?_) (fun _ => ?_)
  · rfl
  refine ite_congr rfl (fun _ => ?_) (fun _ => ?_)
  · rfl
  refine ite_congr rfl (fun _ => ?_) (fun _ => ?_)
  · exact opc_LDRIddnn_LDddnn_other t s n
  refine ite_congr rfl (fun _ => ?_) (fun _ => ?_)
  · exact opc_LDRIddnn_LDnndd_other t s n
  refine ite_congr rfl (fun _ => ?_) (fun _ => ?_)
  · rw [opc_LDRIddnn_LDI_other]; rfl
  refine ite_congr rfl (fun _ => ?_) (fun _ => ?_)
  · rw [opc_LDRIddnn_LDIR_other]; rfl
  refine ite_congr rfl (fun _ => ?_) (fun _ => ?_)
  · rw [opc_LDRIddnn_LDD_other]; rfl
  refine ite_congr rfl (fun _ => ?_) (fun _ => ?_)
  · rw [opc_LDRIddnn_LDDR_other]; rfl
  refine ite_congr rfl (fun _ => ?_) (fun _ => ?_)
  · rw [opc_LDRIddnn_CPI_other]; rfl
  refine ite_congr rfl (fun _ => ?_) (fun _ => ?_)
  · rw [opc_LDRIddnn_CPIR_other]; rfl
  refine ite_congr rfl (fun _ => ?_) (fun _ => ?_)
  · rw [opc_LDRIddnn_CPD_other]; rfl
  refine ite_congr rfl (fun _ => ?_) (fun _ => ?_)
  · rw [opc_LDRIddnn_CPDR_other]; rfl
  refine ite_congr rfl (fun _ => ?_) (fun _ => ?_)
  · rw [opc_LDRIddnn_NEG_other]; rfl
  refine ite_congr rfl (fun _ => ?_) (fun _ => ?_)
  · rw [opc_LDRIddnn_IM_other]; rfl
  refine ite_congr rfl (fun _ => ?_) (fun _ => ?_)
  · rw [opc_LDRIddnn_IM_other]; rfl
  refine ite_congr rfl (fun _ => ?_) (fun _ => ?_)
  · rw [opc_LDRIddnn_IM_other]; rfl
  refine ite_congr rfl (fun _ => ?_) (fun _ => ?_)
  · rfl
  refine ite_congr rfl (fun _ => ?_) (fun _ => ?_)
  · rfl
  refine ite_congr rfl (fun _ => ?_) (fun _ => ?_)
  · rfl
  refine ite_congr rfl (fun _ => ?_) (fun _ => ?_)
  · rfl
  refine ite_congr rfl (fun _ => ?_) (fun _ => ?_)
  · rw [opc_LDRIddnn_RLD_other]; rfl
  refine ite_congr rfl (fun _ => ?_) (fun _ => ?_)
  · rw [opc_LDRIddnn_RRD_other]; rfl
  refine ite_congr rfl (fun _ => ?_) (fun _ => ?_)
  · rfl
  refine ite_congr rfl (fun _ => ?_) (fun _ => ?_)
  · rfl
  rfl

/-! ## The conditional handlers run from another table -/

theorem jr_table (t : Nat → Nat) (z80 : CPU) (opcode : Nat) :
    JRCe { z80 with TStates := t } opcode = otherEntries 0x38 t (JRCe z80 opcode) ∧
    JRNCe { z80 with TStates := t } opcode = otherEntries 0x30 t (JRNCe z80 opcode) ∧
    JRZe { z80 with TStates := t } opcode = otherEntries 0x28 t (JRZe z80 opcode) ∧
    JRNZe { z80 with TStates := t } opcode = otherEntries 0x20 t (JRNZe z80 opcode) := by
  refine ⟨?_, ?_, ?_, ?_⟩ <;>
    simp only [JRCe, JRNCe, JRZe, JRNZe, fetch8, setTStates_table, opc_fetch8_other,
      setTStates_other, (other_fields _ _ _).1] <;>
    split <;> rfl

theorem DJNZe_table (t : Nat → Nat) (z80 : CPU) (opcode : Nat) :
    DJNZe { z80 with TStates := t } opcode = otherEntries 0x10 t (DJNZe z80 opcode) := by
  have tt : ∀ (k : Nat) (f : Nat → Nat),
      (fun j => if j = 0x10 then k else t j)
        = (fun j => if j = 0x10 then (if j = 0x10 then k else f j) else t j) := by
    intro k f
    funext j
    by_cases h : j = 0x10 <;> simp [h]
  simp only [DJNZe, fetch8, opc_fetch8]
  split
  · apply CPU_ext <;> first | rfl | exact tt _ _
  · apply CPU_ext <;> first | rfl | exact tt _ _

theorem cond_case_table (t : Nat → Nat) (z80 : CPU) (nn idx : Nat) (cond : Bool) :
    CALLccnn_case { z80 with TStates := t } nn cond idx
      = otherEntries idx t (CALLccnn_case z80 nn cond idx) ∧
    RETcc_case { z80 with TStates := t } cond idx
      = otherEntries idx t (RETcc_case z80 cond idx) := by
  have tt : ∀ (k : Nat) (f : Nat → Nat),
      (fun j => if j = idx then k else t j)
        = (fun j => if j = idx then (if j = idx then k else f j) else t j) := by
    intro k f
    funext j
    by_cases h : j = idx <;> simp [h]
  cases cond
  · exact ⟨setTStates_table idx 10 t z80, setTStates_table idx 5 t z80⟩
  · constructor
    · apply CPU_ext <;> first | rfl | exact tt _ _
    · apply CPU_ext <;> first | rfl | exact tt _ _

theorem CALLccnn_table (t : Nat → Nat) (z80 : CPU) (cc : Nat) (hcc : cc < 8) :
    CALLccnn { z80 with TStates := t } (0xC4 + 8 * cc)
      = (CALLccnn z80 (0xC4 + 8 * cc)).map (otherEntries (0xC4 + 8 * cc) t) := by
  rw [CALLccnn_eq _ cc hcc, CALLccnn_eq _ cc hcc, Option.map_some']
  exact congrArg some (cond_case_table t (fetch16 z80).2 _ _ _).1

theorem RETcc_table (t : Nat → Nat) (z80 : CPU) (cc : Nat) (hcc : cc < 8) :
    RETcc { z80 with TStates := t } (0xC0 + 8 * cc)
      = (RETcc z80 (0xC0 + 8 * cc)).map (otherEntries (0xC0 + 8 * cc) t) := by
  rw [RETcc_eq _ cc hcc, RETcc_eq _ cc hcc, Option.map_some']
  exact congrArg some (cond_case_table t z80 0 _ _).2

theorem otherEntries_spec (idx : Nat) (t : Nat → Nat) (r : CPU) :
    (otherEntries idx t r).TStates idx = r.TStates idx ∧
    (∀ j, j ≠ idx → (otherEntries idx t r).TStates j = t j) ∧
    otherEntries idx t r = { r with TStates := (otherEntries idx t r).TStates } := by
  refine ⟨?_, fun j hj => ?_, rfl⟩
  · simp only [otherEntries, if_true]
  · simp only [otherEntries, if_neg hj]

/-- C38: the T-state count a handler leaves in its table entry does not depend on what the
table held before. Run from a table `t` with any contents, each handler that writes T-states
(`opc_LDRIddnn`, `opc_LDIX`, `opc_LDIY`, `opc_RLC`, the four `JR cc,e`, `DJNZ e`, `CALL cc,nn`
and `RET cc`) returns, or aborts, exactly as from the table of `cpu`; the state it returns
holds the same registers, flags and memory and the same count in the entry of its opcode,
and every other entry is still the entry of `t`. `otherEntries idx t r` is `r` with the
entries other than `idx` replaced by those of `t`. -/
theorem tstates_independent_of_history (cpu : CPU) (t : Nat → Nat)
    (opcode follByte data cc : Nat) :
    opc_LDRIddnn { cpu with TStates := t } opcode follByte data
      = (opc_LDRIddnn cpu opcode follByte data).map (otherEntries 0xED t) ∧
    opc_LDIX { cpu with TStates := t } opcode follByte
      = (opc_LDIX cpu opcode follByte).map (otherEntries 0xDD t) ∧
    opc_LDIY { cpu with TStates := t } opcode follByte
      = (opc_LDIY cpu opcode follByte).map (otherEntries 0xFD t) ∧
    opc_RLC { cpu with TStates := t } opcode = (opc_RLC cpu opcode).map (otherEntries 0xCB t) ∧
    JRCe { cpu with TStates := t } opcode = otherEntries 0x38 t (JRCe cpu opcode) ∧
    JRNCe { cpu with TStates := t } opcode = otherEntries 0x30 t (JRNCe cpu opcode) ∧
    JRZe { cpu with TStates := t } opcode = otherEntries 0x28 t (JRZe cpu opcode) ∧
    JRNZe { cpu with TStates := t } opcode = otherEntries 0x20 t (JRNZe cpu opcode) ∧
    DJNZe { cpu with TStates := t } opcode = otherEntries 0x10 t (DJNZe cpu opcode) ∧
    (cc < 8 → CALLccnn { cpu with TStates := t } (0xC4 + 8 * cc)
      = (CALLccnn cpu (0xC4 + 8 * cc)).map (otherEntries (0xC4 + 8 * cc) t)) ∧
    (cc < 8 → RETcc { cpu with TStates := t } (0xC0 + 8 * cc)
      = (RETcc cpu (0xC0 + 8 * cc)).map (otherEntries (0xC0 + 8 * cc) t)) ∧
    (∀ idx r, (otherEntries idx t r).TStates idx = r.TStates idx ∧
      (∀ j, j ≠ idx → (otherEntries idx t r).TStates j = t j) ∧
      otherEntries idx t r = { r with TStates := (otherEntries idx t r).TStates }) ∧
    (opc_LDRIddnn { cpu with TStates := t } opcode follByte data).map (fun r => r.TStates 0xED)
      = (opc_LDRIddnn cpu opcode follByte data).map (fun r => r.TStates 0xED) :=
  ⟨opc_LDRIddnn_table t cpu opcode follByte data, opc_LDIX_table t cpu opcode follByte,
    opc_LDIY_table t cpu opcode follByte, opc_RLC_table t cpu opcode,
    (jr_table t cpu opcode).1, (jr_table t cpu opcode).2.1, (jr_table t cpu opcode).2.2.1,
    (jr_table t cpu opcode).2.2.2, DJNZe_table t cpu opcode,
    fun hcc => CALLccnn_table t cpu cc hcc, fun hcc => RETcc_table t cpu cc hcc,
    fun idx r => otherEntries_spec idx t r,
    by
      rw [opc_LDRIddnn_table, Option.map_map]
      cases opc_LDRIddnn cpu opcode follByte data with
      | none => rfl
      | some r => exact congrArg some (otherEntries_spec 0xED t r).1⟩

/-! ## Register codes at the call sites -/

set_option maxRecDepth 100000 in
theorem table_codes : ∀ o, o < 256 →
    6 ∉ regCodes8 (handlerOf o) o ∧ (∀ c ∈ regCodes8 (handlerOf o) o, c < 8) ∧
    (∀ c ∈ regCodes16 (handlerOf o) o, c < 4) ∧
    (field6 o = true → handlerOf o ∈ hlHandlers) := by
  decide

set_option maxRecDepth 100000 in
theorem routed_handlers_return (cpu : CPU) (o : Nat) (ho : o < 256) :
    (handlerOf o = .opc_LDrr → (opc_LDrr cpu o).isSome = true) ∧
    (handlerOf o = .opc_LDrn → (opc_LDrn cpu o).isSome = true) ∧
    (handlerOf o = .opc_INCr → (opc_INCr cpu o).isSome = true) ∧
    (handlerOf o = .opc_DECr → (opc_DECr cpu o).isSome = true) ∧
    (handlerOf o = .opc_SUBAr → (opc_SUBAr cpu o).isSome = true) ∧
    (handlerOf o = .opc_ANDr → (opc_ANDr cpu o).isSome = true) ∧
    (handlerOf o = .opc_XORr → (opc_XORr cpu o).isSome = true) ∧
    (handlerOf o = .opc_ORr → (opc_ORr cpu o).isSome = true) ∧
    (handlerOf o = .opc_ADDHLss → (opc_ADDHLss cpu o).isSome = true) ∧
    (handlerOf o = .opc_PUSHqq → (opc_PUSHqq cpu o).isSome = true) ∧
    (handlerOf o = .opc_POPqq → (opc_POPqq cpu o).isSome = true) := by
  have k : ∀ (p : Prop) (h : Handler) (g : Handler), (g = h → p) ↔ (g ≠ h ∨ p) := by
    intro p h g
    by_cases e : g = h <;> simp [e]
  simp only [k]
  interval_cases o <;>
    exact ⟨by first | exact Or.inl (by decide) | exact Or.inr rfl,
      by first | exact Or.inl (by decide) | exact Or.inr rfl,
      by first | exact Or.inl (by decide) | exact Or.inr rfl,
      by first | exact Or.inl (by decide) | exact Or.inr rfl,
      by first | exact Or.inl (by decide) | exact Or.inr rfl,
      by first | exact Or.inl (by decide) | exact Or.inr rfl,
      by first | exact Or.inl (by decide) | exact Or.inr rfl,
      by first | exact Or.inl (by decide) | exact Or.inr rfl,
      by first | exact Or.inl (by decide) | exact Or.inr rfl,
      by first | exact Or.inl (by decide) | exact Or.inr rfl,
      by first | exact Or.inl (by decide) | exact Or.inr rfl⟩

/-- C40: for each of the 256 first opcode bytes the handler `opc_tbl` selects passes no code
6 to `opc_readReg` or `opc_writeReg` and no code above 3 to `opc_readReg16` or
`opc_writeReg16` when it cuts the code from that byte, every opcode with a register field
equal to 6 is routed to an `(HL)` handler or, for 0x76, to `opc_HALT`, and the handlers that
call the accessors return on every byte the table sends them. -/
theorem unprefixed_dispatch_keeps_register_codes (cpu : CPU) (o : Nat) :
    (o < 256 →
      6 ∉ regCodes8 (handlerOf o) o ∧ (∀ c ∈ regCodes8 (handlerOf o) o, c < 8) ∧
      (∀ c ∈ regCodes16 (handlerOf o) o, c < 4) ∧
      (field6 o = true → handlerOf o ∈ hlHandlers)) ∧
    (o < 256 →
      (handlerOf o = .opc_LDrr → (opc_LDrr cpu o).isSome = true) ∧
      (handlerOf o = .opc_LDrn → (opc_LDrn cpu o).isSome = true) ∧
      (handlerOf o = .opc_INCr → (opc_INCr cpu o).isSome = true) ∧
      (handlerOf o = .opc_DECr → (opc_DECr cpu o).isSome = true) ∧
      (handlerOf o = .opc_SUBAr → (opc_SUBAr cpu o).isSome = true) ∧
      (handlerOf o = .opc_ANDr → (opc_ANDr cpu o).isSome = true) ∧
      (handlerOf o = .opc_XORr → (opc_XORr cpu o).isSome = true) ∧
      (handlerOf o = .opc_ORr → (opc_ORr cpu o).isSome = true) ∧
      (handlerOf o = .opc_ADDHLss → (opc_ADDHLss cpu o).isSome = true) ∧
      (handlerOf o = .opc_PUSHqq → (opc_PUSHqq cpu o).isSome = true) ∧
      (handlerOf o = .opc_POPqq → (opc_POPqq cpu o).isSome = true)) ∧
    handlerOf 0x76 = .opc_HALT ∧ field6 0x76 = true :=
  ⟨table_codes o, routed_handlers_return cpu o, rfl, rfl⟩

end Z80
